import Mathlib

/-!
# nRF5x / nRF91 flash driver (`src/flash/nor/nrfx.c`)

A shallow embedding of the flash programming engine of the driver: the
register indirection layer, the device catalog and its scan, probing,
protection ranges and the code-flash write strategy.

The debug target and the host services the driver consumes are an abstract
record of operations over a state type `σ` (`Env σ`).  Every driver function
threads a `World σ`: the state of that environment, the list of transactions
issued so far and the list of log messages emitted so far.

Conventions
* 32-bit unsigned arithmetic is `Nat` arithmetic reduced with `u32`.
* A function returns `none` where the C code has no defined result: an array
  index outside its table, a failed `assert`, a division by zero, or a polling
  loop that has used up the fuel it was given.
-/

set_option autoImplicit false

namespace Nrfx

/-! ## Return codes -/

/-- Return codes of the driver.  The six named codes are the distinct constants
of the debugger headers; `other` stands for any further code a target operation
may hand back. -/
inductive Ret where
  | ERROR_OK
  | ERROR_FAIL
  | ERROR_TARGET_NOT_HALTED
  | ERROR_TARGET_RESOURCE_NOT_AVAILABLE
  | ERROR_FLASH_BUSY
  | ERROR_FLASH_BANK_NOT_PROBED
  | other (code : Int)
  deriving DecidableEq, Repr

open Ret

/-! ## 32-bit arithmetic -/

/-- Reduction of a natural number to an unsigned 32-bit value. -/
def u32 (x : Nat) : Nat := x % 2 ^ 32

/-- Unsigned 32-bit subtraction `a - b`. -/
def sub32 (a b : Nat) : Nat := (u32 a + 2 ^ 32 - u32 b) % 2 ^ 32

/-! ## Constants of the register layer -/

def NRFX_FLASH_BASE : Nat := 0x00000000

def NRF5_FICR_BASE : Nat := 0x10000000
def NRF9_FICR_BASE : Nat := 0x00ff0000

def NRF5_FICR_REG (offset : Nat) : Nat := NRF5_FICR_BASE + offset
def NRF9_FICR_REG (offset : Nat) : Nat := NRF9_FICR_BASE + offset

def NRFX_UNIMPLEMENTED : Nat := 0xffffffff

def REG_INDEX_BITS : Nat := 12

def REG_INDEX_MASK : Nat := (1 <<< REG_INDEX_BITS) - 1

def FICR_ID : Nat := 0 <<< REG_INDEX_BITS
def UICR_ID : Nat := 1 <<< REG_INDEX_BITS
def NVMC_ID : Nat := 2 <<< REG_INDEX_BITS

def FICR_BASE : Nat := FICR_ID
def UICR_BASE : Nat := UICR_ID
def NVMC_BASE : Nat := NVMC_ID

def reg_index (r : Nat) : Nat := r &&& REG_INDEX_MASK

/-! ### enum nrfx_ficr_registers -/

def NRFX_FICR_CODEPAGESIZE : Nat := FICR_BASE
def NRFX_FICR_CODESIZE : Nat := FICR_BASE + 1
def NRFX_FICR_CLENR0 : Nat := FICR_BASE + 2
def NRFX_FICR_PPFC : Nat := FICR_BASE + 3
def NRFX_FICR_NUMRAMBLOCK : Nat := FICR_BASE + 4
def NRFX_FICR_SIZERAMBLOCK0 : Nat := FICR_BASE + 5
def NRFX_FICR_SIZERAMBLOCK1 : Nat := FICR_BASE + 6
def NRFX_FICR_SIZERAMBLOCK2 : Nat := FICR_BASE + 7
def NRFX_FICR_SIZERAMBLOCK3 : Nat := FICR_BASE + 8
def NRFX_FICR_CONFIGID : Nat := FICR_BASE + 9
def NRFX_FICR_DEVICEID0 : Nat := FICR_BASE + 10
def NRFX_FICR_DEVICEID1 : Nat := FICR_BASE + 11
def NRFX_FICR_ER0 : Nat := FICR_BASE + 12
def NRFX_FICR_ER1 : Nat := FICR_BASE + 13
def NRFX_FICR_ER2 : Nat := FICR_BASE + 14
def NRFX_FICR_ER3 : Nat := FICR_BASE + 15
def NRFX_FICR_IR0 : Nat := FICR_BASE + 16
def NRFX_FICR_IR1 : Nat := FICR_BASE + 17
def NRFX_FICR_IR2 : Nat := FICR_BASE + 18
def NRFX_FICR_IR3 : Nat := FICR_BASE + 19
def NRFX_FICR_DEVICEADDRTYPE : Nat := FICR_BASE + 20
def NRFX_FICR_DEVICEADDR0 : Nat := FICR_BASE + 21
def NRFX_FICR_DEVICEADDR1 : Nat := FICR_BASE + 22
def NRFX_FICR_OVERRIDEN : Nat := FICR_BASE + 23
def NRFX_FICR_NRF_1MBIT0 : Nat := FICR_BASE + 24
def NRFX_FICR_NRF_1MBIT1 : Nat := FICR_BASE + 25
def NRFX_FICR_NRF_1MBIT2 : Nat := FICR_BASE + 26
def NRFX_FICR_NRF_1MBIT3 : Nat := FICR_BASE + 27
def NRFX_FICR_NRF_1MBIT4 : Nat := FICR_BASE + 28
def NRFX_FICR_BLE_1MBIT0 : Nat := FICR_BASE + 29
def NRFX_FICR_BLE_1MBIT1 : Nat := FICR_BASE + 30
def NRFX_FICR_BLE_1MBIT2 : Nat := FICR_BASE + 31
def NRFX_FICR_BLE_1MBIT3 : Nat := FICR_BASE + 32
def NRFX_FICR_BLE_1MBIT4 : Nat := FICR_BASE + 33
def NRFX_FICR_PART : Nat := FICR_BASE + 34
def NRFX_FICR_VARIANT : Nat := FICR_BASE + 35
def NRFX_FICR_PACKAGE : Nat := FICR_BASE + 36
def NRFX_FICR_RAM : Nat := FICR_BASE + 37
def NRFX_FICR_FLASH : Nat := FICR_BASE + 38
def NRFX_FICR_NREGS : Nat := (NRFX_FICR_FLASH + 1) &&& REG_INDEX_MASK

/-- Factory information registers of the nRF51 family, in index order. -/
def nrf51_ficr_registers : List Nat :=
  [ NRF5_FICR_REG 0x010,  -- CODEPAGESIZE
    NRF5_FICR_REG 0x014,  -- CODESIZE
    NRF5_FICR_REG 0x028,  -- CLENR0
    NRF5_FICR_REG 0x02C,  -- PPFC
    NRF5_FICR_REG 0x034,  -- NUMRAMBLOCK
    NRF5_FICR_REG 0x038,  -- SIZERAMBLOCK0
    NRF5_FICR_REG 0x03C,  -- SIZERAMBLOCK1
    NRF5_FICR_REG 0x040,  -- SIZERAMBLOCK2
    NRF5_FICR_REG 0x044,  -- SIZERAMBLOCK3
    NRF5_FICR_REG 0x05C,  -- CONFIGID
    NRF5_FICR_REG 0x060,  -- DEVICEID0
    NRF5_FICR_REG 0x064,  -- DEVICEID1
    NRF5_FICR_REG 0x080,  -- ER0
    NRF5_FICR_REG 0x084,  -- ER1
    NRF5_FICR_REG 0x088,  -- ER2
    NRF5_FICR_REG 0x08C,  -- ER3
    NRF5_FICR_REG 0x090,  -- IR0
    NRF5_FICR_REG 0x094,  -- IR1
    NRF5_FICR_REG 0x098,  -- IR2
    NRF5_FICR_REG 0x09C,  -- IR3
    NRF5_FICR_REG 0x0A0,  -- DEVICEADDRTYPE
    NRF5_FICR_REG 0x0A4,  -- DEVICEADDR0
    NRF5_FICR_REG 0x0A8,  -- DEVICEADDR1
    NRF5_FICR_REG 0x0AC,  -- OVERRIDEN
    NRF5_FICR_REG 0x0B0,  -- NRF_1MBIT0
    NRF5_FICR_REG 0x0B4,  -- NRF_1MBIT1
    NRF5_FICR_REG 0x0B8,  -- NRF_1MBIT2
    NRF5_FICR_REG 0x0BC,  -- NRF_1MBIT3
    NRF5_FICR_REG 0x0C0,  -- NRF_1MBIT4
    NRF5_FICR_REG 0x0EC,  -- BLE_1MBIT0
    NRF5_FICR_REG 0x0F0,  -- BLE_1MBIT1
    NRF5_FICR_REG 0x0F4,  -- BLE_1MBIT2
    NRF5_FICR_REG 0x0F8,  -- BLE_1MBIT3
    NRF5_FICR_REG 0x0FC,  -- BLE_1MBIT4
    NRFX_UNIMPLEMENTED,   -- PART
    NRFX_UNIMPLEMENTED,   -- VARIANT
    NRFX_UNIMPLEMENTED,   -- PACKAGE
    NRFX_UNIMPLEMENTED,   -- RAM
    NRFX_UNIMPLEMENTED ]  -- FLASH

/-- Factory information registers of the nRF52 family, in index order. -/
def nrf52_ficr_registers : List Nat :=
  [ NRF5_FICR_REG 0x010,  -- CODEPAGESIZE
    NRF5_FICR_REG 0x014,  -- CODESIZE
    NRFX_UNIMPLEMENTED,   -- CLENR0
    NRFX_UNIMPLEMENTED,   -- PPFC
    NRFX_UNIMPLEMENTED,   -- NUMRAMBLOCK
    NRFX_UNIMPLEMENTED,   -- SIZERAMBLOCK0
    NRFX_UNIMPLEMENTED,   -- SIZERAMBLOCK1
    NRFX_UNIMPLEMENTED,   -- SIZERAMBLOCK2
    NRFX_UNIMPLEMENTED,   -- SIZERAMBLOCK3
    NRFX_UNIMPLEMENTED,   -- CONFIGID
    NRF5_FICR_REG 0x060,  -- DEVICEID0
    NRF5_FICR_REG 0x064,  -- DEVICEID1
    NRF5_FICR_REG 0x080,  -- ER0
    NRF5_FICR_REG 0x084,  -- ER1
    NRF5_FICR_REG 0x088,  -- ER2
    NRF5_FICR_REG 0x08C,  -- ER3
    NRF5_FICR_REG 0x090,  -- IR0
    NRF5_FICR_REG 0x094,  -- IR1
    NRF5_FICR_REG 0x098,  -- IR2
    NRF5_FICR_REG 0x09C,  -- IR3
    NRF5_FICR_REG 0x0A0,  -- DEVICEADDRTYPE
    NRF5_FICR_REG 0x0A4,  -- DEVICEADDR0
    NRF5_FICR_REG 0x0A8,  -- DEVICEADDR1
    NRFX_UNIMPLEMENTED,   -- OVERRIDEN
    NRFX_UNIMPLEMENTED,   -- NRF_1MBIT0
    NRFX_UNIMPLEMENTED,   -- NRF_1MBIT1
    NRFX_UNIMPLEMENTED,   -- NRF_1MBIT2
    NRFX_UNIMPLEMENTED,   -- NRF_1MBIT3
    NRFX_UNIMPLEMENTED,   -- NRF_1MBIT4
    NRFX_UNIMPLEMENTED,   -- BLE_1MBIT0
    NRFX_UNIMPLEMENTED,   -- BLE_1MBIT1
    NRFX_UNIMPLEMENTED,   -- BLE_1MBIT2
    NRFX_UNIMPLEMENTED,   -- BLE_1MBIT3
    NRFX_UNIMPLEMENTED,   -- BLE_1MBIT4
    NRF5_FICR_REG 0x100,  -- PART
    NRF5_FICR_REG 0x104,  -- VARIANT
    NRF5_FICR_REG 0x108,  -- PACKAGE
    NRF5_FICR_REG 0x10C,  -- RAM
    NRF5_FICR_REG 0x110 ] -- FLASH

/-- Factory information registers of the nRF91 family, in index order. -/
def nrf91_ficr_registers : List Nat :=
  [ NRF9_FICR_REG 0x220,  -- CODEPAGESIZE
    NRF9_FICR_REG 0x224,  -- CODESIZE
    NRFX_UNIMPLEMENTED,   -- CLENR0
    NRFX_UNIMPLEMENTED,   -- PPFC
    NRFX_UNIMPLEMENTED,   -- NUMRAMBLOCK
    NRFX_UNIMPLEMENTED,   -- SIZERAMBLOCK0
    NRFX_UNIMPLEMENTED,   -- SIZERAMBLOCK1
    NRFX_UNIMPLEMENTED,   -- SIZERAMBLOCK2
    NRFX_UNIMPLEMENTED,   -- SIZERAMBLOCK3
    NRFX_UNIMPLEMENTED,   -- CONFIGID
    NRF9_FICR_REG 0x204,  -- DEVICEID0
    NRF9_FICR_REG 0x208,  -- DEVICEID1
    NRFX_UNIMPLEMENTED,   -- ER0
    NRFX_UNIMPLEMENTED,   -- ER1
    NRFX_UNIMPLEMENTED,   -- ER2
    NRFX_UNIMPLEMENTED,   -- ER3
    NRFX_UNIMPLEMENTED,   -- IR0
    NRFX_UNIMPLEMENTED,   -- IR1
    NRFX_UNIMPLEMENTED,   -- IR2
    NRFX_UNIMPLEMENTED,   -- IR3
    NRFX_UNIMPLEMENTED,   -- DEVICEADDRTYPE
    NRFX_UNIMPLEMENTED,   -- DEVICEADDR0
    NRFX_UNIMPLEMENTED,   -- DEVICEADDR1
    NRFX_UNIMPLEMENTED,   -- OVERRIDEN
    NRFX_UNIMPLEMENTED,   -- NRF_1MBIT0
    NRFX_UNIMPLEMENTED,   -- NRF_1MBIT1
    NRFX_UNIMPLEMENTED,   -- NRF_1MBIT2
    NRFX_UNIMPLEMENTED,   -- NRF_1MBIT3
    NRFX_UNIMPLEMENTED,   -- NRF_1MBIT4
    NRFX_UNIMPLEMENTED,   -- BLE_1MBIT0
    NRFX_UNIMPLEMENTED,   -- BLE_1MBIT1
    NRFX_UNIMPLEMENTED,   -- BLE_1MBIT2
    NRFX_UNIMPLEMENTED,   -- BLE_1MBIT3
    NRFX_UNIMPLEMENTED,   -- BLE_1MBIT4
    NRF9_FICR_REG 0x20c,  -- PART
    NRF9_FICR_REG 0x210,  -- VARIANT
    NRF9_FICR_REG 0x214,  -- PACKAGE
    NRF9_FICR_REG 0x218,  -- RAM
    NRF9_FICR_REG 0x21c ] -- FLASH

/-! ### User information configuration registers -/

def NRF5_UICR_BASE : Nat := 0x10001000
def NRF9_UICR_BASE : Nat := 0x00ff8000

def NRF5_UICR_REG (offset : Nat) : Nat := NRF5_UICR_BASE + offset
def NRF9_UICR_REG (offset : Nat) : Nat := NRF9_UICR_BASE + offset
def NRFX_UICR_SIZE : Nat := 0x1000

def nrfx_uicr_base (family : Int) : Nat :=
  if family = 51 ∨ family = 52 then NRF5_UICR_BASE
  else if family = 91 then NRF9_UICR_BASE
  else NRFX_UNIMPLEMENTED

def NRFX_UICR_CLENR0 : Nat := UICR_BASE
def NRFX_UICR_RBPCONF : Nat := UICR_BASE + 1
def NRFX_UICR_XTALFREQ : Nat := UICR_BASE + 2
def NRFX_UICR_FWID : Nat := UICR_BASE + 3
def NRFX_UICR_PSELRESET0 : Nat := UICR_BASE + 4
def NRFX_UICR_PSELRESET1 : Nat := UICR_BASE + 5
def NRFX_UICR_APPROTECT : Nat := UICR_BASE + 6
def NRFX_UICR_NFCPINS : Nat := UICR_BASE + 7
def NRFX_UICR_SECUREAPPROTECT : Nat := UICR_BASE + 8
def NRFX_UICR_ERASEPROTECT : Nat := UICR_BASE + 9
def NRFX_UICR_NREGS : Nat := (NRFX_UICR_ERASEPROTECT + 1) &&& REG_INDEX_MASK

def nrf51_uicr_registers : List Nat :=
  [ NRF5_UICR_REG 0x000,  -- CLENR0
    NRF5_UICR_REG 0x004,  -- RBPCONF
    NRF5_UICR_REG 0x008,  -- XTALFREQ
    NRF5_UICR_REG 0x010,  -- FWID
    NRFX_UNIMPLEMENTED,   -- PSELRESET0
    NRFX_UNIMPLEMENTED,   -- PSELRESET1
    NRFX_UNIMPLEMENTED,   -- APPROTECT
    NRFX_UNIMPLEMENTED,   -- NFCPINS
    NRFX_UNIMPLEMENTED,   -- SECUREAPPROTECT
    NRFX_UNIMPLEMENTED ]  -- ERASEPROTECT

def nrf52_uicr_registers : List Nat :=
  [ NRFX_UNIMPLEMENTED,   -- CLENR0
    NRFX_UNIMPLEMENTED,   -- RBPCONF
    NRFX_UNIMPLEMENTED,   -- XTALFREQ
    NRFX_UNIMPLEMENTED,   -- FWID
    NRF5_UICR_REG 0x200,  -- PSELRESET0
    NRF5_UICR_REG 0x204,  -- PSELRESET1
    NRF5_UICR_REG 0x208,  -- APPROTECT
    NRF5_UICR_REG 0x20C,  -- NFCPINS
    NRFX_UNIMPLEMENTED,   -- SECUREAPPROTECT
    NRFX_UNIMPLEMENTED ]  -- ERASEPROTECT

def nrf91_uicr_registers : List Nat :=
  [ NRFX_UNIMPLEMENTED,   -- CLENR0
    NRFX_UNIMPLEMENTED,   -- RBPCONF
    NRFX_UNIMPLEMENTED,   -- XTALFREQ
    NRFX_UNIMPLEMENTED,   -- FWID
    NRFX_UNIMPLEMENTED,   -- PSELRESET0
    NRFX_UNIMPLEMENTED,   -- PSELRESET1
    NRF9_UICR_REG 0x000,  -- APPROTECT
    NRFX_UNIMPLEMENTED,   -- NFCPINS
    NRF9_UICR_REG 0x02C,  -- SECUREAPPROTECT
    NRF9_UICR_REG 0x030 ] -- ERASEPROTECT

/-! ### Non-volatile memory controller registers -/

def NRF5_NVMC_BASE : Nat := 0x4001E000
def NRF9_NVMC_BASE : Nat := 0x50039000

def NRF5_NVMC_REG (offset : Nat) : Nat := NRF5_NVMC_BASE + offset
def NRF9_NVMC_REG (offset : Nat) : Nat := NRF9_NVMC_BASE + offset

def NRFX_NVMC_READY : Nat := NVMC_BASE
def NRFX_NVMC_CONFIG : Nat := NVMC_BASE + 1
def NRFX_NVMC_ERASEPAGE : Nat := NVMC_BASE + 2
def NRFX_NVMC_ERASEALL : Nat := NVMC_BASE + 3
def NRFX_NVMC_ERASEUICR : Nat := NVMC_BASE + 4

def NRFX_NVMC_CONFIG_REN : Nat := 0x00
def NRFX_NVMC_CONFIG_WEN : Nat := 0x01
def NRFX_NVMC_CONFIG_EEN : Nat := 0x02

def nrf5_nvmc_registers : List Nat :=
  [ NRF5_NVMC_REG 0x400,  -- READY
    NRF5_NVMC_REG 0x504,  -- CONFIG
    NRF5_NVMC_REG 0x508,  -- ERASEPAGE
    NRF5_NVMC_REG 0x50C,  -- ERASEALL
    NRF5_NVMC_REG 0x514 ] -- ERASEUICR

def nrf91_nvmc_registers : List Nat :=
  [ NRF9_NVMC_REG 0x400,  -- READY
    NRF9_NVMC_REG 0x504,  -- CONFIG
    NRFX_UNIMPLEMENTED,   -- ERASEPAGE
    NRF9_NVMC_REG 0x50C,  -- ERASEALL
    NRF9_NVMC_REG 0x514 ] -- ERASEUICR

/-! ## Device catalog -/

/-- A catalog entry (`struct nrfx_device_spec`).  `id` is the storage of the
union: `id.hwid` is its low 16 bits, `id.part` the whole word; each is read
only under the matching value of `have_hwid`.  A null string is `none`. -/
structure nrfx_device_spec where
  have_hwid : Nat
  id : Nat
  part : Option String
  variant : Option String
  build_code : Option String
  flash_size_kb : Nat
  deriving DecidableEq, Repr

/-- The member `id.hwid` of a catalog entry. -/
def nrfx_device_spec.id_hwid (s : nrfx_device_spec) : Nat := s.id % 2 ^ 16

/-- The member `id.part` of a catalog entry. -/
def nrfx_device_spec.id_part (s : nrfx_device_spec) : Nat := s.id

def NRF51_DEVICE_DEF (_id : Nat) (pt var bcode : String) (fsize : Nat) : nrfx_device_spec :=
  { have_hwid := 1, id := _id, part := some pt, variant := some var,
    build_code := some bcode, flash_size_kb := fsize }

def NRF52_DEVICE_DEF (pt : Nat) : nrfx_device_spec :=
  { have_hwid := 0, id := pt, part := none, variant := none,
    build_code := none, flash_size_kb := 0 }

def nrfx_known_devices_table : List nrfx_device_spec :=
  [ -- nRF51822 Devices (IC rev 1).
    NRF51_DEVICE_DEF 0x001D "51822" "QFAA" "CA/C0" 256,
    NRF51_DEVICE_DEF 0x0026 "51822" "QFAB" "AA" 128,
    NRF51_DEVICE_DEF 0x0027 "51822" "QFAB" "A0" 128,
    NRF51_DEVICE_DEF 0x0020 "51822" "CEAA" "BA" 256,
    NRF51_DEVICE_DEF 0x002F "51822" "CEAA" "B0" 256,
    -- early nRF51-DK and nRF51-Dongle boards
    NRF51_DEVICE_DEF 0x0071 "51822" "QFAC" "AB" 256,
    -- nRF51822 Devices (IC rev 2).
    NRF51_DEVICE_DEF 0x002A "51822" "QFAA" "FA0" 256,
    NRF51_DEVICE_DEF 0x0044 "51822" "QFAA" "GC0" 256,
    NRF51_DEVICE_DEF 0x003C "51822" "QFAA" "G0" 256,
    NRF51_DEVICE_DEF 0x0057 "51822" "QFAA" "G2" 256,
    NRF51_DEVICE_DEF 0x0058 "51822" "QFAA" "G3" 256,
    NRF51_DEVICE_DEF 0x004C "51822" "QFAB" "B0" 128,
    NRF51_DEVICE_DEF 0x0040 "51822" "CEAA" "CA0" 256,
    NRF51_DEVICE_DEF 0x0047 "51822" "CEAA" "DA0" 256,
    NRF51_DEVICE_DEF 0x004D "51822" "CEAA" "D00" 256,
    -- nRF51822 Devices (IC rev 3).
    NRF51_DEVICE_DEF 0x0072 "51822" "QFAA" "H0" 256,
    NRF51_DEVICE_DEF 0x00D1 "51822" "QFAA" "H2" 256,
    NRF51_DEVICE_DEF 0x007B "51822" "QFAB" "C0" 128,
    NRF51_DEVICE_DEF 0x0083 "51822" "QFAC" "A0" 256,
    NRF51_DEVICE_DEF 0x0084 "51822" "QFAC" "A1" 256,
    NRF51_DEVICE_DEF 0x007D "51822" "CDAB" "A0" 128,
    NRF51_DEVICE_DEF 0x0079 "51822" "CEAA" "E0" 256,
    NRF51_DEVICE_DEF 0x0087 "51822" "CFAC" "A0" 256,
    NRF51_DEVICE_DEF 0x008F "51822" "QFAA" "H1" 256,
    -- nRF51422 Devices (IC rev 1).
    NRF51_DEVICE_DEF 0x001E "51422" "QFAA" "CA" 256,
    NRF51_DEVICE_DEF 0x0024 "51422" "QFAA" "C0" 256,
    NRF51_DEVICE_DEF 0x0031 "51422" "CEAA" "A0A" 256,
    -- nRF51422 Devices (IC rev 2).
    NRF51_DEVICE_DEF 0x002D "51422" "QFAA" "DAA" 256,
    NRF51_DEVICE_DEF 0x002E "51422" "QFAA" "E0" 256,
    NRF51_DEVICE_DEF 0x0061 "51422" "QFAB" "A00" 128,
    NRF51_DEVICE_DEF 0x0050 "51422" "CEAA" "B0" 256,
    -- nRF51422 Devices (IC rev 3).
    NRF51_DEVICE_DEF 0x0073 "51422" "QFAA" "F0" 256,
    NRF51_DEVICE_DEF 0x007C "51422" "QFAB" "B0" 128,
    NRF51_DEVICE_DEF 0x0085 "51422" "QFAC" "A0" 256,
    NRF51_DEVICE_DEF 0x0086 "51422" "QFAC" "A1" 256,
    NRF51_DEVICE_DEF 0x007E "51422" "CDAB" "A0" 128,
    NRF51_DEVICE_DEF 0x007A "51422" "CEAA" "C0" 256,
    NRF51_DEVICE_DEF 0x0088 "51422" "CFAC" "A0" 256,
    -- nRF52810 Devices
    NRF52_DEVICE_DEF 0x52810,
    -- nRF52832 Devices
    NRF52_DEVICE_DEF 0x52832,
    -- nRF52840 Devices
    NRF52_DEVICE_DEF 0x52840 ]

/-- A pointer into the catalog: the index of the entry and the entry. -/
structure spec_ptr where
  index : Nat
  entry : nrfx_device_spec
  deriving DecidableEq, Repr

/-! ## The environment: debug target and host services -/

/-- A scratch region of target memory handed out by the target. -/
structure working_area where
  address : Nat
  size : Nat
  deriving DecidableEq, Repr

/-- The operations the driver consumes, over an environment state `σ`.
Each is given by the debugger core, not by the driver.
* `read_u32 s addr` is `target_read_u32`: the return code, the content of the
  output word afterwards and the new state.
* `read_memory s addr size count` yields the bytes it stored in the destination.
* `run_flash_async_algorithm s buffer count block_size reg_params
  buffer_start buffer_size entry_point exit_point`.
* `timeval_ms` reads the host clock, `calloc` says whether a host allocation of
  that many elements succeeds. -/
structure Env (σ : Type) where
  read_u32 : σ → Nat → Ret × Nat × σ
  write_u32 : σ → Nat → Nat → Ret × σ
  read_memory : σ → Nat → Nat → Nat → Ret × List Nat × σ
  write_memory : σ → Nat → Nat → Nat → List Nat → Ret × σ
  write_buffer : σ → Nat → Nat → List Nat → Ret × σ
  alloc_working_area : σ → Nat → Ret × working_area × σ
  free_working_area : σ → working_area → σ
  run_flash_async_algorithm :
    σ → List Nat → Nat → Nat → List Nat → Nat → Nat → Nat → Nat → Ret × σ
  timeval_ms : σ → Int × σ
  calloc : σ → Int → Bool × σ

/-- One transaction with the debug target. -/
inductive Txn where
  | read_u32 (addr : Nat)
  | write_u32 (addr value : Nat)
  | read_memory (addr size count : Nat)
  | write_memory (addr size count : Nat) (data : List Nat)
  | write_buffer (addr size : Nat) (data : List Nat)
  | alloc_working_area (size : Nat)
  | free_working_area (area : working_area)
  | run_flash_async_algorithm (buffer : List Nat) (count block_size : Nat)
      (reg_params : List Nat) (buffer_start buffer_size entry_point exit_point : Nat)
  deriving DecidableEq, Repr

/-- The messages the embedded functions log, one constructor per call site. -/
inductive LogMsg where
  /-- LOG_ERROR "Couldn't read NVMC_READY register" -/
  | nvmc_ready_read_failed
  /-- LOG_DEBUG "Timed out waiting for NVMC_READY" -/
  | nvmc_ready_timed_out
  /-- LOG_ERROR "Failed to enable write operation" -/
  | write_enable_failed
  /-- LOG_ERROR "Write enable did not complete" -/
  | write_enable_incomplete
  /-- LOG_ERROR "Failed to enable read-only operation" -/
  | read_only_failed
  /-- LOG_ERROR "Read only enable did not complete" -/
  | read_only_incomplete
  /-- LOG_ERROR "Couldn't read code region 0 size[FICR]" -/
  | clenr0_ficr_read_failed
  /-- LOG_ERROR "Couldn't read code region 0 size[UICR]" -/
  | clenr0_uicr_read_failed
  /-- LOG_WARNING "Unknown device (%s 0x%08x)": which identifier, its value -/
  | unknown_device (have_hwid : Bool) (id : Nat)
  /-- LOG_INFO "nRF%s-%s(build code: %s) %ukB Flash", from the catalog entry -/
  | known_device (spec : nrfx_device_spec)
  /-- LOG_INFO "device: nRF%x" -/
  | device_part (part : Nat)
  /-- LOG_ERROR "Could not read chip's flash size" -/
  | flash_size_read_failed
  /-- LOG_WARNING "Chip's reported Flash capacity does not match expected one (%u != %u)" -/
  | capacity_mismatch (bank_size flash_size_kb : Nat)
  /-- LOG_ERROR "Couldn't read CONFIGID register" -/
  | configid_read_failed
  /-- LOG_ERROR "Couldn't read PART register" -/
  | part_read_failed
  /-- LOG_ERROR "Neither CONFIGID nor PART implemented" -/
  | no_identifier_register
  /-- LOG_ERROR "Couldn't read code page size" -/
  | code_page_size_read_failed
  /-- LOG_ERROR "Couldn't read code memory size" -/
  | code_size_read_failed
  /-- LOG_DEBUG "Writing buffer to flash offset=0x%x bytes=0x%x" -/
  | writing_buffer (offset bytes : Nat)
  /-- LOG_WARNING "no working area available, falling back to slow memory writes" -/
  | no_working_area
  /-- LOG_WARNING, three lines: "using fast async flash loader. ..." -/
  | using_fast_loader
  /-- LOG_WARNING "No large enough working area available, can't do block memory writes" -/
  | no_large_working_area
  /-- LOG_ERROR "Failed to write to nrf5 flash" -/
  | write_failed
  /-- LOG_DEBUG "Padding write from 0x%08x-0x%08x as 0x%08x-0x%08x" -/
  | padding_write (offset last first_page_offset last_page_offset : Nat)
  /-- LOG_ERROR "Target not halted" -/
  | target_not_halted
  /-- LOG_ERROR "Failed to enable erase operation" -/
  | erase_enable_failed
  /-- LOG_ERROR "Erase enable did not complete" -/
  | erase_enable_incomplete
  /-- LOG_ERROR "Failed to erase reg: 0x%08x val: 0x%08x" -/
  | erase_failed (erase_register erase_value : Nat)
  /-- LOG_ERROR "Code region 0 must start at the begining of the bank" -/
  | protect_first_not_zero
  /-- LOG_ERROR "Couldn't read PPFC register", in `nrfx_protect` -/
  | protect_ppfc_read_failed
  /-- LOG_ERROR "Code region 0 size was pre-programmed at the factory, can't
  change flash protection settings" -/
  | protect_preprogrammed
  /-- LOG_ERROR "Couldn't read code region 0 size[UICR]", in `nrfx_protect` -/
  | protect_clenr0_read_failed
  /-- LOG_ERROR "Couldn't write code region 0 size[UICR]" -/
  | protect_clenr0_write_failed
  /-- LOG_ERROR "You need to perform chip erase before changing the protection
  settings" -/
  | protect_needs_chip_erase
  /-- LOG_DEBUG "Erasing all non-volatile memory" -/
  | erasing_all
  /-- LOG_DEBUG "Erasing page at 0x%x" -/
  | erasing_page (offset : Nat)
  /-- LOG_ERROR "Cannot erase protected sector at 0x%x" -/
  | erase_protected_sector (offset : Nat)
  /-- LOG_ERROR "Couldn't read PPFC register", in `nrfx_erase_page` -/
  | erase_ppfc_read_failed
  /-- LOG_ERROR "The chip was not pre-programmed with SoftDevice stack and UICR
  cannot be erased separately. Please issue mass erase before trying to write
  to this region" -/
  | uicr_needs_mass_erase
  /-- LOG_ERROR "%s: unsupported family %d" -/
  | unsupported_family (family : Int)
  /-- LOG_ERROR "Couldn't read %x", in `nrfx_info` -/
  | info_read_failed (addr : Nat)
  /-- LOG_ERROR "Couldn't read PPFC register", in the mass-erase handler -/
  | mass_erase_ppfc_read_failed
  /-- LOG_ERROR "Code region 0 size was pre-programmed at the factory, mass
  erase command won't work." -/
  | mass_erase_preprogrammed
  /-- LOG_ERROR "Failed to erase the chip" -/
  | mass_erase_failed
  /-- LOG_ERROR "Failed to check chip's write protection" -/
  | mass_erase_protect_check_failed
  deriving DecidableEq, Repr

/-- What a driver function threads: the environment state, the transactions
issued to the target so far (oldest first) and the messages logged so far. -/
structure World (σ : Type) where
  st : σ
  txns : List Txn
  logs : List LogMsg

section Primitives

variable {σ : Type}

/-- Emit a log message. -/
def LOG (m : LogMsg) (w : World σ) : World σ :=
  { w with logs := w.logs ++ [m] }

def target_read_u32 (E : Env σ) (addr : Nat) (w : World σ) : Ret × Nat × World σ :=
  let r := E.read_u32 w.st addr
  (r.1, r.2.1, { w with st := r.2.2, txns := w.txns ++ [Txn.read_u32 addr] })

def target_write_u32 (E : Env σ) (addr value : Nat) (w : World σ) : Ret × World σ :=
  let r := E.write_u32 w.st addr value
  (r.1, { w with st := r.2, txns := w.txns ++ [Txn.write_u32 addr value] })

/-- C `memcpy (dst + pos, src, n)` on byte lists: exact when `src` has at least
`n` bytes and `dst` at least `pos + n`. -/
def memcpy (dst : List Nat) (pos : Nat) (src : List Nat) (n : Nat) : List Nat :=
  dst.take pos ++ src.take n ++ dst.drop (pos + n)

/-- `target_read_memory (target, addr, size, count, dst + pos)`: the bytes the
target delivers are stored at `dst + pos`. -/
def target_read_memory (E : Env σ) (addr size count : Nat) (dst : List Nat) (pos : Nat)
    (w : World σ) : Ret × List Nat × World σ :=
  let r := E.read_memory w.st addr size count
  (r.1, memcpy dst pos r.2.1 (size * count),
    { w with st := r.2.2, txns := w.txns ++ [Txn.read_memory addr size count] })

/-- `target_write_memory (target, addr, size, count, buffer)`: the target is
handed the first `size * count` bytes at `buffer`. -/
def target_write_memory (E : Env σ) (addr size count : Nat) (buffer : List Nat)
    (w : World σ) : Ret × World σ :=
  let data := buffer.take (size * count)
  let r := E.write_memory w.st addr size count data
  (r.1, { w with st := r.2, txns := w.txns ++ [Txn.write_memory addr size count data] })

def target_write_buffer (E : Env σ) (addr size : Nat) (buffer : List Nat)
    (w : World σ) : Ret × World σ :=
  let data := buffer.take size
  let r := E.write_buffer w.st addr size data
  (r.1, { w with st := r.2, txns := w.txns ++ [Txn.write_buffer addr size data] })

def target_alloc_working_area (E : Env σ) (size : Nat) (w : World σ) :
    Ret × working_area × World σ :=
  let r := E.alloc_working_area w.st size
  (r.1, r.2.1, { w with st := r.2.2, txns := w.txns ++ [Txn.alloc_working_area size] })

def target_free_working_area (E : Env σ) (area : working_area) (w : World σ) : World σ :=
  { w with st := E.free_working_area w.st area,
           txns := w.txns ++ [Txn.free_working_area area] }

def target_run_flash_async_algorithm (E : Env σ) (buffer : List Nat) (count block_size : Nat)
    (reg_params : List Nat) (buffer_start buffer_size entry_point exit_point : Nat)
    (w : World σ) : Ret × World σ :=
  let data := buffer.take (count * block_size)
  let r := E.run_flash_async_algorithm w.st data count block_size reg_params
    buffer_start buffer_size entry_point exit_point
  (r.1, { w with st := r.2,
                 txns := w.txns ++ [Txn.run_flash_async_algorithm data count block_size
                   reg_params buffer_start buffer_size entry_point exit_point] })

/-- Host clock in milliseconds. -/
def timeval_ms (E : Env σ) (w : World σ) : Int × World σ :=
  let r := E.timeval_ms w.st
  (r.1, { w with st := r.2 })

/-- Host `calloc (nmemb, ...)`: `true` when the allocation succeeds. -/
def calloc (E : Env σ) (nmemb : Int) (w : World σ) : Bool × World σ :=
  let r := E.calloc w.st nmemb
  (r.1, { w with st := r.2 })

end Primitives

/-! ## Chip and bank -/

/-- The write strategy bound to a bank (the function pointer `bank[i].write`). -/
inductive write_fn where
  | none
  | nrfx_code_flash_write
  | nrfx_uicr_flash_write
  deriving DecidableEq, Repr

/-- The per-bank part of `struct nrfx_info`. -/
structure nrfx_bank_info where
  probed : Bool
  write : write_fn
  deriving DecidableEq, Repr

/-- The chip handle `struct nrfx_info`; the three tables are the arrays the
pointers designate. -/
structure nrfx_info where
  code_page_size : Nat
  refcount : Nat
  bank0 : nrfx_bank_info
  bank1 : nrfx_bank_info
  family : Int
  ficr_registers : List Nat
  uicr_registers : List Nat
  nvmc_registers : List Nat
  deriving DecidableEq, Repr

/-- A sector of a bank (`struct flash_sector` of the flash core). -/
structure flash_sector where
  offset : Nat
  size : Nat
  is_erased : Int
  is_protected : Int
  deriving DecidableEq, Repr

/-- The part of `struct flash_bank` of the flash core the driver uses;
`sectors = none` is the null pointer. -/
structure flash_bank where
  base : Nat
  size : Nat
  bank_number : Nat
  num_sectors : Int
  sectors : Option (List flash_sector)
  deriving DecidableEq, Repr

/-- What the erase and write entry points use of the flash core, of the target
and of the host besides the operations of `Env`.
* `target_halted s` is `bank->target->state == TARGET_HALTED`.
* `default_flash_blank_check bank w` is the blank check of the flash core: its
  return code, the bank with the erased flags it has set, and the world after
  the transactions it has issued.
* `usleep s usec` is the host sleep. -/
structure FlashCore (σ : Type) where
  target_halted : σ → Bool
  default_flash_blank_check : flash_bank → World σ → Ret × flash_bank × World σ
  usleep : σ → Nat → σ

section RegisterLayer

variable {σ : Type}

def reg_read (E : Env σ) (addr out : Nat) (w : World σ) : Ret × Nat × World σ :=
  if addr = NRFX_UNIMPLEMENTED then (ERROR_TARGET_RESOURCE_NOT_AVAILABLE, out, w)
  else target_read_u32 E addr w

def reg_write (E : Env σ) (addr val : Nat) (w : World σ) : Ret × World σ :=
  if addr = NRFX_UNIMPLEMENTED then (ERROR_TARGET_RESOURCE_NOT_AVAILABLE, w)
  else target_write_u32 E addr val w

def ficr_read (E : Env σ) (chip : nrfx_info) (r out : Nat) (w : World σ) :
    Option (Ret × Nat × World σ) :=
  (chip.ficr_registers[r &&& REG_INDEX_MASK]?).map fun addr => reg_read E addr out w

def ficr_write (E : Env σ) (chip : nrfx_info) (r val : Nat) (w : World σ) :
    Option (Ret × World σ) :=
  (chip.ficr_registers[r &&& REG_INDEX_MASK]?).map fun addr => reg_write E addr val w

def uicr_read (E : Env σ) (chip : nrfx_info) (r out : Nat) (w : World σ) :
    Option (Ret × Nat × World σ) :=
  (chip.uicr_registers[r &&& REG_INDEX_MASK]?).map fun addr => reg_read E addr out w

def uicr_write (E : Env σ) (chip : nrfx_info) (r val : Nat) (w : World σ) :
    Option (Ret × World σ) :=
  (chip.uicr_registers[r &&& REG_INDEX_MASK]?).map fun addr => reg_write E addr val w

def nvmc_read (E : Env σ) (chip : nrfx_info) (r out : Nat) (w : World σ) :
    Option (Ret × Nat × World σ) :=
  (chip.nvmc_registers[r &&& REG_INDEX_MASK]?).map fun addr => reg_read E addr out w

def nvmc_write (E : Env σ) (chip : nrfx_info) (r val : Nat) (w : World σ) :
    Option (Ret × World σ) :=
  (chip.nvmc_registers[r &&& REG_INDEX_MASK]?).map fun addr => reg_write E addr val w

def ficr_is_implemented (chip : nrfx_info) (r : Nat) : Option Bool :=
  (chip.ficr_registers[r &&& REG_INDEX_MASK]?).map fun addr => addr != NRFX_UNIMPLEMENTED

def uicr_is_implemented (chip : nrfx_info) (r : Nat) : Option Bool :=
  (chip.uicr_registers[r &&& REG_INDEX_MASK]?).map fun addr => addr != NRFX_UNIMPLEMENTED

def nvmc_is_implemented (chip : nrfx_info) (r : Nat) : Option Bool :=
  (chip.nvmc_registers[r &&& REG_INDEX_MASK]?).map fun addr => addr != NRFX_UNIMPLEMENTED

end RegisterLayer

/-! ## Controller state machine

An uninitialised local that receives a register value is written as `0`
before the read; no function looks at it unless the read returned `ERROR_OK`.
`keep_alive ()` has no effect on anything the driver observes and is left out. -/

section Controller

variable {σ : Type}

/-- The `do ... while` loop of `nrfx_wait_for_nvmc`: one READY poll per unit
of fuel. -/
def nrfx_wait_for_nvmc_loop (E : Env σ) (chip : nrfx_info) (timeout_ms ts_start : Int) :
    Nat → World σ → Option (Ret × World σ)
  | 0, _ => none
  | fuel + 1, w =>
    match nvmc_read E chip NRFX_NVMC_READY 0 w with
    | none => none
    | some (res, ready, w1) =>
      if res ≠ ERROR_OK then some (res, LOG LogMsg.nvmc_ready_read_failed w1)
      else if ready = 0x00000001 then some (ERROR_OK, w1)
      else
        let t := timeval_ms E w1
        if t.1 - ts_start < timeout_ms then
          nrfx_wait_for_nvmc_loop E chip timeout_ms ts_start fuel t.2
        else some (ERROR_FLASH_BUSY, LOG LogMsg.nvmc_ready_timed_out t.2)

def nrfx_wait_for_nvmc (E : Env σ) (fuel : Nat) (chip : nrfx_info) (w : World σ) :
    Option (Ret × World σ) :=
  let timeout_ms : Int := 340
  let t := timeval_ms E w
  nrfx_wait_for_nvmc_loop E chip timeout_ms t.1 fuel t.2

def nrfx_nvmc_write_enable (E : Env σ) (fuel : Nat) (chip : nrfx_info) (w : World σ) :
    Option (Ret × World σ) :=
  match nvmc_write E chip NRFX_NVMC_CONFIG NRFX_NVMC_CONFIG_WEN w with
  | none => none
  | some (res, w1) =>
    if res ≠ ERROR_OK then some (res, LOG LogMsg.write_enable_failed w1)
    else
      match nrfx_wait_for_nvmc E fuel chip w1 with
      | none => none
      | some (res, w2) =>
        if res ≠ ERROR_OK then some (res, LOG LogMsg.write_enable_incomplete w2)
        else some (res, w2)

def nrfx_nvmc_read_only (E : Env σ) (fuel : Nat) (chip : nrfx_info) (w : World σ) :
    Option (Ret × World σ) :=
  match nvmc_write E chip NRFX_NVMC_CONFIG NRFX_NVMC_CONFIG_REN w with
  | none => none
  | some (res, w1) =>
    if res ≠ ERROR_OK then some (res, LOG LogMsg.read_only_failed w1)
    else
      match nrfx_wait_for_nvmc E fuel chip w1 with
      | none => none
      | some (res, w2) =>
        if res ≠ ERROR_OK then some (res, LOG LogMsg.read_only_incomplete w2)
        else some (res, w2)

end Controller

/-! ## Protection check and probe -/

/-- Conversion of an unsigned 32-bit value to `int`. -/
def int32 (x : Nat) : Int :=
  if u32 x < 2 ^ 31 then (u32 x : Int) else (u32 x : Int) - 2 ^ 32

/-- The loop `for (int i = 0; i < n; i++) sectors[i] = f i sectors[i]`;
no result when it runs past the end of the array. -/
def for_sectors (n : Int) (f : Nat → flash_sector → flash_sector)
    (sectors : List flash_sector) : Option (List flash_sector) :=
  if n.toNat ≤ sectors.length then
    some (((sectors.take n.toNat).enum.map fun p => f p.1 p.2) ++ sectors.drop n.toNat)
  else none

/-- The sectors of a bank as an array: a null pointer is usable only when no
element of it is touched. -/
def flash_bank.sector_array (bank : flash_bank) : List flash_sector :=
  bank.sectors.getD []

section Probe

variable {σ : Type}

/-- The label `no_clenr0` of `nrfx_protect_check`: the loop over the sectors. -/
def nrfx_protect_check_no_clenr0 (bank : flash_bank) (clenr0 : Nat) (w : World σ) :
    Option (Ret × flash_bank × World σ) :=
  if bank.num_sectors ≤ 0 then some (ERROR_OK, bank, w)
  else
    match bank.sectors with
    | none => none
    | some sectors =>
      match for_sectors bank.num_sectors
          (fun _ s => { s with is_protected :=
            if clenr0 ≠ 0xFFFFFFFF ∧ s.offset < clenr0 then 1 else 0 }) sectors with
      | none => none
      | some sectors1 => some (ERROR_OK, { bank with sectors := some sectors1 }, w)

def nrfx_protect_check (E : Env σ) (bank : flash_bank) (chip : nrfx_info) (w : World σ) :
    Option (Ret × flash_bank × World σ) :=
  -- UICR cannot be write protected so just return early
  if bank.base = NRF5_UICR_BASE ∨ bank.base = NRF9_UICR_BASE then some (ERROR_OK, bank, w)
  else
    match ficr_read E chip NRFX_FICR_CLENR0 0 w with
    | none => none
    | some (res, clenr0, w1) =>
      if res = ERROR_TARGET_RESOURCE_NOT_AVAILABLE then
        -- CLENR0 not implemented
        nrfx_protect_check_no_clenr0 bank 0xFFFFFFFF w1
      else if res ≠ ERROR_OK then
        some (res, bank, LOG LogMsg.clenr0_ficr_read_failed w1)
      else if clenr0 = 0xFFFFFFFF then
        match uicr_read E chip NRFX_UICR_CLENR0 clenr0 w1 with
        | none => none
        | some (res, clenr0, w2) =>
          if res ≠ ERROR_OK then some (res, bank, LOG LogMsg.clenr0_uicr_read_failed w2)
          else nrfx_protect_check_no_clenr0 bank clenr0 w2
      else nrfx_protect_check_no_clenr0 bank clenr0 w1

def log_probed_chip (spec : Option spec_ptr) (have_hwid : Nat) (hwid part : Nat)
    (w : World σ) : World σ :=
  match spec with
  | none => LOG (LogMsg.unknown_device (have_hwid != 0) (if have_hwid ≠ 0 then hwid else part)) w
  | some sp =>
    if sp.entry.have_hwid ≠ 0 then LOG (LogMsg.known_device sp.entry) w
    else
      -- No hwid, get data from ficr registers
      LOG (LogMsg.device_part part) w

def check_probed_chip_size (E : Env σ) (chip : nrfx_info) (bank_size : Nat)
    (spec : Option spec_ptr) (w : World σ) : Option (World σ) :=
  let compare (flash_size_kb : Nat) (w : World σ) : World σ :=
    if bank_size >>> 10 ≠ flash_size_kb then
      LOG (LogMsg.capacity_mismatch bank_size flash_size_kb) w
    else w
  match spec with
  | some sp =>
    if sp.entry.flash_size_kb ≠ 0 then some (compare sp.entry.flash_size_kb w)
    else
      match ficr_read E chip NRFX_FICR_FLASH 0 w with
      | none => none
      | some (res, flash_size_kb, w1) =>
        if res ≠ ERROR_OK then some (LOG LogMsg.flash_size_read_failed w1)
        else some (compare flash_size_kb w1)
  | none =>
    match ficr_read E chip NRFX_FICR_FLASH 0 w with
    | none => none
    | some (res, flash_size_kb, w1) =>
      if res ≠ ERROR_OK then some (LOG LogMsg.flash_size_read_failed w1)
      else some (compare flash_size_kb w1)

/-- The catalog scan of `nrfx_probe`: `i` is the index of the first entry of
`table`, `spec` the value of the pointer before the loop reaches it. -/
def nrfx_probe_scan (have_hwid have_part : Nat) (hwid part : Nat) :
    List nrfx_device_spec → Nat → Option spec_ptr → Option spec_ptr
  | [], _, spec => spec
  | e :: rest, i, _ =>
    -- spec = &nrfx_known_devices_table[i]
    if e.have_hwid ≠ 0 ∧ have_hwid ≠ 0 ∧ hwid = e.id_hwid then some ⟨i, e⟩
    else if ¬ e.have_hwid ≠ 0 ∧ have_part ≠ 0 ∧ part = e.id_part then some ⟨i, e⟩
    else nrfx_probe_scan have_hwid have_part hwid part rest (i + 1) (some ⟨i, e⟩)

/-- The identifiers `nrfx_probe` has read when it starts the catalog scan. -/
structure probe_ids where
  have_hwid : Nat
  hwid : Nat
  have_part : Nat
  part : Nat
  deriving DecidableEq, Repr

/-- First part of `nrfx_probe`, up to the catalog scan: the identifier reads.
The return code is `ERROR_OK` when the function goes on to the scan and the
code it returns with otherwise. -/
def nrfx_probe_ids (E : Env σ) (chip : nrfx_info) (w : World σ) :
    Option (Ret × probe_ids × World σ) :=
  let part_step (have_hwid hwid : Nat) (w : World σ) : Option (Ret × probe_ids × World σ) :=
    match ficr_is_implemented chip NRFX_FICR_PART with
    | none => none
    | some true =>
      match ficr_read E chip NRFX_FICR_PART 0 w with
      | none => none
      | some (res, part, w1) =>
        if res ≠ ERROR_OK then
          some (res, ⟨have_hwid, hwid, 0, part⟩, LOG LogMsg.part_read_failed w1)
        else some (ERROR_OK, ⟨have_hwid, hwid, 1, part⟩, w1)
    | some false =>
      if have_hwid = 0 then
        some (ERROR_FAIL, ⟨have_hwid, hwid, 0, 0⟩, LOG LogMsg.no_identifier_register w)
      else some (ERROR_OK, ⟨have_hwid, hwid, 0, 0⟩, w)
  match ficr_is_implemented chip NRFX_FICR_CONFIGID with
  | none => none
  | some true =>
    match ficr_read E chip NRFX_FICR_CONFIGID 0 w with
    | none => none
    | some (res, hwid, w1) =>
      if res ≠ ERROR_OK then
        some (res, ⟨0, hwid, 0, 0⟩, LOG LogMsg.configid_read_failed w1)
      else
        -- HWID is stored in the lower two bytes of the CONFIGID register
        part_step 1 (hwid &&& 0xFFFF) w1
  | some false => part_step 0 0 w

/-- The code-flash branch of `nrfx_probe` (bank->base == NRFX_FLASH_BASE). -/
def nrfx_probe_code_flash (E : Env σ) (bank : flash_bank) (chip : nrfx_info)
    (spec : Option spec_ptr) (w : World σ) :
    Option (Ret × flash_bank × nrfx_info × World σ) :=
  match ficr_read E chip NRFX_FICR_CODEPAGESIZE chip.code_page_size w with
  | none => none
  | some (res, code_page_size, w1) =>
    let chip := { chip with code_page_size := code_page_size }
    if res ≠ ERROR_OK then some (res, bank, chip, LOG LogMsg.code_page_size_read_failed w1)
    else
      match ficr_read E chip NRFX_FICR_CODESIZE 0 w1 with
      | none => none
      | some (res, num_sectors, w2) =>
        if res ≠ ERROR_OK then some (res, bank, chip, LOG LogMsg.code_size_read_failed w2)
        else
          let bank := { bank with num_sectors := int32 num_sectors,
                                  size := u32 (num_sectors * chip.code_page_size) }
          match check_probed_chip_size E chip bank.size spec w2 with
          | none => none
          | some w3 =>
            let a := calloc E bank.num_sectors w3
            if ¬ a.1 then
              some (ERROR_FLASH_BANK_NOT_PROBED, { bank with sectors := none }, chip, a.2)
            else
              let zeroed : List flash_sector :=
                List.replicate bank.num_sectors.toNat ⟨0, 0, 0, 0⟩
              -- all NRFX sectors are the same size
              match for_sectors bank.num_sectors
                  (fun i _ => { size := chip.code_page_size,
                                offset := u32 (i * chip.code_page_size),
                                is_erased := -1, is_protected := -1 }) zeroed with
              | none => none
              | some sectors =>
                let bank := { bank with sectors := some sectors }
                match nrfx_protect_check E bank chip a.2 with
                | none => none
                | some (_, bank, w4) =>
                  some (ERROR_OK, bank,
                    { chip with bank0 := { chip.bank0 with probed := true } }, w4)

/-- The other branch of `nrfx_probe`: the configuration region. -/
def nrfx_probe_uicr (E : Env σ) (bank : flash_bank) (chip : nrfx_info) (w : World σ) :
    Option (Ret × flash_bank × nrfx_info × World σ) :=
  let bank := { bank with size := NRFX_UICR_SIZE, num_sectors := 1 }
  let a := calloc E bank.num_sectors w
  if ¬ a.1 then some (ERROR_FLASH_BANK_NOT_PROBED, { bank with sectors := none }, chip, a.2)
  else
    let bank := { bank with sectors := some [⟨0, bank.size, 0, 0⟩] }
    some (ERROR_OK, bank, { chip with bank1 := { chip.bank1 with probed := true } }, a.2)

def nrfx_probe (E : Env σ) (bank : flash_bank) (chip : nrfx_info) (w : World σ) :
    Option (Ret × flash_bank × nrfx_info × World σ) :=
  match nrfx_probe_ids E chip w with
  | none => none
  | some (res, ids, w1) =>
    if res ≠ ERROR_OK then some (res, bank, chip, w1)
    else
      let spec := nrfx_probe_scan ids.have_hwid ids.have_part ids.hwid ids.part
        nrfx_known_devices_table 0 none
      let w2 :=
        if ¬ chip.bank0.probed ∧ ¬ chip.bank1.probed then
          log_probed_chip spec ids.have_hwid ids.hwid ids.part w1
        else w1
      if bank.base = NRFX_FLASH_BASE then nrfx_probe_code_flash E bank chip spec w2
      else nrfx_probe_uicr E bank chip w2

end Probe

/-! ## Write engine: the code-flash strategy -/

/-- Modelled from the spec: the macro `DIV_ROUND_UP` of `helper/types.h`, which
is not among the sources.  The code-flash strategy "computes the enclosing
page-aligned range": the macro is the rounding-up division
`((m) + (n) - 1) / (n)`, here on unsigned 32-bit operands. -/
def DIV_ROUND_UP (m n : Nat) : Nat := sub32 (u32 (u32 m + u32 n)) 1 / n

/-- The loader, see contrib/loaders/flash/cortex-m0.S. -/
def nrfx_flash_write_code : List Nat :=
  [ 0x0d, 0x68,   -- ldr r5, [r1, #0]
    0x00, 0x2d,   -- cmp r5, #0
    0x0b, 0xd0,   -- beq.n 1e <exit>
    0x4c, 0x68,   -- ldr r4, [r1, #4]
    0xac, 0x42,   -- cmp r4, r5
    0xf9, 0xd0,   -- beq.n 0 <wait_fifo>
    0x20, 0xcc,   -- ldmia r4!, {r5}
    0x20, 0xc3,   -- stmia r3!, {r5}
    0x94, 0x42,   -- cmp r4, r2
    0x01, 0xd3,   -- bcc.n 18 <no_wrap>
    0x0c, 0x46,   -- mov r4, r1
    0x08, 0x34,   -- adds r4, #8
    0x4c, 0x60,   -- str r4, [r1, #4]
    0x04, 0x38,   -- subs r0, #4
    0xf0, 0xd1,   -- bne.n 0 <wait_fifo>
    0x00, 0xbe ]  -- bkpt 0x0000

section WriteEngine

variable {σ : Type}

/-- The slow path of `nrfx_ll_flash_write`: the loop
`for (; bytes > 0; bytes -= 4)`, one iteration per unit of `n`; the polling
loops inside get `fuel`. -/
def nrfx_ll_flash_write_slow (E : Env σ) (fuel : Nat) (chip : nrfx_info) :
    Nat → Nat → List Nat → Nat → World σ → Option (Ret × World σ)
  | 0, _, _, bytes, w => if bytes > 0 then none else some (ERROR_OK, w)
  | n + 1, offset, buffer, bytes, w =>
    if bytes > 0 then
      let r := target_write_memory E offset 4 1 buffer w
      if r.1 ≠ ERROR_OK then some (r.1, r.2)
      else
        match nrfx_wait_for_nvmc E fuel chip r.2 with
        | none => none
        | some (retval, w1) =>
          if retval ≠ ERROR_OK then some (retval, w1)
          else
            nrfx_ll_flash_write_slow E fuel chip n (u32 (offset + 4)) (buffer.drop 4)
              (sub32 bytes 4) w1
    else some (ERROR_OK, w)

/-- The loop of `nrfx_ll_flash_write` that allocates the FIFO area, one
request per unit of fuel.  The result is the area, or the code the function
returns with, and the last size requested. -/
def nrfx_ll_flash_write_alloc (E : Env σ) (write_algorithm : working_area) :
    Nat → Nat → World σ → Option ((Ret ⊕ working_area) × Nat × World σ)
  | 0, _, _ => none
  | n + 1, buffer_size, w =>
    let a := target_alloc_working_area E buffer_size w
    if a.1 ≠ ERROR_OK then
      let buffer_size := buffer_size / 2
      -- Make sure it is 4 byte aligned
      let buffer_size := buffer_size &&& 0xFFFFFFFC
      if buffer_size ≤ 256 then
        -- free working area, write algorithm already allocated
        let w1 := target_free_working_area E write_algorithm a.2.2
        some (Sum.inl ERROR_TARGET_RESOURCE_NOT_AVAILABLE, buffer_size,
          LOG LogMsg.no_large_working_area w1)
      else nrfx_ll_flash_write_alloc E write_algorithm n buffer_size a.2.2
    else some (Sum.inr a.2.1, buffer_size, a.2.2)

/-- Start a low level flash write for the specified region. -/
def nrfx_ll_flash_write (E : Env σ) (fuel : Nat) (chip : nrfx_info) (offset : Nat)
    (buffer : List Nat) (bytes : Nat) (w : World σ) : Option (Ret × World σ) :=
  let buffer_size : Nat := 8192
  let address := u32 (NRFX_FLASH_BASE + offset)
  let w := LOG (LogMsg.writing_buffer offset bytes) w
  if bytes % 4 ≠ 0 then none  -- assert
  else
    -- allocate working area with flash programming code
    let a := target_alloc_working_area E nrfx_flash_write_code.length w
    if a.1 ≠ ERROR_OK then
      nrfx_ll_flash_write_slow E fuel chip fuel offset buffer bytes
        (LOG LogMsg.no_working_area a.2.2)
    else
      let write_algorithm := a.2.1
      let w1 := LOG LogMsg.using_fast_loader a.2.2
      let b := target_write_buffer E write_algorithm.address nrfx_flash_write_code.length
        nrfx_flash_write_code w1
      if b.1 ≠ ERROR_OK then some (b.1, b.2)
      else
        -- memory buffer
        match nrfx_ll_flash_write_alloc E write_algorithm fuel buffer_size b.2 with
        | none => none
        | some (Sum.inl retval, _, w2) => some (retval, w2)
        | some (Sum.inr source, _, w2) =>
          let reg_params : List Nat :=
            [ u32 bytes,                              -- r0: byte count
              u32 source.address,                     -- r1: buffer start
              u32 (source.address + source.size),     -- r2: buffer end
              u32 address ]                           -- r3: target address
          let c := target_run_flash_async_algorithm E buffer (bytes / 4) 4 reg_params
            source.address source.size write_algorithm.address 0 w2
          let w3 := target_free_working_area E source c.2
          let w4 := target_free_working_area E write_algorithm w3
          some (c.1, w4)

/-- Check and erase flash sectors in specified range then start a low level
page write.  start/end must be sector aligned. -/
def nrfx_write_pages (E : Env σ) (fuel : Nat) (_bank : flash_bank) (chip : nrfx_info)
    (start end_ : Nat) (buffer : List Nat) (w : World σ) : Option (Ret × World σ) :=
  let error (res : Ret) (w : World σ) : Option (Ret × World σ) :=
    match nrfx_nvmc_read_only E fuel chip w with
    | none => none
    | some (_, w1) => some (res, LOG LogMsg.write_failed w1)
  if chip.code_page_size = 0 then none
  else if start % chip.code_page_size ≠ 0 then none  -- assert
  else if end_ % chip.code_page_size ≠ 0 then none  -- assert
  else
    match nrfx_nvmc_write_enable E fuel chip w with
    | none => none
    | some (res, w1) =>
      if res ≠ ERROR_OK then error res w1
      else
        match nrfx_ll_flash_write E fuel chip start buffer (sub32 end_ start) w1 with
        | none => none
        | some (res, w2) =>
          if res ≠ ERROR_OK then error res w2
          else nrfx_nvmc_read_only E fuel chip w2

/-- The page arithmetic at the head of `nrfx_code_flash_write`. -/
structure write_range where
  first_page : Nat
  last_page : Nat
  first_page_offset : Nat
  last_page_offset : Nat
  page_cnt : Nat
  pre : Nat
  post : Nat
  deriving DecidableEq, Repr

/-- The locals of `nrfx_code_flash_write` for a page size, an offset and a
count (the page size is not 0). -/
def nrfx_code_flash_write_range (code_page_size offset count : Nat) : write_range :=
  let first_page := offset / code_page_size
  let last_page := DIV_ROUND_UP (u32 (offset + count)) code_page_size
  let first_page_offset := u32 (first_page * code_page_size)
  let last_page_offset := u32 (last_page * code_page_size)
  { first_page := first_page,
    last_page := last_page,
    first_page_offset := first_page_offset,
    last_page_offset := last_page_offset,
    page_cnt := sub32 last_page first_page,
    pre := sub32 offset first_page_offset,
    post := sub32 last_page_offset (u32 (offset + count)) }

def nrfx_code_flash_write (E : Env σ) (fuel : Nat) (bank : flash_bank) (chip : nrfx_info)
    (buffer : List Nat) (offset count : Nat) (w : World σ) : Option (Ret × World σ) :=
  if chip.code_page_size = 0 then none
  else
    -- Need to perform reads to fill any gaps we need to preserve in the first page,
    -- before the start of buffer, or in the last page, after the end of buffer
    let g := nrfx_code_flash_write_range chip.code_page_size offset count
    let w := LOG (LogMsg.padding_write offset (u32 (offset + count)) g.first_page_offset
      g.last_page_offset) w
    -- the contents of the array are indeterminate before it is filled: written as 0
    let buffer_to_flash : List Nat :=
      List.replicate (u32 (g.page_cnt * chip.code_page_size)) 0
    -- Fill in any space between start of first page and start of buffer
    let r1 : Ret × List Nat × World σ :=
      if g.pre > 0 then target_read_memory E g.first_page_offset 1 g.pre buffer_to_flash 0 w
      else (ERROR_OK, buffer_to_flash, w)
    if r1.1 ≠ ERROR_OK then some (r1.1, r1.2.2)
    else
      -- Fill in main contents of buffer
      let buffer_to_flash := memcpy r1.2.1 g.pre buffer count
      -- Fill in any space between end of buffer and end of last page
      let r2 : Ret × List Nat × World σ :=
        if g.post > 0 then
          -- Retrieve the full row contents from Flash
          target_read_memory E (u32 (offset + count)) 1 g.post buffer_to_flash
            (g.pre + count) r1.2.2
        else (ERROR_OK, buffer_to_flash, r1.2.2)
      if r2.1 ≠ ERROR_OK then some (r2.1, r2.2.2)
      else
        nrfx_write_pages E fuel bank chip g.first_page_offset g.last_page_offset
          r2.2.1 r2.2.2

end WriteEngine

/-! ## Halted-target gate, erase engine, protection and the entry points

A pointer to a sector of a bank (`&bank->sectors[s]`) is written as the index
`s`; a function that may change the bank or the chip handle returns them. -/

section EraseEngine

variable {σ : Type}

def nrfx_bank_is_probed (bank : flash_bank) (chip : nrfx_info) : Option Bool :=
  match bank.bank_number with
  | 0 => some chip.bank0.probed
  | 1 => some chip.bank1.probed
  | _ => none

/-- The test `probed < 0` of the C code never holds (`probed` is a `bool`
converted to `int`) and is left out. -/
def nrfx_get_probed_chip_if_halted (E : Env σ) (C : FlashCore σ) (bank : flash_bank)
    (chip : nrfx_info) (w : World σ) : Option (Ret × flash_bank × nrfx_info × World σ) :=
  if ¬ C.target_halted w.st then
    some (ERROR_TARGET_NOT_HALTED, bank, chip, LOG LogMsg.target_not_halted w)
  else
    match nrfx_bank_is_probed bank chip with
    | none => none
    | some probed =>
      if ¬ probed then nrfx_probe E bank chip w
      else some (ERROR_OK, bank, chip, w)

def nrfx_nvmc_erase_enable (E : Env σ) (fuel : Nat) (chip : nrfx_info) (w : World σ) :
    Option (Ret × World σ) :=
  match nvmc_write E chip NRFX_NVMC_CONFIG NRFX_NVMC_CONFIG_EEN w with
  | none => none
  | some (res, w1) =>
    if res ≠ ERROR_OK then some (res, LOG LogMsg.erase_enable_failed w1)
    else
      match nrfx_wait_for_nvmc E fuel chip w1 with
      | none => none
      | some (res, w2) =>
        if res ≠ ERROR_OK then some (res, LOG LogMsg.erase_enable_incomplete w2)
        else some (res, w2)

/-- The label `error` of `nrfx_nvmc_generic_erase`. -/
def nrfx_nvmc_generic_erase_error (erase_register erase_value : Nat) (w : World σ) :
    Option (Ret × World σ) :=
  some (ERROR_FAIL, LOG (LogMsg.erase_failed erase_register erase_value) w)

/-- The label `set_read_only` of `nrfx_nvmc_generic_erase`, which falls through
to `error`. -/
def nrfx_nvmc_generic_erase_set_read_only (E : Env σ) (fuel : Nat) (chip : nrfx_info)
    (erase_register erase_value : Nat) (w : World σ) : Option (Ret × World σ) :=
  match nrfx_nvmc_read_only E fuel chip w with
  | none => none
  | some (_, w1) => nrfx_nvmc_generic_erase_error erase_register erase_value w1

/-- The end of `nrfx_nvmc_generic_erase`, from the wait after the trigger. -/
def nrfx_nvmc_generic_erase_wait (E : Env σ) (fuel : Nat) (chip : nrfx_info)
    (erase_register erase_value : Nat) (w : World σ) : Option (Ret × World σ) :=
  match nrfx_wait_for_nvmc E fuel chip w with
  | none => none
  | some (res, w1) =>
    if res ≠ ERROR_OK then
      nrfx_nvmc_generic_erase_set_read_only E fuel chip erase_register erase_value w1
    else nrfx_nvmc_read_only E fuel chip w1

def nrfx_nvmc_generic_erase (E : Env σ) (C : FlashCore σ) (fuel : Nat) (chip : nrfx_info)
    (erase_addr erase_register erase_value : Nat) (w : World σ) : Option (Ret × World σ) :=
  match nrfx_nvmc_erase_enable E fuel chip w with
  | none => none
  | some (res, w1) =>
    if res ≠ ERROR_OK then nrfx_nvmc_generic_erase_error erase_register erase_value w1
    else if chip.family ≠ 91 then
      match nvmc_write E chip erase_register erase_value w1 with
      | none => none
      | some (res, w2) =>
        if res ≠ ERROR_OK then
          nrfx_nvmc_generic_erase_set_read_only E fuel chip erase_register erase_value w2
        else nrfx_nvmc_generic_erase_wait E fuel chip erase_register erase_value w2
    else
      -- the return code of this write is not looked at
      let r := target_write_u32 E erase_addr 0xffffffff w1
      let w2 : World σ := { r.2 with st := C.usleep r.2.st 100000 }
      nrfx_nvmc_generic_erase_wait E fuel chip erase_register erase_value w2

/-- The end of `nrfx_protect`: the protection flags are computed again and the
return code of that is dropped. -/
def nrfx_protect_finish (E : Env σ) (bank : flash_bank) (chip : nrfx_info) (w : World σ) :
    Option (Ret × flash_bank × nrfx_info × World σ) :=
  match nrfx_protect_check E bank chip w with
  | none => none
  | some (_, bank1, w1) => some (ERROR_OK, bank1, chip, w1)

def nrfx_protect (E : Env σ) (C : FlashCore σ) (bank : flash_bank) (chip : nrfx_info)
    (_set : Int) (first _last : Int) (w : World σ) :
    Option (Ret × flash_bank × nrfx_info × World σ) :=
  -- UICR cannot be write protected so just bail out early
  if bank.base = NRF5_UICR_BASE then some (ERROR_FAIL, bank, chip, w)
  else
    match nrfx_get_probed_chip_if_halted E C bank chip w with
    | none => none
    | some (res, bank, chip, w1) =>
      if res ≠ ERROR_OK then some (res, bank, chip, w1)
      else if first ≠ 0 then
        some (ERROR_FAIL, bank, chip, LOG LogMsg.protect_first_not_zero w1)
      else
        match ficr_read E chip NRFX_FICR_PPFC 0 w1 with
        | none => none
        | some (res, ppfc, w2) =>
          if res ≠ ERROR_OK then
            some (res, bank, chip, LOG LogMsg.protect_ppfc_read_failed w2)
          else if ppfc &&& 0xFF = 0x00 then
            some (ERROR_FAIL, bank, chip, LOG LogMsg.protect_preprogrammed w2)
          else
            match uicr_read E chip NRFX_UICR_CLENR0 0 w2 with
            | none => none
            | some (res, clenr0, w3) =>
              if res ≠ ERROR_OK then
                some (res, bank, chip, LOG LogMsg.protect_clenr0_read_failed w3)
              else if clenr0 = 0xFFFFFFFF then
                match uicr_write E chip NRFX_UICR_CLENR0 clenr0 w3 with
                | none => none
                | some (res, w4) =>
                  if res ≠ ERROR_OK then
                    some (res, bank, chip, LOG LogMsg.protect_clenr0_write_failed w4)
                  else nrfx_protect_finish E bank chip w4
              else
                nrfx_protect_finish E bank chip (LOG LogMsg.protect_needs_chip_erase w3)

def nrfx_erase_all (E : Env σ) (C : FlashCore σ) (fuel : Nat) (chip : nrfx_info)
    (w : World σ) : Option (Ret × World σ) :=
  nrfx_nvmc_generic_erase E C fuel chip 0 NRFX_NVMC_ERASEALL 0x00000001
    (LOG LogMsg.erasing_all w)

/-- The sector handed over is `&bank->sectors[s]`. -/
def nrfx_erase_page (E : Env σ) (C : FlashCore σ) (fuel : Nat) (bank : flash_bank)
    (chip : nrfx_info) (s : Nat) (w : World σ) : Option (Ret × flash_bank × World σ) :=
  match bank.sector_array[s]? with
  | none => none
  | some sector =>
    let w := LOG (LogMsg.erasing_page sector.offset) w
    if sector.is_protected ≠ 0 then
      some (ERROR_FAIL, bank, LOG (LogMsg.erase_protected_sector sector.offset) w)
    else if bank.base = NRF5_UICR_BASE then
      match ficr_read E chip NRFX_FICR_PPFC 0 w with
      | none => none
      | some (res, ppfc, w1) =>
        if res ≠ ERROR_OK then some (res, bank, LOG LogMsg.erase_ppfc_read_failed w1)
        else if ppfc &&& 0xFF = 0xFF then
          -- We can't erase the UICR.  Double-check to see if it's already erased
          -- before complaining.
          let b := C.default_flash_blank_check bank w1
          match b.2.1.sector_array[s]? with
          | none => none
          | some sector =>
            if sector.is_erased = 1 then some (ERROR_OK, b.2.1, b.2.2)
            else some (ERROR_FAIL, b.2.1, LOG LogMsg.uicr_needs_mass_erase b.2.2)
        else
          (nrfx_nvmc_generic_erase E C fuel chip 0 NRFX_NVMC_ERASEUICR 0x00000001 w1).map
            fun r => (r.1, bank, r.2)
    else
      (nrfx_nvmc_generic_erase E C fuel chip sector.offset NRFX_NVMC_ERASEPAGE sector.offset
        w).map fun r => (r.1, bank, r.2)

/-- The loop of `nrfx_erase`,
`for (int s = first; s <= last && res == ERROR_OK; s++)`, one iteration per
unit of `n`. -/
def nrfx_erase_loop (E : Env σ) (C : FlashCore σ) (fuel : Nat) (chip : nrfx_info)
    (last : Int) : Nat → Int → Ret → flash_bank → World σ → Option (Ret × flash_bank × World σ)
  | 0, s, res, bank, w => if s ≤ last ∧ res = ERROR_OK then none else some (res, bank, w)
  | n + 1, s, res, bank, w =>
    if s ≤ last ∧ res = ERROR_OK then
      if s < 0 then none
      else
        match nrfx_erase_page E C fuel bank chip s.toNat w with
        | none => none
        | some (res, bank, w) =>
          -- `s++` has no defined result at INT_MAX
          if s = 2147483647 then none
          else nrfx_erase_loop E C fuel chip last n (s + 1) res bank w
    else some (res, bank, w)

def nrfx_erase (E : Env σ) (C : FlashCore σ) (fuel : Nat) (bank : flash_bank)
    (chip : nrfx_info) (first last : Int) (w : World σ) :
    Option (Ret × flash_bank × nrfx_info × World σ) :=
  match nrfx_get_probed_chip_if_halted E C bank chip w with
  | none => none
  | some (res, bank, chip, w1) =>
    if res ≠ ERROR_OK then some (res, bank, chip, w1)
    else
      -- For each sector to be erased
      (nrfx_erase_loop E C fuel chip last (last - first + 1).toNat first res bank w1).map
        fun r => (r.1, r.2.1, chip, r.2.2)

/-- The end of `nrfx_uicr_flash_write`, after the low level write. -/
def nrfx_uicr_flash_write_finish (E : Env σ) (fuel : Nat) (bank : flash_bank)
    (chip : nrfx_info) (res : Ret) (w : World σ) : Option (Ret × flash_bank × World σ) :=
  match nrfx_nvmc_read_only E fuel chip w with
  | none => none
  | some (res1, w1) =>
    if res ≠ ERROR_OK then some (res, bank, w1) else some (res1, bank, w1)

def nrfx_uicr_flash_write (E : Env σ) (C : FlashCore σ) (fuel : Nat) (bank : flash_bank)
    (chip : nrfx_info) (buffer : List Nat) (offset count : Nat) (w : World σ) :
    Option (Ret × flash_bank × World σ) :=
  -- the contents of the array are indeterminate before it is filled: written as 0
  let uicr : List Nat := List.replicate NRFX_UICR_SIZE 0
  let base := nrfx_uicr_base chip.family
  if base = NRFX_UNIMPLEMENTED then
    some (ERROR_FAIL, bank, LOG (LogMsg.unsupported_family chip.family) w)
  else if u32 (offset + count) > NRFX_UICR_SIZE then some (ERROR_FAIL, bank, w)
  else
    let r := target_read_memory E base 1 NRFX_UICR_SIZE uicr 0 w
    if r.1 ≠ ERROR_OK then some (r.1, bank, r.2.2)
    else
      match nrfx_erase_page E C fuel bank chip 0 r.2.2 with
      | none => none
      | some (res, bank, w1) =>
        if res ≠ ERROR_OK then some (res, bank, w1)
        else
          match nrfx_nvmc_write_enable E fuel chip w1 with
          | none => none
          | some (res, w2) =>
            if res ≠ ERROR_OK then some (res, bank, w2)
            else if offset + count > NRFX_UICR_SIZE then none  -- memcpy past the array
            else
              let uicr := memcpy r.2.1 offset buffer count
              match nrfx_ll_flash_write E fuel chip base uicr NRFX_UICR_SIZE w2 with
              | none => none
              | some (res, w3) => nrfx_uicr_flash_write_finish E fuel bank chip res w3

def nrfx_write (E : Env σ) (C : FlashCore σ) (fuel : Nat) (bank : flash_bank)
    (chip : nrfx_info) (buffer : List Nat) (offset count : Nat) (w : World σ) :
    Option (Ret × flash_bank × nrfx_info × World σ) :=
  match nrfx_get_probed_chip_if_halted E C bank chip w with
  | none => none
  | some (res, bank, chip, w1) =>
    if res ≠ ERROR_OK then some (res, bank, chip, w1)
    else
      let write : Option write_fn :=
        match bank.bank_number with
        | 0 => some chip.bank0.write
        | 1 => some chip.bank1.write
        | _ => none
      match write with
      | some write_fn.nrfx_code_flash_write =>
        (nrfx_code_flash_write E fuel bank chip buffer offset count w1).map
          fun r => (r.1, bank, chip, r.2)
      | some write_fn.nrfx_uicr_flash_write =>
        (nrfx_uicr_flash_write E C fuel bank chip buffer offset count w1).map
          fun r => (r.1, r.2.1, chip, r.2.2)
      | _ => none

/-! ### The info report

The text `nrfx_info` builds is written as the list of its `snprintf` calls,
one `InfoLine` each, with the values printed; the size of the caller's buffer
is not modelled, and a `snprintf` does not fail. -/

/-- One `snprintf` of `nrfx_info`. -/
inductive InfoLine where
  /-- "[factory information control block]" -/
  | ficr_header
  /-- "part: %x" -/
  | part (v : Nat)
  /-- "variant: %s" -/
  | variant (v : Nat)
  /-- "package code: %u" -/
  | package_code (v : Nat)
  /-- "total RAM: %uKB" -/
  | total_ram (v : Nat)
  /-- "code page size: %uB" -/
  | code_page_size (v : Nat)
  /-- "code memory size: %uKB", from the page size and the page count -/
  | code_memory_size (v : Nat)
  /-- "code memory size: %uKB", from the FLASH register -/
  | code_memory_size_flash (v : Nat)
  /-- "code region 0 size: %ukB", from the factory register -/
  | code_region_0_size (v : Nat)
  /-- "pre-programmed code: %s": "present" or "not present" -/
  | pre_programmed_code (present : Bool)
  /-- "number of ram blocks: %u" -/
  | number_of_ram_blocks (v : Nat)
  /-- "ram block 0 size: %uB" -/
  | ram_block_0_size (v : Nat)
  /-- "ram block 1 size: %uB", printed for each of the blocks 1, 2 and 3 -/
  | ram_block_1_size (v : Nat)
  /-- "config id: %x" -/
  | config_id (v : Nat)
  /-- "device id: 0x%x%08x" -/
  | device_id (v0 v1 : Nat)
  /-- "encryption root: 0x%08x%08x%08x%08x" -/
  | encryption_root (v0 v1 v2 v3 : Nat)
  /-- "identity root: 0x%08x%08x%08x%08x" -/
  | identity_root (v0 v1 v2 v3 : Nat)
  /-- "device address type: 0x%x" -/
  | device_address_type (v : Nat)
  /-- "device address: 0x%x%08x" -/
  | device_address (v0 v1 : Nat)
  /-- "override enable: %x" -/
  | override_enable (v : Nat)
  /-- "NRF_1MBIT values: %x %x %x %x %x" -/
  | nrf_1mbit (v0 v1 v2 v3 v4 : Nat)
  /-- "BLE_1MBIT values: %x %x %x %x %x" -/
  | ble_1mbit (v0 v1 v2 v3 v4 : Nat)
  /-- "[user information control block]" -/
  | uicr_header
  /-- "code region 0 size: %ukB", from the user register -/
  | uicr_code_region_0_size (v : Nat)
  /-- "read back protection configuration: %x" -/
  | read_back_protection (v : Nat)
  /-- "reset value for XTALFREQ: %x" -/
  | xtalfreq (v : Nat)
  /-- "firmware id: 0x%04x" -/
  | firmware_id (v : Nat)
  /-- "APPROTECT: %x" -/
  | approtect (v : Nat)
  /-- "SECUREAPPROTECT: %x" -/
  | secureapprotect (v : Nat)
  /-- "ERASEPROTECT: %x" -/
  | eraseprotect (v : Nat)
  deriving DecidableEq, Repr

/-- One of the two loops of `nrfx_info` that fill a local array with the
registers of a table: `read` is `ficr_read` or `uicr_read`, `table` the table
whose entry the error message prints, `i` the loop variable and `n + i` its
bound. -/
def nrfx_info_read_loop (read : Nat → Nat → World σ → Option (Ret × Nat × World σ))
    (table : List Nat) : Nat → Nat → List Nat → World σ → Option (Ret × List Nat × World σ)
  | 0, _, regs, w => some (ERROR_OK, regs, w)
  | n + 1, i, regs, w =>
    match read i (regs.getD i 0) w with
    | none => none
    | some (res, v, w1) =>
      let regs := regs.set i v
      if res = ERROR_TARGET_RESOURCE_NOT_AVAILABLE then
        -- Register is not implemented, go on
        nrfx_info_read_loop read table n (i + 1) regs w1
      else if res ≠ ERROR_OK then
        match table[i]? with
        | none => none
        | some addr => some (res, regs, LOG (LogMsg.info_read_failed addr) w1)
      else nrfx_info_read_loop read table n (i + 1) regs w1

/-- The operator `&&` on two tests of which the second is evaluated only when
the first holds. -/
def and_then (a b : Option Bool) : Option Bool :=
  match a with
  | none => none
  | some true => b
  | some false => some false

/-- The guarded `snprintf` calls of `nrfx_info`, in order, each with its
guard (`some true` for the two headers). -/
def nrfx_info_lines (chip : nrfx_info) (ficr uicr : List Nat) :
    List (Option Bool × List InfoLine) :=
  let f := fun (r : Nat) => ficr.getD (reg_index r) 0
  let u := fun (r : Nat) => uicr.getD (reg_index r) 0
  let fi := fun (r : Nat) => ficr_is_implemented chip r
  let ui := fun (r : Nat) => uicr_is_implemented chip r
  [ (some true, [InfoLine.ficr_header]),
    (fi NRFX_FICR_PART, [InfoLine.part (f NRFX_FICR_PART)]),
    (fi NRFX_FICR_VARIANT, [InfoLine.variant (f NRFX_FICR_VARIANT)]),
    (fi NRFX_FICR_PACKAGE, [InfoLine.package_code (f NRFX_FICR_PACKAGE)]),
    (fi NRFX_FICR_RAM, [InfoLine.total_ram (f NRFX_FICR_RAM)]),
    (fi NRFX_FICR_CODEPAGESIZE, [InfoLine.code_page_size (f NRFX_FICR_CODEPAGESIZE)]),
    (and_then (fi NRFX_FICR_CODEPAGESIZE) (fi NRFX_FICR_CODESIZE),
      [InfoLine.code_memory_size
        (u32 (f NRFX_FICR_CODEPAGESIZE * f NRFX_FICR_CODESIZE) >>> 10)]),
    (fi NRFX_FICR_FLASH, [InfoLine.code_memory_size_flash (f NRFX_FICR_FLASH)]),
    (fi NRFX_FICR_CLENR0,
      [InfoLine.code_region_0_size
        (if f NRFX_FICR_CLENR0 = 0xFFFFFFFF then 0 else f NRFX_FICR_CLENR0 >>> 10)]),
    (fi NRFX_FICR_PPFC,
      [InfoLine.pre_programmed_code (f NRFX_FICR_PPFC &&& 0xFF = 0x00)]),
    (fi NRFX_FICR_NUMRAMBLOCK, [InfoLine.number_of_ram_blocks (f NRFX_FICR_NUMRAMBLOCK)]),
    (fi NRFX_FICR_SIZERAMBLOCK0, [InfoLine.ram_block_0_size (f NRFX_FICR_SIZERAMBLOCK0)]),
    (fi NRFX_FICR_SIZERAMBLOCK1,
      [InfoLine.ram_block_1_size
        (if f NRFX_FICR_SIZERAMBLOCK1 = 0xFFFFFFFF then 0 else f NRFX_FICR_SIZERAMBLOCK1)]),
    (fi NRFX_FICR_SIZERAMBLOCK2,
      [InfoLine.ram_block_1_size
        (if f NRFX_FICR_SIZERAMBLOCK2 = 0xFFFFFFFF then 0 else f NRFX_FICR_SIZERAMBLOCK2)]),
    (fi NRFX_FICR_SIZERAMBLOCK3,
      [InfoLine.ram_block_1_size
        (if f NRFX_FICR_SIZERAMBLOCK3 = 0xFFFFFFFF then 0 else f NRFX_FICR_SIZERAMBLOCK3)]),
    (fi NRFX_FICR_CONFIGID, [InfoLine.config_id (f NRFX_FICR_CONFIGID)]),
    (and_then (fi NRFX_FICR_DEVICEID0) (fi NRFX_FICR_DEVICEID1),
      [InfoLine.device_id (f NRFX_FICR_DEVICEID0) (f NRFX_FICR_DEVICEID1)]),
    (and_then (fi NRFX_FICR_ER0) (and_then (fi NRFX_FICR_ER1)
        (and_then (fi NRFX_FICR_ER2) (fi NRFX_FICR_ER3))),
      [InfoLine.encryption_root (f NRFX_FICR_ER0) (f NRFX_FICR_ER1) (f NRFX_FICR_ER2)
        (f NRFX_FICR_ER3)]),
    (and_then (fi NRFX_FICR_IR0) (and_then (fi NRFX_FICR_IR1)
        (and_then (fi NRFX_FICR_IR2) (fi NRFX_FICR_IR3))),
      [InfoLine.identity_root (f NRFX_FICR_IR0) (f NRFX_FICR_IR1) (f NRFX_FICR_IR2)
        (f NRFX_FICR_IR3)]),
    (fi NRFX_FICR_DEVICEADDRTYPE,
      [InfoLine.device_address_type (f NRFX_FICR_DEVICEADDRTYPE)]),
    (and_then (fi NRFX_FICR_DEVICEADDR0) (fi NRFX_FICR_DEVICEADDR1),
      [InfoLine.device_address (f NRFX_FICR_DEVICEADDR0) (f NRFX_FICR_DEVICEADDR1)]),
    (fi NRFX_FICR_OVERRIDEN, [InfoLine.override_enable (f NRFX_FICR_OVERRIDEN)]),
    (and_then (fi NRFX_FICR_NRF_1MBIT0) (and_then (fi NRFX_FICR_NRF_1MBIT1)
        (and_then (fi NRFX_FICR_NRF_1MBIT2) (and_then (fi NRFX_FICR_NRF_1MBIT3)
          (fi NRFX_FICR_NRF_1MBIT4)))),
      [InfoLine.nrf_1mbit (f NRFX_FICR_NRF_1MBIT0) (f NRFX_FICR_NRF_1MBIT1)
        (f NRFX_FICR_NRF_1MBIT2) (f NRFX_FICR_NRF_1MBIT3) (f NRFX_FICR_NRF_1MBIT4)]),
    (and_then (fi NRFX_FICR_BLE_1MBIT0) (and_then (fi NRFX_FICR_BLE_1MBIT1)
        (and_then (fi NRFX_FICR_BLE_1MBIT2) (and_then (fi NRFX_FICR_BLE_1MBIT3)
          (fi NRFX_FICR_BLE_1MBIT4)))),
      [InfoLine.ble_1mbit (f NRFX_FICR_BLE_1MBIT0) (f NRFX_FICR_BLE_1MBIT1)
        (f NRFX_FICR_BLE_1MBIT2) (f NRFX_FICR_BLE_1MBIT3) (f NRFX_FICR_BLE_1MBIT4)]),
    (some true, [InfoLine.uicr_header]),
    (ui NRFX_UICR_CLENR0,
      [InfoLine.uicr_code_region_0_size
        (if u NRFX_UICR_CLENR0 = 0xFFFFFFFF then 0 else u NRFX_UICR_CLENR0)]),
    (ui NRFX_UICR_RBPCONF, [InfoLine.read_back_protection (u NRFX_UICR_RBPCONF &&& 0xFFFF)]),
    (ui NRFX_UICR_RBPCONF, [InfoLine.xtalfreq (u NRFX_UICR_RBPCONF &&& 0xFFFF)]),
    (ui NRFX_UICR_FWID, [InfoLine.firmware_id (u NRFX_UICR_FWID &&& 0xFFFF)]),
    (ui NRFX_UICR_APPROTECT, [InfoLine.approtect (u NRFX_UICR_APPROTECT)]),
    (ui NRFX_UICR_SECUREAPPROTECT, [InfoLine.secureapprotect (u NRFX_UICR_SECUREAPPROTECT)]),
    (ui NRFX_UICR_ERASEPROTECT, [InfoLine.eraseprotect (u NRFX_UICR_ERASEPROTECT)]) ]

/-- The text built from guarded lines: no result when a guard has none. -/
def info_text : List (Option Bool × List InfoLine) → Option (List InfoLine)
  | [] => some []
  | (none, _) :: _ => none
  | (some true, l) :: rest => (info_text rest).map fun t => l ++ t
  | (some false, _) :: rest => info_text rest

/-- The function `nrfx_info` of the driver (the name is taken by the chip
handle).  The result carries the text written to `buf`. -/
def nrfx_info_report (E : Env σ) (C : FlashCore σ) (bank : flash_bank) (chip : nrfx_info)
    (w : World σ) : Option (Ret × List InfoLine × flash_bank × nrfx_info × World σ) :=
  let ficr : List Nat := List.replicate NRFX_FICR_NREGS 0
  let uicr : List Nat := List.replicate NRFX_UICR_NREGS 0
  match nrfx_get_probed_chip_if_halted E C bank chip w with
  | none => none
  | some (res, bank, chip, w1) =>
    if res ≠ ERROR_OK then some (res, [], bank, chip, w1)
    else
      match nrfx_info_read_loop (ficr_read E chip) chip.ficr_registers NRFX_FICR_NREGS 0
          ficr w1 with
      | none => none
      | some (res, ficr, w2) =>
        if res ≠ ERROR_OK then some (res, [], bank, chip, w2)
        else
          match nrfx_info_read_loop (uicr_read E chip) chip.uicr_registers NRFX_UICR_NREGS 0
              uicr w2 with
          | none => none
          | some (res, uicr, w3) =>
            if res ≠ ERROR_OK then some (res, [], bank, chip, w3)
            else
              (info_text (nrfx_info_lines chip ficr uicr)).map
                fun text => (ERROR_OK, text, bank, chip, w3)

end EraseEngine

/-! ## Chips of the supported families -/

/-- The chip handle `nrfx_flash_bank_command` creates for a family: zeroed,
with the three tables of the family.  An unsupported family keeps null table
pointers, written as empty tables. -/
def new_chip (family : Int) : nrfx_info :=
  let zeroed : nrfx_info :=
    { code_page_size := 0, refcount := 0,
      bank0 := ⟨false, write_fn.none⟩, bank1 := ⟨false, write_fn.none⟩,
      family := family, ficr_registers := [], uicr_registers := [], nvmc_registers := [] }
  if family = 51 then
    { zeroed with ficr_registers := nrf51_ficr_registers,
                  uicr_registers := nrf51_uicr_registers,
                  nvmc_registers := nrf5_nvmc_registers }
  else if family = 52 then
    { zeroed with ficr_registers := nrf52_ficr_registers,
                  uicr_registers := nrf52_uicr_registers,
                  nvmc_registers := nrf5_nvmc_registers }
  else if family = 91 then
    { zeroed with ficr_registers := nrf91_ficr_registers,
                  uicr_registers := nrf91_uicr_registers,
                  nvmc_registers := nrf91_nvmc_registers }
  else zeroed

/-- A code-flash bank as the flash core hands it to the driver before a probe. -/
def code_bank : flash_bank :=
  { base := NRFX_FLASH_BASE, size := 0, bank_number := 0, num_sectors := 0, sectors := none }

/-! ## A target model

A target in which every transaction succeeds and writes store what is written.
Word registers (reached by `target_read_u32` and `target_write_u32`) and device
memory (reached by the block transfers and by the loader) are kept apart. -/

/-- State of the model target. -/
structure Mem where
  /-- content of each word register, by address -/
  regs : Nat → Nat
  /-- content of each byte of device memory, by address -/
  bytes : Nat → Nat
  /-- host clock, in ms -/
  clock : Int
  /-- outcome of the coming requests for a working area, in order; a request
  beyond the list is refused -/
  allocs : List Bool
  /-- address of the working areas handed out -/
  work_area : Nat

/-- Device memory after `data` has been stored at `addr`. -/
def Mem.store (m : Mem) (addr : Nat) (data : List Nat) : Mem :=
  { m with bytes := fun a =>
      if addr ≤ a ∧ a < addr + data.length then data.getD (a - addr) 0 else m.bytes a }

/-- The bytes `[addr, addr + n)` of device memory. -/
def Mem.load (m : Mem) (addr n : Nat) : List Nat :=
  (List.range n).map fun i => m.bytes (addr + i)

/-- The model target: all transactions but the working-area requests succeed;
the loader run stores its data stream at the address in `r3`. -/
def memEnv : Env Mem where
  read_u32 s addr := (ERROR_OK, s.regs addr, s)
  write_u32 s addr v :=
    (ERROR_OK, { s with regs := fun a => if a = addr then v else s.regs a })
  read_memory s addr size count := (ERROR_OK, s.load addr (size * count), s)
  write_memory s addr _ _ data := (ERROR_OK, s.store addr data)
  write_buffer s addr _ data := (ERROR_OK, s.store addr data)
  alloc_working_area s size :=
    match s.allocs with
    | true :: rest => (ERROR_OK, ⟨s.work_area, size⟩, { s with allocs := rest })
    | false :: rest => (ERROR_TARGET_RESOURCE_NOT_AVAILABLE, ⟨0, 0⟩, { s with allocs := rest })
    | [] => (ERROR_TARGET_RESOURCE_NOT_AVAILABLE, ⟨0, 0⟩, s)
  free_working_area s _ := s
  run_flash_async_algorithm s data _ _ reg_params _ _ _ _ :=
    (ERROR_OK, s.store (reg_params.getD 3 0) data)
  timeval_ms s := (s.clock, { s with clock := s.clock + 1 })
  calloc s _ := (true, s)

/-- A world of the model target with nothing issued or logged yet. -/
def memWorld (m : Mem) : World Mem := { st := m, txns := [], logs := [] }


/-! ## Statement vocabulary and concrete inputs -/

/-- Lowest-index entry of a table that satisfies `Q`. -/
def is_first_entry (Q : nrfx_device_spec → Prop) (tbl : List nrfx_device_spec) (i : Nat)
    (e : nrfx_device_spec) : Prop :=
  tbl[i]? = some e ∧ Q e ∧ ∀ j e', j < i → tbl[j]? = some e' → ¬ Q e'

/-- The test an entry passes in the catalog scan. -/
def scan_match (have_hwid have_part hwid part : Nat) (e : nrfx_device_spec) : Prop :=
  (e.have_hwid ≠ 0 ∧ have_hwid ≠ 0 ∧ hwid = e.id_hwid) ∨
  (¬ e.have_hwid ≠ 0 ∧ have_part ≠ 0 ∧ part = e.id_part)

/-- A chip handle without identifier registers: all factory-information
registers unimplemented. -/
def chip_without_ids : nrfx_info :=
  { new_chip 51 with ficr_registers := List.replicate 39 NRFX_UNIMPLEMENTED }

/-- Registers of a nRF51 device whose CONFIGID reads `config_id`: 2 pages of
1024 bytes, no code region 0. -/
def regs51 (config_id : Nat) : Nat → Nat := fun a =>
  if a = 0x1000005C then config_id
  else if a = 0x10000010 then 1024
  else if a = 0x10000014 then 2
  else 0xFFFFFFFF

/-- Registers of a nRF52 device whose PART reads `part`: 2 pages of 4096 bytes,
FLASH reads 8 kB. -/
def regs52 (part : Nat) : Nat → Nat := fun a =>
  if a = 0x10000100 then part
  else if a = 0x10000010 then 4096
  else if a = 0x10000014 then 2
  else if a = 0x10000110 then 8
  else 0xFFFFFFFF

/-- A model target with the given registers, blank memory, no working area. -/
def memOf (regs : Nat → Nat) : Mem :=
  { regs := regs, bytes := fun _ => 0xFF, clock := 0, allocs := [], work_area := 0x20000000 }

/-- Every word read of the environment succeeds and yields `regs addr`,
whatever the state: the registers hold `regs`. -/
def reads_as {σ : Type} (E : Env σ) (regs : Nat → Nat) : Prop :=
  ∀ s a, (E.read_u32 s a).1 = ERROR_OK ∧ (E.read_u32 s a).2.1 = regs a

/-- The sectors with the protected flag `nrfx_protect_check` computes from the
boundary `clenr0`. -/
def protect_flags (clenr0 : Nat) (sectors : List flash_sector) : List flash_sector :=
  sectors.map fun s =>
    { s with is_protected := if clenr0 ≠ 0xFFFFFFFF ∧ s.offset < clenr0 then 1 else 0 }

/-- The boundary `nrfx_protect_check` applies to a code-flash bank on a chip
whose registers hold `regs`: all-ones when the factory register is not
implemented; the factory value when it is not all-ones; the user value when
the factory value is all-ones and the user register is implemented. -/
def clenr0_applied (chip : nrfx_info) (regs : Nat → Nat) (v : Nat) : Prop :=
  (chip.ficr_registers[NRFX_FICR_CLENR0 &&& REG_INDEX_MASK]? = some NRFX_UNIMPLEMENTED ∧
    v = 0xFFFFFFFF) ∨
  (∃ a, chip.ficr_registers[NRFX_FICR_CLENR0 &&& REG_INDEX_MASK]? = some a ∧
    a ≠ NRFX_UNIMPLEMENTED ∧ regs a ≠ 0xFFFFFFFF ∧ v = regs a) ∨
  (∃ a u, chip.ficr_registers[NRFX_FICR_CLENR0 &&& REG_INDEX_MASK]? = some a ∧
    a ≠ NRFX_UNIMPLEMENTED ∧ regs a = 0xFFFFFFFF ∧
    chip.uicr_registers[NRFX_UICR_CLENR0 &&& REG_INDEX_MASK]? = some u ∧
    u ≠ NRFX_UNIMPLEMENTED ∧ v = regs u)

/-- A target whose word registers hold `regs` and never change; block
transfers deliver erased bytes, no working area is available, host allocations
succeed. -/
def regEnv (regs : Nat → Nat) : Env Unit where
  read_u32 _ addr := (ERROR_OK, regs addr, ())
  write_u32 _ _ _ := (ERROR_OK, ())
  read_memory _ _ size count := (ERROR_OK, List.replicate (size * count) 0xFF, ())
  write_memory _ _ _ _ _ := (ERROR_OK, ())
  write_buffer _ _ _ _ := (ERROR_OK, ())
  alloc_working_area _ _ := (ERROR_TARGET_RESOURCE_NOT_AVAILABLE, ⟨0, 0⟩, ())
  free_working_area _ _ := ()
  run_flash_async_algorithm _ _ _ _ _ _ _ _ _ := (ERROR_OK, ())
  timeval_ms _ := (0, ())
  calloc _ _ := (true, ())

/-- The world of `regEnv` with nothing issued or logged yet. -/
def regWorld : World Unit := { st := (), txns := [], logs := [] }

/-- A code-flash bank of `n` pages of `p` bytes as the probe lays it out. -/
def probed_bank (n p : Nat) : flash_bank :=
  { base := NRFX_FLASH_BASE, size := u32 (n * p), bank_number := 0, num_sectors := n,
    sectors := some ((List.range n).map fun i => ⟨u32 (i * p), p, -1, -1⟩) }

/-- A register map no family has: the factory-information table of the nRF52
(no CLENR0) with the user table of the nRF51 (CLENR0 at 0x10001000). -/
def chip_uicr_clenr0_only : nrfx_info :=
  { new_chip 52 with uicr_registers := nrf51_uicr_registers }

/-- Registers of a nRF51 (legacy id 0x001D) with `n` pages of `p` bytes and no
code region 0. -/
def regs51_geometry (p n : Nat) : Nat → Nat := fun a =>
  if a = 0x1000005C then 0x001D
  else if a = 0x10000010 then p
  else if a = 0x10000014 then n
  else 0xFFFFFFFF

/-- A relation between the world before and after that every step of the
controller state machine respects: logging, a word read, a word write and a
reading of the host clock. -/
structure CtrlRel {σ : Type} (E : Env σ) (R : World σ → World σ → Prop) : Prop where
  refl : ∀ w, R w w
  trans : ∀ a b c, R a b → R b c → R a c
  log : ∀ m w, R w (LOG m w)
  read_u32 : ∀ a w, R w (target_read_u32 E a w).2.2
  write_u32 : ∀ a v w, R w (target_write_u32 E a v w).2
  timeval : ∀ w, R w (timeval_ms E w).2

/-- Whether a transaction is a block read of device memory. -/
def Txn.is_read_memory : Txn → Bool
  | Txn.read_memory _ _ _ => true
  | _ => false

/-- The world `w'` comes from `w` by transactions none of which is a block
read of device memory. -/
def no_read_since {σ : Type} (w w' : World σ) : Prop :=
  ∃ extra, w'.txns = w.txns ++ extra ∧ ∀ t ∈ extra, t.is_read_memory = false

/-- A nRF51 chip handle with a page size of 2048 bytes. -/
def chip51_2k : nrfx_info := { new_chip 51 with code_page_size := 2048 }

/-- The world `w'` has the device memory of `w`. -/
def same_bytes (w w' : World Mem) : Prop := w'.st.bytes = w.st.bytes

/-- The controller of `chip` is ready in the state `s` of the model target:
READY and CONFIG are implemented at two different addresses and READY reads 1. -/
def ctrl_ready (chip : nrfx_info) (s : Mem) : Prop :=
  ∃ r c, chip.nvmc_registers[NRFX_NVMC_READY &&& REG_INDEX_MASK]? = some r ∧
    r ≠ NRFX_UNIMPLEMENTED ∧
    chip.nvmc_registers[NRFX_NVMC_CONFIG &&& REG_INDEX_MASK]? = some c ∧
    c ≠ NRFX_UNIMPLEMENTED ∧ r ≠ c ∧ s.regs r = 1

/-- The coming working-area requests either start with a refusal (the slow
path is taken) or with two grants (loader and FIFO of the fast path). -/
def allocs_usable (s : Mem) : Prop :=
  s.allocs = [] ∨ (∃ rest, s.allocs = false :: rest) ∨ ∃ rest, s.allocs = true :: true :: rest

/-- A nRF51 chip handle with a page size of 8 bytes. -/
def chip51_8 : nrfx_info := { new_chip 51 with code_page_size := 8 }

/-- Registers of a device whose flash controller reports ready. -/
def regs_ready : Nat → Nat := fun a => if a = 0x4001E400 then 1 else 0

/-- A flash core for the register-only target: the target is halted or not as
given, the blank check finds every sector erased (block reads of `regEnv`
deliver erased bytes) after one block read of the bank. -/
def regCore (halted : Bool) : FlashCore Unit where
  target_halted _ := halted
  default_flash_blank_check bank w :=
    (ERROR_OK,
      { bank with sectors := bank.sectors.map fun l => l.map fun s => { s with is_erased := 1 } },
      { w with txns := w.txns ++ [Txn.read_memory bank.base 1 bank.size] })
  usleep s _ := s

/-- A flash core for the model target: the blank check reads the bank and
marks a sector erased exactly when all its bytes are 0xFF. -/
def memCore (halted : Bool) : FlashCore Mem where
  target_halted _ := halted
  default_flash_blank_check bank w :=
    (ERROR_OK,
      { bank with sectors := bank.sectors.map fun l => l.map fun s =>
          { s with is_erased :=
              if (List.range s.size).all fun i => w.st.bytes (bank.base + s.offset + i) == 0xFF
              then 1 else 0 } },
      { w with txns := w.txns ++ [Txn.read_memory bank.base 1 bank.size] })
  usleep s _ := s

/-- The configuration-region bank of a nRF51 or nRF52 as the probe lays it out. -/
def uicr_bank5 : flash_bank :=
  { base := NRF5_UICR_BASE, size := NRFX_UICR_SIZE, bank_number := 1, num_sectors := 1,
    sectors := some [⟨0, NRFX_UICR_SIZE, 0, 0⟩] }

/-- The configuration-region bank of a nRF91 as the probe lays it out. -/
def uicr_bank9 : flash_bank :=
  { base := NRF9_UICR_BASE, size := NRFX_UICR_SIZE, bank_number := 1, num_sectors := 1,
    sectors := some [⟨0, NRFX_UICR_SIZE, 0, 0⟩] }

/-- A code-flash bank of two pages of 1024 bytes whose first page is protected. -/
def bank_first_page_protected : flash_bank :=
  { base := NRFX_FLASH_BASE, size := 2048, bank_number := 0, num_sectors := 2,
    sectors := some [⟨0, 1024, -1, 1⟩, ⟨1024, 1024, -1, 0⟩] }

/-- Registers of a nRF91 whose flash controller reports ready. -/
def regs_ready9 : Nat → Nat := fun a => if a = 0x50039400 then 1 else 0

/-- A target whose word reads yield 1 for the first `n` reads and 0 from then
on (`n` is the first component of the state): a controller that stays busy.
Every transaction succeeds, no working area is available, and the host clock
(the second component) advances by 400 ms per reading. -/
def stallEnv : Env (Nat × Int) where
  read_u32 s _ := (ERROR_OK, if 0 < s.1 then 1 else 0, (s.1 - 1, s.2))
  write_u32 s _ _ := (ERROR_OK, s)
  read_memory s _ size count := (ERROR_OK, List.replicate (size * count) 0xFF, s)
  write_memory s _ _ _ _ := (ERROR_OK, s)
  write_buffer s _ _ _ := (ERROR_OK, s)
  alloc_working_area s _ := (ERROR_TARGET_RESOURCE_NOT_AVAILABLE, ⟨0, 0⟩, s)
  free_working_area s _ := s
  run_flash_async_algorithm s _ _ _ _ _ _ _ _ := (ERROR_OK, s)
  timeval_ms s := (s.2, (s.1, s.2 + 400))
  calloc s _ := (true, s)

/-- The flash core that goes with `stallEnv`: a halted target, a blank check
that changes nothing. -/
def stallCore : FlashCore (Nat × Int) where
  target_halted _ := true
  default_flash_blank_check bank w := (ERROR_OK, bank, w)
  usleep s usec := (s.1, s.2 + usec / 1000)

/-- The world of `stallEnv` in which the next `n` word reads yield 1. -/
def stallWorld (n : Nat) : World (Nat × Int) := { st := (n, 0), txns := [], logs := [] }

/-- The register-only target with block reads that fail. -/
def noReadEnv (regs : Nat → Nat) : Env Unit :=
  { regEnv regs with read_memory := fun _ _ _ _ => (ERROR_FAIL, [], ()) }

/-- Registers of a nRF51 without pre-programmed code whose user register
CLENR0 has been programmed with 0x4000. -/
def regs51_clenr0_set : Nat → Nat := fun a =>
  if a = 0x1000002C then 0xFF
  else if a = 0x10001000 then 0x4000
  else 0xFFFFFFFF

/-- The chip handle of a nRF51 whose code-flash bank has been probed. -/
def chip51_probed : nrfx_info :=
  { new_chip 51 with code_page_size := 1024,
                     bank0 := ⟨true, write_fn.nrfx_code_flash_write⟩,
                     bank1 := ⟨false, write_fn.nrfx_uicr_flash_write⟩ }

/-- The bytes `data` laid out from the address `addr` on: each byte with the
address it goes to. -/
def image : Nat → List Nat → List (Nat × Nat)
  | _, [] => []
  | addr, b :: rest => (addr, b) :: image (addr + 1) rest

/-- The bytes a transaction programs into device memory, each with its
address: a block write stores its data at its address, a loader run stores the
data stream from the address in `r3` on.  (The upload of the loader into the
working area, `write_buffer`, is not a write into device memory.) -/
def Txn.stored : Txn → List (Nat × Nat)
  | Txn.write_memory addr _ _ data => image addr data
  | Txn.run_flash_async_algorithm data _ _ reg_params _ _ _ _ =>
    image (reg_params.getD 3 0) data
  | _ => []

/-- The bytes a list of transactions programs into device memory, in order. -/
def streamed : List Txn → List (Nat × Nat)
  | [] => []
  | t :: rest => t.stored ++ streamed rest

/-- The world `w'` comes from `w` by transactions that program exactly the
bytes `l` into device memory. -/
def streams_since {σ : Type} (w w' : World σ) (l : List (Nat × Nat)) : Prop :=
  ∃ extra, w'.txns = w.txns ++ extra ∧ streamed extra = l

/-- The register-only target with a working area for the loader and an upload
(`write_buffer`) that fails. -/
def uploadFailEnv (regs : Nat → Nat) : Env Unit :=
  { regEnv regs with
    alloc_working_area := fun _ size => (ERROR_OK, ⟨0x20000000, size⟩, ()),
    write_buffer := fun _ _ _ _ => (ERROR_FAIL, ()) }

/-- The common shape of the three mode transitions `nrfx_nvmc_erase_enable`,
`nrfx_nvmc_write_enable` and `nrfx_nvmc_read_only`, which differ in the mode
code and in their two messages only. -/
def nrfx_nvmc_transition {σ : Type} (E : Env σ) (fuel : Nat) (chip : nrfx_info) (mode : Nat)
    (failed incomplete : LogMsg) (w : World σ) : Option (Ret × World σ) :=
  match nvmc_write E chip NRFX_NVMC_CONFIG mode w with
  | none => none
  | some (res, w1) =>
    if res ≠ ERROR_OK then some (res, LOG failed w1)
    else
      match nrfx_wait_for_nvmc E fuel chip w1 with
      | none => none
      | some (res, w2) =>
        if res ≠ ERROR_OK then some (res, LOG incomplete w2)
        else some (res, w2)

/-- The host clock of an environment advances: `clock` is what a reading of
the clock yields, every reading takes at least 1 ms and a word read does not
turn the clock back. -/
structure ClockAdvances {σ : Type} (E : Env σ) (clock : σ → Int) : Prop where
  reading : ∀ s, (E.timeval_ms s).1 = clock s
  tick : ∀ s, clock s + 1 ≤ clock (E.timeval_ms s).2
  read_u32 : ∀ s a, clock s ≤ clock (E.read_u32 s a).2.2

/-- What the claim says of a mode transition `T` with mode code `mode` on a
chip with CONFIG at `c` and READY at `r`, started in the world `w`.
* If the CONFIG write fails, `T` returns that error and the write is its only
  transaction: there is no poll.
* Whatever `T` returns, its transactions are that one write of the mode code
  to CONFIG followed by reads of READY only.
* If the CONFIG write succeeds, `T` returns the code of the ready wait started
  in the world after the write.
* If the CONFIG write succeeds and every READY read yields a value other than
  1, `T` can only return `ERROR_FLASH_BUSY`, and under a clock that advances it
  does return it (340 polls suffice). -/
def transition_contract {σ : Type} (E : Env σ) (fuel : Nat) (chip : nrfx_info) (c r mode : Nat)
    (T : World σ → Option (Ret × World σ)) (w : World σ) : Prop :=
  ((E.write_u32 w.st c mode).1 ≠ ERROR_OK →
    ∃ w', T w = some ((E.write_u32 w.st c mode).1, w') ∧
      w'.txns = w.txns ++ [Txn.write_u32 c mode]) ∧
  (∀ res w', T w = some (res, w') →
    ∃ k, w'.txns = w.txns ++ Txn.write_u32 c mode :: List.replicate k (Txn.read_u32 r)) ∧
  ((E.write_u32 w.st c mode).1 = ERROR_OK →
    (T w).map Prod.fst
      = (nrfx_wait_for_nvmc E fuel chip (target_write_u32 E c mode w).2).map Prod.fst) ∧
  ((E.write_u32 w.st c mode).1 = ERROR_OK →
    (∀ s, (E.read_u32 s r).1 = ERROR_OK ∧ (E.read_u32 s r).2.1 ≠ 1) →
    (∀ res w', T w = some (res, w') → res = ERROR_FLASH_BUSY) ∧
    (∀ clock, ClockAdvances E clock → 340 ≤ fuel →
      ∃ w', T w = some (ERROR_FLASH_BUSY, w')))

/-- A target whose word registers hold `regs` and never change, with a host
clock (the state) that advances by 1 ms per reading; every transaction
succeeds, no working area is available. -/
def clockEnv (regs : Nat → Nat) : Env Int where
  read_u32 s addr := (ERROR_OK, regs addr, s)
  write_u32 s _ _ := (ERROR_OK, s)
  read_memory s _ size count := (ERROR_OK, List.replicate (size * count) 0xFF, s)
  write_memory s _ _ _ _ := (ERROR_OK, s)
  write_buffer s _ _ _ := (ERROR_OK, s)
  alloc_working_area s _ := (ERROR_TARGET_RESOURCE_NOT_AVAILABLE, ⟨0, 0⟩, s)
  free_working_area s _ := s
  run_flash_async_algorithm s _ _ _ _ _ _ _ _ := (ERROR_OK, s)
  timeval_ms s := (s, s + 1)
  calloc s _ := (true, s)

/-- The sizes `nrfx_ll_flash_write` can request for the FIFO area, in order. -/
def fifo_sizes : List Nat := [8192, 4096, 2048, 1024, 512]

/-- The register-only target with a working area for requests of at most 256
bytes (the loader) and none for larger ones (the FIFO). -/
def noFifoEnv (regs : Nat → Nat) : Env Unit :=
  { regEnv regs with
    alloc_working_area := fun _ size =>
      if size ≤ 256 then (ERROR_OK, ⟨0x20000000, size⟩, ())
      else (ERROR_TARGET_RESOURCE_NOT_AVAILABLE, ⟨0, 0⟩, ()) }

/-- Whether a transaction is a read of a word register. -/
def Txn.is_read_u32 : Txn → Bool
  | Txn.read_u32 _ => true
  | _ => false

/-- The word writes of the first `k` iterations of the fallback loop of
`nrfx_ll_flash_write`: iteration `i` hands the 4 bytes `buffer[4i .. 4i+4)` to
the address `offset + 4i` (in 32 bits). -/
def word_writes (offset : Nat) (buffer : List Nat) (k : Nat) : List Txn :=
  (List.range k).map fun i =>
    Txn.write_memory (u32 (offset + 4 * i)) 4 1 ((buffer.drop (4 * i)).take 4)

/-- The erase of a list of sectors as the specification words it: the page
erase is attempted on the sectors of the list in order; the first one that
does not return `ERROR_OK` ends the operation with its code, and no later
sector is attempted; when all return `ERROR_OK` so does the operation. -/
def erase_pages_in_order {σ : Type} (E : Env σ) (C : FlashCore σ) (fuel : Nat)
    (chip : nrfx_info) : List Nat → flash_bank → World σ → Option (Ret × flash_bank × World σ)
  | [], bank, w => some (ERROR_OK, bank, w)
  | s :: rest, bank, w =>
    match nrfx_erase_page E C fuel bank chip s w with
    | none => none
    | some (res, bank1, w1) =>
      if res ≠ ERROR_OK then some (res, bank1, w1)
      else erase_pages_in_order E C fuel chip rest bank1 w1

/-- Every page erase of the list, run in order, returns `ERROR_OK`. -/
def all_pages_erased {σ : Type} (E : Env σ) (C : FlashCore σ) (fuel : Nat)
    (chip : nrfx_info) : List Nat → flash_bank → World σ → Prop
  | [], _, _ => True
  | s :: rest, bank, w =>
    ∃ bank1 w1, nrfx_erase_page E C fuel bank chip s w = some (ERROR_OK, bank1, w1) ∧
      all_pages_erased E C fuel chip rest bank1 w1

/-- The sectors `first, first + 1, ..., last`, in ascending order. -/
def sector_range (first last : Int) : List Nat :=
  (List.range (last - first + 1).toNat).map fun i => first.toNat + i

/-- The word read at the address `a` succeeds and yields `regs a`, whatever the
state. -/
def reads_at {σ : Type} (E : Env σ) (regs : Nat → Nat) (a : Nat) : Prop :=
  ∀ s, (E.read_u32 s a).1 = ERROR_OK ∧ (E.read_u32 s a).2.1 = regs a

/-- The word read at the address `a` returns the code `e`, whatever the state. -/
def read_fails_at {σ : Type} (E : Env σ) (a : Nat) (e : Ret) : Prop :=
  ∀ s, (E.read_u32 s a).1 = e

/-- The register-only target on which the word read at the address `bad`
fails. -/
def readFailEnv (regs : Nat → Nat) (bad : Nat) : Env Unit :=
  { regEnv regs with
    read_u32 := fun _ a => if a = bad then (ERROR_FAIL, 0, ()) else (ERROR_OK, regs a, ()) }

/-- A relation between the world before and after that every step of the probe
respects: logging, a word read and a host allocation. -/
structure ProbeRel {σ : Type} (E : Env σ) (R : World σ → World σ → Prop) : Prop where
  refl : ∀ w, R w w
  trans : ∀ a b c, R a b → R b c → R a c
  log : ∀ m w, R w (LOG m w)
  read_u32 : ∀ a w, R w (target_read_u32 E a w).2.2
  calloc : ∀ n w, R w (calloc E n w).2

/-- The world `w'` comes from `w` by transactions each of which is a word read
or the word write of the value `v` at the address `a`. -/
def writes_only {σ : Type} (a v : Nat) (w w' : World σ) : Prop :=
  ∃ extra, w'.txns = w.txns ++ extra ∧
    ∀ t ∈ extra, (∃ r, t = Txn.read_u32 r) ∨ t = Txn.write_u32 a v

/-- The world `w'` has the target state of `w`. -/
def same_state {σ : Type} (w w' : World σ) : Prop := w'.st = w.st

/-- The address of the user register CLENR0 in the table of the chip. -/
def uicr_clenr0_addr (chip : nrfx_info) : Nat :=
  (chip.uicr_registers[NRFX_UICR_CLENR0 &&& REG_INDEX_MASK]?).getD NRFX_UNIMPLEMENTED

/-- Registers of a nRF51 without pre-programmed code and without code
region 0: PPFC reads 0xFF, every other register all-ones. -/
def regs51_blank : Nat → Nat := fun a => if a = 0x1000002C then 0xFF else 0xFFFFFFFF

/-- A target model in which writes store their value: a word read and a host
allocation leave the state of the target as it is, and so does the word write
of the value the register holds. -/
def store_model {σ : Type} (E : Env σ) : Prop :=
  (∀ s a, (E.read_u32 s a).2.2 = s) ∧ (∀ s n, (E.calloc s n).2 = s) ∧
  (∀ s a, (E.write_u32 s a (E.read_u32 s a).2.1).2 = s)

section MassErase

variable {σ : Type}

/-- The function `nrfx_handle_mass_erase_command`.  The bank lookup of the
flash core, `get_flash_bank_by_addr (target, addr, true, &bank)`, is a
parameter: it yields its return code, the bank it has found together with the
chip handle the bank points to, and the world after it.  The handler returns
its code, the bank whose protection flags it has last computed, and the
world. -/
def nrfx_handle_mass_erase_command (E : Env σ) (C : FlashCore σ)
    (get_flash_bank_by_addr : Nat → World σ → Ret × Option (flash_bank × nrfx_info) × World σ)
    (fuel : Nat) (_family : Int) (w : World σ) :
    Option (Ret × Option (flash_bank × nrfx_info) × World σ) :=
  let g := get_flash_bank_by_addr NRFX_FLASH_BASE w
  if g.1 ≠ ERROR_OK then some (g.1, none, g.2.2)
  else
    match g.2.1 with
    | none => none  -- assert(bank != NULL)
    | some (bank, chip) =>
      match nrfx_get_probed_chip_if_halted E C bank chip g.2.2 with
      | none => none
      | some (res, bank, chip, w1) =>
        if res ≠ ERROR_OK then some (res, some (bank, chip), w1)
        else
          match ficr_read E chip NRFX_FICR_PPFC 0 w1 with
          | none => none
          | some (res, ppfc, w2) =>
            if res ≠ ERROR_OK then
              some (res, some (bank, chip), LOG LogMsg.mass_erase_ppfc_read_failed w2)
            else if ppfc &&& 0xFF = 0x00 then
              some (ERROR_FAIL, some (bank, chip), LOG LogMsg.mass_erase_preprogrammed w2)
            else
              match nrfx_erase_all E C fuel chip w2 with
              | none => none
              | some (res, w3) =>
                if res ≠ ERROR_OK then
                  match nrfx_protect_check E bank chip (LOG LogMsg.mass_erase_failed w3) with
                  | none => none
                  | some (_, bank, w4) => some (res, some (bank, chip), w4)
                else
                  match nrfx_protect_check E bank chip w3 with
                  | none => none
                  | some (res, bank, w4) =>
                    if res ≠ ERROR_OK then
                      some (res, some (bank, chip),
                        LOG LogMsg.mass_erase_protect_check_failed w4)
                    else
                      let g2 := get_flash_bank_by_addr (nrfx_uicr_base chip.family) w4
                      if g2.1 ≠ ERROR_OK then some (g2.1, some (bank, chip), g2.2.2)
                      else some (ERROR_OK, some (bank, chip), g2.2.2)

end MassErase

/-- The chip handle of a nRF52 whose banks have been probed. -/
def chip52_probed : nrfx_info :=
  { new_chip 52 with code_page_size := 4096,
                     bank0 := ⟨true, write_fn.nrfx_code_flash_write⟩,
                     bank1 := ⟨true, write_fn.nrfx_uicr_flash_write⟩ }

/-- A bank lookup of the flash core that finds the given bank, with its chip
handle, whatever the address, and issues nothing. -/
def bank_found {σ : Type} (bank : flash_bank) (chip : nrfx_info) :
    Nat → World σ → Ret × Option (flash_bank × nrfx_info) × World σ :=
  fun _ w => (ERROR_OK, some (bank, chip), w)

/-- A register map with both identifier registers: the factory-information
table of the nRF52 (PART at 0x10000100) with CONFIGID at the address the nRF51
has it (0x1000005C). -/
def chip_both_ids : nrfx_info :=
  { new_chip 52 with
    ficr_registers :=
      nrf52_ficr_registers.set (NRFX_FICR_CONFIGID &&& REG_INDEX_MASK) (NRF5_FICR_REG 0x05C) }

/-- Registers of a device whose CONFIGID reads the legacy id 0x001D and whose
PART reads 0x52832. -/
def regs_both_ids : Nat → Nat := fun a =>
  if a = 0x1000005C then 0x001D else regs52 0x52832 a

/-- Registers of a nRF91 with 2 pages of 4096 bytes (FLASH reads 8 kB) whose
PART reads 0x9160 and whose flash controller reports ready. -/
def regs91 : Nat → Nat := fun a =>
  if a = 0x50039400 then 1
  else if a = 0x00ff0220 then 4096
  else if a = 0x00ff0224 then 2
  else if a = 0x00ff020c then 0x9160
  else if a = 0x00ff021c then 8
  else 0xFFFFFFFF

/-- The code-region-0 read of `nrfx_protect_check` fails on the chip: the
factory register CLENR0 is implemented and
* its read returns a code other than `ERROR_OK` and other than
  `ERROR_TARGET_RESOURCE_NOT_AVAILABLE`, or
* its read succeeds and yields all-ones, and the read of the user register
  CLENR0 does not return `ERROR_OK`: that register is not implemented, or the
  target returns an error for it. -/
def clenr0_read_fails {σ : Type} (E : Env σ) (regs : Nat → Nat) (chip : nrfx_info) : Prop :=
  ∃ cl, chip.ficr_registers[NRFX_FICR_CLENR0 &&& REG_INDEX_MASK]? = some cl ∧
    cl ≠ NRFX_UNIMPLEMENTED ∧
    ((∃ e, read_fails_at E cl e ∧ e ≠ ERROR_OK ∧ e ≠ ERROR_TARGET_RESOURCE_NOT_AVAILABLE) ∨
     (reads_at E regs cl ∧ regs cl = 0xFFFFFFFF ∧
      ∃ ucl, chip.uicr_registers[NRFX_UICR_CLENR0 &&& REG_INDEX_MASK]? = some ucl ∧
        (ucl = NRFX_UNIMPLEMENTED ∨ ∃ e, read_fails_at E ucl e ∧ e ≠ ERROR_OK)))

/-- The register-only target on which the word read at the address `bad`
returns the code `e`. -/
def readCodeEnv (regs : Nat → Nat) (bad : Nat) (e : Ret) : Env Unit :=
  { regEnv regs with
    read_u32 := fun _ a => if a = bad then (e, 0, ()) else (ERROR_OK, regs a, ()) }

/-- Registers of a nRF51 (legacy id 0x001D) with 4 pages of 1024 bytes, no
code region 0 and a ready flash controller. -/
def regs51_ready_geometry : Nat → Nat := fun a =>
  if a = 0x4001E400 then 1 else regs51_geometry 1024 4 a

/-! # Theorems -/

section RegisterLayerProofs

variable {σ : Type}

/-- C1.  Register indirection: for every chip (any three tables), every
logical register id `r` and each of the three tables, if the entry the id
selects (index `r & REG_INDEX_MASK`) is the sentinel, the read and the write
through that table return `ERROR_TARGET_RESOURCE_NOT_AVAILABLE` and hand back
the world and the output word untouched (no transaction, no state change);
if it is any other address `a`, the result is exactly that of the
32-bit word read or write of the target at `a`. -/
theorem reg_access_sentinel_or_target (E : Env σ) (chip : nrfx_info) (r out val : Nat)
    (w : World σ) :
    (∀ a, chip.ficr_registers[r &&& REG_INDEX_MASK]? = some a →
      (a = NRFX_UNIMPLEMENTED →
        ficr_read E chip r out w = some (ERROR_TARGET_RESOURCE_NOT_AVAILABLE, out, w) ∧
        ficr_write E chip r val w = some (ERROR_TARGET_RESOURCE_NOT_AVAILABLE, w)) ∧
      (a ≠ NRFX_UNIMPLEMENTED →
        ficr_read E chip r out w = some (target_read_u32 E a w) ∧
        ficr_write E chip r val w = some (target_write_u32 E a val w))) ∧
    (∀ a, chip.uicr_registers[r &&& REG_INDEX_MASK]? = some a →
      (a = NRFX_UNIMPLEMENTED →
        uicr_read E chip r out w = some (ERROR_TARGET_RESOURCE_NOT_AVAILABLE, out, w) ∧
        uicr_write E chip r val w = some (ERROR_TARGET_RESOURCE_NOT_AVAILABLE, w)) ∧
      (a ≠ NRFX_UNIMPLEMENTED →
        uicr_read E chip r out w = some (target_read_u32 E a w) ∧
        uicr_write E chip r val w = some (target_write_u32 E a val w))) ∧
    (∀ a, chip.nvmc_registers[r &&& REG_INDEX_MASK]? = some a →
      (a = NRFX_UNIMPLEMENTED →
        nvmc_read E chip r out w = some (ERROR_TARGET_RESOURCE_NOT_AVAILABLE, out, w) ∧
        nvmc_write E chip r val w = some (ERROR_TARGET_RESOURCE_NOT_AVAILABLE, w)) ∧
      (a ≠ NRFX_UNIMPLEMENTED →
        nvmc_read E chip r out w = some (target_read_u32 E a w) ∧
        nvmc_write E chip r val w = some (target_write_u32 E a val w))) := by
  refine ⟨fun a ha => ⟨fun h => ?_, fun h => ?_⟩, fun a ha => ⟨fun h => ?_, fun h => ?_⟩,
    fun a ha => ⟨fun h => ?_, fun h => ?_⟩⟩ <;>
    simp [ficr_read, ficr_write, uicr_read, uicr_write, nvmc_read, nvmc_write,
      reg_read, reg_write, ha, h]

/-- Witness of C1 on the nRF91 chip, through the factory-information table:
PPFC is the sentinel, CODESIZE is implemented at 0x00ff0224. -/
theorem reg_access_sentinel_or_target_witness :
    (ficr_read memEnv (new_chip 91) NRFX_FICR_PPFC 7 (memWorld ⟨fun _ => 5, fun _ => 0, 0, [], 0⟩)
        = some (ERROR_TARGET_RESOURCE_NOT_AVAILABLE, 7,
            memWorld ⟨fun _ => 5, fun _ => 0, 0, [], 0⟩)) ∧
    (ficr_read memEnv (new_chip 91) NRFX_FICR_CODESIZE 7
        (memWorld ⟨fun _ => 5, fun _ => 0, 0, [], 0⟩)
        = some (target_read_u32 memEnv 0x00ff0224
            (memWorld ⟨fun _ => 5, fun _ => 0, 0, [], 0⟩))) :=
  ⟨(((reg_access_sentinel_or_target memEnv (new_chip 91) NRFX_FICR_PPFC 7 0
      (memWorld ⟨fun _ => 5, fun _ => 0, 0, [], 0⟩)).1 NRFX_UNIMPLEMENTED
        (by decide)).1 rfl).1,
   (((reg_access_sentinel_or_target memEnv (new_chip 91) NRFX_FICR_CODESIZE 7 0
      (memWorld ⟨fun _ => 5, fun _ => 0, 0, [], 0⟩)).1 0x00ff0224
        (by decide)).2 (by decide)).1⟩

end RegisterLayerProofs

section ProbeProofs

variable {σ : Type}

/-- C4.  On every chip whose factory-information table marks both CONFIGID
and PART as unimplemented, `nrfx_probe` returns `ERROR_FAIL`; the bank (its
geometry) and the chip handle (both probed flags) come back unchanged, the
state of the target is unchanged and no transaction has been issued: the
only effect is the one error message. -/
theorem nrfx_probe_no_identifier (E : Env σ) (bank : flash_bank) (chip : nrfx_info)
    (w : World σ)
    (hc : chip.ficr_registers[NRFX_FICR_CONFIGID &&& REG_INDEX_MASK]? = some NRFX_UNIMPLEMENTED)
    (hp : chip.ficr_registers[NRFX_FICR_PART &&& REG_INDEX_MASK]? = some NRFX_UNIMPLEMENTED) :
    ∃ w', nrfx_probe E bank chip w = some (ERROR_FAIL, bank, chip, w') ∧
      w'.st = w.st ∧ w'.txns = w.txns ∧
      w'.logs = w.logs ++ [LogMsg.no_identifier_register] := by
  refine ⟨LOG LogMsg.no_identifier_register w, ?_, rfl, rfl, rfl⟩
  simp [nrfx_probe, nrfx_probe_ids, ficr_is_implemented, hc, hp]

/-- Witness of C4: the probe of a code-flash bank on a chip without identifier
registers. -/
theorem nrfx_probe_no_identifier_witness :
    ∃ w', nrfx_probe memEnv code_bank chip_without_ids
        (memWorld ⟨fun _ => 0, fun _ => 0, 0, [], 0⟩)
        = some (ERROR_FAIL, code_bank, chip_without_ids, w') ∧
      w'.st = (memWorld ⟨fun _ => 0, fun _ => 0, 0, [], 0⟩).st ∧
      w'.txns = (memWorld ⟨fun _ => 0, fun _ => 0, 0, [], 0⟩).txns ∧
      w'.logs = (memWorld ⟨fun _ => 0, fun _ => 0, 0, [], 0⟩).logs
        ++ [LogMsg.no_identifier_register] :=
  nrfx_probe_no_identifier memEnv code_bank chip_without_ids _ (by decide) (by decide)

end ProbeProofs


section ScanProofs

theorem nrfx_probe_scan_first (have_hwid have_part hwid part : Nat) :
    ∀ (tbl : List nrfx_device_spec) (i0 : Nat) (spec : Option spec_ptr) (i : Nat)
      (e : nrfx_device_spec),
      is_first_entry (scan_match have_hwid have_part hwid part) tbl i e →
      nrfx_probe_scan have_hwid have_part hwid part tbl i0 spec = some ⟨i0 + i, e⟩ := by
  intro tbl
  induction tbl with
  | nil => intro i0 spec i e h; simp [is_first_entry] at h
  | cons x rest ih =>
    intro i0 spec i e h
    obtain ⟨hget, hQ, hmin⟩ := h
    cases i with
    | zero =>
      simp at hget
      subst hget
      unfold nrfx_probe_scan
      rcases hQ with h1 | h2
      · simp [h1]
      · have : ¬ (x.have_hwid ≠ 0 ∧ have_hwid ≠ 0 ∧ hwid = x.id_hwid) := fun h => h2.1 h.1
        rw [if_neg this, if_pos h2]
        rfl
    | succ k =>
      have hx : ¬ scan_match have_hwid have_part hwid part x :=
        hmin 0 x (Nat.succ_pos k) (by simp)
      have hx1 : ¬ (x.have_hwid ≠ 0 ∧ have_hwid ≠ 0 ∧ hwid = x.id_hwid) :=
        fun h => hx (Or.inl h)
      have hx2 : ¬ (¬ x.have_hwid ≠ 0 ∧ have_part ≠ 0 ∧ part = x.id_part) :=
        fun h => hx (Or.inr h)
      unfold nrfx_probe_scan
      simp only [hx1, hx2, if_false]
      have := ih (i0 + 1) (some ⟨i0, x⟩) k e
        ⟨by simpa using hget, hQ, fun j e' hj hj' => hmin (j + 1) e' (by omega) (by simpa using hj')⟩
      rw [this]
      congr 2
      omega

theorem nrfx_probe_scan_no_match (have_hwid have_part hwid part : Nat) :
    ∀ (init : List nrfx_device_spec) (l : nrfx_device_spec) (i0 : Nat) (spec : Option spec_ptr),
      (∀ e ∈ init ++ [l], ¬ scan_match have_hwid have_part hwid part e) →
      nrfx_probe_scan have_hwid have_part hwid part (init ++ [l]) i0 spec =
        some ⟨i0 + init.length, l⟩ := by
  intro init
  induction init with
  | nil =>
    intro l i0 spec h
    have hx := h l (by simp)
    have hx1 : ¬ (l.have_hwid ≠ 0 ∧ have_hwid ≠ 0 ∧ hwid = l.id_hwid) :=
      fun h => hx (Or.inl h)
    have hx2 : ¬ (¬ l.have_hwid ≠ 0 ∧ have_part ≠ 0 ∧ part = l.id_part) :=
      fun h => hx (Or.inr h)
    simp only [List.nil_append, nrfx_probe_scan, if_neg hx1, if_neg hx2, List.length_nil,
      Nat.add_zero]
  | cons x rest ih =>
    intro l i0 spec h
    have hx := h x (by simp)
    have hx1 : ¬ (x.have_hwid ≠ 0 ∧ have_hwid ≠ 0 ∧ hwid = x.id_hwid) :=
      fun h => hx (Or.inl h)
    have hx2 : ¬ (¬ x.have_hwid ≠ 0 ∧ have_part ≠ 0 ∧ part = x.id_part) :=
      fun h => hx (Or.inr h)
    have hstep : nrfx_probe_scan have_hwid have_part hwid part (x :: (rest ++ [l])) i0 spec
        = nrfx_probe_scan have_hwid have_part hwid part (rest ++ [l]) (i0 + 1)
            (some ⟨i0, x⟩) := by
      rw [nrfx_probe_scan, if_neg hx1, if_neg hx2]
    rw [List.cons_append, hstep,
      ih l (i0 + 1) (some ⟨i0, x⟩) (fun e he => h e (by simp at he ⊢; tauto))]
    simp only [List.length_cons, Option.some.injEq, spec_ptr.mk.injEq, and_true]
    omega

/-- The scan never leaves the pointer null on a table that is not empty. -/
theorem nrfx_probe_scan_some (have_hwid have_part hwid part : Nat) :
    ∀ (tbl : List nrfx_device_spec) (i0 : Nat) (spec : Option spec_ptr), tbl ≠ [] →
      ∃ sp, nrfx_probe_scan have_hwid have_part hwid part tbl i0 spec = some sp := by
  intro tbl
  induction tbl with
  | nil => intro _ _ h; exact absurd rfl h
  | cons x rest ih =>
    intro i0 spec _
    unfold nrfx_probe_scan
    split
    · exact ⟨_, rfl⟩
    · split
      · exact ⟨_, rfl⟩
      · cases rest with
        | nil => exact ⟨_, rfl⟩
        | cons y ys => exact ih _ _ (by simp)

theorem exists_first_entry (Q : nrfx_device_spec → Prop) (tbl : List nrfx_device_spec)
    (h : ∃ e ∈ tbl, Q e) : ∃ i e, is_first_entry Q tbl i e := by
  classical
  obtain ⟨e0, he0, hQ0⟩ := h
  obtain ⟨i0, hi0⟩ := List.getElem?_of_mem he0
  have hex : ∃ i, ∃ e, tbl[i]? = some e ∧ Q e := ⟨i0, e0, hi0, hQ0⟩
  obtain ⟨e, he, hQ⟩ := Nat.find_spec hex
  refine ⟨Nat.find hex, e, he, hQ, fun j e' hj hj' hQ' => ?_⟩
  exact Nat.find_min hex hj ⟨e', hj', hQ'⟩

theorem table_have_hwid :
    ∀ j, j < 41 → (nrfx_known_devices_table[j]?).map (fun e => e.have_hwid)
      = some (if j < 38 then 1 else 0) := by
  decide

theorem table_length : nrfx_known_devices_table.length = 41 := rfl

theorem table_entry_have_hwid (j : Nat) (e : nrfx_device_spec)
    (h : nrfx_known_devices_table[j]? = some e) :
    j < 41 ∧ e.have_hwid = (if j < 38 then 1 else 0) := by
  have hj : j < 41 := by
    have := (List.getElem?_eq_some_iff.mp h).1
    simpa [table_length] using this
  refine ⟨hj, ?_⟩
  have := table_have_hwid j hj
  rw [h] at this
  simpa using this

section IdsProofs

variable {σ : Type}

theorem nrfx_probe_ids_hwid (E : Env σ) (chip : nrfx_info) (w w1 : World σ) (ids : probe_ids)
    (a : Nat) (hids : nrfx_probe_ids E chip w = some (ERROR_OK, ids, w1))
    (ha : chip.ficr_registers[NRFX_FICR_CONFIGID &&& REG_INDEX_MASK]? = some a)
    (hne : a ≠ NRFX_UNIMPLEMENTED) :
    ids.have_hwid = 1 ∧ ids.hwid = (E.read_u32 w.st a).2.1 &&& 0xFFFF := by
  have h1 : ficr_is_implemented chip NRFX_FICR_CONFIGID = some true := by
    simp [ficr_is_implemented, ha, hne]
  have h2 : ficr_read E chip NRFX_FICR_CONFIGID 0 w = some (target_read_u32 E a w) := by
    simp [ficr_read, reg_read, ha, hne]
  simp only [nrfx_probe_ids, h1, h2] at hids
  repeat' split at hids
  all_goals first
    | (simp only [Option.some.injEq, Prod.mk.injEq] at hids
       obtain ⟨h, rfl, _⟩ := hids
       first | exact ⟨rfl, rfl⟩ | contradiction)
    | (simp at hids)

theorem nrfx_probe_ids_part (E : Env σ) (chip : nrfx_info) (w w1 : World σ) (ids : probe_ids)
    (a : Nat) (hids : nrfx_probe_ids E chip w = some (ERROR_OK, ids, w1))
    (ha : chip.ficr_registers[NRFX_FICR_PART &&& REG_INDEX_MASK]? = some a)
    (hne : a ≠ NRFX_UNIMPLEMENTED) : ids.have_part = 1 := by
  have h1 : ficr_is_implemented chip NRFX_FICR_PART = some true := by
    simp [ficr_is_implemented, ha, hne]
  simp only [nrfx_probe_ids, h1] at hids
  repeat' split at hids
  all_goals first
    | (simp only [Option.some.injEq, Prod.mk.injEq] at hids
       obtain ⟨h, rfl, _⟩ := hids
       first | rfl | contradiction)
    | (simp at hids)

theorem nrfx_probe_ids_no_hwid (E : Env σ) (chip : nrfx_info) (w w1 : World σ)
    (ids : probe_ids) (hids : nrfx_probe_ids E chip w = some (ERROR_OK, ids, w1))
    (hc : chip.ficr_registers[NRFX_FICR_CONFIGID &&& REG_INDEX_MASK]? = some NRFX_UNIMPLEMENTED) :
    ids.have_hwid = 0 ∧
    ∀ a, chip.ficr_registers[NRFX_FICR_PART &&& REG_INDEX_MASK]? = some a →
      a ≠ NRFX_UNIMPLEMENTED → ids.part = (E.read_u32 w.st a).2.1 := by
  cases hp : chip.ficr_registers[NRFX_FICR_PART &&& REG_INDEX_MASK]? with
  | none => simp [nrfx_probe_ids, ficr_is_implemented, hc, hp] at hids
  | some pa =>
    by_cases hpa : pa = NRFX_UNIMPLEMENTED
    · simp [nrfx_probe_ids, ficr_is_implemented, hc, hp, hpa] at hids
    · simp only [nrfx_probe_ids, ficr_is_implemented, ficr_read, reg_read, hc, hp, hpa,
        Option.map_some', bne_self_eq_false, if_false, target_read_u32] at hids
      have hb : (pa != NRFX_UNIMPLEMENTED) = true := by simpa using hpa
      simp only [hb] at hids
      split at hids
      · simp at hids
        exact absurd hids.1 ‹_›
      · simp only [Option.some.injEq, Prod.mk.injEq, true_and] at hids
        obtain ⟨rfl, _⟩ := hids
        refine ⟨rfl, fun a ha hne => ?_⟩
        simp only [Option.some.injEq] at ha
        subst ha
        rfl

end IdsProofs

section IdentificationProofs

variable {σ : Type}

/-- C2, as amended.  Device identification in `nrfx_probe`, for a probe whose
identifier reads succeed (`nrfx_probe_ids` goes on to the scan with the
identifiers `ids`).
* On a chip whose CONFIGID register is implemented (at `a`), for every value
  `config_id` read from it whose low 16 bits are the legacy id of some catalog
  entry, the scan selects the lowest-index entry with `have_hwid = 1` and
  `id.hwid = config_id & 0xFFFF`, whatever the part value; the selection
  depends on `config_id` through its low 16 bits only.
* On a chip whose PART register is implemented, for every part value equal to
  the part number of some catalog entry, the scan selects the lowest-index
  entry with `have_hwid = 0` and `id.part = part`, provided no legacy entry is
  matched first: CONFIGID has not been read, or no legacy entry of the catalog
  has the legacy id read.
* That proviso holds on every chip without CONFIGID (the families 52 and 91,
  the ones that implement PART): there `have_hwid = 0` and the part value is
  the one read from the PART register. -/
theorem nrfx_probe_scan_selects_lowest (E : Env σ) (chip : nrfx_info) (w w1 : World σ)
    (ids : probe_ids) (hids : nrfx_probe_ids E chip w = some (ERROR_OK, ids, w1)) :
    (∀ a config_id, chip.ficr_registers[NRFX_FICR_CONFIGID &&& REG_INDEX_MASK]? = some a →
      a ≠ NRFX_UNIMPLEMENTED → (E.read_u32 w.st a).2.1 = config_id →
      (∃ e ∈ nrfx_known_devices_table, e.have_hwid = 1 ∧ e.id_hwid = config_id &&& 0xFFFF) →
      ids.hwid = config_id &&& 0xFFFF ∧
      ∃ i e, is_first_entry (fun e => e.have_hwid = 1 ∧ e.id_hwid = config_id &&& 0xFFFF)
          nrfx_known_devices_table i e ∧
        nrfx_probe_scan ids.have_hwid ids.have_part ids.hwid ids.part
          nrfx_known_devices_table 0 none = some ⟨i, e⟩) ∧
    (∀ a, chip.ficr_registers[NRFX_FICR_PART &&& REG_INDEX_MASK]? = some a →
      a ≠ NRFX_UNIMPLEMENTED →
      (ids.have_hwid = 0 ∨
        ∀ e ∈ nrfx_known_devices_table, e.have_hwid ≠ 0 → e.id_hwid ≠ ids.hwid) →
      (∃ e ∈ nrfx_known_devices_table, e.have_hwid = 0 ∧ e.id_part = ids.part) →
      ∃ i e, is_first_entry (fun e => e.have_hwid = 0 ∧ e.id_part = ids.part)
          nrfx_known_devices_table i e ∧
        nrfx_probe_scan ids.have_hwid ids.have_part ids.hwid ids.part
          nrfx_known_devices_table 0 none = some ⟨i, e⟩) ∧
    (chip.ficr_registers[NRFX_FICR_CONFIGID &&& REG_INDEX_MASK]? = some NRFX_UNIMPLEMENTED →
      ids.have_hwid = 0 ∧
      ∀ a, chip.ficr_registers[NRFX_FICR_PART &&& REG_INDEX_MASK]? = some a →
        a ≠ NRFX_UNIMPLEMENTED → ids.part = (E.read_u32 w.st a).2.1) := by
  refine ⟨?_, ?_, nrfx_probe_ids_no_hwid E chip w w1 ids hids⟩
  · intro a config_id ha hne hval hex
    obtain ⟨hh, hv⟩ := nrfx_probe_ids_hwid E chip w w1 ids a hids ha hne
    rw [hval] at hv
    refine ⟨hv, ?_⟩
    obtain ⟨i, e, hfirst⟩ := exists_first_entry _ _ hex
    refine ⟨i, e, hfirst, ?_⟩
    obtain ⟨hget, ⟨he1, he2⟩, hmin⟩ := hfirst
    have hi := table_entry_have_hwid i e hget
    have hi38 : i < 38 := by
      by_contra hcon
      rw [if_neg hcon, he1] at hi
      exact absurd hi.2 (by decide)
    have := nrfx_probe_scan_first ids.have_hwid ids.have_part ids.hwid ids.part
      nrfx_known_devices_table 0 none i e
      ⟨hget, Or.inl ⟨by rw [he1]; decide, by rw [hh]; decide, by rw [hv, he2]⟩,
        fun j e' hj hj' hm => by
          have hj1 := (table_entry_have_hwid j e' hj').2
          rw [if_pos (by omega)] at hj1
          rcases hm with hm | hm
          · exact hmin j e' hj hj' ⟨hj1, by rw [← hv]; exact hm.2.2.symm⟩
          · exact hm.1 (by rw [hj1]; decide)⟩
    simpa using this
  · intro a ha hne hno hex
    have hp := nrfx_probe_ids_part E chip w w1 ids a hids ha hne
    obtain ⟨i, e, hfirst⟩ := exists_first_entry _ _ hex
    refine ⟨i, e, hfirst, ?_⟩
    obtain ⟨hget, ⟨he1, he2⟩, hmin⟩ := hfirst
    have := nrfx_probe_scan_first ids.have_hwid ids.have_part ids.hwid ids.part
      nrfx_known_devices_table 0 none i e
      ⟨hget, Or.inr ⟨by rw [he1]; decide, by rw [hp]; decide, he2.symm⟩,
        fun j e' hj hj' hm => by
          rcases hm with hm | hm
          · rcases hno with hno | hno
            · exact hm.2.1 hno
            · exact hno e' (List.getElem?_mem hj') hm.1 hm.2.2.symm
          · exact hmin j e' hj hj' ⟨by simpa using hm.1, hm.2.2.symm⟩⟩
    simpa using this

/-- Witness of C2: a nRF51 whose CONFIGID reads 0xABCD001D (legacy id 0x001D)
and a nRF52 whose PART reads 0x52832. -/
theorem nrfx_probe_scan_selects_lowest_witness :
    (∃ i e, is_first_entry (fun e => e.have_hwid = 1 ∧ e.id_hwid = 0xABCD001D &&& 0xFFFF)
        nrfx_known_devices_table i e ∧
      nrfx_probe_scan 1 0 0x001D 0 nrfx_known_devices_table 0 none = some ⟨i, e⟩) ∧
    (∃ i e, is_first_entry (fun e => e.have_hwid = 0 ∧ e.id_part = 0x52832)
        nrfx_known_devices_table i e ∧
      nrfx_probe_scan 0 1 0 0x52832 nrfx_known_devices_table 0 none = some ⟨i, e⟩) :=
  ⟨((nrfx_probe_scan_selects_lowest memEnv (new_chip 51) (memWorld (memOf (regs51 0xABCD001D)))
      ⟨memOf (regs51 0xABCD001D), [Txn.read_u32 0x1000005C], []⟩ ⟨1, 0x001D, 0, 0⟩ rfl).1
      0x1000005C 0xABCD001D (by decide) (by decide) rfl
      ⟨NRF51_DEVICE_DEF 0x001D "51822" "QFAA" "CA/C0" 256, by decide, rfl, by decide⟩).2,
   (nrfx_probe_scan_selects_lowest memEnv (new_chip 52) (memWorld (memOf (regs52 0x52832)))
      ⟨memOf (regs52 0x52832), [Txn.read_u32 0x10000100], []⟩ ⟨0, 0, 1, 0x52832⟩ rfl).2.1
      0x10000100 (by decide) (by decide) (Or.inl rfl)
      ⟨NRF52_DEVICE_DEF 0x52832, by decide, rfl, rfl⟩⟩

/-- C3 (the code at the failing input).  A nRF51 whose CONFIGID reads
0x0000FFFF, a legacy id no catalog entry has: the scan does not end with a
null pointer but with the last catalog entry (index 40, the part-number entry
of the nRF52840), so the probe, which succeeds, logs "device: nRF0" (the
branch for a part-number entry, with the part value 0 it never read) and not
the unknown-device warning; the catalog entry carrying no flash size, the
capacity check turns to the FLASH register. -/
theorem nrfx_probe_unmatched_id_selects_last_entry :
    nrfx_probe_scan 1 0 0xFFFF 0 nrfx_known_devices_table 0 none
      = some ⟨40, NRF52_DEVICE_DEF 0x52840⟩ ∧
    (nrfx_probe memEnv code_bank (new_chip 51) (memWorld (memOf (regs51 0x0000FFFF)))).map
        (fun r => (r.1, r.2.2.2.logs))
      = some (ERROR_OK, [LogMsg.device_part 0, LogMsg.flash_size_read_failed]) := by
  constructor
  · decide
  · rfl

/-- The catalog scan of `nrfx_probe` never ends with a null pointer, whatever
the identifiers: the unknown-device branch of `log_probed_chip` is not reached
from `nrfx_probe`. -/
theorem nrfx_probe_scan_never_null (have_hwid have_part hwid part : Nat) :
    ∃ sp, nrfx_probe_scan have_hwid have_part hwid part nrfx_known_devices_table 0 none
      = some sp :=
  nrfx_probe_scan_some have_hwid have_part hwid part nrfx_known_devices_table 0 none
    (by decide)

end IdentificationProofs

end ScanProofs


section ProtectProofs

variable {σ : Type}

theorem for_sectors_length (f : Nat → flash_sector → flash_sector) (l : List flash_sector) :
    for_sectors (l.length : Int) f l = some (l.enum.map fun p => f p.1 p.2) := by
  simp [for_sectors]

/-- The flag `nrfx_protect_check` gives a sector for the boundary `clenr0`. -/
theorem nrfx_protect_check_no_clenr0_eq (bank : flash_bank) (clenr0 : Nat) (w : World σ)
    (sectors : List flash_sector) (hsec : bank.sectors = some sectors)
    (hnum : bank.num_sectors = sectors.length) :
    nrfx_protect_check_no_clenr0 bank clenr0 w =
      some (ERROR_OK, { bank with sectors := some (protect_flags clenr0 sectors) }, w) := by
  unfold nrfx_protect_check_no_clenr0 protect_flags
  by_cases h0 : bank.num_sectors ≤ 0
  · have hl : sectors = [] := by
      rw [hnum] at h0
      have : sectors.length = 0 := by omega
      exact List.length_eq_zero.mp this
    subst hl
    rw [if_pos h0]
    cases bank
    simp_all
  · rw [if_neg h0, hsec, hnum]
    simp only [for_sectors_length]
    congr 5
    apply List.ext_getElem?
    intro i
    simp only [List.getElem?_map, List.getElem?_enum]
    cases sectors[i]? <;> rfl

theorem nrfx_protect_check_ficr_unimplemented (E : Env σ) (bank : flash_bank)
    (chip : nrfx_info) (w : World σ)
    (hbase : bank.base ≠ NRF5_UICR_BASE ∧ bank.base ≠ NRF9_UICR_BASE)
    (hf : chip.ficr_registers[NRFX_FICR_CLENR0 &&& REG_INDEX_MASK]? = some NRFX_UNIMPLEMENTED) :
    nrfx_protect_check E bank chip w = nrfx_protect_check_no_clenr0 bank 0xFFFFFFFF w := by
  simp [nrfx_protect_check, hbase.1, hbase.2, ficr_read, reg_read, hf]

theorem nrfx_protect_check_ficr_programmed (E : Env σ) (regs : Nat → Nat)
    (hread : reads_as E regs) (bank : flash_bank) (chip : nrfx_info) (w : World σ) (a : Nat)
    (hbase : bank.base ≠ NRF5_UICR_BASE ∧ bank.base ≠ NRF9_UICR_BASE)
    (hf : chip.ficr_registers[NRFX_FICR_CLENR0 &&& REG_INDEX_MASK]? = some a)
    (ha : a ≠ NRFX_UNIMPLEMENTED) (hv : regs a ≠ 0xFFFFFFFF) :
    nrfx_protect_check E bank chip w =
      nrfx_protect_check_no_clenr0 bank (regs a) (target_read_u32 E a w).2.2 := by
  have h1 := (hread w.st a).1
  have h2 := (hread w.st a).2
  simp [nrfx_protect_check, hbase.1, hbase.2, ficr_read, reg_read, hf, ha, target_read_u32,
    h1, h2, hv]

theorem nrfx_protect_check_uicr (E : Env σ) (regs : Nat → Nat)
    (hread : reads_as E regs) (bank : flash_bank) (chip : nrfx_info) (w : World σ) (a u : Nat)
    (hbase : bank.base ≠ NRF5_UICR_BASE ∧ bank.base ≠ NRF9_UICR_BASE)
    (hf : chip.ficr_registers[NRFX_FICR_CLENR0 &&& REG_INDEX_MASK]? = some a)
    (ha : a ≠ NRFX_UNIMPLEMENTED) (hv : regs a = 0xFFFFFFFF)
    (hu : chip.uicr_registers[NRFX_UICR_CLENR0 &&& REG_INDEX_MASK]? = some u)
    (hua : u ≠ NRFX_UNIMPLEMENTED) :
    nrfx_protect_check E bank chip w =
      nrfx_protect_check_no_clenr0 bank (regs u)
        (target_read_u32 E u (target_read_u32 E a w).2.2).2.2 := by
  have h1 := (hread w.st a).1
  have h2 := (hread w.st a).2
  have h3 := (hread (E.read_u32 w.st a).2.2 u).1
  have h4 := (hread (E.read_u32 w.st a).2.2 u).2
  simp [nrfx_protect_check, hbase.1, hbase.2, ficr_read, uicr_read, reg_read, hf, ha, hu, hua,
    target_read_u32, h1, h2, h3, h4, hv]

theorem nrfx_protect_check_uicr_unimplemented (E : Env σ) (regs : Nat → Nat)
    (hread : reads_as E regs) (bank : flash_bank) (chip : nrfx_info) (w : World σ) (a : Nat)
    (hbase : bank.base ≠ NRF5_UICR_BASE ∧ bank.base ≠ NRF9_UICR_BASE)
    (hf : chip.ficr_registers[NRFX_FICR_CLENR0 &&& REG_INDEX_MASK]? = some a)
    (ha : a ≠ NRFX_UNIMPLEMENTED) (hv : regs a = 0xFFFFFFFF)
    (hu : chip.uicr_registers[NRFX_UICR_CLENR0 &&& REG_INDEX_MASK]? = some NRFX_UNIMPLEMENTED) :
    nrfx_protect_check E bank chip w =
      some (ERROR_TARGET_RESOURCE_NOT_AVAILABLE, bank,
        LOG LogMsg.clenr0_uicr_read_failed (target_read_u32 E a w).2.2) := by
  have h1 := (hread w.st a).1
  have h2 := (hread w.st a).2
  simp [nrfx_protect_check, hbase.1, hbase.2, ficr_read, uicr_read, reg_read, hf, ha, hu,
    target_read_u32, h1, h2, hv]

/-- C6.  For a code-flash bank whose sectors lie at the offsets `i * p`
(`p > 0`) and registers that hold a boundary `v` (the value
`nrfx_protect_check` applies, see `clenr0_applied`), `nrfx_protect_check`
returns `ERROR_OK` and leaves a sector table of the same length in which,
when `v = N * p` is not all-ones, sector `i` has `is_protected = 1` for
`i < N` and `is_protected = 0` for `i ≥ N`, and, when `v` is all-ones, every
sector has `is_protected = 0`. -/
theorem nrfx_protect_check_marks_below_boundary (E : Env σ) (regs : Nat → Nat)
    (hread : reads_as E regs) (bank : flash_bank) (chip : nrfx_info) (w : World σ)
    (sectors : List flash_sector) (p N v : Nat)
    (hbase : bank.base ≠ NRF5_UICR_BASE ∧ bank.base ≠ NRF9_UICR_BASE)
    (hsec : bank.sectors = some sectors) (hnum : bank.num_sectors = sectors.length)
    (hp : 0 < p) (hlay : ∀ i s, sectors[i]? = some s → s.offset = i * p)
    (hv : clenr0_applied chip regs v) :
    ∃ bank' w' sectors', nrfx_protect_check E bank chip w = some (ERROR_OK, bank', w') ∧
      bank'.sectors = some sectors' ∧ sectors'.length = sectors.length ∧
      (v = N * p → v ≠ 0xFFFFFFFF → ∀ i s', sectors'[i]? = some s' →
        (i < N → s'.is_protected = 1) ∧ (N ≤ i → s'.is_protected = 0)) ∧
      (v = 0xFFFFFFFF → ∀ s' ∈ sectors', s'.is_protected = 0) := by
  have hres : ∃ w', nrfx_protect_check E bank chip w =
      some (ERROR_OK, { bank with sectors := some (protect_flags v sectors) }, w') := by
    rcases hv with ⟨hf, rfl⟩ | ⟨a, hf, ha, hva, rfl⟩ | ⟨a, u, hf, ha, hva, hu, hua, rfl⟩
    · exact ⟨_, by rw [nrfx_protect_check_ficr_unimplemented E bank chip w hbase hf,
        nrfx_protect_check_no_clenr0_eq bank _ w sectors hsec hnum]⟩
    · exact ⟨_, by rw [nrfx_protect_check_ficr_programmed E regs hread bank chip w a hbase hf
        ha hva, nrfx_protect_check_no_clenr0_eq bank _ _ sectors hsec hnum]⟩
    · exact ⟨_, by rw [nrfx_protect_check_uicr E regs hread bank chip w a u hbase hf ha hva
        hu hua, nrfx_protect_check_no_clenr0_eq bank _ _ sectors hsec hnum]⟩
  obtain ⟨w', hw'⟩ := hres
  refine ⟨_, w', protect_flags v sectors, hw', rfl, by simp [protect_flags], ?_, ?_⟩
  · intro hvN hne i s' hs'
    simp only [protect_flags, List.getElem?_map, Option.map_eq_some'] at hs'
    obtain ⟨s, hs, rfl⟩ := hs'
    have hoff := hlay i s hs
    constructor
    · intro hi
      have : s.offset < v := by
        rw [hoff, hvN]; exact Nat.mul_lt_mul_of_pos_right hi hp
      simp [hne, this]
    · intro hi
      have : ¬ s.offset < v := by
        rw [hoff, hvN]; exact Nat.not_lt.mpr (Nat.mul_le_mul_right p hi)
      simp [this]
  · intro hvF s' hs'
    simp only [protect_flags, List.mem_map] at hs'
    obtain ⟨s, _, rfl⟩ := hs'
    simp [hvF]

/-- Witness of C6: four pages of 1024 bytes on a nRF51 whose factory CLENR0
reads 2048, a boundary of two pages. -/
theorem nrfx_protect_check_marks_below_boundary_witness :
    ∃ bank' w' sectors',
      nrfx_protect_check (regEnv (fun a => if a = 0x10000028 then 2048 else 0xFFFFFFFF))
        (probed_bank 4 1024) (new_chip 51) regWorld = some (ERROR_OK, bank', w') ∧
      bank'.sectors = some sectors' ∧ sectors'.length = 4 ∧
      (2048 = 2 * 1024 → 2048 ≠ 0xFFFFFFFF → ∀ i s', sectors'[i]? = some s' →
        (i < 2 → s'.is_protected = 1) ∧ (2 ≤ i → s'.is_protected = 0)) ∧
      (2048 = 0xFFFFFFFF → ∀ s' ∈ sectors', s'.is_protected = 0) :=
  nrfx_protect_check_marks_below_boundary
    (regEnv (fun a => if a = 0x10000028 then 2048 else 0xFFFFFFFF))
    (fun a => if a = 0x10000028 then 2048 else 0xFFFFFFFF) (fun _ _ => ⟨rfl, rfl⟩)
    (probed_bank 4 1024) (new_chip 51) regWorld
    ((List.range 4).map fun i => ⟨u32 (i * 1024), 1024, -1, -1⟩) 1024 2 2048
    (by decide) rfl rfl (by decide)
    (by
      intro i s h
      have hi : i < 4 := by
        have := (List.getElem?_eq_some_iff.mp h).1
        simpa using this
      interval_cases i <;> simp at h <;> subst h <;> decide)
    (Or.inr (Or.inl ⟨0x10000028, by decide, by decide, by decide, rfl⟩))

/-- C7, as amended.  For every register map and register contents, on a
code-flash bank (`num_sectors` sectors in its table):
* the factory CLENR0 value is the boundary when that register is implemented
  and reads a value other than all-ones;
* when it is implemented and reads all-ones, the user CLENR0 value is the
  boundary if that register is implemented, and if it is not the check fails
  with `ERROR_TARGET_RESOURCE_NOT_AVAILABLE` and leaves the bank as it was;
* when the factory register is not implemented the user register is not
  consulted: the boundary is all-ones and nothing is read;
* a sector gets `is_protected = 1` exactly when the boundary is not all-ones
  and the offset of the sector lies below it, and `0` otherwise, so an
  all-ones boundary marks no sector protected. -/
theorem nrfx_protect_check_boundary_source (E : Env σ) (regs : Nat → Nat)
    (hread : reads_as E regs) (bank : flash_bank) (chip : nrfx_info) (w : World σ)
    (sectors : List flash_sector)
    (hbase : bank.base ≠ NRF5_UICR_BASE ∧ bank.base ≠ NRF9_UICR_BASE)
    (hsec : bank.sectors = some sectors) (hnum : bank.num_sectors = sectors.length) :
    (∀ a, chip.ficr_registers[NRFX_FICR_CLENR0 &&& REG_INDEX_MASK]? = some a →
      a ≠ NRFX_UNIMPLEMENTED → regs a ≠ 0xFFFFFFFF →
      ∃ w', nrfx_protect_check E bank chip w =
        some (ERROR_OK, { bank with sectors := some (protect_flags (regs a) sectors) }, w')) ∧
    (∀ a u, chip.ficr_registers[NRFX_FICR_CLENR0 &&& REG_INDEX_MASK]? = some a →
      a ≠ NRFX_UNIMPLEMENTED → regs a = 0xFFFFFFFF →
      chip.uicr_registers[NRFX_UICR_CLENR0 &&& REG_INDEX_MASK]? = some u →
      u ≠ NRFX_UNIMPLEMENTED →
      ∃ w', nrfx_protect_check E bank chip w =
        some (ERROR_OK, { bank with sectors := some (protect_flags (regs u) sectors) }, w')) ∧
    (∀ a, chip.ficr_registers[NRFX_FICR_CLENR0 &&& REG_INDEX_MASK]? = some a →
      a ≠ NRFX_UNIMPLEMENTED → regs a = 0xFFFFFFFF →
      chip.uicr_registers[NRFX_UICR_CLENR0 &&& REG_INDEX_MASK]? = some NRFX_UNIMPLEMENTED →
      ∃ w', nrfx_protect_check E bank chip w =
        some (ERROR_TARGET_RESOURCE_NOT_AVAILABLE, bank, w')) ∧
    (chip.ficr_registers[NRFX_FICR_CLENR0 &&& REG_INDEX_MASK]? = some NRFX_UNIMPLEMENTED →
      nrfx_protect_check E bank chip w =
        some (ERROR_OK, { bank with sectors := some (protect_flags 0xFFFFFFFF sectors) }, w)) ∧
    (∀ (v i : Nat) (s : flash_sector), (protect_flags v sectors)[i]? = some s →
      (s.is_protected = 1 ↔ v ≠ 0xFFFFFFFF ∧ s.offset < v) ∧
      (s.is_protected = 0 ↔ ¬ (v ≠ 0xFFFFFFFF ∧ s.offset < v)) ∧
      ∃ s0, sectors[i]? = some s0 ∧ s.offset = s0.offset) := by
  refine ⟨fun a hf ha hva => ?_, fun a u hf ha hva hu hua => ?_,
    fun a hf ha hva hu => ?_, fun hf => ?_, fun v i s hs => ?_⟩
  · exact ⟨_, by rw [nrfx_protect_check_ficr_programmed E regs hread bank chip w a hbase hf
      ha hva, nrfx_protect_check_no_clenr0_eq bank _ _ sectors hsec hnum]⟩
  · exact ⟨_, by rw [nrfx_protect_check_uicr E regs hread bank chip w a u hbase hf ha hva
      hu hua, nrfx_protect_check_no_clenr0_eq bank _ _ sectors hsec hnum]⟩
  · exact ⟨_, nrfx_protect_check_uicr_unimplemented E regs hread bank chip w a hbase hf ha
      hva hu⟩
  · rw [nrfx_protect_check_ficr_unimplemented E bank chip w hbase hf,
      nrfx_protect_check_no_clenr0_eq bank _ w sectors hsec hnum]
  · simp only [protect_flags, List.getElem?_map, Option.map_eq_some'] at hs
    obtain ⟨s0, hs0, rfl⟩ := hs
    refine ⟨?_, ?_, s0, hs0, rfl⟩
    · by_cases h : v ≠ 0xFFFFFFFF ∧ s0.offset < v <;> simp [h]
    · by_cases h : v ≠ 0xFFFFFFFF ∧ s0.offset < v <;> simp [h]

/-- Witness of C7: a nRF51 whose factory CLENR0 reads all-ones and whose user
CLENR0 reads 1024, on four pages of 1024 bytes. -/
theorem nrfx_protect_check_boundary_source_witness :
    ∃ w', nrfx_protect_check (regEnv (fun a => if a = 0x10001000 then 1024 else 0xFFFFFFFF))
        (probed_bank 4 1024) (new_chip 51) regWorld =
      some (ERROR_OK, { probed_bank 4 1024 with sectors := some (protect_flags
        ((fun a => if a = 0x10001000 then 1024 else 0xFFFFFFFF) 0x10001000)
        ((List.range 4).map fun i => ⟨u32 (i * 1024), 1024, -1, -1⟩)) }, w') :=
  (nrfx_protect_check_boundary_source
    (regEnv (fun a => if a = 0x10001000 then 1024 else 0xFFFFFFFF))
    (fun a => if a = 0x10001000 then 1024 else 0xFFFFFFFF) (fun _ _ => ⟨rfl, rfl⟩)
    (probed_bank 4 1024) (new_chip 51) regWorld
    ((List.range 4).map fun i => ⟨u32 (i * 1024), 1024, -1, -1⟩)
    (by decide) rfl rfl).2.1 0x10000028 0x10001000 (by decide) (by decide) (by decide)
    (by decide) (by decide)

/-- Counterexample to C7 as stated.  On a register map whose factory CLENR0 is
not implemented while the user CLENR0 is (at 0x10001000) and holds the
programmed value 2048, `nrfx_protect_check` reads nothing and marks none of
the four 1024-byte pages protected, although the user register holds a
programmed boundary below which two of them lie. -/
theorem nrfx_protect_check_ignores_uicr_without_ficr :
    chip_uicr_clenr0_only.ficr_registers[NRFX_FICR_CLENR0 &&& REG_INDEX_MASK]?
      = some NRFX_UNIMPLEMENTED ∧
    chip_uicr_clenr0_only.uicr_registers[NRFX_UICR_CLENR0 &&& REG_INDEX_MASK]?
      = some 0x10001000 ∧
    (nrfx_protect_check (regEnv (fun a => if a = 0x10001000 then 2048 else 0xFFFFFFFF))
        (probed_bank 4 1024) chip_uicr_clenr0_only regWorld).map
        (fun r => (r.1, r.2.1.sector_array.map (fun s => (s.offset, s.is_protected)),
          r.2.2.txns))
      = some (ERROR_OK, [(0, 0), (1024, 0), (2048, 0), (3072, 0)], []) := by
  decide

end ProtectProofs


section GeometryProofs

variable {σ : Type}

theorem bne_unimplemented {a : Nat} (h : a ≠ NRFX_UNIMPLEMENTED) :
    (a != NRFX_UNIMPLEMENTED) = true := by
  simpa using h

theorem nrfx_probe_ids_ok (E : Env σ) (regs : Nat → Nat) (hread : reads_as E regs)
    (chip : nrfx_info) (w : World σ) (c pt : Nat)
    (hc : chip.ficr_registers[NRFX_FICR_CONFIGID &&& REG_INDEX_MASK]? = some c)
    (hpt : chip.ficr_registers[NRFX_FICR_PART &&& REG_INDEX_MASK]? = some pt)
    (hid : c ≠ NRFX_UNIMPLEMENTED ∨ pt ≠ NRFX_UNIMPLEMENTED) :
    ∃ ids w1, nrfx_probe_ids E chip w = some (ERROR_OK, ids, w1) := by
  by_cases h1 : c = NRFX_UNIMPLEMENTED
  · have h2 : pt ≠ NRFX_UNIMPLEMENTED := by
      rcases hid with h | h
      · exact absurd h1 h
      · exact h
    have hr := (hread w.st pt).1
    have hb := bne_unimplemented h2
    simp [nrfx_probe_ids, ficr_is_implemented, ficr_read, reg_read, hc, hpt, h1, h2, bne_unimplemented,
      target_read_u32, hr, hb]
  · have hr := (hread w.st c).1
    have hb := bne_unimplemented h1
    by_cases h2 : pt = NRFX_UNIMPLEMENTED
    · simp [nrfx_probe_ids, ficr_is_implemented, ficr_read, reg_read, hc, hpt, h1, h2, bne_unimplemented,
        target_read_u32, hr, hb]
    · have hr2 := (hread (E.read_u32 w.st c).2.2 pt).1
      have hb2 := bne_unimplemented h2
      simp [nrfx_probe_ids, ficr_is_implemented, ficr_read, reg_read, hc, hpt, h1, h2, bne_unimplemented,
        target_read_u32, hr, hr2, hb, hb2]

theorem check_probed_chip_size_some (E : Env σ) (chip : nrfx_info) (bank_size : Nat)
    (spec : Option spec_ptr) (w : World σ) (f : Nat)
    (hf : chip.ficr_registers[NRFX_FICR_FLASH &&& REG_INDEX_MASK]? = some f) :
    ∃ w', check_probed_chip_size E chip bank_size spec w = some w' := by
  unfold check_probed_chip_size
  simp only [ficr_read, hf, Option.map_some']
  cases spec with
  | none => simp only []; split <;> exact ⟨_, rfl⟩
  | some sp =>
    simp only []
    split
    · exact ⟨_, rfl⟩
    · split <;> exact ⟨_, rfl⟩

theorem for_sectors_replicate (n : Nat) (f : Nat → flash_sector → flash_sector)
    (z : flash_sector) :
    for_sectors (n : Int) f (List.replicate n z) = some ((List.range n).map fun i => f i z) := by
  have h := for_sectors_length f (List.replicate n z)
  rw [List.length_replicate] at h
  rw [h]
  congr 1
  apply List.ext_getElem?
  intro i
  simp only [List.getElem?_map, List.getElem?_enum, List.getElem?_replicate,
    List.getElem?_range]
  by_cases hi : i < n
  · simp [hi]
  · simp [hi, List.getElem?_eq_none (l := List.range n) (by simpa using hi)]

theorem nrfx_protect_check_total (E : Env σ) (regs : Nat → Nat) (hread : reads_as E regs)
    (bank : flash_bank) (chip : nrfx_info) (w : World σ) (sectors : List flash_sector)
    (a u : Nat)
    (hbase : bank.base ≠ NRF5_UICR_BASE ∧ bank.base ≠ NRF9_UICR_BASE)
    (hsec : bank.sectors = some sectors) (hnum : bank.num_sectors = sectors.length)
    (hf : chip.ficr_registers[NRFX_FICR_CLENR0 &&& REG_INDEX_MASK]? = some a)
    (hu : chip.uicr_registers[NRFX_UICR_CLENR0 &&& REG_INDEX_MASK]? = some u) :
    ∃ res bank' w', nrfx_protect_check E bank chip w = some (res, bank', w') ∧
      (bank' = bank ∨
        ∃ v, bank' = { bank with sectors := some (protect_flags v sectors) }) := by
  by_cases ha : a = NRFX_UNIMPLEMENTED
  · subst ha
    exact ⟨_, _, _, by rw [nrfx_protect_check_ficr_unimplemented E bank chip w hbase hf,
      nrfx_protect_check_no_clenr0_eq bank _ w sectors hsec hnum], Or.inr ⟨_, rfl⟩⟩
  · by_cases hva : regs a = 0xFFFFFFFF
    · by_cases hua : u = NRFX_UNIMPLEMENTED
      · subst hua
        exact ⟨_, _, _, nrfx_protect_check_uicr_unimplemented E regs hread bank chip w a hbase
          hf ha hva hu, Or.inl rfl⟩
      · exact ⟨_, _, _, by rw [nrfx_protect_check_uicr E regs hread bank chip w a u hbase hf
          ha hva hu hua, nrfx_protect_check_no_clenr0_eq bank _ _ sectors hsec hnum],
          Or.inr ⟨_, rfl⟩⟩
    · exact ⟨_, _, _, by rw [nrfx_protect_check_ficr_programmed E regs hread bank chip w a
        hbase hf ha hva, nrfx_protect_check_no_clenr0_eq bank _ _ sectors hsec hnum],
        Or.inr ⟨_, rfl⟩⟩

theorem int32_of_lt (n : Nat) (h : n < 2 ^ 31) : int32 n = (n : Int) := by
  have h1 : u32 n = n := by
    unfold u32
    exact Nat.mod_eq_of_lt (by omega)
  have h' : n < 2147483648 := by simpa using h
  simp [int32, h1, h']

theorem nrfx_probe_code_flash_ok (E : Env σ) (regs : Nat → Nat) (hread : reads_as E regs)
    (halloc : ∀ s k, (E.calloc s k).1 = true)
    (bank : flash_bank) (chip : nrfx_info) (spec : Option spec_ptr) (w : World σ)
    (ap an fl cl ucl : Nat)
    (hbase : bank.base = NRFX_FLASH_BASE)
    (hp : chip.ficr_registers[NRFX_FICR_CODEPAGESIZE &&& REG_INDEX_MASK]? = some ap)
    (hap : ap ≠ NRFX_UNIMPLEMENTED)
    (hn : chip.ficr_registers[NRFX_FICR_CODESIZE &&& REG_INDEX_MASK]? = some an)
    (han : an ≠ NRFX_UNIMPLEMENTED)
    (hfl : chip.ficr_registers[NRFX_FICR_FLASH &&& REG_INDEX_MASK]? = some fl)
    (hcl : chip.ficr_registers[NRFX_FICR_CLENR0 &&& REG_INDEX_MASK]? = some cl)
    (hucl : chip.uicr_registers[NRFX_UICR_CLENR0 &&& REG_INDEX_MASK]? = some ucl)
    (hn31 : regs an < 2 ^ 31) :
    ∃ (w' : World σ) (g : Nat → Int), nrfx_probe_code_flash E bank chip spec w =
      some (ERROR_OK,
        { bank with num_sectors := (regs an : Int), size := u32 (regs an * regs ap),
                    sectors := some ((List.range (regs an)).map fun i =>
                      { offset := u32 (i * regs ap), size := regs ap, is_erased := -1,
                        is_protected := g i }) },
        { chip with code_page_size := regs ap, bank0 := { chip.bank0 with probed := true } },
        w') := by
  have h1 := hread w.st ap
  have h2 := hread (E.read_u32 w.st ap).2.2 an
  unfold nrfx_probe_code_flash
  simp only [ficr_read, hp, hn, Option.map_some', reg_read, if_neg hap, if_neg han,
    target_read_u32, h1.1, h1.2, h2.1, h2.2, ne_eq, not_true_eq_false, if_false]
  obtain ⟨w3, hw3⟩ := check_probed_chip_size_some E
    { chip with code_page_size := regs ap }
    (u32 (regs an * regs ap)) spec
    { st := (E.read_u32 (E.read_u32 w.st ap).2.2 an).2.2,
      txns := w.txns ++ [Txn.read_u32 ap] ++ [Txn.read_u32 an], logs := w.logs } fl hfl
  simp only [hw3, calloc, halloc, not_true_eq_false, if_false, int32_of_lt _ hn31,
    Int.toNat_ofNat, for_sectors_replicate]
  have hb : bank.base ≠ NRF5_UICR_BASE ∧ bank.base ≠ NRF9_UICR_BASE := by
    rw [hbase]; exact ⟨by decide, by decide⟩
  obtain ⟨res, bank', w4, hpc, hb'⟩ := nrfx_protect_check_total E regs hread
    { base := bank.base, size := u32 (regs an * regs ap), bank_number := bank.bank_number,
      num_sectors := (regs an : Int),
      sectors := some ((List.range (regs an)).map fun i =>
        { offset := u32 (i * regs ap), size := regs ap, is_erased := -1, is_protected := -1 }) }
    { chip with code_page_size := regs ap }
    { st := (E.calloc w3.st (regs an : Int)).2, txns := w3.txns, logs := w3.logs }
    _ cl ucl hb rfl (by simp) hcl hucl
  rw [hpc]
  rcases hb' with rfl | ⟨v, rfl⟩
  · exact ⟨w4, fun _ => -1, rfl⟩
  · refine ⟨w4, fun i => if v ≠ 0xFFFFFFFF ∧ u32 (i * regs ap) < v then 1 else 0, ?_⟩
    simp only [protect_flags, List.map_map]
    rfl

theorem getElem?_of_length {l : List Nat} {i n : Nat} (hl : l.length = n) (hi : i < n) :
    ∃ a, l[i]? = some a := by
  have hi' : i < l.length := by omega
  exact ⟨l[i], List.getElem?_eq_getElem hi'⟩

/-- C5, as amended.  A probe of the code-flash bank of a chip whose registers
hold `regs` (all reads succeed) and whose host allocation succeeds, the
factory registers reading page size `p` and page count `n < 2^31`:
`nrfx_probe` returns `ERROR_OK` with `num_sectors = n`,
`size = n * p mod 2^32`, a table of `n` sectors in which sector `i` has size
`p`, offset `i * p mod 2^32` and erased flag -1, and bank 0 marked probed.
The offset is `i * p` itself whenever `n * p ≤ 2^32`; `n = 64`, `p = 2048`
gives `num_sectors = 64` and `size = 131072`. -/
theorem nrfx_probe_code_flash_geometry (E : Env σ) (regs : Nat → Nat)
    (hread : reads_as E regs) (halloc : ∀ s k, (E.calloc s k).1 = true)
    (bank : flash_bank) (chip : nrfx_info) (w : World σ) (p n ap an : Nat)
    (hbase : bank.base = NRFX_FLASH_BASE)
    (hflen : chip.ficr_registers.length = NRFX_FICR_NREGS)
    (hulen : chip.uicr_registers.length = NRFX_UICR_NREGS)
    (hid : chip.ficr_registers[NRFX_FICR_CONFIGID &&& REG_INDEX_MASK]?
        ≠ some NRFX_UNIMPLEMENTED ∨
      chip.ficr_registers[NRFX_FICR_PART &&& REG_INDEX_MASK]? ≠ some NRFX_UNIMPLEMENTED)
    (hp : chip.ficr_registers[NRFX_FICR_CODEPAGESIZE &&& REG_INDEX_MASK]? = some ap)
    (hap : ap ≠ NRFX_UNIMPLEMENTED) (hpv : regs ap = p)
    (hn : chip.ficr_registers[NRFX_FICR_CODESIZE &&& REG_INDEX_MASK]? = some an)
    (han : an ≠ NRFX_UNIMPLEMENTED) (hnv : regs an = n) (hn31 : n < 2 ^ 31) :
    ∃ bank' chip' w' sectors,
      nrfx_probe E bank chip w = some (ERROR_OK, bank', chip', w') ∧
      bank'.num_sectors = n ∧ bank'.size = u32 (n * p) ∧
      bank'.sectors = some sectors ∧ sectors.length = n ∧
      (∀ i, i < n → ∃ s, sectors[i]? = some s ∧
        s.size = p ∧ s.offset = u32 (i * p) ∧ s.is_erased = -1) ∧
      (n * p ≤ 2 ^ 32 → ∀ i, i < n → ∃ s, sectors[i]? = some s ∧ s.offset = i * p) ∧
      chip'.bank0.probed = true ∧ chip'.bank1 = chip.bank1 ∧ chip'.code_page_size = p ∧
      (n = 64 → p = 2048 → bank'.num_sectors = 64 ∧ bank'.size = 131072) := by
  obtain ⟨c, hc⟩ := getElem?_of_length (i := NRFX_FICR_CONFIGID &&& REG_INDEX_MASK) hflen
    (by decide)
  obtain ⟨pt, hpt⟩ := getElem?_of_length (i := NRFX_FICR_PART &&& REG_INDEX_MASK) hflen
    (by decide)
  obtain ⟨fl, hfl⟩ := getElem?_of_length (i := NRFX_FICR_FLASH &&& REG_INDEX_MASK) hflen
    (by decide)
  obtain ⟨cl, hcl⟩ := getElem?_of_length (i := NRFX_FICR_CLENR0 &&& REG_INDEX_MASK) hflen
    (by decide)
  obtain ⟨ucl, hucl⟩ := getElem?_of_length (i := NRFX_UICR_CLENR0 &&& REG_INDEX_MASK) hulen
    (by decide)
  have hid' : c ≠ NRFX_UNIMPLEMENTED ∨ pt ≠ NRFX_UNIMPLEMENTED := by
    rcases hid with h | h
    · left; intro hcon; exact h (by rw [hc, hcon])
    · right; intro hcon; exact h (by rw [hpt, hcon])
  obtain ⟨ids, w1, hids⟩ := nrfx_probe_ids_ok E regs hread chip w c pt hc hpt hid'
  subst hpv hnv
  obtain ⟨w', g, hcf⟩ := nrfx_probe_code_flash_ok E regs hread halloc bank chip
    (nrfx_probe_scan ids.have_hwid ids.have_part ids.hwid ids.part nrfx_known_devices_table
      0 none)
    (if ¬ chip.bank0.probed ∧ ¬ chip.bank1.probed then
      log_probed_chip (nrfx_probe_scan ids.have_hwid ids.have_part ids.hwid ids.part
        nrfx_known_devices_table 0 none) ids.have_hwid ids.hwid ids.part w1
     else w1)
    ap an fl cl ucl hbase hp hap hn han hfl hcl hucl hn31
  have hunf : nrfx_probe E bank chip w = nrfx_probe_code_flash E bank chip
      (nrfx_probe_scan ids.have_hwid ids.have_part ids.hwid ids.part nrfx_known_devices_table
        0 none)
      (if ¬ chip.bank0.probed ∧ ¬ chip.bank1.probed then
        log_probed_chip (nrfx_probe_scan ids.have_hwid ids.have_part ids.hwid ids.part
          nrfx_known_devices_table 0 none) ids.have_hwid ids.hwid ids.part w1
       else w1) := by
    simp only [nrfx_probe, hids, ne_eq, not_true_eq_false, if_false, hbase, if_true]
  have hprobe := hunf.trans hcf
  refine ⟨_, _, w', _, hprobe, rfl, rfl, rfl, by simp, ?_, ?_, rfl, rfl, rfl, ?_⟩
  · intro i hi
    exact ⟨{ offset := u32 (i * regs ap), size := regs ap, is_erased := -1,
             is_protected := g i },
      by simp [List.getElem?_range, hi], rfl, rfl, rfl⟩
  · intro hle i hi
    refine ⟨{ offset := u32 (i * regs ap), size := regs ap, is_erased := -1,
              is_protected := g i },
      by simp [List.getElem?_range, hi], ?_⟩
    show u32 (i * regs ap) = i * regs ap
    unfold u32
    apply Nat.mod_eq_of_lt
    have : (i + 1) * regs ap ≤ regs an * regs ap := Nat.mul_le_mul_right _ hi
    by_cases hp0 : regs ap = 0
    · simp [hp0]
    · have : i * regs ap < (i + 1) * regs ap := by
        rw [Nat.add_mul]; omega
      omega
  · intro h64 h2048
    simp only
    rw [h64, h2048]
    exact ⟨rfl, by decide⟩

/-- Witness of C5: the scenario of the specification, a nRF51 with 64 pages
of 2048 bytes. -/
theorem nrfx_probe_code_flash_geometry_witness :
    ∃ bank' chip' w' sectors,
      nrfx_probe (regEnv (regs51_geometry 2048 64)) code_bank (new_chip 51) regWorld
        = some (ERROR_OK, bank', chip', w') ∧
      bank'.num_sectors = (64 : Nat) ∧ bank'.size = u32 (64 * 2048) ∧
      bank'.sectors = some sectors ∧ sectors.length = 64 ∧
      (∀ i, i < 64 → ∃ s, sectors[i]? = some s ∧
        s.size = 2048 ∧ s.offset = u32 (i * 2048) ∧ s.is_erased = -1) ∧
      (64 * 2048 ≤ 2 ^ 32 → ∀ i, i < 64 → ∃ s, sectors[i]? = some s ∧ s.offset = i * 2048) ∧
      chip'.bank0.probed = true ∧ chip'.bank1 = (new_chip 51).bank1 ∧
      chip'.code_page_size = 2048 ∧
      (64 = 64 → 2048 = 2048 → bank'.num_sectors = 64 ∧ bank'.size = 131072) :=
  nrfx_probe_code_flash_geometry (regEnv (regs51_geometry 2048 64)) (regs51_geometry 2048 64)
    (fun _ _ => ⟨rfl, rfl⟩) (fun _ _ => rfl) code_bank (new_chip 51) regWorld 2048 64
    0x10000010 0x10000014 rfl (by decide) (by decide) (Or.inl (by decide)) (by decide)
    (by decide) (by decide) (by decide) (by decide) (by decide) (by decide)

/-- Counterexample to C5 as stated.  A nRF51 whose factory registers read a
page size of 0x80000000 and 3 pages: the probe returns `ERROR_OK` with three
sectors, and the offset of sector 2 is 0, the 32-bit product, not
`2 * 0x80000000`. -/
theorem nrfx_probe_sector_offset_wraps :
    (nrfx_probe (regEnv (regs51_geometry 0x80000000 3)) code_bank (new_chip 51) regWorld).map
        (fun r => (r.1, r.2.1.num_sectors, r.2.1.sector_array.map (fun s => s.offset)))
      = some (ERROR_OK, 3, [0, 0x80000000, 0]) ∧
    2 * 0x80000000 ≠ 0 := by
  decide

end GeometryProofs


section PageRangeProofs

theorem u32_of_lt {x : Nat} (h : x < 2 ^ 32) : u32 x = x := Nat.mod_eq_of_lt h

theorem sub32_of_le {a b : Nat} (ha : a < 2 ^ 32) (hb : b ≤ a) : sub32 a b = a - b := by
  unfold sub32
  rw [u32_of_lt ha, u32_of_lt (by omega)]
  have : a + 2 ^ 32 - b = (a - b) + 2 ^ 32 := by omega
  rw [this, Nat.add_mod_right]
  exact Nat.mod_eq_of_lt (by omega)

/-- The page arithmetic without overflow: the values of the locals. -/
theorem nrfx_code_flash_write_range_eq (p offset count : Nat) (hp : 0 < p)
    (hov : offset + count + p < 2 ^ 32) :
    nrfx_code_flash_write_range p offset count =
      { first_page := offset / p,
        last_page := (offset + count + p - 1) / p,
        first_page_offset := offset / p * p,
        last_page_offset := (offset + count + p - 1) / p * p,
        page_cnt := (offset + count + p - 1) / p - offset / p,
        pre := offset - offset / p * p,
        post := (offset + count + p - 1) / p * p - (offset + count) } := by
  have h1 : offset / p * p ≤ offset := Nat.div_mul_le_self offset p
  have h2 : (offset + count + p - 1) / p * p ≤ offset + count + p - 1 :=
    Nat.div_mul_le_self _ p
  have h3 : offset + count + p - 1 < ((offset + count + p - 1) / p + 1) * p := by
    rw [Nat.mul_comm]; exact Nat.lt_mul_div_succ _ hp
  rw [Nat.add_mul, Nat.one_mul] at h3
  have h4 : offset / p ≤ (offset + count + p - 1) / p :=
    Nat.div_le_div_right (by omega)
  have h5 : (offset + count + p - 1) / p ≤ offset + count + p - 1 := Nat.div_le_self _ _
  have hdr : DIV_ROUND_UP (u32 (offset + count)) p = (offset + count + p - 1) / p := by
    have e1 : u32 (offset + count) = offset + count := u32_of_lt (by omega)
    have e2 : u32 p = p := u32_of_lt (by omega)
    have e3 : u32 (offset + count + p) = offset + count + p := u32_of_lt (by omega)
    simp only [DIV_ROUND_UP, e1, e2, e3]
    rw [sub32_of_le (by omega) (by omega)]
  unfold nrfx_code_flash_write_range
  simp only [hdr]
  rw [u32_of_lt (show offset / p * p < 2 ^ 32 by omega),
    u32_of_lt (show (offset + count + p - 1) / p * p < 2 ^ 32 by omega),
    u32_of_lt (show offset + count < 2 ^ 32 by omega),
    sub32_of_le (by omega) h4, sub32_of_le (by omega) h1,
    sub32_of_le (by omega) (by omega)]

end PageRangeProofs


section ControllerProofs

variable {σ : Type}

theorem reg_read_rel {E : Env σ} {R : World σ → World σ → Prop} (hR : CtrlRel E R)
    (addr out : Nat) (w : World σ) : R w (reg_read E addr out w).2.2 := by
  unfold reg_read
  split
  · exact hR.refl w
  · exact hR.read_u32 addr w

theorem reg_write_rel {E : Env σ} {R : World σ → World σ → Prop} (hR : CtrlRel E R)
    (addr val : Nat) (w : World σ) : R w (reg_write E addr val w).2 := by
  unfold reg_write
  split
  · exact hR.refl w
  · exact hR.write_u32 addr val w

theorem nvmc_read_rel {E : Env σ} {R : World σ → World σ → Prop} (hR : CtrlRel E R)
    (chip : nrfx_info) (r out : Nat) (w : World σ) (res : Ret) (v : Nat) (w' : World σ)
    (h : nvmc_read E chip r out w = some (res, v, w')) : R w w' := by
  unfold nvmc_read at h
  cases hx : chip.nvmc_registers[r &&& REG_INDEX_MASK]? with
  | none => simp [hx] at h
  | some a =>
    simp only [hx, Option.map_some', Option.some.injEq] at h
    have := reg_read_rel hR a out w
    rw [h] at this
    exact this

theorem nvmc_write_rel {E : Env σ} {R : World σ → World σ → Prop} (hR : CtrlRel E R)
    (chip : nrfx_info) (r val : Nat) (w : World σ) (res : Ret) (w' : World σ)
    (h : nvmc_write E chip r val w = some (res, w')) : R w w' := by
  unfold nvmc_write at h
  cases hx : chip.nvmc_registers[r &&& REG_INDEX_MASK]? with
  | none => simp [hx] at h
  | some a =>
    simp only [hx, Option.map_some', Option.some.injEq] at h
    have := reg_write_rel hR a val w
    rw [h] at this
    exact this

theorem nrfx_wait_for_nvmc_loop_rel {E : Env σ} {R : World σ → World σ → Prop}
    (hR : CtrlRel E R) (chip : nrfx_info) (timeout_ms ts_start : Int) :
    ∀ (fuel : Nat) (w : World σ) (res : Ret) (w' : World σ),
      nrfx_wait_for_nvmc_loop E chip timeout_ms ts_start fuel w = some (res, w') → R w w' := by
  intro fuel
  induction fuel with
  | zero => intro w res w' h; simp [nrfx_wait_for_nvmc_loop] at h
  | succ n ih =>
    intro w res w' h
    unfold nrfx_wait_for_nvmc_loop at h
    cases hr : nvmc_read E chip NRFX_NVMC_READY 0 w with
    | none => simp [hr] at h
    | some r =>
      obtain ⟨res1, ready, w1⟩ := r
      have h1 := nvmc_read_rel hR chip _ _ w res1 ready w1 hr
      simp only [hr] at h
      split at h
      · simp only [Option.some.injEq, Prod.mk.injEq] at h
        rw [← h.2]
        exact hR.trans _ _ _ h1 (hR.log _ _)
      · split at h
        · simp only [Option.some.injEq, Prod.mk.injEq] at h
          rw [← h.2]
          exact h1
        · split at h
          · exact hR.trans _ _ _ (hR.trans _ _ _ h1 (hR.timeval w1)) (ih _ _ _ h)
          · simp only [Option.some.injEq, Prod.mk.injEq] at h
            rw [← h.2]
            exact hR.trans _ _ _ (hR.trans _ _ _ h1 (hR.timeval w1)) (hR.log _ _)

theorem nrfx_wait_for_nvmc_rel {E : Env σ} {R : World σ → World σ → Prop}
    (hR : CtrlRel E R) (fuel : Nat) (chip : nrfx_info) (w : World σ) (res : Ret)
    (w' : World σ) (h : nrfx_wait_for_nvmc E fuel chip w = some (res, w')) : R w w' := by
  unfold nrfx_wait_for_nvmc at h
  exact hR.trans _ _ _ (hR.timeval w) (nrfx_wait_for_nvmc_loop_rel hR chip _ _ fuel _ res w' h)

theorem nrfx_nvmc_write_enable_rel {E : Env σ} {R : World σ → World σ → Prop}
    (hR : CtrlRel E R) (fuel : Nat) (chip : nrfx_info) (w : World σ) (res : Ret)
    (w' : World σ) (h : nrfx_nvmc_write_enable E fuel chip w = some (res, w')) : R w w' := by
  unfold nrfx_nvmc_write_enable at h
  cases hw : nvmc_write E chip NRFX_NVMC_CONFIG NRFX_NVMC_CONFIG_WEN w with
  | none => simp [hw] at h
  | some r =>
    obtain ⟨res1, w1⟩ := r
    have h1 := nvmc_write_rel hR chip _ _ w res1 w1 hw
    simp only [hw] at h
    split at h
    · simp only [Option.some.injEq, Prod.mk.injEq] at h
      rw [← h.2]
      exact hR.trans _ _ _ h1 (hR.log _ _)
    · cases hq : nrfx_wait_for_nvmc E fuel chip w1 with
      | none => simp [hq] at h
      | some q =>
        obtain ⟨res2, w2⟩ := q
        have h2 := nrfx_wait_for_nvmc_rel hR fuel chip w1 res2 w2 hq
        simp only [hq] at h
        split at h
        · simp only [Option.some.injEq, Prod.mk.injEq] at h
          rw [← h.2]
          exact hR.trans _ _ _ (hR.trans _ _ _ h1 h2) (hR.log _ _)
        · simp only [Option.some.injEq, Prod.mk.injEq] at h
          rw [← h.2]
          exact hR.trans _ _ _ h1 h2

theorem nrfx_nvmc_read_only_rel {E : Env σ} {R : World σ → World σ → Prop}
    (hR : CtrlRel E R) (fuel : Nat) (chip : nrfx_info) (w : World σ) (res : Ret)
    (w' : World σ) (h : nrfx_nvmc_read_only E fuel chip w = some (res, w')) : R w w' := by
  unfold nrfx_nvmc_read_only at h
  cases hw : nvmc_write E chip NRFX_NVMC_CONFIG NRFX_NVMC_CONFIG_REN w with
  | none => simp [hw] at h
  | some r =>
    obtain ⟨res1, w1⟩ := r
    have h1 := nvmc_write_rel hR chip _ _ w res1 w1 hw
    simp only [hw] at h
    split at h
    · simp only [Option.some.injEq, Prod.mk.injEq] at h
      rw [← h.2]
      exact hR.trans _ _ _ h1 (hR.log _ _)
    · cases hq : nrfx_wait_for_nvmc E fuel chip w1 with
      | none => simp [hq] at h
      | some q =>
        obtain ⟨res2, w2⟩ := q
        have h2 := nrfx_wait_for_nvmc_rel hR fuel chip w1 res2 w2 hq
        simp only [hq] at h
        split at h
        · simp only [Option.some.injEq, Prod.mk.injEq] at h
          rw [← h.2]
          exact hR.trans _ _ _ (hR.trans _ _ _ h1 h2) (hR.log _ _)
        · simp only [Option.some.injEq, Prod.mk.injEq] at h
          rw [← h.2]
          exact hR.trans _ _ _ h1 h2

end ControllerProofs


section TraceProofs

variable {σ : Type}

theorem no_read_since_refl (w : World σ) : no_read_since w w :=
  ⟨[], by simp, by simp⟩

theorem no_read_since_trans (a b c : World σ) (h1 : no_read_since a b)
    (h2 : no_read_since b c) : no_read_since a c := by
  obtain ⟨e1, he1, hn1⟩ := h1
  obtain ⟨e2, he2, hn2⟩ := h2
  refine ⟨e1 ++ e2, by rw [he2, he1, List.append_assoc], ?_⟩
  intro t ht
  rcases List.mem_append.mp ht with h | h
  · exact hn1 t h
  · exact hn2 t h

theorem no_read_since_of_txns_eq (w w' : World σ) (h : w'.txns = w.txns) :
    no_read_since w w' :=
  ⟨[], by simp [h], by simp⟩

theorem no_read_since_step (w w' : World σ) (t : Txn) (h : w'.txns = w.txns ++ [t])
    (ht : t.is_read_memory = false) : no_read_since w w' :=
  ⟨[t], h, by simpa using ht⟩

theorem no_read_since_ctrl (E : Env σ) : CtrlRel E (no_read_since (σ := σ)) where
  refl := no_read_since_refl
  trans := no_read_since_trans
  log := fun _ w => no_read_since_of_txns_eq w _ rfl
  read_u32 := fun a w => no_read_since_step w _ (Txn.read_u32 a) rfl rfl
  write_u32 := fun a v w => no_read_since_step w _ (Txn.write_u32 a v) rfl rfl
  timeval := fun w => no_read_since_of_txns_eq w _ rfl

theorem nrfx_ll_flash_write_slow_no_read (E : Env σ) (fuel : Nat) (chip : nrfx_info) :
    ∀ (n offset : Nat) (buffer : List Nat) (bytes : Nat) (w : World σ) (res : Ret)
      (w' : World σ),
      nrfx_ll_flash_write_slow E fuel chip n offset buffer bytes w = some (res, w') →
      no_read_since w w' := by
  intro n
  induction n with
  | zero =>
    intro offset buffer bytes w res w' h
    unfold nrfx_ll_flash_write_slow at h
    split at h
    · simp at h
    · simp only [Option.some.injEq, Prod.mk.injEq] at h
      rw [← h.2]
      exact no_read_since_refl w
  | succ k ih =>
    intro offset buffer bytes w res w' h
    unfold nrfx_ll_flash_write_slow at h
    split at h
    · have hstep : no_read_since w (target_write_memory E offset 4 1 buffer w).2 :=
        no_read_since_step w _ _ rfl rfl
      simp only at h
      split at h
      · simp only [Option.some.injEq, Prod.mk.injEq] at h
        rw [← h.2]
        exact hstep
      · cases hq : nrfx_wait_for_nvmc E fuel chip (target_write_memory E offset 4 1 buffer w).2
          with
        | none => simp [hq] at h
        | some q =>
          obtain ⟨res2, w2⟩ := q
          have h2 := nrfx_wait_for_nvmc_rel (no_read_since_ctrl E) fuel chip _ res2 w2 hq
          simp only [hq] at h
          split at h
          · simp only [Option.some.injEq, Prod.mk.injEq] at h
            rw [← h.2]
            exact no_read_since_trans _ _ _ hstep h2
          · exact no_read_since_trans _ _ _ (no_read_since_trans _ _ _ hstep h2)
              (ih _ _ _ _ _ _ h)
    · simp only [Option.some.injEq, Prod.mk.injEq] at h
      rw [← h.2]
      exact no_read_since_refl w

theorem nrfx_ll_flash_write_alloc_no_read (E : Env σ) (write_algorithm : working_area) :
    ∀ (n buffer_size : Nat) (w : World σ) (r : Ret ⊕ working_area) (sz : Nat)
      (w' : World σ),
      nrfx_ll_flash_write_alloc E write_algorithm n buffer_size w = some (r, sz, w') →
      no_read_since w w' := by
  intro n
  induction n with
  | zero => intro buffer_size w r sz w' h; simp [nrfx_ll_flash_write_alloc] at h
  | succ k ih =>
    intro buffer_size w r sz w' h
    unfold nrfx_ll_flash_write_alloc at h
    have hstep : no_read_since w (target_alloc_working_area E buffer_size w).2.2 :=
      no_read_since_step w _ _ rfl rfl
    simp only at h
    split at h
    · split at h
      · simp only [Option.some.injEq, Prod.mk.injEq] at h
        rw [← h.2.2]
        refine no_read_since_trans _ _ _ hstep ?_
        exact no_read_since_trans _ _ _
          (no_read_since_step _ (target_free_working_area E write_algorithm _) _ rfl rfl)
          (no_read_since_of_txns_eq _ _ rfl)
      · exact no_read_since_trans _ _ _ hstep (ih _ _ _ _ _ h)
    · simp only [Option.some.injEq, Prod.mk.injEq] at h
      rw [← h.2.2]
      exact hstep

theorem target_run_flash_async_algorithm_no_read (E : Env σ) (buffer : List Nat)
    (count block_size : Nat) (reg_params : List Nat) (a b c d : Nat) (w : World σ) :
    no_read_since w
      (target_run_flash_async_algorithm E buffer count block_size reg_params a b c d w).2 :=
  no_read_since_step _ _ _ rfl rfl

theorem target_free_working_area_no_read (E : Env σ) (area : working_area) (w : World σ) :
    no_read_since w (target_free_working_area E area w) :=
  no_read_since_step _ _ _ rfl rfl

theorem nrfx_ll_flash_write_no_read (E : Env σ) (fuel : Nat) (chip : nrfx_info)
    (offset : Nat) (buffer : List Nat) (bytes : Nat) (w : World σ) (res : Ret)
    (w' : World σ)
    (h : nrfx_ll_flash_write E fuel chip offset buffer bytes w = some (res, w')) :
    no_read_since w w' := by
  unfold nrfx_ll_flash_write at h
  simp only at h
  have h0 : no_read_since w (LOG (LogMsg.writing_buffer offset bytes) w) :=
    no_read_since_of_txns_eq _ _ rfl
  split at h
  · simp at h
  · have h1 : no_read_since (LOG (LogMsg.writing_buffer offset bytes) w)
        (target_alloc_working_area E nrfx_flash_write_code.length
          (LOG (LogMsg.writing_buffer offset bytes) w)).2.2 :=
      no_read_since_step _ _ _ rfl rfl
    split at h
    · refine no_read_since_trans _ _ _ (no_read_since_trans _ _ _ h0 h1) ?_
      refine no_read_since_trans _ _ _ ?_
        (nrfx_ll_flash_write_slow_no_read E fuel chip _ _ _ _ _ _ _ h)
      exact no_read_since_of_txns_eq _ _ rfl
    · have h2 : no_read_since
          (target_alloc_working_area E nrfx_flash_write_code.length
            (LOG (LogMsg.writing_buffer offset bytes) w)).2.2
          (target_write_buffer E
            (target_alloc_working_area E nrfx_flash_write_code.length
              (LOG (LogMsg.writing_buffer offset bytes) w)).2.1.address
            nrfx_flash_write_code.length nrfx_flash_write_code
            (LOG LogMsg.using_fast_loader
              (target_alloc_working_area E nrfx_flash_write_code.length
                (LOG (LogMsg.writing_buffer offset bytes) w)).2.2)).2 :=
        no_read_since_step _ _ _ rfl rfl
      have h012 := no_read_since_trans _ _ _ (no_read_since_trans _ _ _ h0 h1) h2
      split at h
      · simp only [Option.some.injEq, Prod.mk.injEq] at h
        rw [← h.2]
        exact h012
      · split at h
        · simp at h
        · rename_i retval sz w2 heq
          simp only [Option.some.injEq, Prod.mk.injEq] at h
          rw [← h.2]
          exact no_read_since_trans _ _ _ h012
            (nrfx_ll_flash_write_alloc_no_read E _ _ _ _ _ _ _ heq)
        · rename_i source sz w2 heq
          simp only [Option.some.injEq, Prod.mk.injEq] at h
          rw [← h.2]
          refine no_read_since_trans _ _ _ h012 ?_
          refine no_read_since_trans _ _ _
            (nrfx_ll_flash_write_alloc_no_read E _ _ _ _ _ _ _ heq) ?_
          exact no_read_since_trans _ _ _
            (target_run_flash_async_algorithm_no_read E _ _ _ _ _ _ _ _ _)
            (no_read_since_trans _ _ _ (target_free_working_area_no_read E _ _)
              (target_free_working_area_no_read E _ _))

theorem nrfx_write_pages_no_read (E : Env σ) (fuel : Nat) (bank : flash_bank)
    (chip : nrfx_info) (start end_ : Nat) (buffer : List Nat) (w : World σ) (res : Ret)
    (w' : World σ)
    (h : nrfx_write_pages E fuel bank chip start end_ buffer w = some (res, w')) :
    no_read_since w w' := by
  have hR := no_read_since_ctrl E
  have herr : ∀ (r : Ret) (w1 : World σ),
      (match nrfx_nvmc_read_only E fuel chip w1 with
        | none => none
        | some (_, w2) => some (r, LOG LogMsg.write_failed w2)) = some (res, w') →
      no_read_since w1 w' := by
    intro r w1 he
    cases hro : nrfx_nvmc_read_only E fuel chip w1 with
    | none => simp [hro] at he
    | some q =>
      obtain ⟨res3, w3⟩ := q
      simp only [hro, Option.some.injEq, Prod.mk.injEq] at he
      rw [← he.2]
      exact no_read_since_trans _ _ _ (nrfx_nvmc_read_only_rel hR fuel chip w1 res3 w3 hro)
        (no_read_since_of_txns_eq _ _ rfl)
  unfold nrfx_write_pages at h
  simp only at h
  split at h
  · simp at h
  · split at h
    · simp at h
    · split at h
      · simp at h
      · cases hwe : nrfx_nvmc_write_enable E fuel chip w with
        | none => simp [hwe] at h
        | some q =>
          obtain ⟨res1, w1⟩ := q
          have h1 := nrfx_nvmc_write_enable_rel hR fuel chip w res1 w1 hwe
          simp only [hwe] at h
          split at h
          · exact no_read_since_trans _ _ _ h1 (herr _ _ h)
          · cases hll : nrfx_ll_flash_write E fuel chip start buffer (sub32 end_ start) w1 with
            | none => simp [hll] at h
            | some q2 =>
              obtain ⟨res2, w2⟩ := q2
              have h2 := nrfx_ll_flash_write_no_read E fuel chip _ _ _ w1 res2 w2 hll
              simp only [hll] at h
              split at h
              · exact no_read_since_trans _ _ _ (no_read_since_trans _ _ _ h1 h2)
                  (herr _ _ h)
              · exact no_read_since_trans _ _ _ (no_read_since_trans _ _ _ h1 h2)
                  (nrfx_nvmc_read_only_rel hR fuel chip w2 res w' h)

end TraceProofs


section PaddingProofs

variable {σ : Type}

theorem LOG_st (m : LogMsg) (w : World σ) : (LOG m w).st = w.st := rfl

theorem LOG_txns (m : LogMsg) (w : World σ) : (LOG m w).txns = w.txns := rfl

theorem nrfx_code_flash_write_range_pre (p offset count : Nat) (hp : 0 < p)
    (hov : offset + count + p < 2 ^ 32) :
    (nrfx_code_flash_write_range p offset count).pre = offset % p := by
  rw [nrfx_code_flash_write_range_eq p offset count hp hov]
  simp only
  have := Nat.div_add_mod offset p
  rw [Nat.mul_comm] at this
  omega

theorem nrfx_code_flash_write_range_post (p offset count : Nat) (hp : 0 < p)
    (hov : offset + count + p < 2 ^ 32) :
    ((nrfx_code_flash_write_range p offset count).post = 0 ↔ (offset + count) % p = 0) := by
  rw [nrfx_code_flash_write_range_eq p offset count hp hov]
  simp only
  have h2 : (offset + count + p - 1) / p * p ≤ offset + count + p - 1 :=
    Nat.div_mul_le_self _ p
  have h3 : offset + count + p - 1 < (offset + count + p - 1) / p * p + p := by
    have := Nat.lt_mul_div_succ (offset + count + p - 1) hp
    rw [Nat.mul_comm, Nat.add_mul, Nat.one_mul] at this
    exact this
  constructor
  · intro h
    have heq : (offset + count + p - 1) / p * p = offset + count := by omega
    rw [← heq]
    exact Nat.mul_mod_left _ _
  · intro h
    obtain ⟨k, hk⟩ := Nat.dvd_of_mod_eq_zero h
    have hq : (offset + count + p - 1) / p = k := by
      have : offset + count + p - 1 = (p - 1) + p * k := by rw [hk]; omega
      rw [this, Nat.add_mul_div_left _ _ hp, Nat.div_eq_of_lt (by omega)]
      omega
    rw [hq, hk, Nat.mul_comm]
    omega

theorem nrfx_code_flash_write_range_bounds (p offset count : Nat) (hp : 0 < p)
    (hov : offset + count + p < 2 ^ 32) :
    (nrfx_code_flash_write_range p offset count).first_page_offset
        + (nrfx_code_flash_write_range p offset count).pre = offset ∧
    offset + count + (nrfx_code_flash_write_range p offset count).post
      = (nrfx_code_flash_write_range p offset count).last_page_offset ∧
    sub32 (nrfx_code_flash_write_range p offset count).last_page_offset
        (nrfx_code_flash_write_range p offset count).first_page_offset
      = (nrfx_code_flash_write_range p offset count).pre + count
        + (nrfx_code_flash_write_range p offset count).post ∧
    u32 ((nrfx_code_flash_write_range p offset count).page_cnt * p)
      = (nrfx_code_flash_write_range p offset count).pre + count
        + (nrfx_code_flash_write_range p offset count).post ∧
    (nrfx_code_flash_write_range p offset count).first_page_offset % p = 0 ∧
    (nrfx_code_flash_write_range p offset count).last_page_offset % p = 0 ∧
    (nrfx_code_flash_write_range p offset count).last_page_offset < 2 ^ 32 := by
  rw [nrfx_code_flash_write_range_eq p offset count hp hov]
  simp only
  have h1 : offset / p * p ≤ offset := Nat.div_mul_le_self offset p
  have h2 : (offset + count + p - 1) / p * p ≤ offset + count + p - 1 :=
    Nat.div_mul_le_self _ p
  have h3 : offset + count + p - 1 < (offset + count + p - 1) / p * p + p := by
    have := Nat.lt_mul_div_succ (offset + count + p - 1) hp
    rw [Nat.mul_comm, Nat.add_mul, Nat.one_mul] at this
    exact this
  have h4 : offset / p * p ≤ (offset + count + p - 1) / p * p :=
    Nat.mul_le_mul_right p (Nat.div_le_div_right (by omega))
  have hcnt : ((offset + count + p - 1) / p - offset / p) * p
      = (offset + count + p - 1) / p * p - offset / p * p := Nat.sub_mul _ _ _
  refine ⟨by omega, by omega, ?_, ?_, Nat.mul_mod_left _ _, Nat.mul_mod_left _ _, by omega⟩
  · rw [sub32_of_le (by omega) h4]; omega
  · rw [hcnt, u32_of_lt (by omega)]; omega

/-- C10.  Padding reads of `nrfx_code_flash_write`, for a page size `p > 0`
and `offset + count + p` below `2^32`; `g` are the locals of the function.
* The gap before is empty exactly when `offset` is a multiple of `p`, the gap
  after exactly when `offset + count` is; the first read covers the bytes
  `[first_page_offset, offset)` and the second the bytes
  `[offset + count, last_page_offset)`.
* If the first read is issued and fails, the function returns its error and
  that read is the only transaction.
* If the second read is issued (the first one was not needed or succeeded) and
  fails, the function returns its error after the padding reads alone.
* In every run, the transactions are the first read if `offset` is not
  aligned, then the second read if `offset + count` is not aligned (and the
  first read did not fail), then transactions none of which reads device
  memory: when both are aligned no device memory is read at all. -/
theorem nrfx_code_flash_write_padding_reads (E : Env σ) (fuel : Nat) (bank : flash_bank)
    (chip : nrfx_info) (buffer : List Nat) (offset count : Nat) (w : World σ)
    (g : write_range) (hp : 0 < chip.code_page_size)
    (hov : offset + count + chip.code_page_size < 2 ^ 32)
    (hg : g = nrfx_code_flash_write_range chip.code_page_size offset count) :
    (0 < g.pre ↔ offset % chip.code_page_size ≠ 0) ∧
    (0 < g.post ↔ (offset + count) % chip.code_page_size ≠ 0) ∧
    g.first_page_offset + g.pre = offset ∧
    offset + count + g.post = g.last_page_offset ∧
    (0 < g.pre → (E.read_memory w.st g.first_page_offset 1 g.pre).1 ≠ ERROR_OK →
      ∃ w', nrfx_code_flash_write E fuel bank chip buffer offset count w
          = some ((E.read_memory w.st g.first_page_offset 1 g.pre).1, w') ∧
        w'.txns = w.txns ++ [Txn.read_memory g.first_page_offset 1 g.pre]) ∧
    (0 < g.post →
      (g.pre = 0 ∨ (E.read_memory w.st g.first_page_offset 1 g.pre).1 = ERROR_OK) →
      (E.read_memory
        (if 0 < g.pre then (E.read_memory w.st g.first_page_offset 1 g.pre).2.2 else w.st)
        (offset + count) 1 g.post).1 ≠ ERROR_OK →
      ∃ w', nrfx_code_flash_write E fuel bank chip buffer offset count w
          = some ((E.read_memory
              (if 0 < g.pre then (E.read_memory w.st g.first_page_offset 1 g.pre).2.2
               else w.st)
              (offset + count) 1 g.post).1, w') ∧
        w'.txns = w.txns
          ++ (if 0 < g.pre then [Txn.read_memory g.first_page_offset 1 g.pre] else [])
          ++ [Txn.read_memory (offset + count) 1 g.post]) ∧
    (∀ res w', nrfx_code_flash_write E fuel bank chip buffer offset count w = some (res, w') →
      ∃ extra, w'.txns = w.txns
          ++ (if 0 < g.pre then [Txn.read_memory g.first_page_offset 1 g.pre] else [])
          ++ (if 0 < g.post ∧
                (g.pre = 0 ∨ (E.read_memory w.st g.first_page_offset 1 g.pre).1 = ERROR_OK)
              then [Txn.read_memory (offset + count) 1 g.post] else [])
          ++ extra ∧
        ∀ t ∈ extra, t.is_read_memory = false) := by
  have hpre := nrfx_code_flash_write_range_pre chip.code_page_size offset count hp hov
  have hpost := nrfx_code_flash_write_range_post chip.code_page_size offset count hp hov
  have hb := nrfx_code_flash_write_range_bounds chip.code_page_size offset count hp hov
  have hu : u32 (offset + count) = offset + count := u32_of_lt (by omega)
  have hp0 : chip.code_page_size ≠ 0 := by omega
  subst hg
  refine ⟨by rw [hpre]; omega, by rw [Nat.pos_iff_ne_zero]; exact not_congr hpost,
    hb.1, hb.2.1, ?_, ?_, ?_⟩
  · intro h1 hfail
    simp only [nrfx_code_flash_write, if_neg hp0, gt_iff_lt, if_pos h1, target_read_memory,
      LOG_st, LOG_txns, ne_eq, hfail, not_false_eq_true, if_true]
    exact ⟨_, rfl, rfl⟩
  · intro h2 hok hfail
    by_cases h1 : 0 < (nrfx_code_flash_write_range chip.code_page_size offset count).pre
    · have hok' : (E.read_memory w.st
          (nrfx_code_flash_write_range chip.code_page_size offset count).first_page_offset 1
          (nrfx_code_flash_write_range chip.code_page_size offset count).pre).1 = ERROR_OK := by
        rcases hok with h | h
        · omega
        · exact h
      rw [if_pos h1] at hfail
      simp only [nrfx_code_flash_write, if_neg hp0, gt_iff_lt, if_pos h1, if_pos h2,
        target_read_memory, LOG_st, LOG_txns, ne_eq, hok', not_true_eq_false, if_false, hu, hfail,
        not_false_eq_true, if_true]
      exact ⟨_, rfl, rfl⟩
    · rw [if_neg h1] at hfail
      simp only [nrfx_code_flash_write, if_neg hp0, gt_iff_lt, if_neg h1, if_pos h2,
        target_read_memory, LOG_st, LOG_txns, ne_eq, not_true_eq_false, if_false, hu, hfail,
        not_false_eq_true, if_true]
      exact ⟨_, rfl, by simp [LOG]⟩
  · intro res w' hrun
    simp only [nrfx_code_flash_write, if_neg hp0, gt_iff_lt, hu] at hrun
    by_cases h1 : 0 < (nrfx_code_flash_write_range chip.code_page_size offset count).pre
    · simp only [if_pos h1, target_read_memory, LOG_st, LOG_txns] at hrun
      by_cases hok : (E.read_memory w.st
          (nrfx_code_flash_write_range chip.code_page_size offset count).first_page_offset 1
          (nrfx_code_flash_write_range chip.code_page_size offset count).pre).1 = ERROR_OK
      · simp only [hok, ne_eq, not_true_eq_false, if_false] at hrun
        by_cases h2 : 0 < (nrfx_code_flash_write_range chip.code_page_size offset count).post
        · simp only [if_pos h2] at hrun
          split at hrun
          · simp only [Option.some.injEq, Prod.mk.injEq] at hrun
            refine ⟨[], ?_, by simp⟩
            rw [← hrun.2]
            simp [h1, h2, hok]
          · obtain ⟨extra, he, hn⟩ := nrfx_write_pages_no_read E fuel bank chip _ _ _ _ res w' hrun
            refine ⟨extra, ?_, hn⟩
            rw [he]
            simp [h1, h2, hok]
        · simp only [if_neg h2, ne_eq, not_true_eq_false, if_false] at hrun
          obtain ⟨extra, he, hn⟩ := nrfx_write_pages_no_read E fuel bank chip _ _ _ _ res w' hrun
          refine ⟨extra, ?_, hn⟩
          rw [he]
          simp [h1, h2]
      · simp only [hok, ne_eq, not_false_eq_true, if_true, Option.some.injEq,
          Prod.mk.injEq] at hrun
        refine ⟨[], ?_, by simp⟩
        rw [← hrun.2]
        have hp' : ¬ (nrfx_code_flash_write_range chip.code_page_size offset count).pre = 0 := by
          omega
        simp [h1, hok, hp']
    · simp only [if_neg h1, ne_eq, not_true_eq_false, if_false] at hrun
      have hp' : (nrfx_code_flash_write_range chip.code_page_size offset count).pre = 0 := by
        omega
      by_cases h2 : 0 < (nrfx_code_flash_write_range chip.code_page_size offset count).post
      · simp only [if_pos h2, target_read_memory, LOG_st, LOG_txns] at hrun
        split at hrun
        · simp only [Option.some.injEq, Prod.mk.injEq] at hrun
          refine ⟨[], ?_, by simp⟩
          rw [← hrun.2]
          simp [h1, h2, hp']
        · obtain ⟨extra, he, hn⟩ := nrfx_write_pages_no_read E fuel bank chip _ _ _ _ res w' hrun
          refine ⟨extra, ?_, hn⟩
          rw [he]
          simp [h1, h2, hp']
      · simp only [if_neg h2, ne_eq, not_true_eq_false, if_false] at hrun
        obtain ⟨extra, he, hn⟩ := nrfx_write_pages_no_read E fuel bank chip _ _ _ _ res w' hrun
        refine ⟨extra, ?_, hn⟩
        rw [he]
        simp [h1, h2, LOG_txns]

/-- Witness of C10: 3 bytes at offset 5 with pages of 2048 bytes, a read of
5 bytes at 0 and a read of 2040 bytes at 8. -/
theorem nrfx_code_flash_write_padding_reads_witness :
    (0 < 5 ↔ 5 % 2048 ≠ 0) ∧ (0 < 2040 ↔ (5 + 3) % 2048 ≠ 0) ∧ 0 + 5 = 5 ∧
    5 + 3 + 2040 = 2048 ∧
    (∀ res w', nrfx_code_flash_write memEnv 600 code_bank chip51_2k [1, 2, 3] 5 3
        (memWorld (memOf (regs51 0x001D))) = some (res, w') →
      ∃ extra, w'.txns = [] ++ [Txn.read_memory 0 1 5] ++ [Txn.read_memory 8 1 2040] ++ extra ∧
        ∀ t ∈ extra, t.is_read_memory = false) :=
  have h := nrfx_code_flash_write_padding_reads memEnv 600 code_bank chip51_2k [1, 2, 3] 5 3
    (memWorld (memOf (regs51 0x001D))) ⟨0, 1, 0, 2048, 1, 5, 2040⟩ (by decide) (by decide)
    (by decide)
  ⟨h.1, h.2.1, h.2.2.1, h.2.2.2.1, h.2.2.2.2.2.2⟩

end PaddingProofs


section RoundTripProofs

theorem same_bytes_ctrl : CtrlRel memEnv same_bytes where
  refl := fun _ => rfl
  trans := fun _ _ _ h1 h2 => h2.trans h1
  log := fun _ _ => rfl
  read_u32 := fun _ _ => rfl
  write_u32 := fun _ _ _ => rfl
  timeval := fun _ => rfl

theorem getD_take_of_lt (l : List Nat) (n i : Nat) (h : i < n) :
    (l.take n).getD i 0 = l.getD i 0 := by
  simp [List.getD_eq_getElem?_getD, List.getElem?_take, h]

theorem getD_drop (l : List Nat) (n i : Nat) : (l.drop n).getD i 0 = l.getD (n + i) 0 := by
  simp [List.getD_eq_getElem?_getD, List.getElem?_drop]

/-- The slow path on the model target: a run that returns `ERROR_OK` has
stored the first `bytes` bytes of the buffer at `offset` and changed no other
byte of device memory. -/
theorem nrfx_ll_flash_write_slow_bytes (fuel : Nat) (chip : nrfx_info) :
    ∀ (n offset : Nat) (buffer : List Nat) (bytes : Nat) (w w' : World Mem),
      bytes % 4 = 0 → bytes ≤ buffer.length → offset + bytes < 2 ^ 32 →
      nrfx_ll_flash_write_slow memEnv fuel chip n offset buffer bytes w
        = some (ERROR_OK, w') →
      ∀ a, w'.st.bytes a =
        if offset ≤ a ∧ a < offset + bytes then buffer.getD (a - offset) 0
        else w.st.bytes a := by
  intro n
  induction n with
  | zero =>
    intro offset buffer bytes w w' _ _ _ h a
    unfold nrfx_ll_flash_write_slow at h
    split at h
    · simp at h
    · simp only [Option.some.injEq, Prod.mk.injEq, true_and] at h
      subst h
      have : bytes = 0 := by omega
      subst this
      rw [if_neg (by omega)]
  | succ k ih =>
    intro offset buffer bytes w w' h4 hlen hov h a
    unfold nrfx_ll_flash_write_slow at h
    split at h
    · rename_i hpos
      have hb4 : 4 ≤ bytes := by omega
      simp only at h
      split at h
      · rename_i hne
        simp only [Option.some.injEq, Prod.mk.injEq] at h
        exact absurd h.1 hne
      · cases hq : nrfx_wait_for_nvmc memEnv fuel chip
            (target_write_memory memEnv offset 4 1 buffer w).2 with
        | none => simp [hq] at h
        | some q =>
          obtain ⟨res2, w2⟩ := q
          have hsame : w2.st.bytes = (target_write_memory memEnv offset 4 1 buffer w).2.st.bytes :=
            nrfx_wait_for_nvmc_rel same_bytes_ctrl fuel chip _ res2 w2 hq
          simp only [hq] at h
          split at h
          · rename_i hne
            simp only [Option.some.injEq, Prod.mk.injEq] at h
            exact absurd h.1 hne
          · have hu : u32 (offset + 4) = offset + 4 := u32_of_lt (by omega)
            have hs : sub32 bytes 4 = bytes - 4 := sub32_of_le (by omega) hb4
            rw [hu, hs] at h
            have := ih (offset + 4) (buffer.drop 4) (bytes - 4) w2 w' (by omega)
              (by simp; omega) (by omega) h a
            rw [this, hsame]
            simp only [target_write_memory, memEnv, Mem.store, Nat.mul_one, List.length_take]
            have hmin : min 4 buffer.length = 4 := by omega
            rw [hmin]
            by_cases c1 : offset + 4 ≤ a ∧ a < offset + 4 + (bytes - 4)
            · have e : 4 + (a - (offset + 4)) = a - offset := by omega
              rw [if_pos c1, if_pos (by omega), getD_drop, e]
            · rw [if_neg c1]
              by_cases c2 : offset ≤ a ∧ a < offset + 4
              · rw [if_pos c2, if_pos (by omega), getD_take_of_lt _ _ _ (by omega)]
              · rw [if_neg c2, if_neg (by omega)]
    · rename_i hz
      simp only [Option.some.injEq, Prod.mk.injEq, true_and] at h
      subst h
      have : bytes = 0 := by omega
      subst this
      rw [if_neg (by omega)]

theorem target_alloc_working_area_same_bytes (size : Nat) (w : World Mem) :
    same_bytes w (target_alloc_working_area memEnv size w).2.2 := by
  unfold same_bytes target_alloc_working_area memEnv
  simp only
  split <;> rfl

theorem nrfx_ll_flash_write_alloc_same_bytes (write_algorithm : working_area) :
    ∀ (n buffer_size : Nat) (w : World Mem) (r : Ret ⊕ working_area) (sz : Nat)
      (w' : World Mem),
      nrfx_ll_flash_write_alloc memEnv write_algorithm n buffer_size w = some (r, sz, w') →
      same_bytes w w' := by
  intro n
  induction n with
  | zero => intro buffer_size w r sz w' h; simp [nrfx_ll_flash_write_alloc] at h
  | succ k ih =>
    intro buffer_size w r sz w' h
    unfold nrfx_ll_flash_write_alloc at h
    have hstep := target_alloc_working_area_same_bytes buffer_size w
    simp only at h
    split at h
    · split at h
      · simp only [Option.some.injEq, Prod.mk.injEq] at h
        rw [← h.2.2]
        exact hstep
      · exact (ih _ _ _ _ _ h).trans hstep
    · simp only [Option.some.injEq, Prod.mk.injEq] at h
      rw [← h.2.2]
      exact hstep

theorem nrfx_ll_flash_write_alloc_error {σ : Type} (E : Env σ)
    (write_algorithm : working_area) :
    ∀ (n buffer_size : Nat) (w : World σ) (r : Ret) (sz : Nat) (w' : World σ),
      nrfx_ll_flash_write_alloc E write_algorithm n buffer_size w = some (Sum.inl r, sz, w') →
      r = ERROR_TARGET_RESOURCE_NOT_AVAILABLE := by
  intro n
  induction n with
  | zero => intro buffer_size w r sz w' h; simp [nrfx_ll_flash_write_alloc] at h
  | succ k ih =>
    intro buffer_size w r sz w' h
    unfold nrfx_ll_flash_write_alloc at h
    simp only at h
    split at h
    · split at h
      · simp only [Option.some.injEq, Prod.mk.injEq, Sum.inl.injEq] at h
        exact h.1.symm
      · exact ih _ _ _ _ _ h
    · simp at h

/-- The streaming on the model target: a run that returns `ERROR_OK` leaves
the first `bytes` bytes of the buffer in device memory at `offset`. -/
theorem nrfx_ll_flash_write_bytes (fuel : Nat) (chip : nrfx_info) (offset : Nat)
    (buffer : List Nat) (bytes : Nat) (w w' : World Mem)
    (hlen : bytes ≤ buffer.length) (hov : offset + bytes < 2 ^ 32)
    (h : nrfx_ll_flash_write memEnv fuel chip offset buffer bytes w = some (ERROR_OK, w')) :
    ∀ a, offset ≤ a → a < offset + bytes → w'.st.bytes a = buffer.getD (a - offset) 0 := by
  intro a ha1 ha2
  unfold nrfx_ll_flash_write at h
  simp only at h
  split at h
  · simp at h
  · rename_i h4
    have h4 : bytes % 4 = 0 := by omega
    split at h
    · have := nrfx_ll_flash_write_slow_bytes fuel chip fuel offset buffer bytes _ w' h4 hlen hov
        h a
      rw [this, if_pos ⟨ha1, ha2⟩]
    · split at h
      · rename_i hne
        simp only [Option.some.injEq, Prod.mk.injEq] at h
        exact absurd h.1 hne
      · split at h
        · simp at h
        · rename_i retval sz w2 heq
          simp only [Option.some.injEq, Prod.mk.injEq] at h
          have := nrfx_ll_flash_write_alloc_error memEnv _ _ _ _ _ _ _ heq
          rw [h.1] at this
          exact absurd this (by decide)
        · rename_i source sz w2 heq
          simp only [Option.some.injEq, Prod.mk.injEq] at h
          obtain ⟨_, rfl⟩ := h
          have hbytes : bytes / 4 * 4 = bytes := by omega
          have haddr : u32 (u32 (NRFX_FLASH_BASE + offset)) = offset := by
            have : NRFX_FLASH_BASE + offset = offset := by simp [NRFX_FLASH_BASE]
            have e1 : u32 offset = offset := u32_of_lt (by omega)
            rw [this, e1, e1]
          simp only [target_free_working_area, target_run_flash_async_algorithm, memEnv,
            Mem.store, hbytes, List.getD_cons_succ, List.getD_cons_zero, haddr,
            List.length_take]
          have hmin : min bytes buffer.length = bytes := by omega
          rw [hmin, if_pos ⟨ha1, ha2⟩, getD_take_of_lt _ _ _ (by omega)]

theorem nrfx_write_pages_bytes (fuel : Nat) (bank : flash_bank) (chip : nrfx_info)
    (start end_ : Nat) (buffer : List Nat) (w w' : World Mem)
    (hlen : sub32 end_ start ≤ buffer.length) (hov : start + sub32 end_ start < 2 ^ 32)
    (h : nrfx_write_pages memEnv fuel bank chip start end_ buffer w = some (ERROR_OK, w')) :
    ∀ a, start ≤ a → a < start + sub32 end_ start →
      w'.st.bytes a = buffer.getD (a - start) 0 := by
  intro a ha1 ha2
  unfold nrfx_write_pages at h
  simp only at h
  split at h
  · simp at h
  · split at h
    · simp at h
    · split at h
      · simp at h
      · cases hwe : nrfx_nvmc_write_enable memEnv fuel chip w with
        | none => simp [hwe] at h
        | some q =>
          obtain ⟨res1, w1⟩ := q
          simp only [hwe] at h
          split at h
          · rename_i hne
            cases hro : nrfx_nvmc_read_only memEnv fuel chip w1 with
            | none => simp [hro] at h
            | some q =>
              simp only [hro, Option.some.injEq, Prod.mk.injEq] at h
              exact absurd h.1 hne
          · cases hll : nrfx_ll_flash_write memEnv fuel chip start buffer (sub32 end_ start) w1
              with
            | none => simp [hll] at h
            | some q2 =>
              obtain ⟨res2, w2⟩ := q2
              simp only [hll] at h
              split at h
              · rename_i hne
                cases hro : nrfx_nvmc_read_only memEnv fuel chip w2 with
                | none => simp [hro] at h
                | some q =>
                  simp only [hro, Option.some.injEq, Prod.mk.injEq] at h
                  exact absurd h.1 hne
              · rename_i hok
                have hok' : res2 = ERROR_OK := by
                  by_contra hcon
                  exact hok hcon
                subst hok'
                have h2 := nrfx_ll_flash_write_bytes fuel chip start buffer _ w1 w2 hlen hov hll
                  a ha1 ha2
                have h3 : w'.st.bytes = w2.st.bytes :=
                  nrfx_nvmc_read_only_rel same_bytes_ctrl fuel chip w2 _ w' h
                rw [h3, h2]

theorem Mem.load_length (m : Mem) (addr n : Nat) : (m.load addr n).length = n := by
  simp [Mem.load]

theorem Mem.load_getD (m : Mem) (addr n i : Nat) (h : i < n) :
    (m.load addr n).getD i 0 = m.bytes (addr + i) := by
  simp [Mem.load, List.getD_eq_getElem?_getD, List.getElem?_range, h]

/-- The array `nrfx_code_flash_write` streams: the bytes before, the caller's
bytes, the bytes after. -/
theorem buffer_to_flash_eq (predata B postdata : List Nat) (pre count post : Nat)
    (h1 : predata.length = pre) (h2 : B.length = count) (h3 : postdata.length = post) :
    memcpy (memcpy (memcpy (List.replicate (pre + count + post) 0) 0 predata pre) pre B count)
      (pre + count) postdata post = predata ++ B ++ postdata := by
  have s1 : memcpy (List.replicate (pre + count + post) 0) 0 predata pre
      = predata ++ List.replicate (count + post) 0 := by
    unfold memcpy
    rw [List.take_zero, List.nil_append, List.take_of_length_le (by omega), Nat.zero_add,
      List.drop_replicate]
    congr 2
    omega
  have s2 : memcpy (predata ++ List.replicate (count + post) 0) pre B count
      = predata ++ B ++ List.replicate post 0 := by
    unfold memcpy
    rw [List.take_left' h1, List.take_of_length_le (by omega), ← h1, List.drop_append,
      List.drop_replicate]
    congr 2
    omega
  have s3 : memcpy (predata ++ B ++ List.replicate post 0) (pre + count) postdata post
      = predata ++ B ++ postdata := by
    unfold memcpy
    have hl : (predata ++ B ++ List.replicate post 0).length ≤ pre + count + post := by
      simp only [List.length_append, List.length_replicate]
      omega
    rw [List.take_left' (by simp [h1, h2]), List.take_of_length_le (by omega),
      List.drop_of_length_le hl]
    simp
  rw [s1, s2, s3]

theorem memEnv_read_memory (s : Mem) (addr size count : Nat) :
    memEnv.read_memory s addr size count = (ERROR_OK, s.load addr (size * count), s) := rfl

theorem memcpy_nil (dst : List Nat) (pos : Nat) : memcpy dst pos [] 0 = dst := by
  simp [memcpy]

theorem Mem.load_zero (m : Mem) (addr : Nat) : m.load addr 0 = [] := rfl

/-- The code-flash strategy on the model target: after a run that returns
`ERROR_OK` the enclosing page range holds the bytes before, the caller's
bytes and the bytes after. -/
theorem nrfx_code_flash_write_stream (fuel : Nat) (bank : flash_bank) (chip : nrfx_info)
    (B : List Nat) (O : Nat) (w w' : World Mem) (hp : 0 < chip.code_page_size)
    (hov : O + B.length + chip.code_page_size < 2 ^ 32)
    (h : nrfx_code_flash_write memEnv fuel bank chip B O B.length w = some (ERROR_OK, w')) :
    ∀ a, (nrfx_code_flash_write_range chip.code_page_size O B.length).first_page_offset ≤ a →
      a < (nrfx_code_flash_write_range chip.code_page_size O B.length).last_page_offset →
      w'.st.bytes a =
        (w.st.load (nrfx_code_flash_write_range chip.code_page_size O B.length).first_page_offset
            (nrfx_code_flash_write_range chip.code_page_size O B.length).pre
          ++ B
          ++ w.st.load (O + B.length)
            (nrfx_code_flash_write_range chip.code_page_size O B.length).post).getD
          (a - (nrfx_code_flash_write_range chip.code_page_size O B.length).first_page_offset)
          0 := by
  have hb := nrfx_code_flash_write_range_bounds chip.code_page_size O B.length hp hov
  obtain ⟨hb1, hb2, hb3, hb4, _, _, hb7⟩ := hb
  have hu : u32 (O + B.length) = O + B.length := u32_of_lt (by omega)
  have hp0 : chip.code_page_size ≠ 0 := by omega
  generalize hg : nrfx_code_flash_write_range chip.code_page_size O B.length = g at *
  have finish : ∀ (w2 : World Mem) (buf : List Nat),
      nrfx_write_pages memEnv fuel bank chip g.first_page_offset g.last_page_offset buf w2
        = some (ERROR_OK, w') →
      buf = w.st.load g.first_page_offset g.pre ++ B ++ w.st.load (O + B.length) g.post →
      ∀ a, g.first_page_offset ≤ a → a < g.last_page_offset →
        w'.st.bytes a = (w.st.load g.first_page_offset g.pre ++ B
          ++ w.st.load (O + B.length) g.post).getD (a - g.first_page_offset) 0 := by
    intro w2 buf hwp hbuf a ha1 ha2
    have hlen : buf.length = g.pre + B.length + g.post := by
      rw [hbuf]; simp [Mem.load_length]; omega
    have := nrfx_write_pages_bytes fuel bank chip _ _ buf w2 w' (by rw [hb3, hlen])
      (by rw [hb3]; omega) hwp a ha1 (by rw [hb3]; omega)
    rw [this, hbuf]
  have hcomp : ∀ (s : Mem), memcpy (memcpy (memcpy
      (List.replicate (u32 (g.page_cnt * chip.code_page_size)) 0) 0
        (s.load g.first_page_offset g.pre) g.pre) g.pre B B.length) (g.pre + B.length)
        (s.load (O + B.length) g.post) g.post
      = s.load g.first_page_offset g.pre ++ B ++ s.load (O + B.length) g.post := by
    intro s
    rw [hb4]
    exact buffer_to_flash_eq _ _ _ _ _ _ (Mem.load_length _ _ _) rfl (Mem.load_length _ _ _)
  simp only [nrfx_code_flash_write, if_neg hp0, gt_iff_lt, hu, hg] at h
  by_cases h1 : 0 < g.pre
  · by_cases h2 : 0 < g.post
    · simp only [if_pos h1, if_pos h2, target_read_memory, memEnv_read_memory, LOG_st, ne_eq, not_true_eq_false,
        if_false, Nat.one_mul] at h
      exact finish _ _ h (hcomp w.st)
    · have hz : g.post = 0 := by omega
      simp only [if_pos h1, if_neg h2, target_read_memory, memEnv_read_memory, LOG_st, ne_eq, not_true_eq_false,
        if_false, Nat.one_mul] at h
      refine finish _ _ h ?_
      rw [← hcomp w.st, hz, Mem.load_zero, memcpy_nil]
  · have hz1 : g.pre = 0 := by omega
    by_cases h2 : 0 < g.post
    · simp only [if_neg h1, if_pos h2, target_read_memory, memEnv_read_memory, LOG_st, ne_eq, not_true_eq_false,
        if_false, Nat.one_mul] at h
      refine finish _ _ h ?_
      rw [← hcomp w.st, hz1, Mem.load_zero, memcpy_nil]
    · have hz : g.post = 0 := by omega
      simp only [if_neg h1, if_neg h2, ne_eq, not_true_eq_false, if_false] at h
      refine finish _ _ h ?_
      rw [← hcomp w.st, hz, hz1, Mem.load_zero, Mem.load_zero, memcpy_nil, memcpy_nil]

theorem nrfx_wait_for_nvmc_ok (fuel : Nat) (chip : nrfx_info) (w : World Mem)
    (hr : ctrl_ready chip w.st) (hf : 0 < fuel) :
    ∃ w', nrfx_wait_for_nvmc memEnv fuel chip w = some (ERROR_OK, w') ∧
      w'.st.regs = w.st.regs ∧ w'.st.bytes = w.st.bytes ∧ w'.st.allocs = w.st.allocs := by
  obtain ⟨r, c, h1, h2, _, _, _, h6⟩ := hr
  obtain ⟨k, rfl⟩ : ∃ k, fuel = k + 1 := ⟨fuel - 1, by omega⟩
  simp [nrfx_wait_for_nvmc, nrfx_wait_for_nvmc_loop, nvmc_read, h1, reg_read, h2,
    target_read_u32, timeval_ms, memEnv, h6]

theorem nrfx_nvmc_write_enable_ok (fuel : Nat) (chip : nrfx_info) (w : World Mem)
    (hr : ctrl_ready chip w.st) (hf : 0 < fuel) :
    ∃ w', nrfx_nvmc_write_enable memEnv fuel chip w = some (ERROR_OK, w') ∧
      ctrl_ready chip w'.st ∧ w'.st.allocs = w.st.allocs := by
  obtain ⟨r, c, h1, h2, h3, h4, h5, h6⟩ := hr
  have hr1 : ctrl_ready chip (target_write_u32 memEnv c NRFX_NVMC_CONFIG_WEN w).2.st :=
    ⟨r, c, h1, h2, h3, h4, h5, by simp [target_write_u32, memEnv, h5, h6]⟩
  obtain ⟨w1, hw1, hregs, _, hal⟩ := nrfx_wait_for_nvmc_ok fuel chip _ hr1 hf
  refine ⟨w1, ?_, ?_, ?_⟩
  · have hw : (target_write_u32 memEnv c NRFX_NVMC_CONFIG_WEN w).1 = ERROR_OK := rfl
    simp [nrfx_nvmc_write_enable, nvmc_write, h3, reg_write, h4, hw1, hw]
  · obtain ⟨r', c', g1, g2, g3, g4, g5, g6⟩ := hr1
    exact ⟨r', c', g1, g2, g3, g4, g5, by rw [hregs]; exact g6⟩
  · rw [hal]; rfl

theorem nrfx_nvmc_read_only_ok (fuel : Nat) (chip : nrfx_info) (w : World Mem)
    (hr : ctrl_ready chip w.st) (hf : 0 < fuel) :
    ∃ w', nrfx_nvmc_read_only memEnv fuel chip w = some (ERROR_OK, w') := by
  obtain ⟨r, c, h1, h2, h3, h4, h5, h6⟩ := hr
  have hr1 : ctrl_ready chip (target_write_u32 memEnv c NRFX_NVMC_CONFIG_REN w).2.st :=
    ⟨r, c, h1, h2, h3, h4, h5, by simp [target_write_u32, memEnv, h5, h6]⟩
  obtain ⟨w1, hw1, _⟩ := nrfx_wait_for_nvmc_ok fuel chip _ hr1 hf
  refine ⟨w1, ?_⟩
  have hw : (target_write_u32 memEnv c NRFX_NVMC_CONFIG_REN w).1 = ERROR_OK := rfl
  simp [nrfx_nvmc_read_only, nvmc_write, h3, reg_write, h4, hw1, hw]

theorem ctrl_ready_of_regs (chip : nrfx_info) (s s' : Mem) (h : s'.regs = s.regs)
    (hr : ctrl_ready chip s) : ctrl_ready chip s' := by
  obtain ⟨r, c, g1, g2, g3, g4, g5, g6⟩ := hr
  exact ⟨r, c, g1, g2, g3, g4, g5, by rw [h]; exact g6⟩

theorem nrfx_ll_flash_write_slow_ok (fuel : Nat) (chip : nrfx_info) (hf : 0 < fuel) :
    ∀ (n offset : Nat) (buffer : List Nat) (bytes : Nat) (w : World Mem),
      bytes % 4 = 0 → bytes / 4 ≤ n → bytes < 2 ^ 32 → ctrl_ready chip w.st →
      ∃ w', nrfx_ll_flash_write_slow memEnv fuel chip n offset buffer bytes w
          = some (ERROR_OK, w') ∧ ctrl_ready chip w'.st := by
  intro n
  induction n with
  | zero =>
    intro offset buffer bytes w h4 hn _ hr
    have hz : bytes = 0 := by omega
    subst hz
    exact ⟨w, by simp [nrfx_ll_flash_write_slow], hr⟩
  | succ k ih =>
    intro offset buffer bytes w h4 hn hlt hr
    by_cases hz : bytes > 0
    · have hr1 : ctrl_ready chip (target_write_memory memEnv offset 4 1 buffer w).2.st :=
        ctrl_ready_of_regs chip w.st _ rfl hr
      obtain ⟨w1, hw1, hregs, _, _⟩ := nrfx_wait_for_nvmc_ok fuel chip _ hr1 hf
      have hr2 : ctrl_ready chip w1.st := ctrl_ready_of_regs chip _ _ hregs hr1
      have hs : sub32 bytes 4 = bytes - 4 := sub32_of_le hlt (by omega)
      obtain ⟨w2, hw2, hr3⟩ := ih (u32 (offset + 4)) (buffer.drop 4) (bytes - 4) w1
        (by omega) (by omega) (by omega) hr2
      refine ⟨w2, ?_, hr3⟩
      have hwm : (target_write_memory memEnv offset 4 1 buffer w).1 = ERROR_OK := rfl
      rw [nrfx_ll_flash_write_slow, if_pos hz]
      simp only [hwm, ne_eq, not_true_eq_false, if_false, hw1, hs]
      exact hw2
    · exact ⟨w, by rw [nrfx_ll_flash_write_slow, if_neg hz], hr⟩

theorem nrfx_ll_flash_write_ok (fuel : Nat) (chip : nrfx_info) (offset : Nat)
    (buffer : List Nat) (bytes : Nat) (w : World Mem) (h4 : bytes % 4 = 0)
    (hfuel : bytes / 4 < fuel) (hlt : bytes < 2 ^ 32) (hr : ctrl_ready chip w.st)
    (hal : allocs_usable w.st) :
    ∃ w', nrfx_ll_flash_write memEnv fuel chip offset buffer bytes w = some (ERROR_OK, w') ∧
      ctrl_ready chip w'.st := by
  have hf : 0 < fuel := by omega
  have h4' : ¬ bytes % 4 ≠ 0 := by omega
  rcases hal with hnil | ⟨rest, hfalse⟩ | ⟨rest, htrue⟩
  · have ha : (target_alloc_working_area memEnv nrfx_flash_write_code.length
        (LOG (LogMsg.writing_buffer offset bytes) w)).1 ≠ ERROR_OK := by
      simp [target_alloc_working_area, memEnv, LOG, hnil]
    obtain ⟨w', hw', hr'⟩ := nrfx_ll_flash_write_slow_ok fuel chip hf fuel offset buffer bytes
      (LOG LogMsg.no_working_area (target_alloc_working_area memEnv
        nrfx_flash_write_code.length (LOG (LogMsg.writing_buffer offset bytes) w)).2.2)
      h4 (by omega) hlt
      (ctrl_ready_of_regs chip w.st _ (by simp [target_alloc_working_area, memEnv, LOG, hnil])
        hr)
    refine ⟨w', ?_, hr'⟩
    rw [nrfx_ll_flash_write]
    simp only [if_neg h4', if_pos ha]
    exact hw'
  · have ha : (target_alloc_working_area memEnv nrfx_flash_write_code.length
        (LOG (LogMsg.writing_buffer offset bytes) w)).1 ≠ ERROR_OK := by
      simp [target_alloc_working_area, memEnv, LOG, hfalse]
    obtain ⟨w', hw', hr'⟩ := nrfx_ll_flash_write_slow_ok fuel chip hf fuel offset buffer bytes
      (LOG LogMsg.no_working_area (target_alloc_working_area memEnv
        nrfx_flash_write_code.length (LOG (LogMsg.writing_buffer offset bytes) w)).2.2)
      h4 (by omega) hlt
      (ctrl_ready_of_regs chip w.st _
        (by simp [target_alloc_working_area, memEnv, LOG, hfalse]) hr)
    refine ⟨w', ?_, hr'⟩
    rw [nrfx_ll_flash_write]
    simp only [if_neg h4', if_pos ha]
    exact hw'
  · obtain ⟨k, rfl⟩ : ∃ k, fuel = k + 1 := ⟨fuel - 1, by omega⟩
    have hex : ∃ w', nrfx_ll_flash_write memEnv (k + 1) chip offset buffer bytes w
        = some (ERROR_OK, w') ∧ w'.st.regs = w.st.regs := by
      simp [nrfx_ll_flash_write, h4, target_alloc_working_area, memEnv, LOG, htrue,
        target_write_buffer, nrfx_ll_flash_write_alloc, Mem.store,
        target_run_flash_async_algorithm, target_free_working_area]
    obtain ⟨w', hw', hregs⟩ := hex
    exact ⟨w', hw', ctrl_ready_of_regs chip w.st _ hregs hr⟩

theorem nrfx_code_flash_write_range_last_le (p offset count : Nat) (hp : 0 < p)
    (hov : offset + count + p < 2 ^ 32) :
    (nrfx_code_flash_write_range p offset count).last_page_offset ≤ offset + count + p := by
  rw [nrfx_code_flash_write_range_eq p offset count hp hov]
  simp only
  have h2 : (offset + count + p - 1) / p * p ≤ offset + count + p - 1 :=
    Nat.div_mul_le_self _ p
  omega

theorem nrfx_write_pages_ok (fuel : Nat) (bank : flash_bank) (chip : nrfx_info)
    (start end_ : Nat) (buffer : List Nat) (w : World Mem) (hp : 0 < chip.code_page_size)
    (hs : start % chip.code_page_size = 0) (he : end_ % chip.code_page_size = 0)
    (h4 : sub32 end_ start % 4 = 0) (hfuel : sub32 end_ start / 4 < fuel)
    (hr : ctrl_ready chip w.st) (hal : allocs_usable w.st) :
    ∃ w', nrfx_write_pages memEnv fuel bank chip start end_ buffer w = some (ERROR_OK, w') := by
  have hf : 0 < fuel := by omega
  have hlt : sub32 end_ start < 2 ^ 32 := Nat.mod_lt _ (by decide)
  obtain ⟨w1, hw1, hr1, hal1⟩ := nrfx_nvmc_write_enable_ok fuel chip w hr hf
  have hal1' : allocs_usable w1.st := by
    unfold allocs_usable at hal ⊢
    rw [hal1]; exact hal
  obtain ⟨w2, hw2, hr2⟩ := nrfx_ll_flash_write_ok fuel chip start buffer (sub32 end_ start) w1
    h4 hfuel hlt hr1 hal1'
  obtain ⟨w3, hw3⟩ := nrfx_nvmc_read_only_ok fuel chip w2 hr2 hf
  refine ⟨w3, ?_⟩
  have hp0 : chip.code_page_size ≠ 0 := by omega
  simp only [nrfx_write_pages, if_neg hp0, hs, he, ne_eq, not_true_eq_false, if_false, hw1,
    hw2]
  exact hw3

theorem nrfx_code_flash_write_ok (fuel : Nat) (bank : flash_bank) (chip : nrfx_info)
    (B : List Nat) (O : Nat) (w : World Mem) (hp : 0 < chip.code_page_size)
    (hp4 : chip.code_page_size % 4 = 0)
    (hov : O + B.length + chip.code_page_size < 2 ^ 32)
    (hfuel : (O + B.length + chip.code_page_size) / 4 < fuel)
    (hr : ctrl_ready chip w.st) (hal : allocs_usable w.st) :
    ∃ w', nrfx_code_flash_write memEnv fuel bank chip B O B.length w = some (ERROR_OK, w') := by
  obtain ⟨hb1, hb2, hb3, hb4, hb5, hb6, hb7⟩ :=
    nrfx_code_flash_write_range_bounds chip.code_page_size O B.length hp hov
  have hll := nrfx_code_flash_write_range_last_le chip.code_page_size O B.length hp hov
  have hu : u32 (O + B.length) = O + B.length := u32_of_lt (by omega)
  have hp0 : chip.code_page_size ≠ 0 := by omega
  generalize hg : nrfx_code_flash_write_range chip.code_page_size O B.length = g at *
  have hle : g.first_page_offset ≤ g.last_page_offset := by omega
  have hsub : sub32 g.last_page_offset g.first_page_offset
      = g.last_page_offset - g.first_page_offset := sub32_of_le hb7 hle
  have h4 : sub32 g.last_page_offset g.first_page_offset % 4 = 0 := by
    rw [hsub]
    have d1 : chip.code_page_size ∣ g.last_page_offset - g.first_page_offset :=
      Nat.dvd_sub' (Nat.dvd_of_mod_eq_zero hb6) (Nat.dvd_of_mod_eq_zero hb5)
    exact Nat.mod_eq_zero_of_dvd (Nat.dvd_trans (Nat.dvd_of_mod_eq_zero hp4) d1)
  have hfl : sub32 g.last_page_offset g.first_page_offset / 4 < fuel := by
    have : sub32 g.last_page_offset g.first_page_offset
        ≤ O + B.length + chip.code_page_size := by
      rw [hsub]; omega
    exact Nat.lt_of_le_of_lt (Nat.div_le_div_right this) hfuel
  have key : ∀ (buf : List Nat) (w2 : World Mem), w2.st = w.st →
      ∃ w', nrfx_write_pages memEnv fuel bank chip g.first_page_offset g.last_page_offset
        buf w2 = some (ERROR_OK, w') := by
    intro buf w2 hst
    exact nrfx_write_pages_ok fuel bank chip _ _ buf w2 hp hb5 hb6 h4 hfl (by rw [hst]; exact hr)
      (by unfold allocs_usable at hal ⊢; rw [hst]; exact hal)
  simp only [nrfx_code_flash_write, if_neg hp0, gt_iff_lt, hu, hg]
  by_cases h1 : 0 < g.pre <;> by_cases h2 : 0 < g.post <;>
    simp only [h1, h2, if_true, if_false, target_read_memory, memEnv_read_memory, LOG_st,
      ne_eq, not_true_eq_false] <;>
    exact key _ _ rfl

end RoundTripProofs

section RoundTrip

/-- C9. Round trip of the code-flash write strategy on the model target, where
the page range does not wrap around the 32-bit address space. Whenever
`nrfx_code_flash_write` of the buffer `B` at the offset `O` returns `ERROR_OK`,
reading the device at `[O, O + len B)` yields `B` and every other byte of the
enclosing page-aligned range holds the value it had before the call. Such a run
exists: with a page size that is a multiple of 4, a ready controller, usable
working-area requests and enough fuel for the waits, the call returns
`ERROR_OK`. -/
theorem nrfx_code_flash_write_round_trip (fuel : Nat) (bank : flash_bank) (chip : nrfx_info)
    (B : List Nat) (O : Nat) (w : World Mem) (hp : 0 < chip.code_page_size)
    (hov : O + B.length + chip.code_page_size < 2 ^ 32) :
    (∀ w', nrfx_code_flash_write memEnv fuel bank chip B O B.length w = some (ERROR_OK, w') →
      memEnv.read_memory w'.st O 1 B.length = (ERROR_OK, B, w'.st) ∧
      ∀ a, (nrfx_code_flash_write_range chip.code_page_size O B.length).first_page_offset ≤ a →
        a < (nrfx_code_flash_write_range chip.code_page_size O B.length).last_page_offset →
        ¬ (O ≤ a ∧ a < O + B.length) → w'.st.bytes a = w.st.bytes a) ∧
    (chip.code_page_size % 4 = 0 → (O + B.length + chip.code_page_size) / 4 < fuel →
      ctrl_ready chip w.st → allocs_usable w.st →
      ∃ w', nrfx_code_flash_write memEnv fuel bank chip B O B.length w
        = some (ERROR_OK, w')) := by
  refine ⟨?_, fun hp4 hfuel hr hal =>
    nrfx_code_flash_write_ok fuel bank chip B O w hp hp4 hov hfuel hr hal⟩
  intro w' h
  have hs := nrfx_code_flash_write_stream fuel bank chip B O w w' hp hov h
  obtain ⟨hb1, hb2, -⟩ := nrfx_code_flash_write_range_bounds chip.code_page_size O B.length hp hov
  generalize nrfx_code_flash_write_range chip.code_page_size O B.length = g at hs hb1 hb2 ⊢
  have hl1 : (w.st.load g.first_page_offset g.pre).length = g.pre := Mem.load_length _ _ _
  have hin : ∀ i, i < B.length → w'.st.bytes (O + i) = B.getD i 0 := by
    intro i hi
    rw [hs (O + i) (by omega) (by omega)]
    have e : O + i - g.first_page_offset = g.pre + i := by omega
    rw [e, List.getD_eq_getElem?_getD, List.append_assoc, List.getElem?_append_right (by omega),
      hl1, Nat.add_sub_cancel_left, List.getElem?_append_left hi, List.getD_eq_getElem?_getD]
  constructor
  · rw [memEnv_read_memory, Nat.one_mul]
    have hload : w'.st.load O B.length = B := by
      apply List.ext_getElem?
      intro i
      by_cases hi : i < B.length
      · have h1 := Mem.load_getD w'.st O B.length i hi
        rw [hin i hi] at h1
        have hi' : i < (w'.st.load O B.length).length := by rw [Mem.load_length]; exact hi
        rw [List.getD_eq_getElem?_getD, List.getD_eq_getElem?_getD,
          List.getElem?_eq_getElem hi', List.getElem?_eq_getElem hi] at h1
        rw [List.getElem?_eq_getElem hi', List.getElem?_eq_getElem hi]
        simpa using h1
      · rw [List.getElem?_eq_none (by rw [Mem.load_length]; omega),
          List.getElem?_eq_none (by omega)]
    rw [hload]
  · intro a ha1 ha2 hout
    rw [hs a ha1 ha2]
    by_cases hlo : a < O
    · have e : a - g.first_page_offset < g.pre := by omega
      rw [List.getD_eq_getElem?_getD, List.append_assoc,
        List.getElem?_append_left (by rw [hl1]; exact e), ← List.getD_eq_getElem?_getD,
        Mem.load_getD _ _ _ _ e]
      congr 1
      omega
    · have hge : O + B.length ≤ a := by omega
      have e : a - g.first_page_offset = (g.pre + B.length) + (a - (O + B.length)) := by omega
      have e2 : a - (O + B.length) < g.post := by omega
      have hl2 : (w.st.load g.first_page_offset g.pre ++ B).length = g.pre + B.length := by
        rw [List.length_append, hl1]
      rw [e, List.getD_eq_getElem?_getD, List.getElem?_append_right (by rw [hl2]; omega), hl2,
        Nat.add_sub_cancel_left, ← List.getD_eq_getElem?_getD, Mem.load_getD _ _ _ _ e2]
      congr 1
      omega

theorem nrfx_code_flash_write_round_trip_witness :
    ∃ w', nrfx_code_flash_write memEnv 16 code_bank chip51_8 [1, 2] 5 [1, 2].length
        (memWorld (memOf regs_ready)) = some (ERROR_OK, w') ∧
      memEnv.read_memory w'.st 5 1 [1, 2].length = (ERROR_OK, [1, 2], w'.st) ∧
      w'.st.bytes 4 = 0xFF ∧ w'.st.bytes 7 = 0xFF := by
  have h := nrfx_code_flash_write_round_trip 16 code_bank chip51_8 [1, 2] 5
    (memWorld (memOf regs_ready)) (by decide) (by decide)
  obtain ⟨w', hw'⟩ := h.2 (by decide) (by decide)
    ⟨0x4001E400, 0x4001E504, by decide, by decide, by decide, by decide, by decide, by decide⟩
    (Or.inl rfl)
  have h1 := h.1 w' hw'
  exact ⟨w', hw', h1.1, h1.2 4 (by decide) (by decide) (by decide),
    h1.2 7 (by decide) (by decide) (by decide)⟩

end RoundTrip

section ErasePageProofs

variable {σ : Type}

/-- A sector whose protected flag is not 0 is not erased: `nrfx_erase_page`
logs, returns `ERROR_FAIL` and touches neither the target nor the bank. -/
theorem nrfx_erase_page_flagged (E : Env σ) (C : FlashCore σ) (fuel : Nat) (bank : flash_bank)
    (chip : nrfx_info) (s : Nat) (sector : flash_sector) (w : World σ)
    (hs : bank.sector_array[s]? = some sector) (hp : sector.is_protected ≠ 0) :
    nrfx_erase_page E C fuel bank chip s w = some (ERROR_FAIL, bank,
      LOG (LogMsg.erase_protected_sector sector.offset)
        (LOG (LogMsg.erasing_page sector.offset) w)) := by
  simp [nrfx_erase_page, hs, hp]

/-- C11. For every bank, chip and sector whose protected flag is true,
`nrfx_erase_page` returns the failure `ERROR_FAIL`, leaves the bank as it is,
issues no transaction with the target and leaves the state of the target
(controller mode and device memory included) unchanged. -/
theorem nrfx_erase_page_protected (E : Env σ) (C : FlashCore σ) (fuel : Nat)
    (bank : flash_bank) (chip : nrfx_info) (s : Nat) (sector : flash_sector) (w : World σ)
    (hs : bank.sector_array[s]? = some sector) (hp : sector.is_protected = 1) :
    ∃ w', nrfx_erase_page E C fuel bank chip s w = some (ERROR_FAIL, bank, w') ∧
      w'.txns = w.txns ∧ w'.st = w.st := by
  have hne : sector.is_protected ≠ 0 := by rw [hp]; decide
  exact ⟨_, nrfx_erase_page_flagged E C fuel bank chip s sector w hs hne, rfl, rfl⟩

theorem nrfx_erase_page_protected_witness :
    ∃ w', nrfx_erase_page memEnv (memCore true) 4 bank_first_page_protected (new_chip 51) 0
        (memWorld (memOf regs_ready)) = some (ERROR_FAIL, bank_first_page_protected, w') ∧
      w'.txns = [] ∧ w'.st = memOf regs_ready :=
  nrfx_erase_page_protected memEnv (memCore true) 4 bank_first_page_protected (new_chip 51) 0
    ⟨0, 1024, -1, 1⟩ (memWorld (memOf regs_ready)) rfl rfl

end ErasePageProofs

section ConfigurationRegionErase

variable {σ : Type}

/-- C12, as amended.  `nrfx_erase_page` on an unprotected sector of the
configuration-region bank (base `NRF5_UICR_BASE`), the PPFC register being
implemented and read successfully.
* When the low byte of PPFC is 0xFF (no pre-programmed code), the function
  issues nothing but that read and what the blank check issues: the world it
  returns is the one the blank check returns, with one more log message when
  it fails.  It returns `ERROR_OK` when the blank check has marked the sector
  erased and `ERROR_FAIL`, with the "issue mass erase" message, when not.
* For every other low byte, 0x00 (pre-programmed code present) included, the
  function erases through the ERASEUICR register. -/
theorem nrfx_erase_page_uicr_blank_check (E : Env σ) (C : FlashCore σ) (fuel : Nat)
    (bank : flash_bank) (chip : nrfx_info) (s : Nat) (sector : flash_sector) (w : World σ)
    (a : Nat) (hb : bank.base = NRF5_UICR_BASE) (hs : bank.sector_array[s]? = some sector)
    (hp : sector.is_protected = 0)
    (ha : chip.ficr_registers[NRFX_FICR_PPFC &&& REG_INDEX_MASK]? = some a)
    (hne : a ≠ NRFX_UNIMPLEMENTED) (hok : (E.read_u32 w.st a).1 = ERROR_OK) :
    ((E.read_u32 w.st a).2.1 &&& 0xFF = 0xFF →
      ∀ sector1 : flash_sector,
        (C.default_flash_blank_check bank
          (target_read_u32 E a (LOG (LogMsg.erasing_page sector.offset) w)).2.2).2.1.sector_array[s]?
          = some sector1 →
        nrfx_erase_page E C fuel bank chip s w =
          if sector1.is_erased = 1 then
            some (ERROR_OK,
              (C.default_flash_blank_check bank
                (target_read_u32 E a (LOG (LogMsg.erasing_page sector.offset) w)).2.2).2.1,
              (C.default_flash_blank_check bank
                (target_read_u32 E a (LOG (LogMsg.erasing_page sector.offset) w)).2.2).2.2)
          else
            some (ERROR_FAIL,
              (C.default_flash_blank_check bank
                (target_read_u32 E a (LOG (LogMsg.erasing_page sector.offset) w)).2.2).2.1,
              LOG LogMsg.uicr_needs_mass_erase
                (C.default_flash_blank_check bank
                  (target_read_u32 E a (LOG (LogMsg.erasing_page sector.offset) w)).2.2).2.2)) ∧
    ((E.read_u32 w.st a).2.1 &&& 0xFF ≠ 0xFF →
      nrfx_erase_page E C fuel bank chip s w =
        (nrfx_nvmc_generic_erase E C fuel chip 0 NRFX_NVMC_ERASEUICR 0x00000001
          (target_read_u32 E a (LOG (LogMsg.erasing_page sector.offset) w)).2.2).map
          fun r => (r.1, bank, r.2)) := by
  have hok' : (E.read_u32 (LOG (LogMsg.erasing_page sector.offset) w).st a).1 = ERROR_OK := hok
  constructor
  · intro hff sector1 hs1
    have hff' : (E.read_u32 (LOG (LogMsg.erasing_page sector.offset) w).st a).2.1 &&& 0xFF
        = 0xFF := hff
    simp only [nrfx_erase_page, hs, hp, hb, ficr_read, ha, Option.map_some', reg_read,
      if_neg hne, ne_eq, not_true_eq_false, if_false, if_true, target_read_u32, hok', hff']
    simp only [target_read_u32] at hs1
    rw [hs1]
  · intro hff
    have hff' : ¬ (E.read_u32 (LOG (LogMsg.erasing_page sector.offset) w).st a).2.1 &&& 0xFF
        = 0xFF := hff
    simp only [nrfx_erase_page, hs, hp, hb, ficr_read, ha, Option.map_some', reg_read,
      if_neg hne, ne_eq, not_true_eq_false, if_false, if_true, target_read_u32, hok', hff']

theorem nrfx_erase_page_uicr_blank_check_witness :
    (nrfx_erase_page memEnv (memCore true) 4 uicr_bank5 (new_chip 51) 0
        (memWorld (memOf (fun _ => 0xFFFFFFFF)))).map (fun r => (r.1, r.2.2.txns))
      = some (ERROR_OK, [Txn.read_u32 0x1000002C, Txn.read_memory 0x10001000 1 0x1000]) := by
  have h := (nrfx_erase_page_uicr_blank_check memEnv (memCore true) 4 uicr_bank5 (new_chip 51)
    0 ⟨0, NRFX_UICR_SIZE, 0, 0⟩ (memWorld (memOf (fun _ => 0xFFFFFFFF))) 0x1000002C rfl rfl rfl
    rfl (by decide) rfl).1 (by decide) ⟨0, NRFX_UICR_SIZE, 1, 0⟩
    (by simp [memCore, uicr_bank5, flash_bank.sector_array, memOf, memWorld, target_read_u32,
      memEnv, LOG])
  rw [h]
  rfl

/-- The claim C12 as stated fails: on a nRF51 whose PPFC reads 0x00 (the value
for which protect and the mass erase refuse) and whose controller is ready,
`nrfx_erase_page` on the configuration-region sector writes the erase-enable
code to CONFIG and triggers ERASEUICR. -/
theorem nrfx_erase_page_preprogrammed_erases :
    regs_ready 0x1000002C &&& 0xFF = 0x00 ∧
    (nrfx_erase_page (regEnv regs_ready) (regCore true) 1 uicr_bank5 (new_chip 51) 0
        regWorld).map (fun r => (r.1, r.2.2.txns))
      = some (ERROR_OK,
          [Txn.read_u32 0x1000002C, Txn.write_u32 0x4001E504 2, Txn.read_u32 0x4001E400,
           Txn.write_u32 0x4001E514 1, Txn.read_u32 0x4001E400,
           Txn.write_u32 0x4001E504 0, Txn.read_u32 0x4001E400]) := by
  decide

end ConfigurationRegionErase

section EraseFindings

/-- C13. On a nRF91 with a ready controller, `nrfx_erase_page` applied to the
configuration-region bank (base `NRF9_UICR_BASE`, bank number 1) does not take
the configuration-region path: PPFC is not read, and after the erase-enable
the word 0xFFFFFFFF is written at address 0, the first word of code flash. -/
theorem nrfx_erase_page_uicr91_writes_code_flash :
    uicr_bank9.base = nrfx_uicr_base 91 ∧
    (nrfx_erase_page (regEnv regs_ready9) (regCore true) 1 uicr_bank9 (new_chip 91) 0
        regWorld).map (fun r => (r.1, r.2.2.txns))
      = some (ERROR_OK,
          [Txn.write_u32 0x50039504 2, Txn.read_u32 0x50039400,
           Txn.write_u32 0 0xffffffff, Txn.read_u32 0x50039400,
           Txn.write_u32 0x50039504 0, Txn.read_u32 0x50039400]) := by
  decide

/-- C15. On a nRF51 whose controller stays busy past the timeout, the
erase-enable code and the write-enable code are left in CONFIG.
* `nrfx_erase_all` writes the erase-enable code, polls READY once, and returns
  `ERROR_FAIL`: no write of the read-only code follows.
* `nrfx_uicr_flash_write`, the controller stalling after the sector erase,
  writes the write-enable code, polls READY once and returns
  `ERROR_FLASH_BUSY`: the last write to CONFIG is the write-enable code.
* `nrfx_write_pages` on the same target does write the read-only code after
  the write-enable code. -/
theorem nrfx_enable_timeout_leaves_controller_armed :
    (nrfx_erase_all stallEnv stallCore 2 (new_chip 51) (stallWorld 0)).map
        (fun r => (r.1, r.2.txns))
      = some (ERROR_FAIL, [Txn.write_u32 0x4001E504 2, Txn.read_u32 0x4001E400]) ∧
    (nrfx_uicr_flash_write stallEnv stallCore 2 uicr_bank5 (new_chip 51) [1, 2, 3, 4] 0 4
        (stallWorld 4)).map (fun r => (r.1, r.2.2.txns))
      = some (ERROR_FLASH_BUSY,
          [Txn.read_memory 0x10001000 1 0x1000, Txn.read_u32 0x1000002C,
           Txn.write_u32 0x4001E504 2, Txn.read_u32 0x4001E400,
           Txn.write_u32 0x4001E514 1, Txn.read_u32 0x4001E400,
           Txn.write_u32 0x4001E504 0, Txn.read_u32 0x4001E400,
           Txn.write_u32 0x4001E504 1, Txn.read_u32 0x4001E400]) ∧
    (nrfx_write_pages stallEnv 2 code_bank chip51_probed 0 1024 [] (stallWorld 0)).map
        (fun r => (r.1, r.2.txns))
      = some (ERROR_FLASH_BUSY,
          [Txn.write_u32 0x4001E504 1, Txn.read_u32 0x4001E400,
           Txn.write_u32 0x4001E504 0, Txn.read_u32 0x4001E400]) := by
  decide

end EraseFindings

section EraseFailureCode

variable {σ : Type}

/-- C16, as amended.  When a step of `nrfx_nvmc_generic_erase` returns an
error code `e`, the erase returns `ERROR_FAIL`, whatever `e` is, after the
message "Failed to erase":
* the erase-enable transition fails: nothing else is done;
* the trigger write (families other than 91) fails: the read-only transition
  is run first;
* the ready wait after the trigger fails: the read-only transition is run
  first. -/
theorem nrfx_nvmc_generic_erase_failure_code (E : Env σ) (C : FlashCore σ) (fuel : Nat)
    (chip : nrfx_info) (erase_addr erase_register erase_value : Nat) (w : World σ) :
    (∀ (e : Ret) (w1 : World σ), nrfx_nvmc_erase_enable E fuel chip w = some (e, w1) →
      e ≠ ERROR_OK →
      nrfx_nvmc_generic_erase E C fuel chip erase_addr erase_register erase_value w
        = some (ERROR_FAIL, LOG (LogMsg.erase_failed erase_register erase_value) w1)) ∧
    (∀ (e r : Ret) (w1 w2 w3 : World σ),
      nrfx_nvmc_erase_enable E fuel chip w = some (ERROR_OK, w1) → chip.family ≠ 91 →
      nvmc_write E chip erase_register erase_value w1 = some (e, w2) → e ≠ ERROR_OK →
      nrfx_nvmc_read_only E fuel chip w2 = some (r, w3) →
      nrfx_nvmc_generic_erase E C fuel chip erase_addr erase_register erase_value w
        = some (ERROR_FAIL, LOG (LogMsg.erase_failed erase_register erase_value) w3)) ∧
    (∀ (e r : Ret) (w1 w2 w3 w4 : World σ),
      nrfx_nvmc_erase_enable E fuel chip w = some (ERROR_OK, w1) →
      ((chip.family ≠ 91 ∧
          nvmc_write E chip erase_register erase_value w1 = some (ERROR_OK, w2)) ∨
        (chip.family = 91 ∧
          w2 = { (target_write_u32 E erase_addr 0xffffffff w1).2 with
                 st := C.usleep (target_write_u32 E erase_addr 0xffffffff w1).2.st 100000 })) →
      nrfx_wait_for_nvmc E fuel chip w2 = some (e, w3) → e ≠ ERROR_OK →
      nrfx_nvmc_read_only E fuel chip w3 = some (r, w4) →
      nrfx_nvmc_generic_erase E C fuel chip erase_addr erase_register erase_value w
        = some (ERROR_FAIL, LOG (LogMsg.erase_failed erase_register erase_value) w4)) := by
  refine ⟨?_, ?_, ?_⟩
  · intro e w1 h1 he
    simp only [nrfx_nvmc_generic_erase, h1, ne_eq, he, not_false_eq_true, if_true,
      nrfx_nvmc_generic_erase_error]
  · intro e r w1 w2 w3 h1 hf h2 he h3
    simp only [nrfx_nvmc_generic_erase, h1, ne_eq, not_true_eq_false, if_false, hf,
      not_false_eq_true, if_true, h2, he, nrfx_nvmc_generic_erase_set_read_only, h3,
      nrfx_nvmc_generic_erase_error]
  · intro e r w1 w2 w3 w4 h1 h2 h3 he h4
    rcases h2 with ⟨hf, h2⟩ | ⟨hf, h2⟩
    · simp only [nrfx_nvmc_generic_erase, h1, ne_eq, not_true_eq_false, if_false, hf,
        not_false_eq_true, if_true, h2, nrfx_nvmc_generic_erase_wait, h3, he,
        nrfx_nvmc_generic_erase_set_read_only, h4, nrfx_nvmc_generic_erase_error]
    · subst h2
      simp only [nrfx_nvmc_generic_erase, h1, ne_eq, not_true_eq_false, if_false, hf,
        if_false, nrfx_nvmc_generic_erase_wait, h3, he, not_false_eq_true, if_true,
        nrfx_nvmc_generic_erase_set_read_only, h4, nrfx_nvmc_generic_erase_error]

/-- The claim C16 as stated fails: on a nRF51 whose controller stays busy the
erase-enable transition returns `ERROR_FLASH_BUSY` and `nrfx_erase_all`
returns `ERROR_FAIL`. -/
theorem nrfx_erase_all_busy_returns_fail :
    (nrfx_nvmc_erase_enable stallEnv 2 (new_chip 51)
        (LOG LogMsg.erasing_all (stallWorld 0))).map Prod.fst = some ERROR_FLASH_BUSY ∧
    (nrfx_erase_all stallEnv stallCore 2 (new_chip 51) (stallWorld 0)).map Prod.fst
      = some ERROR_FAIL := by
  decide

end EraseFailureCode

section ConfigurationRegionWriteFindings

/-- C17. The range check of `nrfx_uicr_flash_write` adds in 32 bits.  For
`offset = 0xFFFFFFFF` and `count = 2` the exact sum exceeds the region size,
the 32-bit sum is 1, and the function goes on:
* on a target whose block reads fail it returns after having issued the read
  of the region;
* on a target on which every step succeeds it reaches the `memcpy` into the
  shadow at index 0xFFFFFFFF, past the array, and has no defined result. -/
theorem nrfx_uicr_flash_write_range_check_wraps :
    0xFFFFFFFF + 2 > NRFX_UICR_SIZE ∧ u32 (0xFFFFFFFF + 2) = 1 ∧
    (nrfx_uicr_flash_write (noReadEnv regs_ready) (regCore true) 1 uicr_bank5 (new_chip 51)
        [1, 2] 0xFFFFFFFF 2 regWorld).map (fun r => (r.1, r.2.2.txns))
      = some (ERROR_FAIL, [Txn.read_memory 0x10001000 1 0x1000]) ∧
    (nrfx_uicr_flash_write (regEnv regs_ready) (regCore true) 1 uicr_bank5 (new_chip 51)
        [1, 2] 0xFFFFFFFF 2 regWorld).isNone = true := by
  decide

end ConfigurationRegionWriteFindings

section ProtectFindings

/-- C19. On a halted nRF51 without pre-programmed code whose code-flash bank is
probed and whose user register CLENR0 reads 0x4000, `nrfx_protect` with
`first = 0` logs "You need to perform chip erase before changing the
protection settings", computes the protection flags again and returns
`ERROR_OK`; it writes nothing. -/
theorem nrfx_protect_programmed_boundary_returns_ok :
    regs51_clenr0_set 0x10001000 ≠ 0xFFFFFFFF ∧
    (nrfx_protect (regEnv regs51_clenr0_set) (regCore true) (probed_bank 2 1024)
        chip51_probed 1 0 1 regWorld).map (fun r => (r.1, r.2.2.2.txns, r.2.2.2.logs))
      = some (ERROR_OK,
          [Txn.read_u32 0x1000002C, Txn.read_u32 0x10001000,
           Txn.read_u32 0x10000028, Txn.read_u32 0x10001000],
          [LogMsg.protect_needs_chip_erase]) := by
  decide

end ProtectFindings

section HaltedGate

variable {σ : Type}

/-- On a target that is not halted the gate logs and returns
`ERROR_TARGET_NOT_HALTED`. -/
theorem nrfx_get_probed_chip_if_halted_not_halted (E : Env σ) (C : FlashCore σ)
    (bank : flash_bank) (chip : nrfx_info) (w : World σ) (hh : C.target_halted w.st = false) :
    nrfx_get_probed_chip_if_halted E C bank chip w
      = some (ERROR_TARGET_NOT_HALTED, bank, chip, LOG LogMsg.target_not_halted w) := by
  simp [nrfx_get_probed_chip_if_halted, hh]

/-- C20. Whenever the target is not halted, `nrfx_erase`, `nrfx_write`,
`nrfx_info` and, on a code-flash bank, `nrfx_protect` return
`ERROR_TARGET_NOT_HALTED` with the bank and the chip handle they were given
(no probe has run) and a world that differs from the one of the call by the
log message only: no transaction is issued and the target state is unchanged.
When the target is halted and the bank is marked probed,
`nrfx_get_probed_chip_if_halted` returns `ERROR_OK` with bank, chip handle and
world unchanged: it does not probe again. -/
theorem nrfx_entry_points_halted_gate (E : Env σ) (C : FlashCore σ) (fuel : Nat)
    (bank : flash_bank) (chip : nrfx_info) (first last set : Int) (buffer : List Nat)
    (offset count : Nat) (w : World σ) :
    (C.target_halted w.st = false →
      (LOG LogMsg.target_not_halted w).txns = w.txns ∧
      (LOG LogMsg.target_not_halted w).st = w.st ∧
      nrfx_erase E C fuel bank chip first last w
        = some (ERROR_TARGET_NOT_HALTED, bank, chip, LOG LogMsg.target_not_halted w) ∧
      nrfx_write E C fuel bank chip buffer offset count w
        = some (ERROR_TARGET_NOT_HALTED, bank, chip, LOG LogMsg.target_not_halted w) ∧
      nrfx_info_report E C bank chip w
        = some (ERROR_TARGET_NOT_HALTED, [], bank, chip, LOG LogMsg.target_not_halted w) ∧
      (bank.base = NRFX_FLASH_BASE →
        nrfx_protect E C bank chip set first last w
          = some (ERROR_TARGET_NOT_HALTED, bank, chip, LOG LogMsg.target_not_halted w))) ∧
    (C.target_halted w.st = true → nrfx_bank_is_probed bank chip = some true →
      nrfx_get_probed_chip_if_halted E C bank chip w = some (ERROR_OK, bank, chip, w)) := by
  constructor
  · intro hh
    have hg := nrfx_get_probed_chip_if_halted_not_halted E C bank chip w hh
    refine ⟨rfl, rfl, ?_, ?_, ?_, ?_⟩
    · simp [nrfx_erase, hg]
    · simp [nrfx_write, hg]
    · simp [nrfx_info_report, hg]
    · intro hb
      have hne : bank.base ≠ NRF5_UICR_BASE := by rw [hb]; decide
      simp [nrfx_protect, hne, hg]
  · intro hh hp
    simp [nrfx_get_probed_chip_if_halted, hh, hp]

end HaltedGate

section StreamProofs

variable {σ : Type}

theorem image_append (a b : List Nat) :
    ∀ addr, image addr (a ++ b) = image addr a ++ image (addr + a.length) b := by
  induction a with
  | nil => intro addr; simp [image]
  | cons x rest ih =>
    intro addr
    have e : addr + 1 + rest.length = addr + (rest.length + 1) := by omega
    show (addr, x) :: image (addr + 1) (rest ++ b)
      = (addr, x) :: image (addr + 1) rest ++ image (addr + (rest.length + 1)) b
    rw [ih, e]
    rfl

theorem image_length (l : List Nat) : ∀ addr, (image addr l).length = l.length := by
  induction l with
  | nil => intro addr; rfl
  | cons x rest ih => intro addr; simp [image, ih]

theorem image_getElem? (l : List Nat) :
    ∀ (addr i : Nat), (image addr l)[i]? = l[i]?.map fun b => (addr + i, b) := by
  induction l with
  | nil => intro addr i; simp [image]
  | cons x rest ih =>
    intro addr i
    cases i with
    | zero => simp [image]
    | succ k =>
      simp only [image, List.getElem?_cons_succ, ih]
      have e : addr + 1 + k = addr + (k + 1) := by omega
      rw [e]

theorem streamed_append (a b : List Txn) : streamed (a ++ b) = streamed a ++ streamed b := by
  induction a with
  | nil => rfl
  | cons t rest ih =>
    show t.stored ++ streamed (rest ++ b) = t.stored ++ streamed rest ++ streamed b
    rw [ih, List.append_assoc]

theorem streams_since_refl (w : World σ) : streams_since w w [] :=
  ⟨[], by simp, rfl⟩

theorem streams_since_trans (a b c : World σ) (l1 l2 : List (Nat × Nat))
    (h1 : streams_since a b l1) (h2 : streams_since b c l2) :
    streams_since a c (l1 ++ l2) := by
  obtain ⟨e1, he1, hs1⟩ := h1
  obtain ⟨e2, he2, hs2⟩ := h2
  exact ⟨e1 ++ e2, by rw [he2, he1, List.append_assoc], by rw [streamed_append, hs1, hs2]⟩

theorem streams_since_of_txns_eq (w w' : World σ) (h : w'.txns = w.txns) :
    streams_since w w' [] :=
  ⟨[], by simp [h], rfl⟩

theorem streams_since_step (w w' : World σ) (t : Txn) (h : w'.txns = w.txns ++ [t]) :
    streams_since w w' t.stored :=
  ⟨[t], h, by simp [streamed]⟩

/-- The relation "nothing has been programmed into device memory". -/
theorem streams_nothing_trans (a b c : World σ) (h1 : streams_since a b [])
    (h2 : streams_since b c []) : streams_since a c [] :=
  streams_since_trans a b c [] [] h1 h2

theorem streams_nothing_ctrl (E : Env σ) :
    CtrlRel E (fun w w' : World σ => streams_since w w' []) where
  refl := streams_since_refl
  trans := streams_nothing_trans
  log := fun _ w => streams_since_of_txns_eq w _ rfl
  read_u32 := fun a w => streams_since_step w _ (Txn.read_u32 a) rfl
  write_u32 := fun a v w => streams_since_step w _ (Txn.write_u32 a v) rfl
  timeval := fun w => streams_since_of_txns_eq w _ rfl

theorem nrfx_nvmc_erase_enable_rel {E : Env σ} {R : World σ → World σ → Prop}
    (hR : CtrlRel E R) (fuel : Nat) (chip : nrfx_info) (w : World σ) (res : Ret)
    (w' : World σ) (h : nrfx_nvmc_erase_enable E fuel chip w = some (res, w')) : R w w' := by
  unfold nrfx_nvmc_erase_enable at h
  cases hw : nvmc_write E chip NRFX_NVMC_CONFIG NRFX_NVMC_CONFIG_EEN w with
  | none => simp [hw] at h
  | some r =>
    obtain ⟨res1, w1⟩ := r
    have h1 := nvmc_write_rel hR chip _ _ w res1 w1 hw
    simp only [hw] at h
    split at h
    · simp only [Option.some.injEq, Prod.mk.injEq] at h
      rw [← h.2]
      exact hR.trans _ _ _ h1 (hR.log _ _)
    · cases hq : nrfx_wait_for_nvmc E fuel chip w1 with
      | none => simp [hq] at h
      | some q =>
        obtain ⟨res2, w2⟩ := q
        have h2 := nrfx_wait_for_nvmc_rel hR fuel chip w1 res2 w2 hq
        simp only [hq] at h
        split at h
        · simp only [Option.some.injEq, Prod.mk.injEq] at h
          rw [← h.2]
          exact hR.trans _ _ _ (hR.trans _ _ _ h1 h2) (hR.log _ _)
        · simp only [Option.some.injEq, Prod.mk.injEq] at h
          rw [← h.2]
          exact hR.trans _ _ _ h1 h2

theorem nrfx_nvmc_generic_erase_set_read_only_rel {E : Env σ} {R : World σ → World σ → Prop}
    (hR : CtrlRel E R) (fuel : Nat) (chip : nrfx_info) (erase_register erase_value : Nat)
    (w : World σ) (res : Ret) (w' : World σ)
    (h : nrfx_nvmc_generic_erase_set_read_only E fuel chip erase_register erase_value w
      = some (res, w')) : R w w' := by
  unfold nrfx_nvmc_generic_erase_set_read_only at h
  cases hq : nrfx_nvmc_read_only E fuel chip w with
  | none => simp [hq] at h
  | some q =>
    obtain ⟨res2, w2⟩ := q
    have h2 := nrfx_nvmc_read_only_rel hR fuel chip w res2 w2 hq
    simp only [hq, nrfx_nvmc_generic_erase_error, Option.some.injEq, Prod.mk.injEq] at h
    rw [← h.2]
    exact hR.trans _ _ _ h2 (hR.log _ _)

theorem nrfx_nvmc_generic_erase_wait_rel {E : Env σ} {R : World σ → World σ → Prop}
    (hR : CtrlRel E R) (fuel : Nat) (chip : nrfx_info) (erase_register erase_value : Nat)
    (w : World σ) (res : Ret) (w' : World σ)
    (h : nrfx_nvmc_generic_erase_wait E fuel chip erase_register erase_value w
      = some (res, w')) : R w w' := by
  unfold nrfx_nvmc_generic_erase_wait at h
  cases hq : nrfx_wait_for_nvmc E fuel chip w with
  | none => simp [hq] at h
  | some q =>
    obtain ⟨res2, w2⟩ := q
    have h2 := nrfx_wait_for_nvmc_rel hR fuel chip w res2 w2 hq
    simp only [hq] at h
    split at h
    · exact hR.trans _ _ _ h2
        (nrfx_nvmc_generic_erase_set_read_only_rel hR fuel chip _ _ w2 res w' h)
    · exact hR.trans _ _ _ h2 (nrfx_nvmc_read_only_rel hR fuel chip w2 res w' h)

/-- A relation the controller steps respect, and the host sleep too, holds
across `nrfx_nvmc_generic_erase`. -/
theorem nrfx_nvmc_generic_erase_rel {E : Env σ} {R : World σ → World σ → Prop}
    (hR : CtrlRel E R) (C : FlashCore σ)
    (hsleep : ∀ (w : World σ) (usec : Nat), R w { w with st := C.usleep w.st usec })
    (fuel : Nat) (chip : nrfx_info) (erase_addr erase_register erase_value : Nat)
    (w : World σ) (res : Ret) (w' : World σ)
    (h : nrfx_nvmc_generic_erase E C fuel chip erase_addr erase_register erase_value w
      = some (res, w')) : R w w' := by
  unfold nrfx_nvmc_generic_erase at h
  cases hq : nrfx_nvmc_erase_enable E fuel chip w with
  | none => simp [hq] at h
  | some q =>
    obtain ⟨res1, w1⟩ := q
    have h1 := nrfx_nvmc_erase_enable_rel hR fuel chip w res1 w1 hq
    simp only [hq] at h
    split at h
    · simp only [nrfx_nvmc_generic_erase_error, Option.some.injEq, Prod.mk.injEq] at h
      rw [← h.2]
      exact hR.trans _ _ _ h1 (hR.log _ _)
    · split at h
      · cases hw : nvmc_write E chip erase_register erase_value w1 with
        | none => simp [hw] at h
        | some r =>
          obtain ⟨res2, w2⟩ := r
          have h2 := nvmc_write_rel hR chip _ _ w1 res2 w2 hw
          simp only [hw] at h
          split at h
          · exact hR.trans _ _ _ (hR.trans _ _ _ h1 h2)
              (nrfx_nvmc_generic_erase_set_read_only_rel hR fuel chip _ _ w2 res w' h)
          · exact hR.trans _ _ _ (hR.trans _ _ _ h1 h2)
              (nrfx_nvmc_generic_erase_wait_rel hR fuel chip _ _ w2 res w' h)
      · exact hR.trans _ _ _
          (hR.trans _ _ _ h1 (hR.trans _ _ _ (hR.write_u32 erase_addr 0xffffffff w1)
            (hsleep _ 100000)))
          (nrfx_nvmc_generic_erase_wait_rel hR fuel chip _ _ _ res w' h)

theorem ficr_read_rel {E : Env σ} {R : World σ → World σ → Prop} (hR : CtrlRel E R)
    (chip : nrfx_info) (r out : Nat) (w : World σ) (res : Ret) (v : Nat) (w' : World σ)
    (h : ficr_read E chip r out w = some (res, v, w')) : R w w' := by
  unfold ficr_read at h
  cases hx : chip.ficr_registers[r &&& REG_INDEX_MASK]? with
  | none => simp [hx] at h
  | some a =>
    simp only [hx, Option.map_some', Option.some.injEq] at h
    have := reg_read_rel hR a out w
    rw [h] at this
    exact this

/-- A relation the controller steps, the host sleep and the blank check
respect holds across `nrfx_erase_page`. -/
theorem nrfx_erase_page_rel {E : Env σ} {R : World σ → World σ → Prop}
    (hR : CtrlRel E R) (C : FlashCore σ)
    (hsleep : ∀ (w : World σ) (usec : Nat), R w { w with st := C.usleep w.st usec })
    (hblank : ∀ (b : flash_bank) (w : World σ), R w (C.default_flash_blank_check b w).2.2)
    (fuel : Nat) (bank : flash_bank) (chip : nrfx_info) (s : Nat) (w : World σ) (res : Ret)
    (bank' : flash_bank) (w' : World σ)
    (h : nrfx_erase_page E C fuel bank chip s w = some (res, bank', w')) : R w w' := by
  unfold nrfx_erase_page at h
  cases hs : bank.sector_array[s]? with
  | none => simp [hs] at h
  | some sector =>
    simp only [hs] at h
    have h0 : R w (LOG (LogMsg.erasing_page sector.offset) w) := hR.log _ _
    split at h
    · simp only [Option.some.injEq, Prod.mk.injEq] at h
      rw [← h.2.2]
      exact hR.trans _ _ _ h0 (hR.log _ _)
    · split at h
      · cases hq : ficr_read E chip NRFX_FICR_PPFC 0 (LOG (LogMsg.erasing_page sector.offset) w)
          with
        | none => simp [hq] at h
        | some q =>
          obtain ⟨res1, ppfc, w1⟩ := q
          have h1 := ficr_read_rel hR chip _ _ _ res1 ppfc w1 hq
          simp only [hq] at h
          split at h
          · simp only [Option.some.injEq, Prod.mk.injEq] at h
            rw [← h.2.2]
            exact hR.trans _ _ _ (hR.trans _ _ _ h0 h1) (hR.log _ _)
          · split at h
            · have hb := hblank bank w1
              cases hs1 : (C.default_flash_blank_check bank w1).2.1.sector_array[s]? with
              | none => simp [hs1] at h
              | some sector1 =>
                simp only [hs1] at h
                split at h
                · simp only [Option.some.injEq, Prod.mk.injEq] at h
                  rw [← h.2.2]
                  exact hR.trans _ _ _ (hR.trans _ _ _ h0 h1) hb
                · simp only [Option.some.injEq, Prod.mk.injEq] at h
                  rw [← h.2.2]
                  exact hR.trans _ _ _ (hR.trans _ _ _ (hR.trans _ _ _ h0 h1) hb) (hR.log _ _)
            · cases hg : nrfx_nvmc_generic_erase E C fuel chip 0 NRFX_NVMC_ERASEUICR 0x00000001
                w1 with
              | none => simp [hg] at h
              | some g =>
                obtain ⟨res2, w2⟩ := g
                simp only [hg, Option.map_some', Option.some.injEq, Prod.mk.injEq] at h
                rw [← h.2.2]
                exact hR.trans _ _ _ (hR.trans _ _ _ h0 h1)
                  (nrfx_nvmc_generic_erase_rel hR C hsleep fuel chip _ _ _ w1 res2 w2 hg)
      · cases hg : nrfx_nvmc_generic_erase E C fuel chip sector.offset NRFX_NVMC_ERASEPAGE
          sector.offset (LOG (LogMsg.erasing_page sector.offset) w) with
        | none => simp [hg] at h
        | some g =>
          obtain ⟨res2, w2⟩ := g
          simp only [hg, Option.map_some', Option.some.injEq, Prod.mk.injEq] at h
          rw [← h.2.2]
          exact hR.trans _ _ _ h0
            (nrfx_nvmc_generic_erase_rel hR C hsleep fuel chip _ _ _ _ res2 w2 hg)

end StreamProofs

section LowLevelStreamProofs

variable {σ : Type}

/-- The slow path programs the first `bytes` bytes of the buffer from `offset`
on, in order. -/
theorem nrfx_ll_flash_write_slow_streams (E : Env σ) (fuel : Nat) (chip : nrfx_info) :
    ∀ (n offset : Nat) (buffer : List Nat) (bytes : Nat) (w w' : World σ),
      bytes % 4 = 0 → bytes ≤ buffer.length → offset + bytes < 2 ^ 32 →
      nrfx_ll_flash_write_slow E fuel chip n offset buffer bytes w = some (ERROR_OK, w') →
      streams_since w w' (image offset (buffer.take bytes)) := by
  intro n
  induction n with
  | zero =>
    intro offset buffer bytes w w' _ _ _ h
    unfold nrfx_ll_flash_write_slow at h
    split at h
    · simp at h
    · rename_i hz
      have hb : bytes = 0 := by omega
      simp only [Option.some.injEq, Prod.mk.injEq, true_and] at h
      subst hb
      rw [← h]
      exact streams_since_refl w
  | succ k ih =>
    intro offset buffer bytes w w' h4 hlen hov h
    unfold nrfx_ll_flash_write_slow at h
    split at h
    · rename_i hpos
      have hstep : streams_since w (target_write_memory E offset 4 1 buffer w).2
          (image offset (buffer.take 4)) :=
        streams_since_step w _ (Txn.write_memory offset 4 1 (buffer.take (4 * 1))) rfl
      simp only at h
      split at h
      · rename_i hne
        simp only [Option.some.injEq, Prod.mk.injEq] at h
        exact absurd h.1 hne
      · cases hq : nrfx_wait_for_nvmc E fuel chip (target_write_memory E offset 4 1 buffer w).2
          with
        | none => simp [hq] at h
        | some q =>
          obtain ⟨res2, w2⟩ := q
          have h2 := nrfx_wait_for_nvmc_rel (streams_nothing_ctrl E) fuel chip _ res2 w2 hq
          simp only [hq] at h
          split at h
          · rename_i hne
            simp only [Option.some.injEq, Prod.mk.injEq] at h
            rw [h.1] at hne
            exact absurd rfl hne
          · have hsub : sub32 bytes 4 = bytes - 4 := sub32_of_le (by omega) (by omega)
            have hoff : u32 (offset + 4) = offset + 4 := u32_of_lt (by omega)
            rw [hsub, hoff] at h
            have h3 := ih (offset + 4) (buffer.drop 4) (bytes - 4) w2 w' (by omega)
              (by rw [List.length_drop]; omega) (by omega) h
            have hall := streams_since_trans _ _ _ _ _
              (streams_since_trans _ _ _ _ _ hstep h2) h3
            have htake : buffer.take bytes = buffer.take 4 ++ (buffer.drop 4).take (bytes - 4) := by
              have e : bytes = 4 + (bytes - 4) := by omega
              conv_lhs => rw [e]
              exact List.take_add buffer 4 (bytes - 4)
            have hl4 : (buffer.take 4).length = 4 := by
              rw [List.length_take]; omega
            rw [htake, image_append, hl4]
            simpa using hall
    · rename_i hz
      have hb : bytes = 0 := by omega
      simp only [Option.some.injEq, Prod.mk.injEq, true_and] at h
      subst hb
      rw [← h]
      exact streams_since_refl w

theorem nrfx_ll_flash_write_alloc_streams (E : Env σ) (write_algorithm : working_area) :
    ∀ (n buffer_size : Nat) (w : World σ) (r : Ret ⊕ working_area) (sz : Nat)
      (w' : World σ),
      nrfx_ll_flash_write_alloc E write_algorithm n buffer_size w = some (r, sz, w') →
      streams_since w w' [] := by
  intro n
  induction n with
  | zero => intro buffer_size w r sz w' h; simp [nrfx_ll_flash_write_alloc] at h
  | succ k ih =>
    intro buffer_size w r sz w' h
    unfold nrfx_ll_flash_write_alloc at h
    have hstep : streams_since w (target_alloc_working_area E buffer_size w).2.2 [] :=
      streams_since_step w _ (Txn.alloc_working_area buffer_size) rfl
    simp only at h
    split at h
    · split at h
      · simp only [Option.some.injEq, Prod.mk.injEq] at h
        rw [← h.2.2]
        refine streams_nothing_trans _ _ _ hstep ?_
        exact streams_nothing_trans _ _ _
          (streams_since_step _ (target_free_working_area E write_algorithm _)
            (Txn.free_working_area write_algorithm) rfl)
          (streams_since_of_txns_eq _ _ rfl)
      · exact streams_nothing_trans _ _ _ hstep (ih _ _ _ _ _ h)
    · simp only [Option.some.injEq, Prod.mk.injEq] at h
      rw [← h.2.2]
      exact hstep

/-- A low level write that returns `ERROR_OK` has programmed the first `bytes`
bytes of the buffer from `offset` on, in order, and nothing else: word by word
on the slow path, as the data stream of one loader run on the fast path. -/
theorem nrfx_ll_flash_write_streams (E : Env σ) (fuel : Nat) (chip : nrfx_info)
    (offset : Nat) (buffer : List Nat) (bytes : Nat) (w w' : World σ)
    (hlen : bytes ≤ buffer.length) (hov : offset + bytes < 2 ^ 32)
    (h : nrfx_ll_flash_write E fuel chip offset buffer bytes w = some (ERROR_OK, w')) :
    streams_since w w' (image offset (buffer.take bytes)) := by
  unfold nrfx_ll_flash_write at h
  simp only at h
  split at h
  · simp at h
  · rename_i h4
    have h4 : bytes % 4 = 0 := by omega
    have h0 : streams_since w
        (target_alloc_working_area E nrfx_flash_write_code.length
          (LOG (LogMsg.writing_buffer offset bytes) w)).2.2 [] :=
      streams_since_step w _ (Txn.alloc_working_area nrfx_flash_write_code.length) rfl
    split at h
    · have h1 := nrfx_ll_flash_write_slow_streams E fuel chip fuel offset buffer bytes _ w' h4
        hlen hov h
      have := streams_since_trans _ _ _ _ _
        (streams_nothing_trans _ _ _ h0 (streams_since_of_txns_eq _ _ rfl)) h1
      simpa using this
    · split at h
      · rename_i hne
        simp only [Option.some.injEq, Prod.mk.injEq] at h
        exact absurd h.1 hne
      · have hb : streams_since
            (target_alloc_working_area E nrfx_flash_write_code.length
              (LOG (LogMsg.writing_buffer offset bytes) w)).2.2
            (target_write_buffer E
              (target_alloc_working_area E nrfx_flash_write_code.length
                (LOG (LogMsg.writing_buffer offset bytes) w)).2.1.address
              nrfx_flash_write_code.length nrfx_flash_write_code
              (LOG LogMsg.using_fast_loader
                (target_alloc_working_area E nrfx_flash_write_code.length
                  (LOG (LogMsg.writing_buffer offset bytes) w)).2.2)).2 [] :=
          streams_since_step _ _ (Txn.write_buffer _ _ _) rfl
        split at h
        · simp at h
        · rename_i retval sz w2 heq
          simp only [Option.some.injEq, Prod.mk.injEq] at h
          have := nrfx_ll_flash_write_alloc_error E _ _ _ _ _ _ _ heq
          rw [h.1] at this
          exact absurd this (by decide)
        · rename_i source sz w2 heq
          have ha := nrfx_ll_flash_write_alloc_streams E _ _ _ _ _ _ _ heq
          simp only [Option.some.injEq, Prod.mk.injEq] at h
          obtain ⟨_, rfl⟩ := h
          have hbytes : bytes / 4 * 4 = bytes := by omega
          have haddr : u32 (u32 (NRFX_FLASH_BASE + offset)) = offset := by
            have : NRFX_FLASH_BASE + offset = offset := by simp [NRFX_FLASH_BASE]
            have e1 : u32 offset = offset := u32_of_lt (by omega)
            rw [this, e1, e1]
          have hrun : streams_since w2
              (target_run_flash_async_algorithm E buffer (bytes / 4) 4
                [u32 bytes, u32 source.address, u32 (source.address + source.size),
                  u32 (u32 (NRFX_FLASH_BASE + offset))]
                source.address source.size
                (target_alloc_working_area E nrfx_flash_write_code.length
                  (LOG (LogMsg.writing_buffer offset bytes) w)).2.1.address 0 w2).2
              (image offset (buffer.take bytes)) := by
            have := streams_since_step w2
              (target_run_flash_async_algorithm E buffer (bytes / 4) 4
                [u32 bytes, u32 source.address, u32 (source.address + source.size),
                  u32 (u32 (NRFX_FLASH_BASE + offset))]
                source.address source.size
                (target_alloc_working_area E nrfx_flash_write_code.length
                  (LOG (LogMsg.writing_buffer offset bytes) w)).2.1.address 0 w2).2
              (Txn.run_flash_async_algorithm (buffer.take (bytes / 4 * 4)) (bytes / 4) 4
                [u32 bytes, u32 source.address, u32 (source.address + source.size),
                  u32 (u32 (NRFX_FLASH_BASE + offset))]
                source.address source.size
                (target_alloc_working_area E nrfx_flash_write_code.length
                  (LOG (LogMsg.writing_buffer offset bytes) w)).2.1.address 0) rfl
            simpa [Txn.stored, hbytes, haddr] using this
          have hfree : ∀ (a : working_area) (v : World σ),
              streams_since v (target_free_working_area E a v) [] :=
            fun a v => streams_since_step v _ (Txn.free_working_area a) rfl
          have h1 := streams_nothing_trans _ _ _ (streams_nothing_trans _ _ _ h0 hb) ha
          have h2 := streams_since_trans _ _ _ _ _ h1 hrun
          have h3 := streams_since_trans _ _ _ _ _ h2 (hfree source _)
          have h5 := streams_since_trans _ _ _ _ _ h3
            (hfree (target_alloc_working_area E nrfx_flash_write_code.length
              (LOG (LogMsg.writing_buffer offset bytes) w)).2.1 _)
          simpa using h5

end LowLevelStreamProofs

section ConfigurationRegionWriteProofs

variable {σ : Type}

theorem memcpy_length (dst src : List Nat) (pos n : Nat) (h1 : pos + n ≤ dst.length)
    (h2 : n ≤ src.length) : (memcpy dst pos src n).length = dst.length := by
  simp only [memcpy, List.length_append, List.length_take, List.length_drop]
  omega

theorem memcpy_getD (dst src : List Nat) (pos n i : Nat) (h1 : pos + n ≤ dst.length)
    (h2 : n ≤ src.length) :
    (memcpy dst pos src n).getD i 0
      = if pos ≤ i ∧ i < pos + n then src.getD (i - pos) 0 else dst.getD i 0 := by
  have l1 : (dst.take pos).length = pos := by rw [List.length_take]; omega
  have l2 : (src.take n).length = n := by rw [List.length_take]; omega
  have l12 : (dst.take pos ++ src.take n).length = pos + n := by
    rw [List.length_append, l1, l2]
  simp only [memcpy, List.getD_eq_getElem?_getD]
  by_cases ha : i < pos
  · have hc : ¬ (pos ≤ i ∧ i < pos + n) := by omega
    rw [if_neg hc, List.append_assoc, List.getElem?_append_left (by rw [l1]; exact ha),
      List.getElem?_take, if_pos ha]
  · by_cases hb : i < pos + n
    · have hc : pos ≤ i ∧ i < pos + n := ⟨by omega, hb⟩
      rw [if_pos hc, List.getElem?_append_left (by rw [l12]; exact hb),
        List.getElem?_append_right (by rw [l1]; omega), l1, List.getElem?_take,
        if_pos (by omega)]
    · have hc : ¬ (pos ≤ i ∧ i < pos + n) := by omega
      rw [if_neg hc, List.getElem?_append_right (by rw [l12]; omega), l12,
        List.getElem?_drop]
      congr 2
      omega

/-- A block read into the start of an array of the size read replaces the
array by the bytes delivered. -/
theorem memcpy_all (dst src : List Nat) (n : Nat) (h1 : dst.length = n) (h2 : src.length = n) :
    memcpy dst 0 src n = src := by
  simp only [memcpy, List.take_zero, List.nil_append, Nat.zero_add]
  rw [List.take_of_length_le (by omega), List.drop_of_length_le (by omega), List.append_nil]

theorem nrfx_uicr_base_cases (family : Int) :
    nrfx_uicr_base family = NRF5_UICR_BASE ∨ nrfx_uicr_base family = NRF9_UICR_BASE ∨
      nrfx_uicr_base family = NRFX_UNIMPLEMENTED := by
  unfold nrfx_uicr_base
  split
  · exact Or.inl rfl
  · split
    · exact Or.inr (Or.inl rfl)
    · exact Or.inr (Or.inr rfl)

/-- What a successful `nrfx_uicr_flash_write` issues: the block read of the
region first, then transactions that program into device memory exactly the
region as read with the caller's bytes spliced in, from the base of the region
on. -/
theorem nrfx_uicr_flash_write_trace (E : Env σ) (C : FlashCore σ) (fuel : Nat)
    (bank : flash_bank) (chip : nrfx_info) (buffer : List Nat) (offset count : Nat)
    (w : World σ) (bank' : flash_bank) (w' : World σ)
    (hblank : ∀ (b : flash_bank) (v : World σ),
      streams_since v (C.default_flash_blank_check b v).2.2 [])
    (hin : offset + count ≤ NRFX_UICR_SIZE) (hbuf : count ≤ buffer.length)
    (hread : (E.read_memory w.st (nrfx_uicr_base chip.family) 1 NRFX_UICR_SIZE).2.1.length
      = NRFX_UICR_SIZE)
    (h : nrfx_uicr_flash_write E C fuel bank chip buffer offset count w
      = some (ERROR_OK, bank', w')) :
    ∃ extra, w'.txns
        = w.txns ++ Txn.read_memory (nrfx_uicr_base chip.family) 1 NRFX_UICR_SIZE :: extra ∧
      streamed extra = image (nrfx_uicr_base chip.family)
        (memcpy (E.read_memory w.st (nrfx_uicr_base chip.family) 1 NRFX_UICR_SIZE).2.1
          offset buffer count) := by
  have hsleep : ∀ (v : World σ) (usec : Nat),
      streams_since v { v with st := C.usleep v.st usec } [] :=
    fun v _ => streams_since_of_txns_eq v _ rfl
  have hR := streams_nothing_ctrl E
  have hshadow : (target_read_memory E (nrfx_uicr_base chip.family) 1 NRFX_UICR_SIZE
      (List.replicate NRFX_UICR_SIZE 0) 0 w).2.1
      = (E.read_memory w.st (nrfx_uicr_base chip.family) 1 NRFX_UICR_SIZE).2.1 := by
    simp only [target_read_memory, Nat.one_mul]
    exact memcpy_all _ _ _ (List.length_replicate _ _) hread
  have htx : (target_read_memory E (nrfx_uicr_base chip.family) 1 NRFX_UICR_SIZE
      (List.replicate NRFX_UICR_SIZE 0) 0 w).2.2.txns
      = w.txns ++ [Txn.read_memory (nrfx_uicr_base chip.family) 1 NRFX_UICR_SIZE] := rfl
  have hlen : (memcpy (E.read_memory w.st (nrfx_uicr_base chip.family) 1 NRFX_UICR_SIZE).2.1
      offset buffer count).length = NRFX_UICR_SIZE := by
    rw [memcpy_length _ _ _ _ (by rw [hread]; exact hin) hbuf, hread]
  have hbase : nrfx_uicr_base chip.family ≠ NRFX_UNIMPLEMENTED →
      nrfx_uicr_base chip.family + NRFX_UICR_SIZE < 2 ^ 32 := by
    intro hne
    rcases nrfx_uicr_base_cases chip.family with hb | hb | hb
    · rw [hb]; decide
    · rw [hb]; decide
    · exact absurd hb hne
  unfold nrfx_uicr_flash_write at h
  simp only at h
  split at h
  · simp at h
  · rename_i hbne
    split at h
    · simp at h
    · split at h
      · rename_i hne
        simp only [Option.some.injEq, Prod.mk.injEq] at h
        exact absurd h.1 hne
      · rw [hshadow] at h
        cases he : nrfx_erase_page E C fuel bank chip 0
            (target_read_memory E (nrfx_uicr_base chip.family) 1 NRFX_UICR_SIZE
              (List.replicate NRFX_UICR_SIZE 0) 0 w).2.2 with
        | none => simp [he] at h
        | some q =>
          obtain ⟨res1, bank1, w1⟩ := q
          have h1 := nrfx_erase_page_rel hR C hsleep hblank fuel bank chip 0 _ res1 bank1 w1 he
          simp only [he] at h
          split at h
          · rename_i hne
            simp only [Option.some.injEq, Prod.mk.injEq] at h
            exact absurd h.1 hne
          · cases hwe : nrfx_nvmc_write_enable E fuel chip w1 with
            | none => simp [hwe] at h
            | some q2 =>
              obtain ⟨res2, w2⟩ := q2
              have h2 := nrfx_nvmc_write_enable_rel hR fuel chip w1 res2 w2 hwe
              simp only [hwe] at h
              split at h
              · rename_i hne
                simp only [Option.some.injEq, Prod.mk.injEq] at h
                exact absurd h.1 hne
              · split at h
                · simp at h
                · cases hll : nrfx_ll_flash_write E fuel chip (nrfx_uicr_base chip.family)
                      (memcpy (E.read_memory w.st (nrfx_uicr_base chip.family) 1
                        NRFX_UICR_SIZE).2.1 offset buffer count) NRFX_UICR_SIZE w2 with
                  | none => simp [hll] at h
                  | some q3 =>
                    obtain ⟨res3, w3⟩ := q3
                    simp only [hll, nrfx_uicr_flash_write_finish] at h
                    cases hro : nrfx_nvmc_read_only E fuel chip w3 with
                    | none => simp [hro] at h
                    | some q4 =>
                      obtain ⟨res4, w4⟩ := q4
                      have h4 := nrfx_nvmc_read_only_rel hR fuel chip w3 res4 w4 hro
                      simp only [hro] at h
                      split at h
                      · rename_i hne
                        simp only [Option.some.injEq, Prod.mk.injEq] at h
                        exact absurd h.1 hne
                      · rename_i hok
                        have hok : res3 = ERROR_OK := by
                          by_contra hc
                          exact hok hc
                        simp only [Option.some.injEq, Prod.mk.injEq] at h
                        obtain ⟨_, _, rfl⟩ := h
                        rw [hok] at hll
                        have h3 := nrfx_ll_flash_write_streams E fuel chip _ _ _ w2 w3
                          (by rw [hlen]) (hbase (by simpa using hbne)) hll
                        rw [List.take_of_length_le (by rw [hlen])] at h3
                        have hall := streams_since_trans _ _ _ _ _
                          (streams_since_trans _ _ _ _ _
                            (streams_nothing_trans _ _ _ h1 h2) h3) h4
                        obtain ⟨extra, hex, hst⟩ := hall
                        refine ⟨extra, ?_, by simpa using hst⟩
                        rw [hex, htx, List.append_assoc]
                        rfl

end ConfigurationRegionWriteProofs

section ConfigurationRegionWriteRuns

theorem nrfx_nvmc_erase_enable_ok (fuel : Nat) (chip : nrfx_info) (w : World Mem)
    (hr : ctrl_ready chip w.st) (hf : 0 < fuel) :
    ∃ w', nrfx_nvmc_erase_enable memEnv fuel chip w = some (ERROR_OK, w') ∧
      ctrl_ready chip w'.st ∧ w'.st.allocs = w.st.allocs := by
  obtain ⟨r, c, h1, h2, h3, h4, h5, h6⟩ := hr
  have hr1 : ctrl_ready chip (target_write_u32 memEnv c NRFX_NVMC_CONFIG_EEN w).2.st :=
    ⟨r, c, h1, h2, h3, h4, h5, by simp [target_write_u32, memEnv, h5, h6]⟩
  obtain ⟨w1, hw1, hregs, _, hal⟩ := nrfx_wait_for_nvmc_ok fuel chip _ hr1 hf
  refine ⟨w1, ?_, ?_, ?_⟩
  · have hw : (target_write_u32 memEnv c NRFX_NVMC_CONFIG_EEN w).1 = ERROR_OK := rfl
    simp [nrfx_nvmc_erase_enable, nvmc_write, h3, reg_write, h4, hw1, hw]
  · exact ctrl_ready_of_regs chip _ _ hregs hr1
  · rw [hal]; rfl

theorem nrfx_nvmc_read_only_ok_state (fuel : Nat) (chip : nrfx_info) (w : World Mem)
    (hr : ctrl_ready chip w.st) (hf : 0 < fuel) :
    ∃ w', nrfx_nvmc_read_only memEnv fuel chip w = some (ERROR_OK, w') ∧
      ctrl_ready chip w'.st ∧ w'.st.allocs = w.st.allocs := by
  obtain ⟨r, c, h1, h2, h3, h4, h5, h6⟩ := hr
  have hr1 : ctrl_ready chip (target_write_u32 memEnv c NRFX_NVMC_CONFIG_REN w).2.st :=
    ⟨r, c, h1, h2, h3, h4, h5, by simp [target_write_u32, memEnv, h5, h6]⟩
  obtain ⟨w1, hw1, hregs, _, hal⟩ := nrfx_wait_for_nvmc_ok fuel chip _ hr1 hf
  refine ⟨w1, ?_, ?_, ?_⟩
  · have hw : (target_write_u32 memEnv c NRFX_NVMC_CONFIG_REN w).1 = ERROR_OK := rfl
    simp [nrfx_nvmc_read_only, nvmc_write, h3, reg_write, h4, hw1, hw]
  · exact ctrl_ready_of_regs chip _ _ hregs hr1
  · rw [hal]; rfl

/-- On the model target an erase through an implemented erase register, other
than READY, of a family other than 91 returns `ERROR_OK` when the controller
is ready. -/
theorem nrfx_nvmc_generic_erase_ok (C : FlashCore Mem) (fuel : Nat) (chip : nrfx_info)
    (erase_addr erase_register erase_value e : Nat) (w : World Mem)
    (hr : ctrl_ready chip w.st) (hf : 0 < fuel) (hfam : chip.family ≠ 91)
    (he : chip.nvmc_registers[erase_register &&& REG_INDEX_MASK]? = some e)
    (hne : e ≠ NRFX_UNIMPLEMENTED)
    (hre : chip.nvmc_registers[NRFX_NVMC_READY &&& REG_INDEX_MASK]? ≠ some e) :
    ∃ w', nrfx_nvmc_generic_erase memEnv C fuel chip erase_addr erase_register erase_value w
        = some (ERROR_OK, w') ∧ ctrl_ready chip w'.st ∧ w'.st.allocs = w.st.allocs := by
  obtain ⟨w1, hw1, hr1, ha1⟩ := nrfx_nvmc_erase_enable_ok fuel chip w hr hf
  have hr2 : ctrl_ready chip (target_write_u32 memEnv e erase_value w1).2.st := by
    obtain ⟨r, c, h1, h2, h3, h4, h5, h6⟩ := hr1
    have hrne : r ≠ e := by
      intro hc
      rw [hc] at h1
      exact hre h1
    exact ⟨r, c, h1, h2, h3, h4, h5, by simp [target_write_u32, memEnv, hrne, h6]⟩
  obtain ⟨w3, hw3, hregs3, _, ha3⟩ := nrfx_wait_for_nvmc_ok fuel chip _ hr2 hf
  have hr3 : ctrl_ready chip w3.st := ctrl_ready_of_regs chip _ _ hregs3 hr2
  obtain ⟨w4, hw4, hr4, ha4⟩ := nrfx_nvmc_read_only_ok_state fuel chip w3 hr3 hf
  refine ⟨w4, ?_, hr4, ?_⟩
  · have hw : (target_write_u32 memEnv e erase_value w1).1 = ERROR_OK := rfl
    simp [nrfx_nvmc_generic_erase, hw1, hfam, nvmc_write, he, reg_write, hne, hw,
      nrfx_nvmc_generic_erase_wait, hw3, hw4]
  · rw [ha4, ha3, ← ha1]
    rfl

/-- On the model target the erase of an unprotected sector of the
configuration region of a family other than 91 returns `ERROR_OK` when PPFC is
implemented with a low byte other than 0xFF and the controller is ready. -/
theorem nrfx_erase_page_uicr_ok (C : FlashCore Mem) (fuel : Nat) (bank : flash_bank)
    (chip : nrfx_info) (s : Nat) (sector : flash_sector) (p e : Nat) (w : World Mem)
    (hb : bank.base = NRF5_UICR_BASE) (hs : bank.sector_array[s]? = some sector)
    (hp : sector.is_protected = 0)
    (hpa : chip.ficr_registers[NRFX_FICR_PPFC &&& REG_INDEX_MASK]? = some p)
    (hpne : p ≠ NRFX_UNIMPLEMENTED) (hpv : w.st.regs p &&& 0xFF ≠ 0xFF)
    (hr : ctrl_ready chip w.st) (hf : 0 < fuel) (hfam : chip.family ≠ 91)
    (he : chip.nvmc_registers[NRFX_NVMC_ERASEUICR &&& REG_INDEX_MASK]? = some e)
    (hne : e ≠ NRFX_UNIMPLEMENTED)
    (hre : chip.nvmc_registers[NRFX_NVMC_READY &&& REG_INDEX_MASK]? ≠ some e) :
    ∃ w', nrfx_erase_page memEnv C fuel bank chip s w = some (ERROR_OK, bank, w') ∧
      ctrl_ready chip w'.st ∧ w'.st.allocs = w.st.allocs := by
  have hr0 : ctrl_ready chip
      (target_read_u32 memEnv p (LOG (LogMsg.erasing_page sector.offset) w)).2.2.st :=
    ctrl_ready_of_regs chip w.st _ rfl hr
  obtain ⟨w1, hw1, hr1, ha1⟩ := nrfx_nvmc_generic_erase_ok C fuel chip 0 NRFX_NVMC_ERASEUICR
    0x00000001 e _ hr0 hf hfam he hne hre
  refine ⟨w1, ?_, hr1, by rw [ha1]; rfl⟩
  have hok : (memEnv.read_u32 (LOG (LogMsg.erasing_page sector.offset) w).st p).1
      = ERROR_OK := rfl
  have hv : ¬ (memEnv.read_u32 (LOG (LogMsg.erasing_page sector.offset) w).st p).2.1 &&& 0xFF
      = 0xFF := hpv
  have hg : nrfx_nvmc_generic_erase memEnv C fuel chip 0 NRFX_NVMC_ERASEUICR 0x00000001
      { st := (memEnv.read_u32 (LOG (LogMsg.erasing_page sector.offset) w).st p).2.2,
        txns := (LOG (LogMsg.erasing_page sector.offset) w).txns ++ [Txn.read_u32 p],
        logs := (LOG (LogMsg.erasing_page sector.offset) w).logs }
      = some (ERROR_OK, w1) := hw1
  simp only [nrfx_erase_page, hs, hp, hb, ficr_read, hpa, Option.map_some', reg_read,
    if_neg hpne, ne_eq, not_true_eq_false, if_false, if_true, target_read_u32, hok, hv, hg]

/-- On the model target a write into the configuration region of a family
other than 91 returns `ERROR_OK` when the request is in range, the sector is
not protected, PPFC allows the erase, the controller is ready, the working
area requests are usable and the fuel covers the 1024 words. -/
theorem nrfx_uicr_flash_write_ok (C : FlashCore Mem) (fuel : Nat) (bank : flash_bank)
    (chip : nrfx_info) (buffer : List Nat) (offset count : Nat) (sector : flash_sector)
    (p e : Nat) (w : World Mem)
    (hbase : nrfx_uicr_base chip.family ≠ NRFX_UNIMPLEMENTED)
    (hin : offset + count ≤ NRFX_UICR_SIZE)
    (hb : bank.base = NRF5_UICR_BASE) (hs : bank.sector_array[0]? = some sector)
    (hp : sector.is_protected = 0)
    (hpa : chip.ficr_registers[NRFX_FICR_PPFC &&& REG_INDEX_MASK]? = some p)
    (hpne : p ≠ NRFX_UNIMPLEMENTED) (hpv : w.st.regs p &&& 0xFF ≠ 0xFF)
    (hr : ctrl_ready chip w.st) (hal : allocs_usable w.st) (hfuel : 1024 < fuel)
    (hfam : chip.family ≠ 91)
    (he : chip.nvmc_registers[NRFX_NVMC_ERASEUICR &&& REG_INDEX_MASK]? = some e)
    (hne : e ≠ NRFX_UNIMPLEMENTED)
    (hre : chip.nvmc_registers[NRFX_NVMC_READY &&& REG_INDEX_MASK]? ≠ some e) :
    ∃ bank' w', nrfx_uicr_flash_write memEnv C fuel bank chip buffer offset count w
      = some (ERROR_OK, bank', w') := by
  have hf : 0 < fuel := by omega
  have hu : u32 (offset + count) = offset + count :=
    u32_of_lt (Nat.lt_of_le_of_lt hin (by decide))
  obtain ⟨w1, hw1, hr1, ha1⟩ := nrfx_erase_page_uicr_ok C fuel bank chip 0 sector p e
    (target_read_memory memEnv (nrfx_uicr_base chip.family) 1 NRFX_UICR_SIZE
      (List.replicate NRFX_UICR_SIZE 0) 0 w).2.2
    hb hs hp hpa hpne hpv (ctrl_ready_of_regs chip w.st _ rfl hr) hf hfam he hne hre
  obtain ⟨w2, hw2, hr2, ha2⟩ := nrfx_nvmc_write_enable_ok fuel chip w1 hr1 hf
  have hal2 : allocs_usable w2.st := by
    unfold allocs_usable at hal ⊢
    rw [ha2, ha1]
    exact hal
  obtain ⟨w3, hw3, hr3⟩ := nrfx_ll_flash_write_ok fuel chip (nrfx_uicr_base chip.family)
    (memcpy (target_read_memory memEnv (nrfx_uicr_base chip.family) 1 NRFX_UICR_SIZE
      (List.replicate NRFX_UICR_SIZE 0) 0 w).2.1 offset buffer count)
    NRFX_UICR_SIZE w2 (by decide) (by simpa [NRFX_UICR_SIZE] using hfuel) (by decide) hr2 hal2
  obtain ⟨w4, hw4, _, _⟩ := nrfx_nvmc_read_only_ok_state fuel chip w3 hr3 hf
  refine ⟨bank, w4, ?_⟩
  have hrd : (target_read_memory memEnv (nrfx_uicr_base chip.family) 1 NRFX_UICR_SIZE
      (List.replicate NRFX_UICR_SIZE 0) 0 w).1 = ERROR_OK := rfl
  have hgt : ¬ offset + count > NRFX_UICR_SIZE := by omega
  simp only [nrfx_uicr_flash_write, if_neg hbase, hu, if_neg hgt, hrd, ne_eq,
    not_true_eq_false, if_false, hw1, hw2, hw3, nrfx_uicr_flash_write_finish, hw4]

end ConfigurationRegionWriteRuns

section ConfigurationRegionWrite

variable {σ : Type}

/-- C18. A write into the configuration region, for a request in range
(`offset + len buffer ≤ 0x1000`), a block read that delivers the 0x1000 bytes
of the region and a blank check that programs nothing.  Whenever
`nrfx_uicr_flash_write` returns `ERROR_OK`, its first transaction is the block
read of the region at the user-config base of the family, before the sector
erase, and the transactions after it program into device memory exactly
0x1000 bytes, from that base on: the `shadow`, which is the region as read
with the bytes `[offset, offset + len buffer)` replaced by the caller's bytes.
Such a run exists: on the model target, for a family other than 91 with PPFC
implemented and not 0xFF in its low byte, an unprotected sector, a ready
controller, usable working-area requests and fuel for the 1024 words, the
function returns `ERROR_OK`. -/
theorem nrfx_uicr_flash_write_region (E : Env σ) (C : FlashCore σ) (fuel : Nat)
    (bank : flash_bank) (chip : nrfx_info) (buffer : List Nat) (offset : Nat) (w : World σ)
    (hin : offset + buffer.length ≤ NRFX_UICR_SIZE)
    (hread : (E.read_memory w.st (nrfx_uicr_base chip.family) 1 NRFX_UICR_SIZE).2.1.length
      = NRFX_UICR_SIZE)
    (hblank : ∀ (b : flash_bank) (v : World σ),
      streams_since v (C.default_flash_blank_check b v).2.2 []) :
    (∀ (bank' : flash_bank) (w' : World σ),
      nrfx_uicr_flash_write E C fuel bank chip buffer offset buffer.length w
        = some (ERROR_OK, bank', w') →
      ∃ (extra : List Txn) (shadow : List Nat),
        w'.txns = w.txns
          ++ Txn.read_memory (nrfx_uicr_base chip.family) 1 NRFX_UICR_SIZE :: extra ∧
        streamed extra = image (nrfx_uicr_base chip.family) shadow ∧
        shadow.length = NRFX_UICR_SIZE ∧
        ∀ i, i < NRFX_UICR_SIZE →
          shadow.getD i 0 =
            if offset ≤ i ∧ i < offset + buffer.length then buffer.getD (i - offset) 0
            else (E.read_memory w.st (nrfx_uicr_base chip.family) 1
              NRFX_UICR_SIZE).2.1.getD i 0) ∧
    (∀ (M : FlashCore Mem) (v : World Mem) (sector : flash_sector) (p e : Nat),
      nrfx_uicr_base chip.family ≠ NRFX_UNIMPLEMENTED → chip.family ≠ 91 →
      bank.base = NRF5_UICR_BASE → bank.sector_array[0]? = some sector →
      sector.is_protected = 0 →
      chip.ficr_registers[NRFX_FICR_PPFC &&& REG_INDEX_MASK]? = some p →
      p ≠ NRFX_UNIMPLEMENTED → v.st.regs p &&& 0xFF ≠ 0xFF →
      chip.nvmc_registers[NRFX_NVMC_ERASEUICR &&& REG_INDEX_MASK]? = some e →
      e ≠ NRFX_UNIMPLEMENTED →
      chip.nvmc_registers[NRFX_NVMC_READY &&& REG_INDEX_MASK]? ≠ some e →
      ctrl_ready chip v.st → allocs_usable v.st → 1024 < fuel →
      ∃ bank' w', nrfx_uicr_flash_write memEnv M fuel bank chip buffer offset buffer.length v
        = some (ERROR_OK, bank', w')) := by
  constructor
  · intro bank' w' h
    obtain ⟨extra, htx, hst⟩ := nrfx_uicr_flash_write_trace E C fuel bank chip buffer offset
      buffer.length w bank' w' hblank hin (Nat.le_refl _) hread h
    refine ⟨extra, _, htx, hst, ?_, ?_⟩
    · rw [memcpy_length _ _ _ _ (by rw [hread]; exact hin) (Nat.le_refl _), hread]
    · intro i _
      exact memcpy_getD _ _ _ _ i (by rw [hread]; exact hin) (Nat.le_refl _)
  · intro M v sector p e hbase hfam hb hs hp hpa hpne hpv he hne hre hr hal hfuel
    exact nrfx_uicr_flash_write_ok M fuel bank chip buffer offset buffer.length sector p e v
      hbase hin hb hs hp hpa hpne hpv hr hal hfuel hfam he hne hre

set_option maxRecDepth 8192 in
theorem nrfx_uicr_flash_write_region_witness :
    ∃ (bank' : flash_bank) (w' : World Mem) (extra : List Txn) (shadow : List Nat),
      nrfx_uicr_flash_write memEnv (memCore true) 1025 uicr_bank5 (new_chip 51) [1, 2, 3] 5
          [1, 2, 3].length (memWorld (memOf regs_ready)) = some (ERROR_OK, bank', w') ∧
        w'.txns = Txn.read_memory 0x10001000 1 0x1000 :: extra ∧
        streamed extra = image 0x10001000 shadow ∧
        shadow.getD 5 0 = 1 ∧ shadow.getD 7 0 = 3 ∧ shadow.getD 8 0 = 0xFF := by
  have h := nrfx_uicr_flash_write_region memEnv (memCore true) 1025 uicr_bank5 (new_chip 51)
    [1, 2, 3] 5 (memWorld (memOf regs_ready)) (by decide)
    (by simp only [memEnv_read_memory, Mem.load_length, Nat.one_mul])
    (fun b v => streams_since_step v _ (Txn.read_memory b.base 1 b.size) rfl)
  obtain ⟨bank', w', hrun⟩ := h.2 (memCore true) (memWorld (memOf regs_ready))
    ⟨0, NRFX_UICR_SIZE, 0, 0⟩ 0x1000002C 0x4001E514 (by decide) (by decide) rfl rfl rfl rfl
    (by decide) (by decide) rfl (by decide) (by decide)
    ⟨0x4001E400, 0x4001E504, by decide, by decide, by decide, by decide, by decide, by decide⟩
    (Or.inl rfl) (by decide)
  obtain ⟨extra, shadow, htx, hst, _, hsh⟩ := h.1 bank' w' hrun
  refine ⟨bank', w', extra, shadow, hrun, htx, hst, ?_, ?_, ?_⟩
  · rw [hsh 5 (by decide)]; rfl
  · rw [hsh 7 (by decide)]; rfl
  · rw [hsh 8 (by decide)]
    have hc : ¬ (5 ≤ 8 ∧ 8 < 5 + [1, 2, 3].length) := by decide
    have h8 : 8 < 1 * NRFX_UICR_SIZE := by decide
    rw [if_neg hc, memEnv_read_memory]
    show (Mem.load (memWorld (memOf regs_ready)).st (nrfx_uicr_base (new_chip 51).family)
      (1 * NRFX_UICR_SIZE)).getD 8 0 = 0xFF
    rw [Mem.load_getD _ _ _ 8 h8]
    rfl

end ConfigurationRegionWrite

section WriteFindings

set_option maxRecDepth 100000 in
/-- C21. On a halted nRF51 with pages of 1024 bytes whose code-flash bank is
probed and whose first sector has the protected flag true, `nrfx_write` of 4
bytes at offset 0 returns `ERROR_OK`: it has written the write-enable code to
CONFIG and programmed the caller's bytes at the start of the protected
sector (1024 bytes in all). -/
theorem nrfx_write_ignores_protected_flag :
    (nrfx_write (regEnv regs_ready) (regCore true) 257 bank_first_page_protected chip51_probed
        [1, 2, 3, 4] 0 4 regWorld).map
      (fun r => (r.1, decide (Txn.write_u32 0x4001E504 1 ∈ r.2.2.2.txns),
        (streamed r.2.2.2.txns).length, (streamed r.2.2.2.txns).take 4))
      = some (ERROR_OK, true, 1024, [(0, 1), (1, 2), (2, 3), (3, 4)]) := by
  decide

/-- C22. When the loader area is granted and the upload of the loader fails,
`nrfx_ll_flash_write` returns the error of the upload right away: the
transactions are the request for the area and the upload, and the area is not
freed. -/
theorem nrfx_ll_flash_write_upload_failure_leaks :
    (nrfx_ll_flash_write (uploadFailEnv regs_ready) 1 (new_chip 51) 0 [1, 2, 3, 4] 4
        regWorld).map (fun r => (r.1, r.2.txns))
      = some (ERROR_FAIL,
          [Txn.alloc_working_area 32,
           Txn.write_buffer 0x20000000 32 nrfx_flash_write_code]) := by
  decide

end WriteFindings

section ModeTransitionProofs

variable {σ : Type}

theorem nrfx_nvmc_erase_enable_eq (E : Env σ) (fuel : Nat) (chip : nrfx_info) (w : World σ) :
    nrfx_nvmc_erase_enable E fuel chip w
      = nrfx_nvmc_transition E fuel chip NRFX_NVMC_CONFIG_EEN LogMsg.erase_enable_failed
          LogMsg.erase_enable_incomplete w := rfl

theorem nrfx_nvmc_write_enable_eq (E : Env σ) (fuel : Nat) (chip : nrfx_info) (w : World σ) :
    nrfx_nvmc_write_enable E fuel chip w
      = nrfx_nvmc_transition E fuel chip NRFX_NVMC_CONFIG_WEN LogMsg.write_enable_failed
          LogMsg.write_enable_incomplete w := rfl

theorem nrfx_nvmc_read_only_eq (E : Env σ) (fuel : Nat) (chip : nrfx_info) (w : World σ) :
    nrfx_nvmc_read_only E fuel chip w
      = nrfx_nvmc_transition E fuel chip NRFX_NVMC_CONFIG_REN LogMsg.read_only_failed
          LogMsg.read_only_incomplete w := rfl

/-- A READY poll on a chip whose READY register is implemented at `r`. -/
theorem nvmc_read_ready (E : Env σ) (chip : nrfx_info) (r : Nat) (w : World σ)
    (hr : chip.nvmc_registers[NRFX_NVMC_READY &&& REG_INDEX_MASK]? = some r)
    (hrne : r ≠ NRFX_UNIMPLEMENTED) :
    nvmc_read E chip NRFX_NVMC_READY 0 w = some (target_read_u32 E r w) := by
  simp [nvmc_read, hr, reg_read, hrne]

/-- The polling loop issues reads of READY only. -/
theorem nrfx_wait_for_nvmc_loop_polls (E : Env σ) (chip : nrfx_info) (r : Nat)
    (hr : chip.nvmc_registers[NRFX_NVMC_READY &&& REG_INDEX_MASK]? = some r)
    (hrne : r ≠ NRFX_UNIMPLEMENTED) (timeout_ms ts_start : Int) :
    ∀ (fuel : Nat) (w : World σ) (res : Ret) (w' : World σ),
      nrfx_wait_for_nvmc_loop E chip timeout_ms ts_start fuel w = some (res, w') →
      ∃ k, 0 < k ∧ w'.txns = w.txns ++ List.replicate k (Txn.read_u32 r) := by
  intro fuel
  induction fuel with
  | zero => intro w res w' h; simp [nrfx_wait_for_nvmc_loop] at h
  | succ n ih =>
    intro w res w' h
    unfold nrfx_wait_for_nvmc_loop at h
    rw [nvmc_read_ready E chip r w hr hrne] at h
    have h1 : (target_read_u32 E r w).2.2.txns = w.txns ++ List.replicate 1 (Txn.read_u32 r) :=
      rfl
    simp only at h
    split at h
    · simp only [Option.some.injEq, Prod.mk.injEq] at h
      exact ⟨1, by decide, by rw [← h.2]; exact h1⟩
    · split at h
      · simp only [Option.some.injEq, Prod.mk.injEq] at h
        exact ⟨1, by decide, by rw [← h.2]; exact h1⟩
      · split at h
        · obtain ⟨k, _, hk⟩ := ih _ _ _ h
          refine ⟨1 + k, by omega, ?_⟩
          rw [hk]
          show (target_read_u32 E r w).2.2.txns ++ _ = _
          rw [h1, List.append_assoc, ← List.replicate_add]
        · simp only [Option.some.injEq, Prod.mk.injEq] at h
          exact ⟨1, by decide, by rw [← h.2]; exact h1⟩

theorem nrfx_wait_for_nvmc_polls (E : Env σ) (fuel : Nat) (chip : nrfx_info) (r : Nat)
    (hr : chip.nvmc_registers[NRFX_NVMC_READY &&& REG_INDEX_MASK]? = some r)
    (hrne : r ≠ NRFX_UNIMPLEMENTED) (w : World σ) (res : Ret) (w' : World σ)
    (h : nrfx_wait_for_nvmc E fuel chip w = some (res, w')) :
    ∃ k, 0 < k ∧ w'.txns = w.txns ++ List.replicate k (Txn.read_u32 r) := by
  unfold nrfx_wait_for_nvmc at h
  exact nrfx_wait_for_nvmc_loop_polls E chip r hr hrne 340 (timeval_ms E w).1 fuel
    (timeval_ms E w).2 res w' h

/-- While READY reads a value other than 1 the polling loop can only return
`ERROR_FLASH_BUSY`. -/
theorem nrfx_wait_for_nvmc_loop_busy (E : Env σ) (chip : nrfx_info) (r : Nat)
    (hr : chip.nvmc_registers[NRFX_NVMC_READY &&& REG_INDEX_MASK]? = some r)
    (hrne : r ≠ NRFX_UNIMPLEMENTED)
    (hbusy : ∀ s, (E.read_u32 s r).1 = ERROR_OK ∧ (E.read_u32 s r).2.1 ≠ 1)
    (timeout_ms ts_start : Int) :
    ∀ (fuel : Nat) (w : World σ) (res : Ret) (w' : World σ),
      nrfx_wait_for_nvmc_loop E chip timeout_ms ts_start fuel w = some (res, w') →
      res = ERROR_FLASH_BUSY := by
  intro fuel
  induction fuel with
  | zero => intro w res w' h; simp [nrfx_wait_for_nvmc_loop] at h
  | succ n ih =>
    intro w res w' h
    unfold nrfx_wait_for_nvmc_loop at h
    rw [nvmc_read_ready E chip r w hr hrne] at h
    have hb := hbusy w.st
    have e1 : (target_read_u32 E r w).1 = ERROR_OK := hb.1
    have e2 : ¬ (target_read_u32 E r w).2.1 = 1 := hb.2
    simp only [e1, ne_eq, not_true_eq_false, if_false, e2] at h
    split at h
    · exact ih _ _ _ h
    · simp only [Option.some.injEq, Prod.mk.injEq] at h
      exact h.1.symm

/-- Under a clock that advances, while READY reads a value other than 1, the
polling loop returns `ERROR_FLASH_BUSY` once the clock is within `n` ms of the
deadline and `n + 1` polls are left. -/
theorem nrfx_wait_for_nvmc_loop_times_out (E : Env σ) (chip : nrfx_info) (r : Nat)
    (hr : chip.nvmc_registers[NRFX_NVMC_READY &&& REG_INDEX_MASK]? = some r)
    (hrne : r ≠ NRFX_UNIMPLEMENTED)
    (hbusy : ∀ s, (E.read_u32 s r).1 = ERROR_OK ∧ (E.read_u32 s r).2.1 ≠ 1)
    (clock : σ → Int) (hclk : ClockAdvances E clock) (ts_start : Int) :
    ∀ (n fuel : Nat) (w : World σ), ts_start + 340 ≤ clock w.st + n → n + 1 ≤ fuel →
      ∃ w', nrfx_wait_for_nvmc_loop E chip 340 ts_start fuel w
        = some (ERROR_FLASH_BUSY, w') := by
  intro n
  induction n with
  | zero =>
    intro fuel w hc hf
    obtain ⟨k, rfl⟩ : ∃ k, fuel = k + 1 := ⟨fuel - 1, by omega⟩
    unfold nrfx_wait_for_nvmc_loop
    rw [nvmc_read_ready E chip r w hr hrne]
    have hb := hbusy w.st
    have e1 : (target_read_u32 E r w).1 = ERROR_OK := hb.1
    have e2 : ¬ (target_read_u32 E r w).2.1 = 1 := hb.2
    have hm : clock w.st ≤ clock (target_read_u32 E r w).2.2.st := hclk.read_u32 w.st r
    have ht : (timeval_ms E (target_read_u32 E r w).2.2).1
        = clock (target_read_u32 E r w).2.2.st := hclk.reading _
    have hlt : ¬ (timeval_ms E (target_read_u32 E r w).2.2).1 - ts_start < 340 := by
      rw [ht]; omega
    simp only [e1, ne_eq, not_true_eq_false, if_false, e2, hlt]
    exact ⟨_, rfl⟩
  | succ m ih =>
    intro fuel w hc hf
    obtain ⟨k, rfl⟩ : ∃ k, fuel = k + 1 := ⟨fuel - 1, by omega⟩
    unfold nrfx_wait_for_nvmc_loop
    rw [nvmc_read_ready E chip r w hr hrne]
    have hb := hbusy w.st
    have e1 : (target_read_u32 E r w).1 = ERROR_OK := hb.1
    have e2 : ¬ (target_read_u32 E r w).2.1 = 1 := hb.2
    have hm : clock w.st ≤ clock (target_read_u32 E r w).2.2.st := hclk.read_u32 w.st r
    have htick : clock (target_read_u32 E r w).2.2.st + 1
        ≤ clock (timeval_ms E (target_read_u32 E r w).2.2).2.st :=
      hclk.tick _
    have hfin : ts_start + 340 ≤ clock (timeval_ms E (target_read_u32 E r w).2.2).2.st + m := by
      omega
    simp only [e1, ne_eq, not_true_eq_false, if_false, e2]
    split
    · exact ih k (timeval_ms E (target_read_u32 E r w).2.2).2 hfin (by omega)
    · exact ⟨_, rfl⟩

theorem nrfx_nvmc_transition_contract (E : Env σ) (fuel : Nat) (chip : nrfx_info)
    (c r mode : Nat) (failed incomplete : LogMsg) (w : World σ)
    (hc : chip.nvmc_registers[NRFX_NVMC_CONFIG &&& REG_INDEX_MASK]? = some c)
    (hcne : c ≠ NRFX_UNIMPLEMENTED)
    (hr : chip.nvmc_registers[NRFX_NVMC_READY &&& REG_INDEX_MASK]? = some r)
    (hrne : r ≠ NRFX_UNIMPLEMENTED) :
    transition_contract E fuel chip c r mode
      (nrfx_nvmc_transition E fuel chip mode failed incomplete) w := by
  have hw : nvmc_write E chip NRFX_NVMC_CONFIG mode w = some (target_write_u32 E c mode w) := by
    simp [nvmc_write, hc, reg_write, hcne]
  have h1 : (target_write_u32 E c mode w).1 = (E.write_u32 w.st c mode).1 := rfl
  have htx : (target_write_u32 E c mode w).2.txns = w.txns ++ [Txn.write_u32 c mode] := rfl
  refine ⟨?_, ?_, ?_, ?_⟩
  · intro hne
    refine ⟨LOG failed (target_write_u32 E c mode w).2, ?_, htx⟩
    simp only [nrfx_nvmc_transition, hw, h1, ne_eq, hne, not_false_eq_true, if_true]
  · intro res w' h
    simp only [nrfx_nvmc_transition, hw] at h
    split at h
    · simp only [Option.some.injEq, Prod.mk.injEq] at h
      refine ⟨0, ?_⟩
      rw [← h.2]
      exact htx
    · cases hq : nrfx_wait_for_nvmc E fuel chip (target_write_u32 E c mode w).2 with
      | none => simp [hq] at h
      | some q =>
        obtain ⟨res2, w2⟩ := q
        obtain ⟨k, _, hk⟩ := nrfx_wait_for_nvmc_polls E fuel chip r hr hrne _ res2 w2 hq
        rw [htx, List.append_assoc] at hk
        simp only [hq] at h
        refine ⟨k, ?_⟩
        split at h
        · simp only [Option.some.injEq, Prod.mk.injEq] at h
          rw [← h.2]
          exact hk
        · simp only [Option.some.injEq, Prod.mk.injEq] at h
          rw [← h.2]
          exact hk
  · intro hok
    have hok' : ¬ (target_write_u32 E c mode w).1 ≠ ERROR_OK := by rw [h1, hok]; simp
    simp only [nrfx_nvmc_transition, hw, if_neg hok']
    cases hq : nrfx_wait_for_nvmc E fuel chip (target_write_u32 E c mode w).2 with
    | none => rfl
    | some q =>
      obtain ⟨res2, w2⟩ := q
      simp only [Option.map_some']
      split <;> rfl
  · intro hok hbusy
    have hok' : ¬ (target_write_u32 E c mode w).1 ≠ ERROR_OK := by rw [h1, hok]; simp
    constructor
    · intro res w' h
      simp only [nrfx_nvmc_transition, hw, if_neg hok'] at h
      cases hq : nrfx_wait_for_nvmc E fuel chip (target_write_u32 E c mode w).2 with
      | none => simp [hq] at h
      | some q =>
        obtain ⟨res2, w2⟩ := q
        have hb : res2 = ERROR_FLASH_BUSY := by
          unfold nrfx_wait_for_nvmc at hq
          exact nrfx_wait_for_nvmc_loop_busy E chip r hr hrne hbusy _ _ fuel _ res2 w2 hq
        simp only [hq] at h
        split at h
        · simp only [Option.some.injEq, Prod.mk.injEq] at h
          rw [← h.1, hb]
        · simp only [Option.some.injEq, Prod.mk.injEq] at h
          rw [← h.1, hb]
    · intro clock hclk hfuel
      have hrd := hclk.reading (target_write_u32 E c mode w).2.st
      have htick := hclk.tick (target_write_u32 E c mode w).2.st
      obtain ⟨w2, hw2⟩ := nrfx_wait_for_nvmc_loop_times_out E chip r hr hrne hbusy clock hclk
        (timeval_ms E (target_write_u32 E c mode w).2).1 339 fuel
        (timeval_ms E (target_write_u32 E c mode w).2).2
        (by
          have e : (timeval_ms E (target_write_u32 E c mode w).2).1
              = clock (target_write_u32 E c mode w).2.st := hrd
          have e2 : clock (target_write_u32 E c mode w).2.st + 1
              ≤ clock (timeval_ms E (target_write_u32 E c mode w).2).2.st := htick
          omega)
        (by omega)
      have hq : nrfx_wait_for_nvmc E fuel chip (target_write_u32 E c mode w).2
          = some (ERROR_FLASH_BUSY, w2) := hw2
      refine ⟨LOG incomplete w2, ?_⟩
      simp [nrfx_nvmc_transition, hw, if_neg hok', hq]

end ModeTransitionProofs

section ModeTransitions

variable {σ : Type}

/-- C23. The three mode transitions on a chip whose CONFIG register is
implemented at `c` and whose READY register at `r`.  Each of
`nrfx_nvmc_erase_enable` (mode code 2), `nrfx_nvmc_write_enable` (1) and
`nrfx_nvmc_read_only` (0) meets `transition_contract`: a failing CONFIG write
is returned without a poll; the transactions are one write of the mode code
to CONFIG, then reads of READY only; after a successful write the code
returned is that of `nrfx_wait_for_nvmc`; while READY never reads 1 the code
can only be `ERROR_FLASH_BUSY`, and under a clock that advances it is returned.
The ready wait polls with a deadline of 340 ms from its first reading of the
clock, and one poll of the loop does this:
* a failing READY read ends the wait with the error of the read;
* a READY read that yields exactly 1 ends it with `ERROR_OK`;
* any other value ends it with `ERROR_FLASH_BUSY` when the time elapsed since
  the start has reached the timeout, and leads to the next poll otherwise. -/
theorem nrfx_nvmc_mode_transitions (E : Env σ) (fuel : Nat) (chip : nrfx_info) (c r : Nat)
    (w : World σ)
    (hc : chip.nvmc_registers[NRFX_NVMC_CONFIG &&& REG_INDEX_MASK]? = some c)
    (hcne : c ≠ NRFX_UNIMPLEMENTED)
    (hr : chip.nvmc_registers[NRFX_NVMC_READY &&& REG_INDEX_MASK]? = some r)
    (hrne : r ≠ NRFX_UNIMPLEMENTED) :
    transition_contract E fuel chip c r 2 (nrfx_nvmc_erase_enable E fuel chip) w ∧
    transition_contract E fuel chip c r 1 (nrfx_nvmc_write_enable E fuel chip) w ∧
    transition_contract E fuel chip c r 0 (nrfx_nvmc_read_only E fuel chip) w ∧
    (∀ v, nrfx_wait_for_nvmc E fuel chip v
      = nrfx_wait_for_nvmc_loop E chip 340 (timeval_ms E v).1 fuel (timeval_ms E v).2) ∧
    (∀ (timeout_ms ts_start : Int) (n : Nat) (v : World σ),
      ((E.read_u32 v.st r).1 ≠ ERROR_OK →
        nrfx_wait_for_nvmc_loop E chip timeout_ms ts_start (n + 1) v
          = some ((E.read_u32 v.st r).1,
              LOG LogMsg.nvmc_ready_read_failed (target_read_u32 E r v).2.2)) ∧
      ((E.read_u32 v.st r).1 = ERROR_OK → (E.read_u32 v.st r).2.1 = 1 →
        nrfx_wait_for_nvmc_loop E chip timeout_ms ts_start (n + 1) v
          = some (ERROR_OK, (target_read_u32 E r v).2.2)) ∧
      ((E.read_u32 v.st r).1 = ERROR_OK → (E.read_u32 v.st r).2.1 ≠ 1 →
        ¬ (timeval_ms E (target_read_u32 E r v).2.2).1 - ts_start < timeout_ms →
        nrfx_wait_for_nvmc_loop E chip timeout_ms ts_start (n + 1) v
          = some (ERROR_FLASH_BUSY,
              LOG LogMsg.nvmc_ready_timed_out
                (timeval_ms E (target_read_u32 E r v).2.2).2)) ∧
      ((E.read_u32 v.st r).1 = ERROR_OK → (E.read_u32 v.st r).2.1 ≠ 1 →
        (timeval_ms E (target_read_u32 E r v).2.2).1 - ts_start < timeout_ms →
        nrfx_wait_for_nvmc_loop E chip timeout_ms ts_start (n + 1) v
          = nrfx_wait_for_nvmc_loop E chip timeout_ms ts_start n
              (timeval_ms E (target_read_u32 E r v).2.2).2)) := by
  refine ⟨?_, ?_, ?_, fun _ => rfl, ?_⟩
  · rw [show nrfx_nvmc_erase_enable E fuel chip = nrfx_nvmc_transition E fuel chip
        NRFX_NVMC_CONFIG_EEN LogMsg.erase_enable_failed LogMsg.erase_enable_incomplete from
        funext (nrfx_nvmc_erase_enable_eq E fuel chip)]
    exact nrfx_nvmc_transition_contract E fuel chip c r _ _ _ w hc hcne hr hrne
  · rw [show nrfx_nvmc_write_enable E fuel chip = nrfx_nvmc_transition E fuel chip
        NRFX_NVMC_CONFIG_WEN LogMsg.write_enable_failed LogMsg.write_enable_incomplete from
        funext (nrfx_nvmc_write_enable_eq E fuel chip)]
    exact nrfx_nvmc_transition_contract E fuel chip c r _ _ _ w hc hcne hr hrne
  · rw [show nrfx_nvmc_read_only E fuel chip = nrfx_nvmc_transition E fuel chip
        NRFX_NVMC_CONFIG_REN LogMsg.read_only_failed LogMsg.read_only_incomplete from
        funext (nrfx_nvmc_read_only_eq E fuel chip)]
    exact nrfx_nvmc_transition_contract E fuel chip c r _ _ _ w hc hcne hr hrne
  · intro timeout_ms ts_start n v
    have hn := nvmc_read_ready E chip r v hr hrne
    have h1 : (target_read_u32 E r v).1 = (E.read_u32 v.st r).1 := rfl
    have h2 : (target_read_u32 E r v).2.1 = (E.read_u32 v.st r).2.1 := rfl
    refine ⟨?_, ?_, ?_, ?_⟩
    · intro hne
      rw [nrfx_wait_for_nvmc_loop, hn]
      simp only [h1, ne_eq, hne, not_false_eq_true, if_true]
    · intro hok h1'
      rw [nrfx_wait_for_nvmc_loop, hn]
      simp only [h1, hok, ne_eq, not_true_eq_false, if_false, h2, h1', if_true]
    · intro hok hv hlt
      rw [nrfx_wait_for_nvmc_loop, hn]
      simp only [h1, hok, ne_eq, not_true_eq_false, if_false, h2, hv, hlt]
    · intro hok hv hlt
      rw [nrfx_wait_for_nvmc_loop, hn]
      simp only [h1, hok, ne_eq, not_true_eq_false, if_false, h2, hv, hlt, if_true]

theorem nrfx_nvmc_mode_transitions_witness :
    ∃ w', nrfx_nvmc_write_enable (clockEnv (fun _ => 0)) 340 (new_chip 51) ⟨0, [], []⟩
      = some (ERROR_FLASH_BUSY, w') :=
  ((nrfx_nvmc_mode_transitions (clockEnv (fun _ => 0)) 340 (new_chip 51) 0x4001E504
      0x4001E400 ⟨0, [], []⟩ rfl (by decide) rfl (by decide)).2.1.2.2.2 rfl
    (fun _ => ⟨rfl, Nat.zero_ne_one⟩)).2 (fun s => s)
    ⟨fun _ => rfl, fun s => by show s + 1 ≤ s + 1; exact Int.le_refl _,
      fun s _ => by show s ≤ s; exact Int.le_refl _⟩
    (Nat.le_refl _)

end ModeTransitions

section FifoSizingProofs

variable {σ : Type}

/-- One request of the FIFO loop that is refused, `next` being the size halved
and aligned. -/
theorem nrfx_ll_flash_write_alloc_refused (E : Env σ) (wa : working_area) (n size next : Nat)
    (w : World σ) (hnext : (size / 2) &&& 0xFFFFFFFC = next)
    (h : (target_alloc_working_area E size w).1 ≠ ERROR_OK) :
    nrfx_ll_flash_write_alloc E wa (n + 1) size w =
      if next ≤ 256 then
        some (Sum.inl ERROR_TARGET_RESOURCE_NOT_AVAILABLE, next,
          LOG LogMsg.no_large_working_area
            (target_free_working_area E wa (target_alloc_working_area E size w).2.2))
      else nrfx_ll_flash_write_alloc E wa n next (target_alloc_working_area E size w).2.2 := by
  rw [nrfx_ll_flash_write_alloc]
  simp only [h, ne_eq, not_false_eq_true, if_true, hnext]

/-- One request of the FIFO loop that is granted. -/
theorem nrfx_ll_flash_write_alloc_granted (E : Env σ) (wa : working_area) (n size : Nat)
    (w : World σ) (h : ¬ (target_alloc_working_area E size w).1 ≠ ERROR_OK) :
    nrfx_ll_flash_write_alloc E wa (n + 1) size w =
      some (Sum.inr (target_alloc_working_area E size w).2.1, size,
        (target_alloc_working_area E size w).2.2) := by
  rw [nrfx_ll_flash_write_alloc]
  simp only [h, if_false]

/-- The FIFO loop with fuel for five requests: it requests a prefix of
`fifo_sizes` and either is granted the last size requested or, after five
refusals, frees the loader area and gives up. -/
theorem nrfx_ll_flash_write_alloc_sizes (E : Env σ) (wa : working_area) (fuel : Nat)
    (w : World σ) (hf : 5 ≤ fuel) :
    ∃ (k : Nat) (r : Ret ⊕ working_area) (sz : Nat) (w' : World σ), 1 ≤ k ∧ k ≤ 5 ∧
      nrfx_ll_flash_write_alloc E wa fuel 8192 w = some (r, sz, w') ∧
      ((∃ area, r = Sum.inr area ∧
          w'.txns = w.txns ++ (fifo_sizes.take k).map Txn.alloc_working_area) ∨
        (k = 5 ∧ r = Sum.inl ERROR_TARGET_RESOURCE_NOT_AVAILABLE ∧
          w'.txns = w.txns ++ fifo_sizes.map Txn.alloc_working_area
            ++ [Txn.free_working_area wa])) := by
  obtain ⟨n, rfl⟩ : ∃ n, fuel = n + 5 := ⟨fuel - 5, by omega⟩
  by_cases h1 : (target_alloc_working_area E 8192 w).1 ≠ ERROR_OK
  swap
  · exact ⟨1, _, _, _, by decide, by decide,
      nrfx_ll_flash_write_alloc_granted E wa (n + 4) 8192 w h1,
      Or.inl ⟨_, rfl, rfl⟩⟩
  have e1 := nrfx_ll_flash_write_alloc_refused E wa (n + 4) 8192 4096 w (by decide) h1
  rw [if_neg (by decide)] at e1
  by_cases h2 : (target_alloc_working_area E 4096 (target_alloc_working_area E 8192 w).2.2).1
      ≠ ERROR_OK
  swap
  · refine ⟨2, _, _, _, by decide, by decide,
      e1.trans (nrfx_ll_flash_write_alloc_granted E wa (n + 3) 4096 _ h2),
      Or.inl ⟨_, rfl, ?_⟩⟩
    simp [target_alloc_working_area, fifo_sizes]
  have e2 := nrfx_ll_flash_write_alloc_refused E wa (n + 3) 4096 2048 _ (by decide) h2
  rw [if_neg (by decide)] at e2
  by_cases h3 : (target_alloc_working_area E 2048
      (target_alloc_working_area E 4096 (target_alloc_working_area E 8192 w).2.2).2.2).1
      ≠ ERROR_OK
  swap
  · refine ⟨3, _, _, _, by decide, by decide,
      e1.trans (e2.trans (nrfx_ll_flash_write_alloc_granted E wa (n + 2) 2048 _ h3)),
      Or.inl ⟨_, rfl, ?_⟩⟩
    simp [target_alloc_working_area, fifo_sizes]
  have e3 := nrfx_ll_flash_write_alloc_refused E wa (n + 2) 2048 1024 _ (by decide) h3
  rw [if_neg (by decide)] at e3
  by_cases h4 : (target_alloc_working_area E 1024
      (target_alloc_working_area E 2048
        (target_alloc_working_area E 4096
          (target_alloc_working_area E 8192 w).2.2).2.2).2.2).1 ≠ ERROR_OK
  swap
  · refine ⟨4, _, _, _, by decide, by decide,
      e1.trans (e2.trans (e3.trans
        (nrfx_ll_flash_write_alloc_granted E wa (n + 1) 1024 _ h4))),
      Or.inl ⟨_, rfl, ?_⟩⟩
    simp [target_alloc_working_area, fifo_sizes]
  have e4 := nrfx_ll_flash_write_alloc_refused E wa (n + 1) 1024 512 _ (by decide) h4
  rw [if_neg (by decide)] at e4
  by_cases h5 : (target_alloc_working_area E 512
      (target_alloc_working_area E 1024
        (target_alloc_working_area E 2048
          (target_alloc_working_area E 4096
            (target_alloc_working_area E 8192 w).2.2).2.2).2.2).2.2).1 ≠ ERROR_OK
  swap
  · refine ⟨5, _, _, _, by decide, by decide,
      e1.trans (e2.trans (e3.trans (e4.trans
        (nrfx_ll_flash_write_alloc_granted E wa n 512 _ h5)))),
      Or.inl ⟨_, rfl, ?_⟩⟩
    simp [target_alloc_working_area, fifo_sizes]
  have e5 := nrfx_ll_flash_write_alloc_refused E wa n 512 256 _ (by decide) h5
  rw [if_pos (by decide)] at e5
  refine ⟨5, _, _, _, by decide, by decide,
    e1.trans (e2.trans (e3.trans (e4.trans e5))), Or.inr ⟨rfl, rfl, ?_⟩⟩
  simp [target_alloc_working_area, target_free_working_area, LOG, fifo_sizes]

/-- The FIFO loop when no request above 256 bytes is granted: five requests,
then the loader area is freed. -/
theorem nrfx_ll_flash_write_alloc_exhausted (E : Env σ) (wa : working_area) (fuel : Nat)
    (w : World σ) (hf : 5 ≤ fuel)
    (hfifo : ∀ s size, 256 < size → (E.alloc_working_area s size).1 ≠ ERROR_OK) :
    ∃ w', nrfx_ll_flash_write_alloc E wa fuel 8192 w
        = some (Sum.inl ERROR_TARGET_RESOURCE_NOT_AVAILABLE, 256, w') ∧
      w'.txns = w.txns ++ fifo_sizes.map Txn.alloc_working_area
        ++ [Txn.free_working_area wa] := by
  obtain ⟨n, rfl⟩ : ∃ n, fuel = n + 5 := ⟨fuel - 5, by omega⟩
  have hall : ∀ (size : Nat) (v : World σ), 256 < size →
      (target_alloc_working_area E size v).1 ≠ ERROR_OK :=
    fun size v hs => hfifo v.st size hs
  have e1 := nrfx_ll_flash_write_alloc_refused E wa (n + 4) 8192 4096 w (by decide)
    (hall _ _ (by decide))
  rw [if_neg (by decide)] at e1
  have e2 := nrfx_ll_flash_write_alloc_refused E wa (n + 3) 4096 2048
    (target_alloc_working_area E 8192 w).2.2 (by decide) (hall _ _ (by decide))
  rw [if_neg (by decide)] at e2
  have e3 := nrfx_ll_flash_write_alloc_refused E wa (n + 2) 2048 1024
    (target_alloc_working_area E 4096 (target_alloc_working_area E 8192 w).2.2).2.2
    (by decide) (hall _ _ (by decide))
  rw [if_neg (by decide)] at e3
  have e4 := nrfx_ll_flash_write_alloc_refused E wa (n + 1) 1024 512
    (target_alloc_working_area E 2048
      (target_alloc_working_area E 4096 (target_alloc_working_area E 8192 w).2.2).2.2).2.2
    (by decide) (hall _ _ (by decide))
  rw [if_neg (by decide)] at e4
  have e5 := nrfx_ll_flash_write_alloc_refused E wa n 512 256
    (target_alloc_working_area E 1024
      (target_alloc_working_area E 2048
        (target_alloc_working_area E 4096
          (target_alloc_working_area E 8192 w).2.2).2.2).2.2).2.2
    (by decide) (hall _ _ (by decide))
  rw [if_pos (by decide)] at e5
  refine ⟨_, e1.trans (e2.trans (e3.trans (e4.trans e5))), ?_⟩
  simp [target_alloc_working_area, target_free_working_area, LOG, fifo_sizes]

end FifoSizingProofs

section FifoSizing

variable {σ : Type}

/-- C24. FIFO sizing in the fast path of `nrfx_ll_flash_write`, the loop having
fuel for five requests.
* The sizes of `fifo_sizes` are 8192, 4096, 2048, 1024, 512: each the previous
  one halved, each a multiple of 4, none below 256.
* For every environment and every world, the loop ends after `k` requests,
  `1 ≤ k ≤ 5`, for the first `k` sizes of `fifo_sizes` in order: with the area
  of the last request, or, after five requests, with
  `ERROR_TARGET_RESOURCE_NOT_AVAILABLE` and the loader area freed.
* When the loader area is granted, the upload succeeds and no request above
  256 bytes is granted, `nrfx_ll_flash_write` returns
  `ERROR_TARGET_RESOURCE_NOT_AVAILABLE`; its transactions are the request for
  the loader area, the upload, the five requests for the FIFO and the release
  of the loader area: nothing is run on the target. -/
theorem nrfx_ll_flash_write_fifo_sizing (E : Env σ) (fuel : Nat) (chip : nrfx_info)
    (offset : Nat) (buffer : List Nat) (bytes : Nat) (w : World σ) (hf : 5 ≤ fuel) :
    fifo_sizes = [8192, 4096, 2048, 1024, 512] ∧
    (∀ i, i < 4 → fifo_sizes.getD (i + 1) 0 = fifo_sizes.getD i 0 / 2) ∧
    (∀ x ∈ fifo_sizes, x % 4 = 0 ∧ 256 ≤ x) ∧
    (∀ (wa : working_area) (v : World σ),
      ∃ (k : Nat) (r : Ret ⊕ working_area) (sz : Nat) (v' : World σ), 1 ≤ k ∧ k ≤ 5 ∧
        nrfx_ll_flash_write_alloc E wa fuel 8192 v = some (r, sz, v') ∧
        ((∃ area, r = Sum.inr area ∧
            v'.txns = v.txns ++ (fifo_sizes.take k).map Txn.alloc_working_area) ∨
          (k = 5 ∧ r = Sum.inl ERROR_TARGET_RESOURCE_NOT_AVAILABLE ∧
            v'.txns = v.txns ++ fifo_sizes.map Txn.alloc_working_area
              ++ [Txn.free_working_area wa]))) ∧
    (bytes % 4 = 0 →
      (E.alloc_working_area w.st nrfx_flash_write_code.length).1 = ERROR_OK →
      (E.write_buffer (E.alloc_working_area w.st nrfx_flash_write_code.length).2.2
        (E.alloc_working_area w.st nrfx_flash_write_code.length).2.1.address
        nrfx_flash_write_code.length nrfx_flash_write_code).1 = ERROR_OK →
      (∀ s size, 256 < size → (E.alloc_working_area s size).1 ≠ ERROR_OK) →
      ∃ w', nrfx_ll_flash_write E fuel chip offset buffer bytes w
          = some (ERROR_TARGET_RESOURCE_NOT_AVAILABLE, w') ∧
        w'.txns = w.txns
          ++ [Txn.alloc_working_area nrfx_flash_write_code.length,
              Txn.write_buffer
                (E.alloc_working_area w.st nrfx_flash_write_code.length).2.1.address
                nrfx_flash_write_code.length nrfx_flash_write_code]
          ++ fifo_sizes.map Txn.alloc_working_area
          ++ [Txn.free_working_area
                (E.alloc_working_area w.st nrfx_flash_write_code.length).2.1]) := by
  refine ⟨rfl, by decide, by decide, ?_, ?_⟩
  · intro wa v
    exact nrfx_ll_flash_write_alloc_sizes E wa fuel v hf
  · intro h4 ha hu hfifo
    have h4' : ¬ bytes % 4 ≠ 0 := by omega
    have ha' : ¬ (target_alloc_working_area E nrfx_flash_write_code.length
        (LOG (LogMsg.writing_buffer offset bytes) w)).1 ≠ ERROR_OK := by
      intro hc; exact hc ha
    have hu' : ¬ (target_write_buffer E
        (target_alloc_working_area E nrfx_flash_write_code.length
          (LOG (LogMsg.writing_buffer offset bytes) w)).2.1.address
        nrfx_flash_write_code.length nrfx_flash_write_code
        (LOG LogMsg.using_fast_loader
          (target_alloc_working_area E nrfx_flash_write_code.length
            (LOG (LogMsg.writing_buffer offset bytes) w)).2.2)).1 ≠ ERROR_OK := by
      intro hc
      apply hc
      have : nrfx_flash_write_code.take nrfx_flash_write_code.length = nrfx_flash_write_code :=
        List.take_length _
      simp only [target_write_buffer, this]
      exact hu
    obtain ⟨w2, hw2, htx⟩ := nrfx_ll_flash_write_alloc_exhausted E
      (target_alloc_working_area E nrfx_flash_write_code.length
        (LOG (LogMsg.writing_buffer offset bytes) w)).2.1 fuel
      (target_write_buffer E
        (target_alloc_working_area E nrfx_flash_write_code.length
          (LOG (LogMsg.writing_buffer offset bytes) w)).2.1.address
        nrfx_flash_write_code.length nrfx_flash_write_code
        (LOG LogMsg.using_fast_loader
          (target_alloc_working_area E nrfx_flash_write_code.length
            (LOG (LogMsg.writing_buffer offset bytes) w)).2.2)).2 hf hfifo
    refine ⟨w2, ?_, ?_⟩
    · rw [nrfx_ll_flash_write]
      simp only [if_neg h4', if_neg ha', if_neg hu', hw2]
    · rw [htx]
      have : nrfx_flash_write_code.take nrfx_flash_write_code.length = nrfx_flash_write_code :=
        List.take_length _
      simp only [target_write_buffer, target_alloc_working_area, LOG, this,
        List.append_assoc, List.singleton_append, List.cons_append, List.nil_append]

theorem nrfx_ll_flash_write_fifo_sizing_witness :
    ∃ w', nrfx_ll_flash_write (noFifoEnv regs_ready) 5 (new_chip 51) 0 [1, 2, 3, 4] 4 regWorld
        = some (ERROR_TARGET_RESOURCE_NOT_AVAILABLE, w') ∧
      w'.txns = [Txn.alloc_working_area 32,
          Txn.write_buffer 0x20000000 32 nrfx_flash_write_code,
          Txn.alloc_working_area 8192, Txn.alloc_working_area 4096,
          Txn.alloc_working_area 2048, Txn.alloc_working_area 1024,
          Txn.alloc_working_area 512, Txn.free_working_area ⟨0x20000000, 32⟩] :=
  (nrfx_ll_flash_write_fifo_sizing (noFifoEnv regs_ready) 5 (new_chip 51) 0 [1, 2, 3, 4] 4
    regWorld (Nat.le_refl _)).2.2.2.2 rfl rfl rfl
    (fun _ size h => by
      have hn : ¬ size ≤ 256 := by omega
      simp [noFifoEnv, hn])

end FifoSizing

section FallbackProofs

variable {σ : Type}

theorem u32_add_u32 (a b : Nat) : u32 (u32 a + b) = u32 (a + b) := by
  simp [u32, Nat.add_mod]

theorem word_writes_succ (offset : Nat) (buffer : List Nat) (k : Nat) (ho : offset < 2 ^ 32) :
    word_writes offset buffer (k + 1)
      = Txn.write_memory offset 4 1 (buffer.take 4)
          :: word_writes (u32 (offset + 4)) (buffer.drop 4) k := by
  unfold word_writes
  rw [List.range_succ_eq_map, List.map_cons, List.map_map]
  congr 1
  · simp [u32_of_lt ho]
  · apply List.map_congr_left
    intro i _
    simp only [Function.comp, u32_add_u32, List.drop_drop]
    have e1 : offset + 4 * (i + 1) = offset + 4 + 4 * i := by omega
    have e2 : 4 * (i + 1) = 4 + 4 * i := by omega
    rw [e1, e2]

/-- The fallback loop: the transactions of a run are the word writes of its
first `k` iterations, in order, and reads of READY. -/
theorem nrfx_ll_flash_write_slow_words (E : Env σ) (fuel : Nat) (chip : nrfx_info) (r : Nat)
    (hr : chip.nvmc_registers[NRFX_NVMC_READY &&& REG_INDEX_MASK]? = some r)
    (hrne : r ≠ NRFX_UNIMPLEMENTED) :
    ∀ (n offset : Nat) (buffer : List Nat) (bytes : Nat) (w : World σ) (res : Ret)
      (w' : World σ), offset < 2 ^ 32 → bytes % 4 = 0 → bytes < 2 ^ 32 →
      nrfx_ll_flash_write_slow E fuel chip n offset buffer bytes w = some (res, w') →
      ∃ (k : Nat) (extra : List Txn), k ≤ bytes / 4 ∧ w'.txns = w.txns ++ extra ∧
        extra.filter (fun t => !t.is_read_u32) = word_writes offset buffer k ∧
        (∀ t ∈ extra, t.is_read_u32 = true → t = Txn.read_u32 r) ∧
        (res = ERROR_OK → k = bytes / 4) := by
  intro n
  induction n with
  | zero =>
    intro offset buffer bytes w res w' _ h4 _ h
    unfold nrfx_ll_flash_write_slow at h
    split at h
    · simp at h
    · rename_i hz
      simp only [Option.some.injEq, Prod.mk.injEq] at h
      have hb : bytes = 0 := by omega
      subst hb
      refine ⟨0, [], by simp, by rw [← h.2]; simp, rfl, by simp, fun _ => rfl⟩
  | succ m ih =>
    intro offset buffer bytes w res w' ho h4 hlt h
    unfold nrfx_ll_flash_write_slow at h
    split at h
    · rename_i hpos
      have hk1 : 1 ≤ bytes / 4 := by omega
      have htx : (target_write_memory E offset 4 1 buffer w).2.txns
          = w.txns ++ [Txn.write_memory offset 4 1 (buffer.take 4)] := rfl
      have hone : ([Txn.write_memory offset 4 1 (buffer.take 4)] : List Txn).filter
          (fun t => !t.is_read_u32) = word_writes offset buffer 1 := by
        rw [word_writes_succ offset buffer 0 ho]
        rfl
      simp only at h
      split at h
      · simp only [Option.some.injEq, Prod.mk.injEq] at h
        refine ⟨1, [Txn.write_memory offset 4 1 (buffer.take 4)], hk1, ?_, hone, ?_, ?_⟩
        · rw [← h.2]; exact htx
        · intro t ht hrd
          rw [List.mem_singleton] at ht
          rw [ht] at hrd
          exact absurd hrd (by simp [Txn.is_read_u32])
        · rename_i hne
          intro hok
          rw [← h.1] at hok
          exact absurd hok hne
      · cases hq : nrfx_wait_for_nvmc E fuel chip (target_write_memory E offset 4 1 buffer w).2
          with
        | none => simp [hq] at h
        | some q =>
          obtain ⟨res2, w2⟩ := q
          obtain ⟨j, _, hj⟩ := nrfx_wait_for_nvmc_polls E fuel chip r hr hrne _ res2 w2 hq
          rw [htx, List.append_assoc] at hj
          have hfj : (List.replicate j (Txn.read_u32 r)).filter (fun t => !t.is_read_u32)
              = [] := by
            rw [List.filter_eq_nil_iff]
            intro t ht
            rw [List.eq_of_mem_replicate ht]
            simp [Txn.is_read_u32]
          simp only [hq] at h
          split at h
          · rename_i hne
            simp only [Option.some.injEq, Prod.mk.injEq] at h
            refine ⟨1, [Txn.write_memory offset 4 1 (buffer.take 4)]
              ++ List.replicate j (Txn.read_u32 r), hk1, ?_, ?_, ?_, ?_⟩
            · rw [← h.2]; exact hj
            · rw [List.filter_append, hfj, List.append_nil]; exact hone
            · intro t ht hrd
              rcases List.mem_append.mp ht with ht | ht
              · rw [List.mem_singleton] at ht
                rw [ht] at hrd
                exact absurd hrd (by simp [Txn.is_read_u32])
              · exact List.eq_of_mem_replicate ht
            · intro hok
              rw [← h.1] at hok
              exact absurd hok hne
          · have hsub : sub32 bytes 4 = bytes - 4 := sub32_of_le hlt (by omega)
            rw [hsub] at h
            obtain ⟨k, extra, hk, hex, hfil, hrds, hokk⟩ :=
              ih (u32 (offset + 4)) (buffer.drop 4) (bytes - 4) w2 res w'
                (Nat.mod_lt _ (by decide)) (by omega) (by omega) h
            refine ⟨k + 1, [Txn.write_memory offset 4 1 (buffer.take 4)]
              ++ List.replicate j (Txn.read_u32 r) ++ extra, by omega, ?_, ?_, ?_, ?_⟩
            · rw [hex, hj, List.append_assoc, List.append_assoc]
            · rw [List.filter_append, List.filter_append, hfj, List.append_nil, hfil,
                word_writes_succ offset buffer k ho]
              rfl
            · intro t ht hrd
              rcases List.mem_append.mp ht with ht | ht
              · rcases List.mem_append.mp ht with ht | ht
                · rw [List.mem_singleton] at ht
                  rw [ht] at hrd
                  exact absurd hrd (by simp [Txn.is_read_u32])
                · exact List.eq_of_mem_replicate ht
              · exact hrds t ht hrd
            · intro hok
              have := hokk hok
              omega
    · rename_i hz
      simp only [Option.some.injEq, Prod.mk.injEq] at h
      have hb : bytes = 0 := by omega
      subst hb
      refine ⟨0, [], by simp, by rw [← h.2]; simp, rfl, by simp, fun _ => rfl⟩

/-- The fallback loop needs `bytes / 4` iterations at most: with that many it
has a result whenever the ready waits have one. -/
theorem nrfx_ll_flash_write_slow_terminates (E : Env σ) (fuel : Nat) (chip : nrfx_info)
    (hwait : ∀ v, (nrfx_wait_for_nvmc E fuel chip v).isSome = true) :
    ∀ (n offset : Nat) (buffer : List Nat) (bytes : Nat) (w : World σ),
      bytes % 4 = 0 → bytes < 2 ^ 32 → bytes / 4 ≤ n →
      (nrfx_ll_flash_write_slow E fuel chip n offset buffer bytes w).isSome = true := by
  intro n
  induction n with
  | zero =>
    intro offset buffer bytes w h4 _ hn
    have hb : ¬ bytes > 0 := by omega
    simp [nrfx_ll_flash_write_slow, hb]
  | succ m ih =>
    intro offset buffer bytes w h4 hlt hn
    unfold nrfx_ll_flash_write_slow
    split
    · simp only
      split
      · rfl
      · have hw := hwait (target_write_memory E offset 4 1 buffer w).2
        cases hq : nrfx_wait_for_nvmc E fuel chip (target_write_memory E offset 4 1 buffer w).2
          with
        | none => rw [hq] at hw; simp at hw
        | some q =>
          obtain ⟨res2, w2⟩ := q
          simp only
          split
          · rfl
          · have hsub : sub32 bytes 4 = bytes - 4 := sub32_of_le hlt (by omega)
            rw [hsub]
            exact ih _ _ _ _ (by omega) (by omega) (by omega)
    · rfl

end FallbackProofs

section Fallback

variable {σ : Type}

/-- C25. The fallback path of `nrfx_ll_flash_write`, for a byte count that is a
multiple of 4, a 32-bit offset and a chip whose READY register is implemented
at `r`; `n` is the number of iterations the loop may take.
* When the request for the loader area fails, `nrfx_ll_flash_write` is the
  fallback loop.
* One iteration (`bytes > 0`) hands the 4 bytes at the head of the buffer to
  the address `offset` and then waits for the controller: a failing write
  ends the loop with its error, a failing wait ends it with its error, and
  otherwise the loop goes on 4 bytes further with 4 bytes less.  With no bytes
  left the loop returns `ERROR_OK`.
* Whatever a run returns, its transactions other than the reads of READY are
  the word writes of its first `k` iterations, `k ≤ bytes / 4`, in order:
  iteration `i` writes `buffer[4i .. 4i+4)` at `offset + 4i`.  When it returns
  `ERROR_OK`, `k = bytes / 4`.
* With `bytes / 4` iterations allowed the loop has a result whenever the waits
  have one. -/
theorem nrfx_ll_flash_write_fallback (E : Env σ) (fuel : Nat) (chip : nrfx_info) (r n : Nat)
    (offset : Nat) (buffer : List Nat) (bytes : Nat) (w : World σ)
    (hr : chip.nvmc_registers[NRFX_NVMC_READY &&& REG_INDEX_MASK]? = some r)
    (hrne : r ≠ NRFX_UNIMPLEMENTED) (ho : offset < 2 ^ 32) (h4 : bytes % 4 = 0)
    (hlt : bytes < 2 ^ 32) :
    ((E.alloc_working_area w.st nrfx_flash_write_code.length).1 ≠ ERROR_OK →
      nrfx_ll_flash_write E fuel chip offset buffer bytes w
        = nrfx_ll_flash_write_slow E fuel chip fuel offset buffer bytes
            (LOG LogMsg.no_working_area
              (target_alloc_working_area E nrfx_flash_write_code.length
                (LOG (LogMsg.writing_buffer offset bytes) w)).2.2)) ∧
    (0 < bytes →
      ((E.write_memory w.st offset 4 1 (buffer.take 4)).1 ≠ ERROR_OK →
        nrfx_ll_flash_write_slow E fuel chip (n + 1) offset buffer bytes w
          = some ((E.write_memory w.st offset 4 1 (buffer.take 4)).1,
              (target_write_memory E offset 4 1 buffer w).2)) ∧
      ((E.write_memory w.st offset 4 1 (buffer.take 4)).1 = ERROR_OK →
        ∀ (e : Ret) (w2 : World σ),
          nrfx_wait_for_nvmc E fuel chip (target_write_memory E offset 4 1 buffer w).2
            = some (e, w2) →
          nrfx_ll_flash_write_slow E fuel chip (n + 1) offset buffer bytes w
            = if e ≠ ERROR_OK then some (e, w2)
              else nrfx_ll_flash_write_slow E fuel chip n (u32 (offset + 4)) (buffer.drop 4)
                (bytes - 4) w2)) ∧
    (bytes = 0 →
      nrfx_ll_flash_write_slow E fuel chip n offset buffer bytes w = some (ERROR_OK, w)) ∧
    (∀ (res : Ret) (w' : World σ),
      nrfx_ll_flash_write_slow E fuel chip n offset buffer bytes w = some (res, w') →
      ∃ (k : Nat) (extra : List Txn), k ≤ bytes / 4 ∧ w'.txns = w.txns ++ extra ∧
        extra.filter (fun t => !t.is_read_u32) = word_writes offset buffer k ∧
        (∀ t ∈ extra, t.is_read_u32 = true → t = Txn.read_u32 r) ∧
        (res = ERROR_OK → k = bytes / 4)) ∧
    ((∀ v, (nrfx_wait_for_nvmc E fuel chip v).isSome = true) → bytes / 4 ≤ n →
      (nrfx_ll_flash_write_slow E fuel chip n offset buffer bytes w).isSome = true) := by
  refine ⟨?_, ?_, ?_, ?_, ?_⟩
  · intro ha
    have h4' : ¬ bytes % 4 ≠ 0 := by omega
    have ha' : (target_alloc_working_area E nrfx_flash_write_code.length
        (LOG (LogMsg.writing_buffer offset bytes) w)).1 ≠ ERROR_OK := ha
    rw [nrfx_ll_flash_write]
    simp only [if_neg h4', if_pos ha']
  · intro hpos
    have hw1 : (target_write_memory E offset 4 1 buffer w).1
        = (E.write_memory w.st offset 4 1 (buffer.take 4)).1 := rfl
    constructor
    · intro hne
      rw [nrfx_ll_flash_write_slow]
      simp only [gt_iff_lt, hpos, if_true, hw1, ne_eq, hne, not_false_eq_true]
    · intro hok e w2 hq
      have hsub : sub32 bytes 4 = bytes - 4 := sub32_of_le hlt (by omega)
      rw [nrfx_ll_flash_write_slow]
      simp only [gt_iff_lt, hpos, if_true, hw1, hok, ne_eq, not_true_eq_false, if_false, hq,
        hsub]
  · intro hz
    subst hz
    cases n <;> simp [nrfx_ll_flash_write_slow]
  · intro res w' h
    exact nrfx_ll_flash_write_slow_words E fuel chip r hr hrne n offset buffer bytes w res w'
      ho h4 hlt h
  · intro hwait hn
    exact nrfx_ll_flash_write_slow_terminates E fuel chip hwait n offset buffer bytes w h4 hlt hn

theorem nrfx_ll_flash_write_fallback_witness :
    ∃ (extra : List Txn) (w' : World Unit),
      nrfx_ll_flash_write_slow (regEnv regs_ready) 1 (new_chip 51) 2 0 [1, 2, 3, 4, 5, 6, 7, 8] 8
          regWorld = some (ERROR_OK, w') ∧
        w'.txns = extra ∧
        extra.filter (fun t => !t.is_read_u32)
          = [Txn.write_memory 0 4 1 [1, 2, 3, 4], Txn.write_memory 4 4 1 [5, 6, 7, 8]] := by
  have hrun : nrfx_ll_flash_write_slow (regEnv regs_ready) 1 (new_chip 51) 2 0
      [1, 2, 3, 4, 5, 6, 7, 8] 8 regWorld
      = some (ERROR_OK,
          ⟨(), [Txn.write_memory 0 4 1 [1, 2, 3, 4], Txn.read_u32 0x4001E400,
                Txn.write_memory 4 4 1 [5, 6, 7, 8], Txn.read_u32 0x4001E400], []⟩) := rfl
  obtain ⟨k, extra, _, hex, hfil, _, hk⟩ :=
    (nrfx_ll_flash_write_fallback (regEnv regs_ready) 1 (new_chip 51) 0x4001E400 2 0
      [1, 2, 3, 4, 5, 6, 7, 8] 8 regWorld rfl (by decide) (by decide) (by decide)
      (by decide)).2.2.2.1 _ _ hrun
  have hk2 : k = 2 := hk rfl
  subst hk2
  refine ⟨extra, _, hrun, ?_, ?_⟩
  · simpa [regWorld] using hex
  · rw [hfil]
    decide

end Fallback

section EraseRangeProofs

variable {σ : Type}

/-- The loop of `nrfx_erase` does nothing more once a page erase has failed. -/
theorem nrfx_erase_loop_failed (E : Env σ) (C : FlashCore σ) (fuel : Nat) (chip : nrfx_info)
    (last : Int) (n : Nat) (s : Int) (res : Ret) (bank : flash_bank) (w : World σ)
    (hne : res ≠ ERROR_OK) :
    nrfx_erase_loop E C fuel chip last n s res bank w = some (res, bank, w) := by
  cases n <;> simp [nrfx_erase_loop, hne]

/-- The loop of `nrfx_erase` over the sectors `s, ..., last` is the erase of
these sectors in order. -/
theorem nrfx_erase_loop_eq (E : Env σ) (C : FlashCore σ) (fuel : Nat) (chip : nrfx_info)
    (last : Int) (hlast : last < 2147483647) :
    ∀ (n : Nat) (s : Int) (bank : flash_bank) (w : World σ), 0 ≤ s →
      (last - s + 1).toNat = n →
      nrfx_erase_loop E C fuel chip last n s ERROR_OK bank w
        = erase_pages_in_order E C fuel chip ((List.range n).map fun i => s.toNat + i)
            bank w := by
  intro n
  induction n with
  | zero =>
    intro s bank w _ hn
    have hgt : ¬ s ≤ last := by omega
    simp [nrfx_erase_loop, hgt, erase_pages_in_order]
  | succ m ih =>
    intro s bank w hs hn
    have hle : s ≤ last := by omega
    have hneg : ¬ s < 0 := by omega
    have hmax : ¬ s = 2147483647 := by omega
    rw [List.range_succ_eq_map, List.map_cons, List.map_map]
    simp only [nrfx_erase_loop, hle, true_and, if_true, hneg, if_false, Nat.add_zero,
      erase_pages_in_order, hmax]
    cases hq : nrfx_erase_page E C fuel bank chip s.toNat w with
    | none => rfl
    | some q =>
      obtain ⟨res, bank1, w1⟩ := q
      simp only
      by_cases hres : res ≠ ERROR_OK
      · rw [if_pos hres]
        exact nrfx_erase_loop_failed E C fuel chip last m (s + 1) res bank1 w1 hres
      · rw [if_neg hres]
        have hok : res = ERROR_OK := by
          by_contra hc
          exact hres hc
        subst hok
        rw [ih (s + 1) bank1 w1 (by omega) (by omega)]
        congr 1
        apply List.map_congr_left
        intro i _
        simp only [Function.comp]
        omega

theorem erase_pages_in_order_ok_iff (E : Env σ) (C : FlashCore σ) (fuel : Nat)
    (chip : nrfx_info) :
    ∀ (l : List Nat) (bank : flash_bank) (w : World σ),
      (erase_pages_in_order E C fuel chip l bank w).map Prod.fst = some ERROR_OK
        ↔ all_pages_erased E C fuel chip l bank w := by
  intro l
  induction l with
  | nil => intro bank w; simp [erase_pages_in_order, all_pages_erased]
  | cons s rest ih =>
    intro bank w
    simp only [erase_pages_in_order, all_pages_erased]
    cases hq : nrfx_erase_page E C fuel bank chip s w with
    | none => simp
    | some q =>
      obtain ⟨res, bank1, w1⟩ := q
      simp only
      by_cases hres : res ≠ ERROR_OK
      · rw [if_pos hres]
        simp only [Option.map_some', Option.some.injEq, Prod.mk.injEq]
        constructor
        · intro h; exact absurd h hres
        · rintro ⟨b, v, ⟨h1, _, _⟩, _⟩; exact absurd h1 hres
      · rw [if_neg hres]
        have hok : res = ERROR_OK := by
          by_contra hc
          exact hres hc
        subst hok
        rw [ih bank1 w1]
        simp only [Option.some.injEq, Prod.mk.injEq, true_and]
        constructor
        · intro h; exact ⟨bank1, w1, ⟨rfl, rfl⟩, h⟩
        · rintro ⟨b, v, ⟨rfl, rfl⟩, h⟩; exact h

theorem erase_pages_in_order_append (E : Env σ) (C : FlashCore σ) (fuel : Nat)
    (chip : nrfx_info) (post : List Nat) :
    ∀ (pre : List Nat) (bank : flash_bank) (w : World σ) (bank0 : flash_bank) (w0 : World σ),
      erase_pages_in_order E C fuel chip pre bank w = some (ERROR_OK, bank0, w0) →
      erase_pages_in_order E C fuel chip (pre ++ post) bank w
        = erase_pages_in_order E C fuel chip post bank0 w0 := by
  intro pre
  induction pre with
  | nil =>
    intro bank w bank0 w0 h
    simp only [erase_pages_in_order, Option.some.injEq, Prod.mk.injEq, true_and] at h
    rw [List.nil_append, h.1, h.2]
  | cons s rest ih =>
    intro bank w bank0 w0 h
    rw [List.cons_append]
    simp only [erase_pages_in_order] at h ⊢
    cases hq : nrfx_erase_page E C fuel bank chip s w with
    | none => simp [hq] at h
    | some q =>
      obtain ⟨res, bank1, w1⟩ := q
      simp only [hq] at h ⊢
      by_cases hres : res ≠ ERROR_OK
      · rw [if_pos hres] at h
        simp only [Option.some.injEq, Prod.mk.injEq] at h
        exact absurd h.1 hres
      · rw [if_neg hres] at h ⊢
        exact ih bank1 w1 bank0 w0 h

end EraseRangeProofs

section EraseRange

variable {σ : Type}

/-- C26. `nrfx_erase (first, last)` on a halted target and a probed bank, for
`0 ≤ first` and `last < INT_MAX`.
* It is the page erase attempted on the sectors `first, first + 1, ..., last`
  in ascending order, ended by the first page erase that does not return
  `ERROR_OK` (`erase_pages_in_order`).
* It returns `ERROR_OK` if and only if the page erase of every sector of the
  range returned `ERROR_OK`.
* When the page erases of the sectors before `s` returned `ERROR_OK` and the
  one of `s` returns another code, `nrfx_erase` returns that code with the bank
  and the world the failing page erase has left: no later sector is attempted. -/
theorem nrfx_erase_in_order (E : Env σ) (C : FlashCore σ) (fuel : Nat) (bank : flash_bank)
    (chip : nrfx_info) (first last : Int) (w : World σ)
    (hh : C.target_halted w.st = true) (hp : nrfx_bank_is_probed bank chip = some true)
    (hf : 0 ≤ first) (hl : last < 2147483647) :
    nrfx_erase E C fuel bank chip first last w
      = (erase_pages_in_order E C fuel chip (sector_range first last) bank w).map
          (fun r => (r.1, r.2.1, chip, r.2.2)) ∧
    ((nrfx_erase E C fuel bank chip first last w).map Prod.fst = some ERROR_OK
      ↔ all_pages_erased E C fuel chip (sector_range first last) bank w) ∧
    (∀ (pre post : List Nat) (s : Nat) (bank0 bank1 : flash_bank) (w0 w1 : World σ)
      (res : Ret), sector_range first last = pre ++ s :: post →
      erase_pages_in_order E C fuel chip pre bank w = some (ERROR_OK, bank0, w0) →
      nrfx_erase_page E C fuel bank0 chip s w0 = some (res, bank1, w1) → res ≠ ERROR_OK →
      nrfx_erase E C fuel bank chip first last w = some (res, bank1, chip, w1)) := by
  have hg : nrfx_get_probed_chip_if_halted E C bank chip w = some (ERROR_OK, bank, chip, w) := by
    simp [nrfx_get_probed_chip_if_halted, hh, hp]
  have heq : nrfx_erase E C fuel bank chip first last w
      = (erase_pages_in_order E C fuel chip (sector_range first last) bank w).map
          (fun r => (r.1, r.2.1, chip, r.2.2)) := by
    simp only [nrfx_erase, hg, ne_eq, not_true_eq_false, if_false, sector_range]
    rw [nrfx_erase_loop_eq E C fuel chip last hl _ first bank w hf rfl]
  refine ⟨heq, ?_, ?_⟩
  · rw [heq, ← erase_pages_in_order_ok_iff]
    cases erase_pages_in_order E C fuel chip (sector_range first last) bank w with
    | none => simp
    | some q => simp
  · intro pre post s bank0 bank1 w0 w1 res hsplit hpre hs hne
    rw [heq, hsplit, erase_pages_in_order_append E C fuel chip (s :: post) pre bank w bank0 w0
      hpre]
    simp only [erase_pages_in_order, hs, ne_eq, hne, not_false_eq_true, if_true,
      Option.map_some']

theorem nrfx_erase_in_order_witness :
    ¬ all_pages_erased (regEnv regs_ready) (regCore true) 1 chip51_probed (sector_range 0 1)
      bank_first_page_protected regWorld := by
  have h := (nrfx_erase_in_order (regEnv regs_ready) (regCore true) 1 bank_first_page_protected
    chip51_probed 0 1 regWorld rfl rfl (by decide) (by decide)).2.1
  rw [← h]
  decide

end EraseRange

section UnknownFlagProofs

variable {σ : Type}

theorem nrfx_probe_ids_ok_at (E : Env σ) (regs : Nat → Nat)
    (chip : nrfx_info) (w : World σ) (c pt : Nat)
    (hc : chip.ficr_registers[NRFX_FICR_CONFIGID &&& REG_INDEX_MASK]? = some c)
    (hpt : chip.ficr_registers[NRFX_FICR_PART &&& REG_INDEX_MASK]? = some pt)
    (hid : c ≠ NRFX_UNIMPLEMENTED ∨ pt ≠ NRFX_UNIMPLEMENTED)
    (hrc : c ≠ NRFX_UNIMPLEMENTED → reads_at E regs c)
    (hrpt : pt ≠ NRFX_UNIMPLEMENTED → reads_at E regs pt) :
    ∃ ids w1, nrfx_probe_ids E chip w = some (ERROR_OK, ids, w1) := by
  by_cases h1 : c = NRFX_UNIMPLEMENTED
  · have h2 : pt ≠ NRFX_UNIMPLEMENTED := by
      rcases hid with h | h
      · exact absurd h1 h
      · exact h
    have hr := (hrpt h2 w.st).1
    have hb := bne_unimplemented h2
    simp [nrfx_probe_ids, ficr_is_implemented, ficr_read, reg_read, hc, hpt, h1, h2,
      bne_unimplemented, target_read_u32, hr, hb]
  · have hr := (hrc h1 w.st).1
    have hb := bne_unimplemented h1
    by_cases h2 : pt = NRFX_UNIMPLEMENTED
    · simp [nrfx_probe_ids, ficr_is_implemented, ficr_read, reg_read, hc, hpt, h1, h2,
        bne_unimplemented, target_read_u32, hr, hb]
    · have hr2 := (hrpt h2 (E.read_u32 w.st c).2.2).1
      have hb2 := bne_unimplemented h2
      simp [nrfx_probe_ids, ficr_is_implemented, ficr_read, reg_read, hc, hpt, h1, h2,
        bne_unimplemented, target_read_u32, hr, hr2, hb, hb2]

/-- A failed read of the factory register CLENR0: `nrfx_protect_check` returns
the code of the read and leaves the bank as it is. -/
theorem nrfx_protect_check_ficr_failed (E : Env σ) (bank : flash_bank) (chip : nrfx_info)
    (w : World σ) (cl : Nat) (e : Ret)
    (hbase : bank.base ≠ NRF5_UICR_BASE ∧ bank.base ≠ NRF9_UICR_BASE)
    (hf : chip.ficr_registers[NRFX_FICR_CLENR0 &&& REG_INDEX_MASK]? = some cl)
    (hcl : cl ≠ NRFX_UNIMPLEMENTED) (hfail : read_fails_at E cl e) (he : e ≠ ERROR_OK)
    (hna : e ≠ ERROR_TARGET_RESOURCE_NOT_AVAILABLE) :
    nrfx_protect_check E bank chip w =
      some (e, bank, LOG LogMsg.clenr0_ficr_read_failed (target_read_u32 E cl w).2.2) := by
  have h1 := hfail w.st
  simp [nrfx_protect_check, hbase.1, hbase.2, ficr_read, reg_read, hf, hcl, target_read_u32,
    h1, he, hna]

/-- The code-flash branch of the probe up to the protection check: the check
runs on a bank whose sectors all carry the flags -1, and whatever it returns
the probe returns `ERROR_OK` with the bank of the check and bank 0 marked
probed. -/
theorem nrfx_probe_code_flash_eq (E : Env σ) (regs : Nat → Nat)
    (halloc : ∀ s k, (E.calloc s k).1 = true)
    (bank : flash_bank) (chip : nrfx_info) (spec : Option spec_ptr) (w : World σ)
    (ap an fl : Nat)
    (hp : chip.ficr_registers[NRFX_FICR_CODEPAGESIZE &&& REG_INDEX_MASK]? = some ap)
    (hap : ap ≠ NRFX_UNIMPLEMENTED) (hrap : reads_at E regs ap)
    (hn : chip.ficr_registers[NRFX_FICR_CODESIZE &&& REG_INDEX_MASK]? = some an)
    (han : an ≠ NRFX_UNIMPLEMENTED) (hran : reads_at E regs an)
    (hfl : chip.ficr_registers[NRFX_FICR_FLASH &&& REG_INDEX_MASK]? = some fl)
    (hn31 : regs an < 2 ^ 31) :
    ∃ wa : World σ, nrfx_probe_code_flash E bank chip spec w =
      (nrfx_protect_check E
        { base := bank.base, size := u32 (regs an * regs ap),
          bank_number := bank.bank_number, num_sectors := (regs an : Int),
          sectors := some ((List.range (regs an)).map fun i =>
            { offset := u32 (i * regs ap), size := regs ap, is_erased := -1,
              is_protected := -1 }) }
        { chip with code_page_size := regs ap } wa).map
        (fun r => (ERROR_OK, r.2.1,
          { chip with code_page_size := regs ap, bank0 := { chip.bank0 with probed := true } },
          r.2.2)) := by
  have h1 := hrap w.st
  have h2 := hran (E.read_u32 w.st ap).2.2
  unfold nrfx_probe_code_flash
  simp only [ficr_read, hp, hn, Option.map_some', reg_read, if_neg hap, if_neg han,
    target_read_u32, h1.1, h1.2, h2.1, h2.2, ne_eq, not_true_eq_false, if_false]
  obtain ⟨w3, hw3⟩ := check_probed_chip_size_some E
    { chip with code_page_size := regs ap }
    (u32 (regs an * regs ap)) spec
    { st := (E.read_u32 (E.read_u32 w.st ap).2.2 an).2.2,
      txns := w.txns ++ [Txn.read_u32 ap] ++ [Txn.read_u32 an], logs := w.logs } fl hfl
  simp only [hw3, calloc, halloc, not_true_eq_false, if_false, int32_of_lt _ hn31,
    Int.toNat_ofNat, for_sectors_replicate]
  refine ⟨{ st := (E.calloc w3.st (regs an : Int)).2, txns := w3.txns, logs := w3.logs }, ?_⟩
  cases nrfx_protect_check E
    { base := bank.base, size := u32 (regs an * regs ap), bank_number := bank.bank_number,
      num_sectors := (regs an : Int),
      sectors := some ((List.range (regs an)).map fun i =>
        { offset := u32 (i * regs ap), size := regs ap, is_erased := -1, is_protected := -1 }) }
    { chip with code_page_size := regs ap }
    { st := (E.calloc w3.st (regs an : Int)).2, txns := w3.txns, logs := w3.logs } with
  | none => rfl
  | some q => rfl

end UnknownFlagProofs


section ProbeRelProofs

variable {σ : Type}

theorem reg_read_prb {E : Env σ} {R : World σ → World σ → Prop} (hR : ProbeRel E R)
    (addr out : Nat) (w : World σ) : R w (reg_read E addr out w).2.2 := by
  unfold reg_read
  split
  · exact hR.refl w
  · exact hR.read_u32 addr w

theorem ficr_read_prb {E : Env σ} {R : World σ → World σ → Prop} (hR : ProbeRel E R)
    (chip : nrfx_info) (r out : Nat) (w : World σ) (res : Ret) (v : Nat) (w' : World σ)
    (h : ficr_read E chip r out w = some (res, v, w')) : R w w' := by
  unfold ficr_read at h
  cases hx : chip.ficr_registers[r &&& REG_INDEX_MASK]? with
  | none => simp [hx] at h
  | some a =>
    simp only [hx, Option.map_some', Option.some.injEq] at h
    have := reg_read_prb hR a out w
    rw [h] at this
    exact this

theorem uicr_read_prb {E : Env σ} {R : World σ → World σ → Prop} (hR : ProbeRel E R)
    (chip : nrfx_info) (r out : Nat) (w : World σ) (res : Ret) (v : Nat) (w' : World σ)
    (h : uicr_read E chip r out w = some (res, v, w')) : R w w' := by
  unfold uicr_read at h
  cases hx : chip.uicr_registers[r &&& REG_INDEX_MASK]? with
  | none => simp [hx] at h
  | some a =>
    simp only [hx, Option.map_some', Option.some.injEq] at h
    have := reg_read_prb hR a out w
    rw [h] at this
    exact this

theorem nrfx_protect_check_no_clenr0_world (bank : flash_bank) (clenr0 : Nat) (w : World σ)
    (res : Ret) (bank' : flash_bank) (w' : World σ)
    (h : nrfx_protect_check_no_clenr0 bank clenr0 w = some (res, bank', w')) : w' = w := by
  unfold nrfx_protect_check_no_clenr0 at h
  split at h
  · simp only [Option.some.injEq, Prod.mk.injEq] at h
    exact h.2.2.symm
  · split at h
    · simp at h
    · split at h
      · simp at h
      · simp only [Option.some.injEq, Prod.mk.injEq] at h
        exact h.2.2.symm

theorem nrfx_protect_check_prb {E : Env σ} {R : World σ → World σ → Prop} (hR : ProbeRel E R)
    (bank : flash_bank) (chip : nrfx_info) (w : World σ) (res : Ret) (bank' : flash_bank)
    (w' : World σ) (h : nrfx_protect_check E bank chip w = some (res, bank', w')) : R w w' := by
  unfold nrfx_protect_check at h
  split at h
  · simp only [Option.some.injEq, Prod.mk.injEq] at h
    rw [← h.2.2]
    exact hR.refl w
  · cases hq : ficr_read E chip NRFX_FICR_CLENR0 0 w with
    | none => simp [hq] at h
    | some q =>
      obtain ⟨res1, clenr0, w1⟩ := q
      have h1 := ficr_read_prb hR chip _ _ _ res1 clenr0 w1 hq
      simp only [hq] at h
      split at h
      · rw [nrfx_protect_check_no_clenr0_world bank _ w1 res bank' w' h]
        exact h1
      · split at h
        · simp only [Option.some.injEq, Prod.mk.injEq] at h
          rw [← h.2.2]
          exact hR.trans _ _ _ h1 (hR.log _ _)
        · split at h
          · cases hu : uicr_read E chip NRFX_UICR_CLENR0 clenr0 w1 with
            | none => simp [hu] at h
            | some u =>
              obtain ⟨res2, clenr02, w2⟩ := u
              have h2 := uicr_read_prb hR chip _ _ _ res2 clenr02 w2 hu
              simp only [hu] at h
              split at h
              · simp only [Option.some.injEq, Prod.mk.injEq] at h
                rw [← h.2.2]
                exact hR.trans _ _ _ (hR.trans _ _ _ h1 h2) (hR.log _ _)
              · rw [nrfx_protect_check_no_clenr0_world bank _ w2 res bank' w' h]
                exact hR.trans _ _ _ h1 h2
          · rw [nrfx_protect_check_no_clenr0_world bank _ w1 res bank' w' h]
            exact h1

theorem log_probed_chip_prb {E : Env σ} {R : World σ → World σ → Prop} (hR : ProbeRel E R)
    (spec : Option spec_ptr) (have_hwid hwid part : Nat) (w : World σ) :
    R w (log_probed_chip spec have_hwid hwid part w) := by
  unfold log_probed_chip
  split
  · exact hR.log _ _
  · split
    · exact hR.log _ _
    · exact hR.log _ _

theorem check_probed_chip_size_prb {E : Env σ} {R : World σ → World σ → Prop}
    (hR : ProbeRel E R) (chip : nrfx_info) (bank_size : Nat) (spec : Option spec_ptr)
    (w w' : World σ) (h : check_probed_chip_size E chip bank_size spec w = some w') :
    R w w' := by
  have hcmp : ∀ (k : Nat) (v : World σ),
      R v (if bank_size >>> 10 ≠ k then LOG (LogMsg.capacity_mismatch bank_size k) v else v) := by
    intro k v
    split
    · exact hR.log _ _
    · exact hR.refl _
  have hread : ∀ w', (match ficr_read E chip NRFX_FICR_FLASH 0 w with
      | none => none
      | some (res, flash_size_kb, w1) =>
        if res ≠ ERROR_OK then some (LOG LogMsg.flash_size_read_failed w1)
        else some (if bank_size >>> 10 ≠ flash_size_kb then
          LOG (LogMsg.capacity_mismatch bank_size flash_size_kb) w1 else w1)) = some w' →
      R w w' := by
    intro w' h
    cases hq : ficr_read E chip NRFX_FICR_FLASH 0 w with
    | none => simp [hq] at h
    | some q =>
      obtain ⟨res1, kb, w1⟩ := q
      have h1 := ficr_read_prb hR chip _ _ _ res1 kb w1 hq
      simp only [hq] at h
      split at h
      · simp only [Option.some.injEq] at h
        rw [← h]
        exact hR.trans _ _ _ h1 (hR.log _ _)
      · simp only [Option.some.injEq] at h
        rw [← h]
        exact hR.trans _ _ _ h1 (hcmp _ _)
  unfold check_probed_chip_size at h
  cases spec with
  | none => exact hread w' h
  | some sp =>
    simp only [] at h
    split at h
    · simp only [Option.some.injEq] at h
      rw [← h]
      exact hcmp _ _
    · exact hread w' h

theorem nrfx_probe_ids_prb {E : Env σ} {R : World σ → World σ → Prop} (hR : ProbeRel E R)
    (chip : nrfx_info) (w : World σ) (res : Ret) (ids : probe_ids) (w' : World σ)
    (h : nrfx_probe_ids E chip w = some (res, ids, w')) : R w w' := by
  have hpart : ∀ (have_hwid hwid : Nat) (v : World σ), R w v →
      (match ficr_is_implemented chip NRFX_FICR_PART with
        | none => none
        | some true =>
          match ficr_read E chip NRFX_FICR_PART 0 v with
          | none => none
          | some (res, part, w1) =>
            if res ≠ ERROR_OK then
              some (res, (⟨have_hwid, hwid, 0, part⟩ : probe_ids),
                LOG LogMsg.part_read_failed w1)
            else some (ERROR_OK, ⟨have_hwid, hwid, 1, part⟩, w1)
        | some false =>
          if have_hwid = 0 then
            some (ERROR_FAIL, ⟨have_hwid, hwid, 0, 0⟩, LOG LogMsg.no_identifier_register v)
          else some (ERROR_OK, ⟨have_hwid, hwid, 0, 0⟩, v)) = some (res, ids, w') →
      R w w' := by
    intro have_hwid hwid v hv h
    cases hi : ficr_is_implemented chip NRFX_FICR_PART with
    | none => simp [hi] at h
    | some b =>
      cases b with
      | true =>
        simp only [hi] at h
        cases hq : ficr_read E chip NRFX_FICR_PART 0 v with
        | none => simp [hq] at h
        | some q =>
          obtain ⟨res1, part, w1⟩ := q
          have h1 := ficr_read_prb hR chip _ _ _ res1 part w1 hq
          simp only [hq] at h
          split at h
          · simp only [Option.some.injEq, Prod.mk.injEq] at h
            rw [← h.2.2]
            exact hR.trans _ _ _ (hR.trans _ _ _ hv h1) (hR.log _ _)
          · simp only [Option.some.injEq, Prod.mk.injEq] at h
            rw [← h.2.2]
            exact hR.trans _ _ _ hv h1
      | false =>
        simp only [hi] at h
        split at h
        · simp only [Option.some.injEq, Prod.mk.injEq] at h
          rw [← h.2.2]
          exact hR.trans _ _ _ hv (hR.log _ _)
        · simp only [Option.some.injEq, Prod.mk.injEq] at h
          rw [← h.2.2]
          exact hv
  unfold nrfx_probe_ids at h
  simp only [] at h
  cases hi : ficr_is_implemented chip NRFX_FICR_CONFIGID with
  | none => simp [hi] at h
  | some b =>
    cases b with
    | true =>
      simp only [hi] at h
      cases hq : ficr_read E chip NRFX_FICR_CONFIGID 0 w with
      | none => simp [hq] at h
      | some q =>
        obtain ⟨res1, hwid, w1⟩ := q
        have h1 := ficr_read_prb hR chip _ _ _ res1 hwid w1 hq
        simp only [hq] at h
        split at h
        · simp only [Option.some.injEq, Prod.mk.injEq] at h
          rw [← h.2.2]
          exact hR.trans _ _ _ h1 (hR.log _ _)
        · exact hpart _ _ w1 h1 h
    | false =>
      simp only [hi] at h
      exact hpart _ _ w (hR.refl w) h

/-- The probe issues nothing but what a `ProbeRel` allows, and keeps the
register tables of the chip. -/
theorem nrfx_probe_code_flash_prb {E : Env σ} {R : World σ → World σ → Prop}
    (hR : ProbeRel E R) (bank : flash_bank) (chip : nrfx_info) (spec : Option spec_ptr)
    (w : World σ) (res : Ret) (bank' : flash_bank) (chip' : nrfx_info) (w' : World σ)
    (h : nrfx_probe_code_flash E bank chip spec w = some (res, bank', chip', w')) :
    R w w' ∧ chip'.ficr_registers = chip.ficr_registers ∧
      chip'.uicr_registers = chip.uicr_registers := by
  unfold nrfx_probe_code_flash at h
  cases hq : ficr_read E chip NRFX_FICR_CODEPAGESIZE chip.code_page_size w with
  | none => simp [hq] at h
  | some q =>
    obtain ⟨res1, cps, w1⟩ := q
    have h1 := ficr_read_prb hR chip _ _ _ res1 cps w1 hq
    simp only [hq] at h
    split at h
    · simp only [Option.some.injEq, Prod.mk.injEq] at h
      rw [← h.2.2.2, ← h.2.2.1]
      exact ⟨hR.trans _ _ _ h1 (hR.log _ _), rfl, rfl⟩
    · cases hq2 : ficr_read E { chip with code_page_size := cps } NRFX_FICR_CODESIZE 0 w1 with
      | none => simp [hq2] at h
      | some q2 =>
        obtain ⟨res2, ns, w2⟩ := q2
        have h2 := ficr_read_prb hR _ _ _ _ res2 ns w2 hq2
        simp only [hq2] at h
        split at h
        · simp only [Option.some.injEq, Prod.mk.injEq] at h
          rw [← h.2.2.2, ← h.2.2.1]
          exact ⟨hR.trans _ _ _ (hR.trans _ _ _ h1 h2) (hR.log _ _), rfl, rfl⟩
        · cases hq3 : check_probed_chip_size E { chip with code_page_size := cps }
              (u32 (ns * cps)) spec w2 with
          | none => simp [hq3] at h
          | some w3 =>
            have h3 := check_probed_chip_size_prb hR _ _ _ _ w3 hq3
            simp only [hq3] at h
            have h4 := hR.calloc (int32 ns) w3
            have h03 := hR.trans _ _ _ (hR.trans _ _ _ h1 h2) h3
            split at h
            · simp only [Option.some.injEq, Prod.mk.injEq] at h
              rw [← h.2.2.2, ← h.2.2.1]
              exact ⟨hR.trans _ _ _ h03 h4, rfl, rfl⟩
            · split at h
              · simp at h
              · rename_i sectors hfs
                split at h
                · simp at h
                · rename_i r bank4 w4 hpc
                  have h5 := nrfx_protect_check_prb hR _ _ _ _ bank4 w4 hpc
                  simp only [Option.some.injEq, Prod.mk.injEq] at h
                  rw [← h.2.2.2, ← h.2.2.1]
                  exact ⟨hR.trans _ _ _ (hR.trans _ _ _ h03 h4) h5, rfl, rfl⟩

theorem nrfx_probe_uicr_prb {E : Env σ} {R : World σ → World σ → Prop}
    (hR : ProbeRel E R) (bank : flash_bank) (chip : nrfx_info)
    (w : World σ) (res : Ret) (bank' : flash_bank) (chip' : nrfx_info) (w' : World σ)
    (h : nrfx_probe_uicr E bank chip w = some (res, bank', chip', w')) :
    R w w' ∧ chip'.ficr_registers = chip.ficr_registers ∧
      chip'.uicr_registers = chip.uicr_registers := by
  unfold nrfx_probe_uicr at h
  simp only [] at h
  have h4 := hR.calloc 1 w
  split at h
  · simp only [Option.some.injEq, Prod.mk.injEq] at h
    rw [← h.2.2.2, ← h.2.2.1]
    exact ⟨h4, rfl, rfl⟩
  · simp only [Option.some.injEq, Prod.mk.injEq] at h
    rw [← h.2.2.2, ← h.2.2.1]
    exact ⟨h4, rfl, rfl⟩

theorem nrfx_probe_prb {E : Env σ} {R : World σ → World σ → Prop}
    (hR : ProbeRel E R) (bank : flash_bank) (chip : nrfx_info)
    (w : World σ) (res : Ret) (bank' : flash_bank) (chip' : nrfx_info) (w' : World σ)
    (h : nrfx_probe E bank chip w = some (res, bank', chip', w')) :
    R w w' ∧ chip'.ficr_registers = chip.ficr_registers ∧
      chip'.uicr_registers = chip.uicr_registers := by
  unfold nrfx_probe at h
  cases hq : nrfx_probe_ids E chip w with
  | none => simp [hq] at h
  | some q =>
    obtain ⟨res1, ids, w1⟩ := q
    have h1 := nrfx_probe_ids_prb hR chip w res1 ids w1 hq
    simp only [hq] at h
    split at h
    · simp only [Option.some.injEq, Prod.mk.injEq] at h
      rw [← h.2.2.2, ← h.2.2.1]
      exact ⟨h1, rfl, rfl⟩
    · have h2 : R w (if ¬ chip.bank0.probed ∧ ¬ chip.bank1.probed then
          log_probed_chip (nrfx_probe_scan ids.have_hwid ids.have_part ids.hwid ids.part
            nrfx_known_devices_table 0 none) ids.have_hwid ids.hwid ids.part w1
          else w1) := by
        split
        · exact hR.trans _ _ _ h1 (log_probed_chip_prb hR _ _ _ _ _)
        · exact h1
      split at h
      · obtain ⟨h3, h4⟩ := nrfx_probe_code_flash_prb hR _ _ _ _ _ _ _ _ h
        exact ⟨hR.trans _ _ _ h2 h3, h4⟩
      · obtain ⟨h3, h4⟩ := nrfx_probe_uicr_prb hR _ _ _ _ _ _ _ h
        exact ⟨hR.trans _ _ _ h2 h3, h4⟩

theorem nrfx_get_probed_chip_if_halted_prb {E : Env σ} {R : World σ → World σ → Prop}
    (hR : ProbeRel E R) (C : FlashCore σ) (bank : flash_bank) (chip : nrfx_info)
    (w : World σ) (res : Ret) (bank' : flash_bank) (chip' : nrfx_info) (w' : World σ)
    (h : nrfx_get_probed_chip_if_halted E C bank chip w = some (res, bank', chip', w')) :
    R w w' ∧ chip'.ficr_registers = chip.ficr_registers ∧
      chip'.uicr_registers = chip.uicr_registers := by
  unfold nrfx_get_probed_chip_if_halted at h
  split at h
  · simp only [Option.some.injEq, Prod.mk.injEq] at h
    rw [← h.2.2.2, ← h.2.2.1]
    exact ⟨hR.log _ _, rfl, rfl⟩
  · split at h
    · simp at h
    · split at h
      · exact nrfx_probe_prb hR _ _ _ _ _ _ _ h
      · simp only [Option.some.injEq, Prod.mk.injEq] at h
        rw [← h.2.2.2, ← h.2.2.1]
        exact ⟨hR.refl _, rfl, rfl⟩

/-- The read of the user register CLENR0 that yields all-ones followed by the
write of that value to the register, as one step. -/
theorem uicr_clenr0_rewrite_prb {E : Env σ} {R : World σ → World σ → Prop}
    (chip : nrfx_info) (w2 w3 w4 : World σ) (res3 : Ret)
    (hrw : ∀ v : World σ, (target_read_u32 E (uicr_clenr0_addr chip) v).2.1 = 0xFFFFFFFF →
      R v (target_write_u32 E (uicr_clenr0_addr chip) 0xFFFFFFFF
        (target_read_u32 E (uicr_clenr0_addr chip) v).2.2).2)
    (hu : uicr_read E chip NRFX_UICR_CLENR0 0 w2 = some (ERROR_OK, 0xFFFFFFFF, w3))
    (hw : uicr_write E chip NRFX_UICR_CLENR0 0xFFFFFFFF w3 = some (res3, w4)) : R w2 w4 := by
  unfold uicr_read at hu
  unfold uicr_write at hw
  cases hx : chip.uicr_registers[NRFX_UICR_CLENR0 &&& REG_INDEX_MASK]? with
  | none => simp [hx] at hu
  | some a =>
    have ha : uicr_clenr0_addr chip = a := by simp [uicr_clenr0_addr, hx]
    rw [ha] at hrw
    simp only [hx, Option.map_some', Option.some.injEq] at hu hw
    by_cases hun : a = NRFX_UNIMPLEMENTED
    · simp [reg_read, hun] at hu
    · simp only [reg_read, if_neg hun] at hu
      simp only [reg_write, if_neg hun] at hw
      have h := hrw w2 (by rw [hu])
      rw [hu] at h
      simp only [] at h
      rw [hw] at h
      exact h

/-- A relation the probe steps respect, and the write of all-ones over a
CLENR0 that reads all-ones, holds across `nrfx_protect`; a call that returns
`ERROR_OK` has gone through the protection check at its end. -/
theorem nrfx_protect_prb {E : Env σ} {R : World σ → World σ → Prop} (hR : ProbeRel E R)
    (C : FlashCore σ) (bank : flash_bank) (chip : nrfx_info) (set first last : Int)
    (w : World σ) (res : Ret) (bank' : flash_bank) (chip' : nrfx_info) (w' : World σ)
    (hrw : ∀ v : World σ, (target_read_u32 E (uicr_clenr0_addr chip) v).2.1 = 0xFFFFFFFF →
      R v (target_write_u32 E (uicr_clenr0_addr chip) 0xFFFFFFFF
        (target_read_u32 E (uicr_clenr0_addr chip) v).2.2).2)
    (h : nrfx_protect E C bank chip set first last w = some (res, bank', chip', w')) :
    R w w' ∧ (res = ERROR_OK → ∃ bank1 chip1 w1 v r,
      nrfx_get_probed_chip_if_halted E C bank chip w = some (ERROR_OK, bank1, chip1, w1) ∧
      R w v ∧ nrfx_protect_check E bank1 chip1 v = some (r, bank', w') ∧ chip' = chip1) := by
  unfold nrfx_protect at h
  split at h
  · simp only [Option.some.injEq, Prod.mk.injEq] at h
    rw [← h.2.2.2, ← h.1]
    exact ⟨hR.refl w, fun hc => by cases hc⟩
  · cases hg : nrfx_get_probed_chip_if_halted E C bank chip w with
    | none => simp [hg] at h
    | some g =>
      obtain ⟨res0, bank1, chip1, w1⟩ := g
      obtain ⟨h0, -, hut⟩ :=
        nrfx_get_probed_chip_if_halted_prb hR C bank chip w res0 bank1 chip1 w1 hg
      have hrw1 : ∀ v : World σ,
          (target_read_u32 E (uicr_clenr0_addr chip1) v).2.1 = 0xFFFFFFFF →
          R v (target_write_u32 E (uicr_clenr0_addr chip1) 0xFFFFFFFF
            (target_read_u32 E (uicr_clenr0_addr chip1) v).2.2).2 := by
        have : uicr_clenr0_addr chip1 = uicr_clenr0_addr chip := by
          simp only [uicr_clenr0_addr, hut]
        rw [this]
        exact hrw
      simp only [hg] at h
      split at h
      · rename_i hres0
        simp only [Option.some.injEq, Prod.mk.injEq] at h
        rw [← h.2.2.2, ← h.1]
        exact ⟨h0, fun hc => absurd hc hres0⟩
      · rename_i hres0
        have hres0' : res0 = ERROR_OK := by
          by_contra hne
          exact hres0 hne
        subst hres0'
        split at h
        · simp only [Option.some.injEq, Prod.mk.injEq] at h
          rw [← h.2.2.2, ← h.1]
          exact ⟨hR.trans _ _ _ h0 (hR.log _ _), fun hc => by cases hc⟩
        · cases hq : ficr_read E chip1 NRFX_FICR_PPFC 0 w1 with
          | none => simp [hq] at h
          | some q =>
            obtain ⟨res1, ppfc, w2⟩ := q
            have h1 := hR.trans _ _ _ h0 (ficr_read_prb hR chip1 _ _ _ res1 ppfc w2 hq)
            simp only [hq] at h
            split at h
            · rename_i hres1
              simp only [Option.some.injEq, Prod.mk.injEq] at h
              rw [← h.2.2.2, ← h.1]
              exact ⟨hR.trans _ _ _ h1 (hR.log _ _), fun hc => absurd hc hres1⟩
            · split at h
              · simp only [Option.some.injEq, Prod.mk.injEq] at h
                rw [← h.2.2.2, ← h.1]
                exact ⟨hR.trans _ _ _ h1 (hR.log _ _), fun hc => by cases hc⟩
              · cases hu : uicr_read E chip1 NRFX_UICR_CLENR0 0 w2 with
                | none => simp [hu] at h
                | some u =>
                  obtain ⟨res2, clenr0, w3⟩ := u
                  have h2 := hR.trans _ _ _ h1 (uicr_read_prb hR chip1 _ _ _ res2 clenr0 w3 hu)
                  simp only [hu] at h
                  split at h
                  · rename_i hres2
                    simp only [Option.some.injEq, Prod.mk.injEq] at h
                    rw [← h.2.2.2, ← h.1]
                    exact ⟨hR.trans _ _ _ h2 (hR.log _ _), fun hc => absurd hc hres2⟩
                  · rename_i hres2
                    split at h
                    · rename_i hcl
                      have hres2' : res2 = ERROR_OK := by
                        by_contra hne
                        exact hres2 hne
                      subst hres2' hcl
                      cases hw : uicr_write E chip1 NRFX_UICR_CLENR0 0xFFFFFFFF w3 with
                      | none => simp [hw] at h
                      | some q4 =>
                        obtain ⟨res3, w4⟩ := q4
                        have h3 := hR.trans _ _ _ h1
                          (uicr_clenr0_rewrite_prb chip1 w2 w3 w4 res3 hrw1 hu hw)
                        simp only [hw] at h
                        split at h
                        · rename_i hres3
                          simp only [Option.some.injEq, Prod.mk.injEq] at h
                          rw [← h.2.2.2, ← h.1]
                          exact ⟨hR.trans _ _ _ h3 (hR.log _ _), fun hc => absurd hc hres3⟩
                        · unfold nrfx_protect_finish at h
                          split at h
                          · simp at h
                          · rename_i r bank5 w5 hpc
                            have h5 := nrfx_protect_check_prb hR _ _ _ _ bank5 w5 hpc
                            simp only [Option.some.injEq, Prod.mk.injEq] at h
                            rw [← h.2.2.2, ← h.2.1, ← h.2.2.1]
                            exact ⟨hR.trans _ _ _ h3 h5, fun _ =>
                              ⟨bank1, chip1, w1, w4, r, rfl, h3, hpc, rfl⟩⟩
                    · unfold nrfx_protect_finish at h
                      split at h
                      · simp at h
                      · rename_i r bank5 w5 hpc
                        have h5 := nrfx_protect_check_prb hR _ _ _ _ bank5 w5 hpc
                        simp only [Option.some.injEq, Prod.mk.injEq] at h
                        rw [← h.2.2.2, ← h.2.1, ← h.2.2.1]
                        exact ⟨hR.trans _ _ _ (hR.trans _ _ _ h2 (hR.log _ _)) h5, fun _ =>
                          ⟨bank1, chip1, w1, _, r, rfl, hR.trans _ _ _ h2 (hR.log _ _), hpc,
                            rfl⟩⟩

theorem writes_only_probe_rel (E : Env σ) (a v : Nat) :
    ProbeRel E (writes_only (σ := σ) a v) where
  refl w := ⟨[], by simp, by simp⟩
  trans x y z h1 h2 := by
    obtain ⟨e1, h1a, h1b⟩ := h1
    obtain ⟨e2, h2a, h2b⟩ := h2
    refine ⟨e1 ++ e2, by rw [h2a, h1a, List.append_assoc], ?_⟩
    intro t ht
    rcases List.mem_append.mp ht with h | h
    · exact h1b t h
    · exact h2b t h
  log m w := ⟨[], by simp [LOG], by simp⟩
  read_u32 r w := ⟨[Txn.read_u32 r], rfl, by
    intro t ht
    rw [List.mem_singleton] at ht
    exact Or.inl ⟨r, ht⟩⟩
  calloc n w := ⟨[], by simp [calloc], by simp⟩

theorem same_state_probe_rel (E : Env σ) (hm : store_model E) :
    ProbeRel E (same_state (σ := σ)) where
  refl w := rfl
  trans x y z h1 h2 := by
    unfold same_state at *
    rw [h2, h1]
  log m w := rfl
  read_u32 r w := hm.1 w.st r
  calloc n w := hm.2.1 w.st n

theorem reg_read_state (E : Env σ) (a out : Nat) (w v : World σ) (hst : v.st = w.st) :
    (reg_read E a out v).1 = (reg_read E a out w).1 ∧
    (reg_read E a out v).2.1 = (reg_read E a out w).2.1 ∧
    (reg_read E a out v).2.2.st = (reg_read E a out w).2.2.st := by
  unfold reg_read
  split
  · exact ⟨rfl, rfl, hst⟩
  · simp only [target_read_u32, hst, and_self]

theorem nrfx_protect_check_no_clenr0_state (bank : flash_bank) (clenr0 : Nat)
    (w v : World σ) :
    (nrfx_protect_check_no_clenr0 bank clenr0 v).map (fun r => (r.1, r.2.1))
      = (nrfx_protect_check_no_clenr0 bank clenr0 w).map (fun r => (r.1, r.2.1)) := by
  unfold nrfx_protect_check_no_clenr0
  split
  · rfl
  · split
    · rfl
    · split <;> rfl

/-- The code and the bank `nrfx_protect_check` returns depend on the state of
the target only. -/
theorem nrfx_protect_check_state (E : Env σ) (bank : flash_bank) (chip : nrfx_info)
    (w v : World σ) (hst : v.st = w.st) :
    (nrfx_protect_check E bank chip v).map (fun r => (r.1, r.2.1))
      = (nrfx_protect_check E bank chip w).map (fun r => (r.1, r.2.1)) := by
  unfold nrfx_protect_check
  split
  · rfl
  · unfold ficr_read
    cases chip.ficr_registers[NRFX_FICR_CLENR0 &&& REG_INDEX_MASK]? with
    | none => rfl
    | some a =>
      obtain ⟨e1, e2, e3⟩ := reg_read_state E a 0 w v hst
      simp only [Option.map_some']
      rw [e1, e2]
      split
      · exact nrfx_protect_check_no_clenr0_state bank _ _ _
      · split
        · rfl
        · split
          · unfold uicr_read
            cases chip.uicr_registers[NRFX_UICR_CLENR0 &&& REG_INDEX_MASK]? with
            | none => rfl
            | some u =>
              obtain ⟨f1, f2, -⟩ := reg_read_state E u (reg_read E a 0 w).2.1
                (reg_read E a 0 w).2.2 (reg_read E a 0 v).2.2 e3
              simp only [Option.map_some']
              rw [f1, f2]
              split
              · rfl
              · exact nrfx_protect_check_no_clenr0_state bank _ _ _
          · exact nrfx_protect_check_no_clenr0_state bank _ _ _

theorem store_model_memEnv : store_model memEnv :=
  ⟨fun _ _ => rfl, fun _ _ => rfl, fun s a => by
    cases s
    simp only [memEnv, Mem.mk.injEq, and_true]
    funext x
    by_cases hx : x = a
    · simp [hx]
    · simp [hx]⟩

end ProbeRelProofs

section ProtectWrites

variable {σ : Type}

/-- C28. For every result of `nrfx_protect`, whatever `set`, `first` and `last`:
* the transactions it has issued are word reads and word writes of the value
  0xFFFFFFFF to the user register CLENR0 of the chip, nothing else;
* the call does not depend on `set` and `last`;
* on a target model in which writes store their value the state of the target
  after the call is the state before it, the boundary register included, and
  when the call returns `ERROR_OK` the bank it leaves is the one
  `nrfx_protect_check` computes in the state before the call: the protected
  flag of every sector is the one the registers gave before the call. -/
theorem nrfx_protect_writes_all_ones (E : Env σ) (C : FlashCore σ) (bank : flash_bank)
    (chip : nrfx_info) (set first last : Int) (w : World σ) (res : Ret)
    (bank' : flash_bank) (chip' : nrfx_info) (w' : World σ)
    (h : nrfx_protect E C bank chip set first last w = some (res, bank', chip', w')) :
    writes_only (uicr_clenr0_addr chip) 0xFFFFFFFF w w' ∧
    (∀ set' last' : Int, nrfx_protect E C bank chip set' first last' w
      = nrfx_protect E C bank chip set first last w) ∧
    (store_model E → w'.st = w.st ∧
      (res = ERROR_OK → ∃ bank1 chip1 w1,
        nrfx_get_probed_chip_if_halted E C bank chip w = some (ERROR_OK, bank1, chip1, w1) ∧
        (nrfx_protect_check E bank1 chip1 w).map (fun r => r.2.1) = some bank')) := by
  refine ⟨?_, fun _ _ => rfl, ?_⟩
  · refine (nrfx_protect_prb (writes_only_probe_rel E _ _) C bank chip set first last w res
      bank' chip' w' ?_ h).1
    intro v _
    refine ⟨[Txn.read_u32 (uicr_clenr0_addr chip),
      Txn.write_u32 (uicr_clenr0_addr chip) 0xFFFFFFFF], ?_, ?_⟩
    · simp [target_write_u32, target_read_u32]
    · intro t ht
      simp only [List.mem_cons, List.mem_singleton, List.not_mem_nil, or_false] at ht
      rcases ht with rfl | rfl
      · exact Or.inl ⟨_, rfl⟩
      · exact Or.inr rfl
  · intro hm
    obtain ⟨hst, hfin⟩ := nrfx_protect_prb (same_state_probe_rel E hm) C bank chip set first
      last w res bank' chip' w' (by
        intro v hv
        show (E.write_u32 (E.read_u32 v.st (uicr_clenr0_addr chip)).2.2
          (uicr_clenr0_addr chip) 0xFFFFFFFF).2 = v.st
        have hv' : (E.read_u32 v.st (uicr_clenr0_addr chip)).2.1 = 0xFFFFFFFF := hv
        have h3 := hm.2.2 v.st (uicr_clenr0_addr chip)
        rw [hv'] at h3
        rw [hm.1 v.st (uicr_clenr0_addr chip)]
        exact h3) h
    refine ⟨hst, fun hok => ?_⟩
    obtain ⟨bank1, chip1, w1, v, r, hg, hv, hpc, -⟩ := hfin hok
    refine ⟨bank1, chip1, w1, hg, ?_⟩
    have hs := nrfx_protect_check_state E bank1 chip1 w v hv
    rw [hpc, Option.map_some'] at hs
    cases hq : nrfx_protect_check E bank1 chip1 w with
    | none => simp [hq] at hs
    | some q =>
      simp only [hq, Option.map_some', Option.some.injEq, Prod.mk.injEq] at hs
      simp only [Option.map_some', Option.some.injEq]
      exact hs.2.symm

theorem nrfx_protect_writes_all_ones_witness :
    ∃ r, nrfx_protect memEnv (memCore true) (probed_bank 2 1024) chip51_probed 1 0 1
        (memWorld (memOf regs51_blank)) = some r ∧
      r.1 = ERROR_OK ∧ Txn.write_u32 0x10001000 0xFFFFFFFF ∈ r.2.2.2.txns ∧
      writes_only 0x10001000 0xFFFFFFFF (memWorld (memOf regs51_blank)) r.2.2.2 ∧
      r.2.2.2.st = memOf regs51_blank := by
  obtain ⟨r, hr⟩ := Option.isSome_iff_exists.mp
    (show (nrfx_protect memEnv (memCore true) (probed_bank 2 1024) chip51_probed 1 0 1
      (memWorld (memOf regs51_blank))).isSome = true from rfl)
  have hev : (nrfx_protect memEnv (memCore true) (probed_bank 2 1024) chip51_probed 1 0 1
      (memWorld (memOf regs51_blank))).map (fun r => (r.1, r.2.2.2.txns))
      = some (ERROR_OK, [Txn.read_u32 0x1000002C, Txn.read_u32 0x10001000,
          Txn.write_u32 0x10001000 0xFFFFFFFF, Txn.read_u32 0x10000028,
          Txn.read_u32 0x10001000]) := by
    decide
  rw [hr] at hev
  simp only [Option.map_some', Option.some.injEq, Prod.mk.injEq] at hev
  have h := nrfx_protect_writes_all_ones memEnv (memCore true) (probed_bank 2 1024)
    chip51_probed 1 0 1 (memWorld (memOf regs51_blank)) r.1 r.2.1 r.2.2.1 r.2.2.2 hr
  refine ⟨r, hr, hev.1, ?_, h.1, (h.2.2 store_model_memEnv).1⟩
  rw [hev.2]
  decide

end ProtectWrites

section UnimplementedPpfc

variable {σ : Type}

theorem ficr_read_ppfc_unimplemented (E : Env σ) (chip : nrfx_info) (out : Nat) (w : World σ)
    (hfam : chip.ficr_registers = nrf52_ficr_registers ∨
      chip.ficr_registers = nrf91_ficr_registers) :
    ficr_read E chip NRFX_FICR_PPFC out w
      = some (ERROR_TARGET_RESOURCE_NOT_AVAILABLE, out, w) := by
  rcases hfam with h | h <;> rw [ficr_read, h] <;> rfl

/-- C29. On a chip handle with the factory-information table of the family 52
or of the family 91, both of which mark PPFC unimplemented:
* the mass-erase handler, when the bank lookup finds a probed code-flash bank
  on a halted target, returns `ERROR_TARGET_RESOURCE_NOT_AVAILABLE` after
  logging, with no transaction issued;
* `nrfx_protect` with `first = 0` on a probed code-flash bank of a halted
  target does the same, whatever `set` and `last`;
* with the table of the family 52, `nrfx_erase_page` on an unprotected sector
  of the bank at the base 0x10001000 does the same, and every result of
  `nrfx_uicr_flash_write` on that bank is a failure that has issued at most
  the block read of the region. -/
theorem nrfx_ppfc_unimplemented_refuses (E : Env σ) (C : FlashCore σ) (fuel : Nat)
    (chip : nrfx_info)
    (hfam : chip.ficr_registers = nrf52_ficr_registers ∨
      chip.ficr_registers = nrf91_ficr_registers) :
    nrf52_ficr_registers[NRFX_FICR_PPFC &&& REG_INDEX_MASK]? = some NRFX_UNIMPLEMENTED ∧
    nrf91_ficr_registers[NRFX_FICR_PPFC &&& REG_INDEX_MASK]? = some NRFX_UNIMPLEMENTED ∧
    (∀ (get_flash_bank_by_addr :
          Nat → World σ → Ret × Option (flash_bank × nrfx_info) × World σ)
        (family : Int) (w0 w : World σ) (bank : flash_bank),
      get_flash_bank_by_addr NRFX_FLASH_BASE w0 = (ERROR_OK, some (bank, chip), w) →
      C.target_halted w.st = true → nrfx_bank_is_probed bank chip = some true →
      nrfx_handle_mass_erase_command E C get_flash_bank_by_addr fuel family w0
        = some (ERROR_TARGET_RESOURCE_NOT_AVAILABLE, some (bank, chip),
            LOG LogMsg.mass_erase_ppfc_read_failed w)) ∧
    (∀ (bank : flash_bank) (set last : Int) (w : World σ),
      bank.base = NRFX_FLASH_BASE → C.target_halted w.st = true →
      nrfx_bank_is_probed bank chip = some true →
      nrfx_protect E C bank chip set 0 last w
        = some (ERROR_TARGET_RESOURCE_NOT_AVAILABLE, bank, chip,
            LOG LogMsg.protect_ppfc_read_failed w)) ∧
    (chip.ficr_registers = nrf52_ficr_registers →
      ∀ (bank : flash_bank) (w : World σ), bank.base = 0x10001000 →
      (∀ (s : Nat) (sector : flash_sector), bank.sector_array[s]? = some sector →
        sector.is_protected = 0 →
        nrfx_erase_page E C fuel bank chip s w
          = some (ERROR_TARGET_RESOURCE_NOT_AVAILABLE, bank,
              LOG LogMsg.erase_ppfc_read_failed (LOG (LogMsg.erasing_page sector.offset) w))) ∧
      (∀ (buffer : List Nat) (offset count : Nat) (res : Ret) (bank' : flash_bank)
          (w' : World σ),
        nrfx_uicr_flash_write E C fuel bank chip buffer offset count w = some (res, bank', w') →
        res ≠ ERROR_OK ∧
        (w'.txns = w.txns ∨
          w'.txns = w.txns ++ [Txn.read_memory (nrfx_uicr_base chip.family) 1 NRFX_UICR_SIZE])))
    := by
  have hppfc := ficr_read_ppfc_unimplemented E chip 0
  refine ⟨by decide, by decide, ?_, ?_, ?_⟩
  · intro gfb family w0 w bank hg hh hp
    simp [nrfx_handle_mass_erase_command, hg, nrfx_get_probed_chip_if_halted, hh, hp,
      hppfc _ hfam]
  · intro bank set last w hb hh hp
    have hb' : bank.base ≠ NRF5_UICR_BASE := by rw [hb]; decide
    simp [nrfx_protect, hb', nrfx_get_probed_chip_if_halted, hh, hp, hppfc _ hfam]
  · intro h52 bank w hb
    have hb' : bank.base = NRF5_UICR_BASE := hb
    have hpage : ∀ (v : World σ) (s : Nat) (sector : flash_sector),
        bank.sector_array[s]? = some sector → sector.is_protected = 0 →
        nrfx_erase_page E C fuel bank chip s v
          = some (ERROR_TARGET_RESOURCE_NOT_AVAILABLE, bank,
              LOG LogMsg.erase_ppfc_read_failed
                (LOG (LogMsg.erasing_page sector.offset) v)) := by
      intro v s sector hs hp
      simp [nrfx_erase_page, hs, hp, hb', hppfc _ hfam]
    refine ⟨hpage w, ?_⟩
    intro buffer offset count res bank' w' h
    unfold nrfx_uicr_flash_write at h
    simp only [] at h
    split at h
    · simp only [Option.some.injEq, Prod.mk.injEq] at h
      rw [← h.1, ← h.2.2]
      exact ⟨by decide, Or.inl rfl⟩
    · split at h
      · simp only [Option.some.injEq, Prod.mk.injEq] at h
        rw [← h.1, ← h.2.2]
        exact ⟨by decide, Or.inl rfl⟩
      · split at h
        · rename_i hr
          simp only [Option.some.injEq, Prod.mk.injEq] at h
          rw [← h.1, ← h.2.2]
          exact ⟨hr, Or.inr rfl⟩
        · cases hs : bank.sector_array[0]? with
          | none => simp [nrfx_erase_page, hs] at h
          | some sector =>
            by_cases hp : sector.is_protected = 0
            · rw [hpage _ 0 sector hs hp] at h
              simp only [ne_eq, reduceCtorEq, not_false_eq_true, if_true, Option.some.injEq,
                Prod.mk.injEq] at h
              rw [← h.1, ← h.2.2]
              exact ⟨by decide, Or.inr rfl⟩
            · rw [nrfx_erase_page_flagged E C fuel bank chip 0 sector _ hs hp] at h
              simp only [ne_eq, reduceCtorEq, not_false_eq_true, if_true, Option.some.injEq,
                Prod.mk.injEq] at h
              rw [← h.1, ← h.2.2]
              exact ⟨by decide, Or.inr rfl⟩

/-- Witness of C29: the mass-erase handler on a halted nRF52 whose code-flash
bank is probed. -/
theorem nrfx_ppfc_unimplemented_refuses_witness :
    nrfx_handle_mass_erase_command (regEnv regs_ready) (regCore true)
        (bank_found (probed_bank 2 4096) chip52_probed) 257 5 regWorld
      = some (ERROR_TARGET_RESOURCE_NOT_AVAILABLE, some (probed_bank 2 4096, chip52_probed),
          LOG LogMsg.mass_erase_ppfc_read_failed regWorld) :=
  (nrfx_ppfc_unimplemented_refuses (regEnv regs_ready) (regCore true) 257 chip52_probed
    (Or.inl rfl)).2.2.1 (bank_found (probed_bank 2 4096) chip52_probed) 5 regWorld regWorld
    (probed_bank 2 4096) rfl rfl rfl

end UnimplementedPpfc

section IdentificationOrder

/-- Counterexample to C2 as stated.  On a chip that implements both CONFIGID
and PART, whose CONFIGID reads the legacy id 0x001D and whose PART reads
0x52832, the identifier reads hand both values to the scan.  The part number
0x52832 is the one of the catalog entry 39, a part-number entry
(`have_hwid = 0`), but the scan selects the entry 0, the legacy entry of the
id 0x001D (`have_hwid = 1`): the legacy test comes first in every iteration
and the legacy entries come first in the catalog. -/
theorem nrfx_probe_scan_legacy_before_part :
    (nrfx_probe_ids (regEnv regs_both_ids) chip_both_ids regWorld).map
        (fun r => (r.1, r.2.1)) = some (ERROR_OK, ⟨1, 0x001D, 1, 0x52832⟩) ∧
    nrfx_known_devices_table[39]? = some (NRF52_DEVICE_DEF 0x52832) ∧
    (NRF52_DEVICE_DEF 0x52832).have_hwid = 0 ∧
    (NRF52_DEVICE_DEF 0x52832).id_part = 0x52832 ∧
    nrfx_probe_scan 1 1 0x001D 0x52832 nrfx_known_devices_table 0 none
      = some ⟨0, NRF51_DEVICE_DEF 0x001D "51822" "QFAA" "CA/C0" 256⟩ ∧
    (NRF51_DEVICE_DEF 0x001D "51822" "QFAA" "CA/C0" 256).have_hwid = 1 := by
  decide

end IdentificationOrder

section EraseTriggerProofs

variable {σ : Type}

/-- With READY implemented and reading 1, the ready wait returns `ERROR_OK`
after one poll. -/
theorem nrfx_wait_for_nvmc_ready (E : Env σ) (fuel : Nat) (chip : nrfx_info) (r : Nat)
    (w : World σ)
    (hr : chip.nvmc_registers[NRFX_NVMC_READY &&& REG_INDEX_MASK]? = some r)
    (hrne : r ≠ NRFX_UNIMPLEMENTED)
    (hready : ∀ s, (E.read_u32 s r).1 = ERROR_OK ∧ (E.read_u32 s r).2.1 = 1)
    (hf : 0 < fuel) :
    ∃ w', nrfx_wait_for_nvmc E fuel chip w = some (ERROR_OK, w') ∧
      w'.txns = w.txns ++ [Txn.read_u32 r] := by
  obtain ⟨k, rfl⟩ : ∃ k, fuel = k + 1 := ⟨fuel - 1, by omega⟩
  have h := hready (timeval_ms E w).2.st
  refine ⟨(target_read_u32 E r (timeval_ms E w).2).2.2, ?_, rfl⟩
  simp only [nrfx_wait_for_nvmc, nrfx_wait_for_nvmc_loop, nvmc_read_ready E chip r _ hr hrne]
  simp [target_read_u32, h.1, h.2]

/-- A mode transition on a controller whose writes succeed and whose READY
reads 1: one write of the mode code to CONFIG, one poll, `ERROR_OK`. -/
theorem nrfx_nvmc_transition_ready (E : Env σ) (fuel : Nat) (chip : nrfx_info) (c r mode : Nat)
    (failed incomplete : LogMsg) (w : World σ)
    (hc : chip.nvmc_registers[NRFX_NVMC_CONFIG &&& REG_INDEX_MASK]? = some c)
    (hcne : c ≠ NRFX_UNIMPLEMENTED)
    (hr : chip.nvmc_registers[NRFX_NVMC_READY &&& REG_INDEX_MASK]? = some r)
    (hrne : r ≠ NRFX_UNIMPLEMENTED)
    (hw : ∀ s x v, (E.write_u32 s x v).1 = ERROR_OK)
    (hready : ∀ s, (E.read_u32 s r).1 = ERROR_OK ∧ (E.read_u32 s r).2.1 = 1)
    (hf : 0 < fuel) :
    ∃ w', nrfx_nvmc_transition E fuel chip mode failed incomplete w = some (ERROR_OK, w') ∧
      w'.txns = w.txns ++ [Txn.write_u32 c mode, Txn.read_u32 r] := by
  obtain ⟨w1, h1, t1⟩ := nrfx_wait_for_nvmc_ready E fuel chip r
    (target_write_u32 E c mode w).2 hr hrne hready hf
  refine ⟨w1, ?_, ?_⟩
  · have hwc : (target_write_u32 E c mode w).1 = ERROR_OK := hw w.st c mode
    simp [nrfx_nvmc_transition, nvmc_write, hc, reg_write, hcne, hwc, h1]
  · rw [t1]
    simp [target_write_u32]

end EraseTriggerProofs

section EraseTrigger

variable {σ : Type}

/-- C14, as amended.  The trigger of `nrfx_nvmc_generic_erase` is chosen by the
family number of the chip, not by its register table.
* On a chip of a family other than 91 whose controller table implements
  CONFIG (at `c`), READY (at `r`) and ERASEALL (at `a`), which is the case of
  the families 51 and 52, a run of `nrfx_erase_all` in which every word write
  succeeds and READY reads 1 returns `ERROR_OK`, and its transactions are, in
  this order: the write of the erase-enable code 2 to CONFIG, a READY poll, the
  write of 0x00000001 to ERASEALL, a READY poll, the write of the read-only
  code 0 to CONFIG, a READY poll.
* On a chip of the family 91, whatever its table, an erase that has enabled
  erasing writes the word 0xFFFFFFFF at the erase address, sleeps 100 ms and
  goes on to the ready wait: the erase register and the erase value it was
  given are not written.
* The table of the family 91 implements ERASEALL (at 0x5003950C); the register
  it lacks is ERASEPAGE.
* The mass-erase handler, the one caller of `nrfx_erase_all`, does not get to
  it on a chip with the factory-information table of the family 91 (or 52):
  on a halted target with a probed code-flash bank it returns
  `ERROR_TARGET_RESOURCE_NOT_AVAILABLE` after the PPFC read, with no
  transaction. -/
theorem nrfx_erase_trigger_by_family (E : Env σ) (C : FlashCore σ) (fuel : Nat)
    (chip : nrfx_info) (c r a : Nat) (w : World σ)
    (hfam : chip.family ≠ 91)
    (hc : chip.nvmc_registers[NRFX_NVMC_CONFIG &&& REG_INDEX_MASK]? = some c)
    (hcne : c ≠ NRFX_UNIMPLEMENTED)
    (hr : chip.nvmc_registers[NRFX_NVMC_READY &&& REG_INDEX_MASK]? = some r)
    (hrne : r ≠ NRFX_UNIMPLEMENTED)
    (ha : chip.nvmc_registers[NRFX_NVMC_ERASEALL &&& REG_INDEX_MASK]? = some a)
    (hane : a ≠ NRFX_UNIMPLEMENTED)
    (hw : ∀ s x v, (E.write_u32 s x v).1 = ERROR_OK)
    (hready : ∀ s, (E.read_u32 s r).1 = ERROR_OK ∧ (E.read_u32 s r).2.1 = 1)
    (hf : 0 < fuel) :
    (∃ w', nrfx_erase_all E C fuel chip w = some (ERROR_OK, w') ∧
      w'.txns = w.txns ++
        [Txn.write_u32 c 2, Txn.read_u32 r, Txn.write_u32 a 1, Txn.read_u32 r,
         Txn.write_u32 c 0, Txn.read_u32 r]) ∧
    (∀ (chip9 : nrfx_info) (erase_addr erase_register erase_value : Nat) (v v1 : World σ),
      chip9.family = 91 → nrfx_nvmc_erase_enable E fuel chip9 v = some (ERROR_OK, v1) →
      nrfx_nvmc_generic_erase E C fuel chip9 erase_addr erase_register erase_value v
        = nrfx_nvmc_generic_erase_wait E fuel chip9 erase_register erase_value
            { (target_write_u32 E erase_addr 0xffffffff v1).2 with
              st := C.usleep (target_write_u32 E erase_addr 0xffffffff v1).2.st 100000 }) ∧
    (nrf91_nvmc_registers[NRFX_NVMC_ERASEALL &&& REG_INDEX_MASK]? = some 0x5003950C ∧
      (0x5003950C : Nat) ≠ NRFX_UNIMPLEMENTED ∧
      nrf91_nvmc_registers[NRFX_NVMC_ERASEPAGE &&& REG_INDEX_MASK]?
        = some NRFX_UNIMPLEMENTED) ∧
    (∀ (get_flash_bank_by_addr :
          Nat → World σ → Ret × Option (flash_bank × nrfx_info) × World σ)
        (family : Int) (w0 v : World σ) (bank : flash_bank) (chip9 : nrfx_info),
      chip9.ficr_registers = nrf91_ficr_registers ∨
        chip9.ficr_registers = nrf52_ficr_registers →
      get_flash_bank_by_addr NRFX_FLASH_BASE w0 = (ERROR_OK, some (bank, chip9), v) →
      C.target_halted v.st = true → nrfx_bank_is_probed bank chip9 = some true →
      nrfx_handle_mass_erase_command E C get_flash_bank_by_addr fuel family w0
        = some (ERROR_TARGET_RESOURCE_NOT_AVAILABLE, some (bank, chip9),
            LOG LogMsg.mass_erase_ppfc_read_failed v)) := by
  refine ⟨?_, ?_, ⟨by decide, by decide, by decide⟩, ?_⟩
  · obtain ⟨w1, h1, t1⟩ := nrfx_nvmc_transition_ready E fuel chip c r NRFX_NVMC_CONFIG_EEN
      LogMsg.erase_enable_failed LogMsg.erase_enable_incomplete (LOG LogMsg.erasing_all w)
      hc hcne hr hrne hw hready hf
    rw [← nrfx_nvmc_erase_enable_eq] at h1
    obtain ⟨w2, h2, t2⟩ := nrfx_wait_for_nvmc_ready E fuel chip r
      (target_write_u32 E a 0x00000001 w1).2 hr hrne hready hf
    obtain ⟨w3, h3, t3⟩ := nrfx_nvmc_transition_ready E fuel chip c r NRFX_NVMC_CONFIG_REN
      LogMsg.read_only_failed LogMsg.read_only_incomplete w2 hc hcne hr hrne hw hready hf
    rw [← nrfx_nvmc_read_only_eq] at h3
    refine ⟨w3, ?_, ?_⟩
    · have hwa : (target_write_u32 E a 0x00000001 w1).1 = ERROR_OK := hw w1.st a 1
      simp [nrfx_erase_all, nrfx_nvmc_generic_erase, h1, hfam, nvmc_write, ha, reg_write, hane,
        hwa, nrfx_nvmc_generic_erase_wait, h2, h3]
    · have t2' : (target_write_u32 E a 0x00000001 w1).2.txns
          = w1.txns ++ [Txn.write_u32 a 1] := rfl
      rw [t3, t2, t2', t1]
      simp [LOG, NRFX_NVMC_CONFIG_EEN, NRFX_NVMC_CONFIG_REN]
  · intro chip9 erase_addr erase_register erase_value v v1 h91 hen
    simp [nrfx_nvmc_generic_erase, hen, h91]
  · intro gfb family w0 v bank chip9 hfam9 hg hh hp
    have hppfc := ficr_read_ppfc_unimplemented E chip9 0 v (Or.symm hfam9)
    simp [nrfx_handle_mass_erase_command, hg, nrfx_get_probed_chip_if_halted, hh, hp, hppfc]

/-- Witness of C14: `nrfx_erase_all` on a nRF51 whose transactions succeed and
whose READY reads 1. -/
theorem nrfx_erase_trigger_by_family_witness :
    ∃ w', nrfx_erase_all (regEnv regs_ready) (regCore true) 1 (new_chip 51) regWorld
        = some (ERROR_OK, w') ∧
      w'.txns = regWorld.txns ++
        [Txn.write_u32 0x4001E504 2, Txn.read_u32 0x4001E400, Txn.write_u32 0x4001E50C 1,
         Txn.read_u32 0x4001E400, Txn.write_u32 0x4001E504 0, Txn.read_u32 0x4001E400] :=
  (nrfx_erase_trigger_by_family (regEnv regs_ready) (regCore true) 1 (new_chip 51)
    0x4001E504 0x4001E400 0x4001E50C regWorld (by decide) (by decide) (by decide) (by decide)
    (by decide) (by decide) (by decide) (fun _ _ _ => rfl) (fun _ => ⟨rfl, rfl⟩)
    (by decide)).1

/-- Counterexample to C14 as stated.  The table of the family 91 implements the
mass-erase register ERASEALL (at 0x5003950C, not the sentinel), yet the
alternative trigger is what the family uses: `nrfx_erase` of sector 1 of the
code-flash bank of a halted nRF91 (2 pages of 4096 bytes, probed by the call)
enables erasing, writes the word 0xFFFFFFFF at the address 0x1000 of the page,
sleeps, waits and returns to read-only, with `ERROR_OK`. -/
theorem nrfx_erase_nrf91_alternative_trigger :
    (new_chip 91).nvmc_registers[NRFX_NVMC_ERASEALL &&& REG_INDEX_MASK]? = some 0x5003950C ∧
    (0x5003950C : Nat) ≠ NRFX_UNIMPLEMENTED ∧
    (nrfx_erase (regEnv regs91) (regCore true) 1 code_bank (new_chip 91) 1 1 regWorld).map
        (fun r => (r.1, r.2.2.2.txns))
      = some (ERROR_OK,
          [Txn.read_u32 0x00ff020c, Txn.read_u32 0x00ff0220, Txn.read_u32 0x00ff0224,
           Txn.read_u32 0x00ff021c,
           Txn.write_u32 0x50039504 2, Txn.read_u32 0x50039400,
           Txn.write_u32 0x1000 0xffffffff, Txn.read_u32 0x50039400,
           Txn.write_u32 0x50039504 0, Txn.read_u32 0x50039400]) := by
  decide

end EraseTrigger

section UnknownFlagCases

variable {σ : Type}

/-- A failed code-region-0 read: `nrfx_protect_check` returns a code other
than `ERROR_OK`, leaves the bank as it is and logs the failure. -/
theorem nrfx_protect_check_clenr0_failed (E : Env σ) (regs : Nat → Nat) (bank : flash_bank)
    (chip : nrfx_info) (w : World σ)
    (hbase : bank.base ≠ NRF5_UICR_BASE ∧ bank.base ≠ NRF9_UICR_BASE)
    (hfail : clenr0_read_fails E regs chip) :
    ∃ r w', nrfx_protect_check E bank chip w = some (r, bank, w') ∧ r ≠ ERROR_OK ∧
      (LogMsg.clenr0_ficr_read_failed ∈ w'.logs ∨ LogMsg.clenr0_uicr_read_failed ∈ w'.logs) := by
  obtain ⟨cl, hcl, hclne, hcase⟩ := hfail
  rcases hcase with ⟨e, hf, he, hna⟩ | ⟨hr, hv, ucl, hucl, hu⟩
  · refine ⟨e, _, nrfx_protect_check_ficr_failed E bank chip w cl e hbase hcl hclne hf he hna,
      he, Or.inl ?_⟩
    simp [LOG]
  · have h1 := (hr w.st).1
    have h2 := (hr w.st).2
    have hcase : ucl = NRFX_UNIMPLEMENTED ∨
        (ucl ≠ NRFX_UNIMPLEMENTED ∧ ∃ e, read_fails_at E ucl e ∧ e ≠ ERROR_OK) := by
      by_cases hun : ucl = NRFX_UNIMPLEMENTED
      · exact Or.inl hun
      · rcases hu with h | h
        · exact absurd h hun
        · exact Or.inr ⟨hun, h⟩
    rcases hcase with hun | ⟨hun, e, hf, he⟩
    · refine ⟨ERROR_TARGET_RESOURCE_NOT_AVAILABLE,
        LOG LogMsg.clenr0_uicr_read_failed (target_read_u32 E cl w).2.2, ?_, by decide,
        Or.inr ?_⟩
      · subst hun
        simp [nrfx_protect_check, hbase.1, hbase.2, ficr_read, uicr_read, reg_read, hcl, hclne,
          hucl, target_read_u32, h1, h2, hv]
      · simp [LOG]
    · have h3 := hf (E.read_u32 w.st cl).2.2
      refine ⟨e, LOG LogMsg.clenr0_uicr_read_failed
        (target_read_u32 E ucl (target_read_u32 E cl w).2.2).2.2, ?_, he, Or.inr ?_⟩
      · simp [nrfx_protect_check, hbase.1, hbase.2, ficr_read, uicr_read, reg_read, hcl,
          hclne, hucl, hun, target_read_u32, h1, h2, h3, hv, he]
      · simp [LOG]

end UnknownFlagCases

section UnknownFlag

variable {σ : Type}

/-- C27, as amended.  The tri-state protected flag and the probe.
* `nrfx_erase_page` on a sector whose protected flag is not 0 (the value -1,
  unknown, as well as 1) returns `ERROR_FAIL`, leaves the bank as it is and
  issues no transaction with the target.
* A probe of a code-flash bank in which the identifier, page-size and
  page-count reads succeed, the host allocation succeeds and the
  code-region-0 read fails (`clenr0_read_fails`: the read of the factory
  register CLENR0 returns an error other than
  `ERROR_TARGET_RESOURCE_NOT_AVAILABLE`, or it yields all-ones and the read of
  the user register CLENR0 does not return `ERROR_OK`) returns `ERROR_OK` with
  bank 0 marked probed, although `nrfx_protect_check` has failed (its message
  is in the log); every sector of the probed bank carries the protected flag
  -1, and `nrfx_erase_page` refuses every one of them in the way of the first
  item. -/
theorem nrfx_probe_unknown_flags_refuse_erase (E : Env σ) (C : FlashCore σ) (fuel : Nat)
    (regs : Nat → Nat) (bank : flash_bank) (chip : nrfx_info) (w : World σ)
    (c pt ap an fl : Nat)
    (hbase : bank.base = NRFX_FLASH_BASE)
    (hc : chip.ficr_registers[NRFX_FICR_CONFIGID &&& REG_INDEX_MASK]? = some c)
    (hpt : chip.ficr_registers[NRFX_FICR_PART &&& REG_INDEX_MASK]? = some pt)
    (hid : c ≠ NRFX_UNIMPLEMENTED ∨ pt ≠ NRFX_UNIMPLEMENTED)
    (hrc : c ≠ NRFX_UNIMPLEMENTED → reads_at E regs c)
    (hrpt : pt ≠ NRFX_UNIMPLEMENTED → reads_at E regs pt)
    (hp : chip.ficr_registers[NRFX_FICR_CODEPAGESIZE &&& REG_INDEX_MASK]? = some ap)
    (hap : ap ≠ NRFX_UNIMPLEMENTED) (hrap : reads_at E regs ap)
    (hn : chip.ficr_registers[NRFX_FICR_CODESIZE &&& REG_INDEX_MASK]? = some an)
    (han : an ≠ NRFX_UNIMPLEMENTED) (hran : reads_at E regs an) (hn31 : regs an < 2 ^ 31)
    (hfl : chip.ficr_registers[NRFX_FICR_FLASH &&& REG_INDEX_MASK]? = some fl)
    (halloc : ∀ s k, (E.calloc s k).1 = true)
    (hfail : clenr0_read_fails E regs chip) :
    (∀ (bank : flash_bank) (chip : nrfx_info) (s : Nat) (sector : flash_sector) (v : World σ),
      bank.sector_array[s]? = some sector → sector.is_protected ≠ 0 →
      ∃ v', nrfx_erase_page E C fuel bank chip s v = some (ERROR_FAIL, bank, v') ∧
        v'.txns = v.txns ∧ v'.st = v.st) ∧
    ∃ bank' chip' w', nrfx_probe E bank chip w = some (ERROR_OK, bank', chip', w') ∧
      chip'.bank0.probed = true ∧ bank'.num_sectors = (regs an : Int) ∧
      (LogMsg.clenr0_ficr_read_failed ∈ w'.logs ∨ LogMsg.clenr0_uicr_read_failed ∈ w'.logs) ∧
      ∀ i, i < regs an →
        (∃ sector, bank'.sector_array[i]? = some sector ∧ sector.is_protected = -1) ∧
        ∀ v : World σ, ∃ v', nrfx_erase_page E C fuel bank' chip' i v
          = some (ERROR_FAIL, bank', v') ∧ v'.txns = v.txns ∧ v'.st = v.st := by
  have hflag : ∀ (bank : flash_bank) (chip : nrfx_info) (s : Nat) (sector : flash_sector)
      (v : World σ), bank.sector_array[s]? = some sector → sector.is_protected ≠ 0 →
      ∃ v', nrfx_erase_page E C fuel bank chip s v = some (ERROR_FAIL, bank, v') ∧
        v'.txns = v.txns ∧ v'.st = v.st := by
    intro bank chip s sector v hs hne
    exact ⟨_, nrfx_erase_page_flagged E C fuel bank chip s sector v hs hne, rfl, rfl⟩
  refine ⟨hflag, ?_⟩
  obtain ⟨ids, w1, hids⟩ := nrfx_probe_ids_ok_at E regs chip w c pt hc hpt hid hrc hrpt
  obtain ⟨wa, hcf⟩ := nrfx_probe_code_flash_eq E regs halloc bank chip
    (nrfx_probe_scan ids.have_hwid ids.have_part ids.hwid ids.part nrfx_known_devices_table
      0 none)
    (if ¬ chip.bank0.probed ∧ ¬ chip.bank1.probed then
      log_probed_chip (nrfx_probe_scan ids.have_hwid ids.have_part ids.hwid ids.part
        nrfx_known_devices_table 0 none) ids.have_hwid ids.hwid ids.part w1
     else w1)
    ap an fl hp hap hrap hn han hran hfl hn31
  have hunf : nrfx_probe E bank chip w = nrfx_probe_code_flash E bank chip
      (nrfx_probe_scan ids.have_hwid ids.have_part ids.hwid ids.part nrfx_known_devices_table
        0 none)
      (if ¬ chip.bank0.probed ∧ ¬ chip.bank1.probed then
        log_probed_chip (nrfx_probe_scan ids.have_hwid ids.have_part ids.hwid ids.part
          nrfx_known_devices_table 0 none) ids.have_hwid ids.hwid ids.part w1
       else w1) := by
    simp only [nrfx_probe, hids, ne_eq, not_true_eq_false, if_false, hbase, if_true]
  have hb : bank.base ≠ NRF5_UICR_BASE ∧ bank.base ≠ NRF9_UICR_BASE := by
    rw [hbase]; exact ⟨by decide, by decide⟩
  obtain ⟨r, w', hpc, -, hlog⟩ := nrfx_protect_check_clenr0_failed E regs
    { base := bank.base, size := u32 (regs an * regs ap), bank_number := bank.bank_number,
      num_sectors := (regs an : Int),
      sectors := some ((List.range (regs an)).map fun i =>
        { offset := u32 (i * regs ap), size := regs ap, is_erased := -1, is_protected := -1 }) }
    { chip with code_page_size := regs ap } wa hb hfail
  rw [hpc, Option.map_some'] at hcf
  have hprobe := hunf.trans hcf
  refine ⟨_, _, _, hprobe, rfl, rfl, hlog, ?_⟩
  intro i hi
  have hs : (flash_bank.sector_array
      { base := bank.base, size := u32 (regs an * regs ap), bank_number := bank.bank_number,
        num_sectors := (regs an : Int),
        sectors := some ((List.range (regs an)).map fun i =>
          { offset := u32 (i * regs ap), size := regs ap, is_erased := -1,
            is_protected := -1 }) })[i]?
      = some { offset := u32 (i * regs ap), size := regs ap, is_erased := -1,
               is_protected := -1 } := by
    simp [flash_bank.sector_array, List.getElem?_range, hi]
  exact ⟨⟨_, hs, rfl⟩, fun v => hflag _ _ i _ v hs (by simp)⟩

/-- Witness of C27: a nRF51 with 4 pages of 1024 bytes on which the read of
the factory register CLENR0 (0x10000028) fails, and one on which that read
yields all-ones and the read of the user register CLENR0 (0x10001000) fails. -/
theorem nrfx_probe_unknown_flags_refuse_erase_witness :
    (∃ bank' chip' w', nrfx_probe (readFailEnv (regs51_geometry 1024 4) 0x10000028) code_bank
        (new_chip 51) regWorld = some (ERROR_OK, bank', chip', w') ∧
      chip'.bank0.probed = true ∧
      bank'.num_sectors = ((regs51_geometry 1024 4 0x10000014 : Nat) : Int) ∧
      (LogMsg.clenr0_ficr_read_failed ∈ w'.logs ∨ LogMsg.clenr0_uicr_read_failed ∈ w'.logs) ∧
      ∀ i, i < regs51_geometry 1024 4 0x10000014 →
        (∃ sector, bank'.sector_array[i]? = some sector ∧ sector.is_protected = -1) ∧
        ∀ v : World Unit, ∃ v',
          nrfx_erase_page (readFailEnv (regs51_geometry 1024 4) 0x10000028)
            (regCore true) 4 bank' chip' i v
          = some (ERROR_FAIL, bank', v') ∧ v'.txns = v.txns ∧ v'.st = v.st) ∧
    (∃ bank' chip' w', nrfx_probe (readFailEnv (regs51_geometry 1024 4) 0x10001000) code_bank
        (new_chip 51) regWorld = some (ERROR_OK, bank', chip', w') ∧
      chip'.bank0.probed = true ∧
      bank'.num_sectors = ((regs51_geometry 1024 4 0x10000014 : Nat) : Int) ∧
      (LogMsg.clenr0_ficr_read_failed ∈ w'.logs ∨ LogMsg.clenr0_uicr_read_failed ∈ w'.logs) ∧
      ∀ i, i < regs51_geometry 1024 4 0x10000014 →
        (∃ sector, bank'.sector_array[i]? = some sector ∧ sector.is_protected = -1) ∧
        ∀ v : World Unit, ∃ v',
          nrfx_erase_page (readFailEnv (regs51_geometry 1024 4) 0x10001000)
            (regCore true) 4 bank' chip' i v
          = some (ERROR_FAIL, bank', v') ∧ v'.txns = v.txns ∧ v'.st = v.st) :=
  ⟨(nrfx_probe_unknown_flags_refuse_erase (readFailEnv (regs51_geometry 1024 4) 0x10000028)
      (regCore true) 4 (regs51_geometry 1024 4) code_bank (new_chip 51) regWorld
      0x1000005C 0xFFFFFFFF 0x10000010 0x10000014 0xFFFFFFFF
      rfl (by decide) (by decide) (Or.inl (by decide))
      (fun _ _ => ⟨rfl, rfl⟩) (fun h => absurd rfl h)
      (by decide) (by decide) (fun _ => ⟨rfl, rfl⟩)
      (by decide) (by decide) (fun _ => ⟨rfl, rfl⟩) (by decide)
      (by decide) (fun _ _ => rfl)
      ⟨0x10000028, by decide, by decide,
        Or.inl ⟨ERROR_FAIL, fun _ => rfl, by decide, by decide⟩⟩).2,
   (nrfx_probe_unknown_flags_refuse_erase (readFailEnv (regs51_geometry 1024 4) 0x10001000)
      (regCore true) 4 (regs51_geometry 1024 4) code_bank (new_chip 51) regWorld
      0x1000005C 0xFFFFFFFF 0x10000010 0x10000014 0xFFFFFFFF
      rfl (by decide) (by decide) (Or.inl (by decide))
      (fun _ _ => ⟨rfl, rfl⟩) (fun h => absurd rfl h)
      (by decide) (by decide) (fun _ => ⟨rfl, rfl⟩)
      (by decide) (by decide) (fun _ => ⟨rfl, rfl⟩) (by decide)
      (by decide) (fun _ _ => rfl)
      ⟨0x10000028, by decide, by decide,
        Or.inr ⟨fun _ => ⟨rfl, rfl⟩, rfl, 0x10001000, by decide,
          Or.inr ⟨ERROR_FAIL, fun _ => rfl, by decide⟩⟩⟩).2⟩

/-- Counterexample to C27 as stated.  On a nRF51 with 4 pages of 1024 bytes
whose read of the factory register CLENR0 (0x10000028) fails with the code
`ERROR_TARGET_RESOURCE_NOT_AVAILABLE`, `nrfx_protect_check` takes the register
for unimplemented: the probe returns `ERROR_OK` with the protected flag of
every sector 0, and the erase of sector 1 is not refused: it writes the
erase-enable code, the page offset 1024 to ERASEPAGE and the read-only code,
and returns `ERROR_OK`.  When it is the read of the user register CLENR0
(0x10001000) that fails with that code, the flags stay -1. -/
theorem nrfx_probe_not_available_read_clears_flags :
    (nrfx_probe (readCodeEnv regs51_ready_geometry 0x10000028
        ERROR_TARGET_RESOURCE_NOT_AVAILABLE) code_bank (new_chip 51) regWorld).map
      (fun r => (r.1, r.2.1.sector_array.map (fun s => s.is_protected)))
      = some (ERROR_OK, [0, 0, 0, 0]) ∧
    ((nrfx_probe (readCodeEnv regs51_ready_geometry 0x10000028
        ERROR_TARGET_RESOURCE_NOT_AVAILABLE) code_bank (new_chip 51) regWorld).bind
      (fun r => (nrfx_erase_page (readCodeEnv regs51_ready_geometry 0x10000028
          ERROR_TARGET_RESOURCE_NOT_AVAILABLE) (regCore true) 1 r.2.1 r.2.2.1 1
          regWorld).map (fun q => (q.1, q.2.2.txns))))
      = some (ERROR_OK,
          [Txn.write_u32 0x4001E504 2, Txn.read_u32 0x4001E400,
           Txn.write_u32 0x4001E508 1024, Txn.read_u32 0x4001E400,
           Txn.write_u32 0x4001E504 0, Txn.read_u32 0x4001E400]) ∧
    (nrfx_probe (readCodeEnv regs51_ready_geometry 0x10001000
        ERROR_TARGET_RESOURCE_NOT_AVAILABLE) code_bank (new_chip 51) regWorld).map
      (fun r => (r.1, r.2.1.sector_array.map (fun s => s.is_protected)))
      = some (ERROR_OK, [-1, -1, -1, -1]) := by
  decide

end UnknownFlag

end Nrfx
